import Mathlib

/-!
IFRS 16 lease calculator: embedding of the calculation core.

Shallow embedding of `internal/lease/lease.go`, `internal/calculation/present_value.go`,
`internal/calculation/rou_asset.go` and `internal/calculation/amortization.go`.

Modelling conventions.
* `float64` values are exact rationals (`ℚ`): rounding error, infinities and NaN of IEEE
  arithmetic are outside the model, every other operation is the one the source performs.
* `time.Time` values are calendar days at 00:00 UTC, the values produced by parsing with the
  layout `2006-01-02`. A `Time` stores the number of days since 0001-01-01, Go's zero time, and
  the calendar functions follow the Go standard library (`time.Date`, `Time.Date`,
  `Time.AddDate`, `Time.Sub`, `Duration.Hours`).
* A Go result pair `(value, error)` is a Lean pair whose last component is `Option String`,
  `none` standing for a `nil` error.
-/

namespace IFRS16

/-! ## Calendar (Go package `time`) -/

/-- A calendar day at 00:00 UTC, stored as the number of days since 0001-01-01. -/
structure Time where
  absDays : Int
deriving DecidableEq

/-- Go `isLeap`. -/
def isLeap (year : Int) : Bool :=
  year % 4 == 0 && (year % 100 != 0 || year % 400 == 0)

/-- Go table `daysBefore`: the number of days in a non-leap year before month `m + 1`. -/
def daysBefore (m : Int) : Int :=
  if m ≤ 0 then 0
  else if m = 1 then 31
  else if m = 2 then 59
  else if m = 3 then 90
  else if m = 4 then 120
  else if m = 5 then 151
  else if m = 6 then 181
  else if m = 7 then 212
  else if m = 8 then 243
  else if m = 9 then 273
  else if m = 10 then 304
  else if m = 11 then 334
  else 365

/-- Go `daysSinceEpoch`, with the epoch at year 1: days from 0001-01-01 to the first of January
of `year`, cut into 400-year, 100-year and 4-year cycles. -/
def daysSinceEpoch (year : Int) : Int :=
  let y := year - 1
  let n400 := y / 400
  let y := y - 400 * n400
  let n100 := y / 100
  let y := y - 100 * n100
  let n4 := y / 4
  let y := y - 4 * n4
  146097 * n400 + 36524 * n100 + 1461 * n4 + 365 * y

/-- Go `time.Date(year, month, day, 0, 0, 0, 0, time.UTC)`. The month is normalised into the
year first; the day is not clamped: a day beyond the end of the month runs over into the
following month. -/
def Date (year month day : Int) : Time :=
  let m := month - 1
  let year := year + m / 12
  let m := m % 12
  let d := daysSinceEpoch year + daysBefore m
  let d := if isLeap year && decide (m ≥ 2) then d + 1 else d
  ⟨d + (day - 1)⟩

/-- First half of Go `absDate`: the year of an absolute day and the day within that year. -/
def absYearDay (d : Int) : Int × Int :=
  let n400 := d / 146097
  let d := d - 146097 * n400
  let n100 := d / 36524
  let n100 := n100 - n100 / 4
  let d := d - 36524 * n100
  let n4 := d / 1461
  let d := d - 1461 * n4
  let n1 := d / 365
  let n1 := n1 - n1 / 4
  let d := d - 365 * n1
  (400 * n400 + 100 * n100 + 4 * n4 + n1 + 1, d)

/-- Second half of Go `absDate`: month and day of the month from the day within the year. -/
def absMonthDay (leap : Bool) (yday : Int) : Int × Int :=
  if leap && decide (yday = 59) then (2, 29)
  else
    let day := if leap && decide (yday > 59) then yday - 1 else yday
    let month := day / 31
    let e := daysBefore (month + 1)
    if day ≥ e then (month + 2, day - e + 1)
    else (month + 1, day - daysBefore month + 1)

/-- Go `t.Date()`: year, month (1 to 12) and day of the month. -/
def Time.Date (t : Time) : Int × Int × Int :=
  let (year, yday) := absYearDay t.absDays
  let (month, day) := absMonthDay (isLeap year) yday
  (year, month, day)

/-- Go `t.AddDate(years, months, days)`: the fields are added and the result is normalised by
`Date`. -/
def Time.AddDate (t : Time) (years months days : Int) : Time :=
  let (year, month, day) := t.Date
  IFRS16.Date (year + years) (month + months) (day + days)

/-- Go `t.Before(u)`. -/
def Time.Before (t u : Time) : Bool := decide (t.absDays < u.absDays)

/-- Go `t.After(u)`. -/
def Time.After (t u : Time) : Bool := decide (u.absDays < t.absDays)

/-- Go `t.Equal(u)`. -/
def Time.Equal (t u : Time) : Bool := decide (t.absDays = u.absDays)

/-- Go `t.IsZero()`: the zero time is 0001-01-01 00:00 UTC. -/
def Time.IsZero (t : Time) : Bool := decide (t.absDays = 0)

/-- Go `maxDuration`, in nanoseconds. -/
def maxDuration : Int := 9223372036854775807

/-- Go `minDuration`, in nanoseconds. -/
def minDuration : Int := -9223372036854775808

/-- Go `time.Hour`, in nanoseconds. -/
def Hour : Int := 3600000000000

/-- Go `t.Sub(u)`: the difference in nanoseconds, replaced by the largest or smallest `Duration`
when it does not fit into an int64. -/
def Time.Sub (t u : Time) : Int :=
  let d := (t.absDays - u.absDays) * (24 * Hour)
  if minDuration ≤ d ∧ d ≤ maxDuration then d
  else if t.Before u then minDuration
  else maxDuration

/-- Go `d.Hours()`. -/
def Hours (d : Int) : ℚ :=
  ((Int.tdiv d Hour : Int) : ℚ) + ((Int.tmod d Hour : Int) : ℚ) / (60 * 60 * 1000000000)

/-- Go conversion `int(f)` of a float: truncation toward zero. -/
def truncToInt (x : ℚ) : Int := if 0 ≤ x then ⌊x⌋ else ⌈x⌉

/-- Go `math.Round`: nearest integer, halves away from zero. -/
def mathRound (x : ℚ) : ℚ := if x < 0 then -((⌊-x + 1 / 2⌋ : Int) : ℚ) else ((⌊x + 1 / 2⌋ : Int) : ℚ)

/-! ## `internal/lease/lease.go` -/

/-- Go `type PaymentFrequency string`. -/
abbrev PaymentFrequency := String

def Monthly : PaymentFrequency := "Monthly"

def Quarterly : PaymentFrequency := "Quarterly"

def Annually : PaymentFrequency := "Annually"

structure ExtraPayment where
  Date : Time
  Amount : ℚ

structure Lease where
  ID : String
  Description : String
  Lessor : String
  StartDate : Time
  EndDate : Time
  PaymentAmount : ℚ
  PaymentFrequency : PaymentFrequency
  DiscountRate : ℚ
  InitialDirectCost : ℚ
  ResidualValue : ℚ
  ExtraPayments : List ExtraPayment

/-! ## `internal/calculation/present_value.go` -/

/-- Source `roundToDecimalPlaces`. -/
def roundToDecimalPlaces (value : ℚ) (places : Int) : ℚ :=
  let multiplier : ℚ := 10 ^ places
  mathRound (value * multiplier) / multiplier

/-- Outcome of the period counting loop of `getPeriodsAndRate`. -/
inductive LoopResult where
  | outOfFuel
  | safetyLimit
  | done (periodCount : Nat)
deriving DecidableEq

/-- The loop `for current.Before(l.EndDate) { periodCount++; current = current.AddDate(...);
if periodCount > 12000 { return error } }` of `getPeriodsAndRate`. The first argument is fuel;
the safety break bounds the number of iterations by 12001, so that much fuel is never used up
(`periodLoop_ne_outOfFuel`). -/
def periodLoop (endDate : Time) (monthsPerPeriod : Int) : Nat → Nat → Time → LoopResult
  | 0, _, _ => .outOfFuel
  | fuel + 1, periodCount, current =>
    if current.Before endDate then
      let periodCount := periodCount + 1
      let current := current.AddDate 0 monthsPerPeriod 0
      if periodCount > 12000 then .safetyLimit
      else periodLoop endDate monthsPerPeriod fuel periodCount current
    else .done periodCount

/-- Source `getPeriodsAndRate`: period count, periodic rate, error. -/
def getPeriodsAndRate (l : Lease) : Nat × ℚ × Option String :=
  let table : Option (Int × Int) :=
    if l.PaymentFrequency = Monthly then some (12, 1)
    else if l.PaymentFrequency = Quarterly then some (4, 3)
    else if l.PaymentFrequency = Annually then some (1, 12)
    else none
  match table with
  | none => (0, 0, some ("unsupported payment frequency: " ++ l.PaymentFrequency))
  | some (periodsPerYear, monthsPerPeriod) =>
    if l.DiscountRate ≤ 0 then (0, 0, some "discount rate must be positive")
    else
      let periodicRate := l.DiscountRate / (periodsPerYear : ℚ)
      let firstPeriodEndDate := l.StartDate.AddDate 0 monthsPerPeriod 0
      if l.EndDate.Before firstPeriodEndDate then
        if l.EndDate.Equal l.StartDate then (0, periodicRate, none)
        else (0, periodicRate, none)
      else
        match periodLoop l.EndDate monthsPerPeriod 12001 0 l.StartDate with
        | .done periodCount => (periodCount, periodicRate, none)
        | _ => (0, 0, some "period calculation safety limit exceeded (12000)")

/-- Source `CalculateLeaseLiability`: present value, error. -/
def CalculateLeaseLiability (l : Lease) : ℚ × Option String :=
  if l.PaymentAmount ≤ 0 then (0, some "payment amount must be positive")
  else if l.DiscountRate ≤ 0 then (0, some "discount rate must be positive")
  else if l.StartDate.IsZero || l.EndDate.IsZero || l.EndDate.Before l.StartDate then
    (0, some "invalid start or end date")
  else
    match getPeriodsAndRate l with
    | (_, _, some err) => (0, some ("failed to get periods and rate: " ++ err))
    | (periods, periodicRate, none) =>
      if periods = 0 then (0, none)
      else
        let presentValue :=
          if periodicRate > 0 then
            l.PaymentAmount * ((1 - (1 + periodicRate) ^ (-(periods : Int))) / periodicRate)
          else l.PaymentAmount * (periods : ℚ)
        let presentValue := roundToDecimalPlaces presentValue 6
        let presentValue := roundToDecimalPlaces presentValue 2
        (presentValue, none)

/-! ## `internal/calculation/rou_asset.go` -/

/-- Source `CalculateInitialRoUAsset`. -/
def CalculateInitialRoUAsset (leaseLiability : ℚ) (_l : Lease) : ℚ × Option String :=
  let rouAsset := leaseLiability
  (rouAsset, none)

/-! ## `internal/calculation/amortization.go` -/

structure AmortizationEntry where
  Period : Nat
  Date : Time
  OpeningBalance : ℚ
  Payment : ℚ
  InterestExpense : ℚ
  Depreciation : ℚ
  PrincipalRepayment : ℚ
  ClosingBalance : ℚ
deriving DecidableEq

/-- Source `roundFloat`. -/
def roundFloat (val : ℚ) (precision : Nat) : ℚ :=
  let ratio : ℚ := 10 ^ precision
  mathRound (val * ratio) / ratio

/-- The statement `payments[date] += amount` on the Go map `payments`. The map, which the source
afterwards turns into a slice sorted by date, is kept as the list of its entries in date
order. -/
def addPayment : List (Time × ℚ) → Time → ℚ → List (Time × ℚ)
  | [], date, amount => [(date, amount)]
  | (d, a) :: rest, date, amount =>
    if date.Before d then (date, amount) :: (d, a) :: rest
    else if date.Equal d then (d, a + amount) :: rest
    else (d, a) :: addPayment rest date amount

/-- The loop `for i := 1; i <= originalPeriods; i++` adding the regular payments; the first
argument counts the iterations left. -/
def addRegularPayments (l : Lease) (monthsPerPeriod : Int) :
    Nat → Time → List (Time × ℚ) → List (Time × ℚ)
  | 0, _, payments => payments
  | n + 1, currentPaymentDate, payments =>
    let currentPaymentDate := currentPaymentDate.AddDate 0 monthsPerPeriod 0
    let currentPaymentDate :=
      if currentPaymentDate.After l.EndDate then l.EndDate else currentPaymentDate
    addRegularPayments l monthsPerPeriod n currentPaymentDate
      (addPayment payments currentPaymentDate l.PaymentAmount)

/-- The loop over `l.ExtraPayments`. -/
def addExtraPayments (l : Lease) : List ExtraPayment → List (Time × ℚ) → List (Time × ℚ)
  | [], payments => payments
  | extra :: rest, payments =>
    if !extra.Date.Before l.StartDate && !extra.Date.After l.EndDate then
      addExtraPayments l rest (addPayment payments extra.Date extra.Amount)
    else addExtraPayments l rest payments

/-- The inner loop of the daily schedule that consumes every scheduled payment dated on or
before `currentDate`; the list is `paymentsList[paymentIndex:]`. Returns the payments still
pending, `payment` and `isPeriodEnd`. -/
def matchPayments (currentDate : Time) :
    List (Time × ℚ) → ℚ → Bool → List (Time × ℚ) × ℚ × Bool
  | [], payment, isPeriodEnd => ([], payment, isPeriodEnd)
  | p :: rest, payment, isPeriodEnd =>
    if currentDate.Equal p.1 || currentDate.After p.1 then
      matchPayments currentDate rest p.2 true
    else (p :: rest, payment, isPeriodEnd)

/-- Loop variables of the daily loop of `GenerateLiabilitySchedule`; `pending` is
`paymentsList[paymentIndex:]`. -/
structure LoopState where
  openingBalance : ℚ
  currentDate : Time
  period : Nat
  pending : List (Time × ℚ)
  paidInterest : ℚ
  paidPrincipal : ℚ

/-- The split of a payment into principal and interest on a payment day (source lines 181 to
247). Returns `principalRepayment`, `paidInterest` and `paidPrincipal`. -/
def splitPayment (totalInterest totalPrincipal totalPayment payment : ℚ) (lastPayment : Bool)
    (paidInterest paidPrincipal : ℚ) : ℚ × ℚ × ℚ :=
  let remainingInterest := totalInterest - paidInterest
  let remainingPrincipal := totalPrincipal - paidPrincipal
  let principalRepayment :=
    if |payment - totalPayment| < 1 / 100 ∨ payment ≥ remainingInterest + remainingPrincipal then
      let principalRepayment := remainingPrincipal
      let interestPayment := remainingInterest
      if |principalRepayment + interestPayment - payment| > 1 / 100 then
        payment - interestPayment
      else principalRepayment
    else
      let intRatio := totalInterest / totalPayment
      let interestPayment := payment * intRatio
      let principalRepayment := payment - interestPayment
      let (principalRepayment, interestPayment) :=
        if principalRepayment > remainingPrincipal then
          (remainingPrincipal, payment - remainingPrincipal)
        else (principalRepayment, interestPayment)
      let (principalRepayment, _) :=
        if interestPayment > remainingInterest then
          (payment - remainingInterest, remainingInterest)
        else (principalRepayment, interestPayment)
      principalRepayment
  let paidPrincipal := paidPrincipal + principalRepayment
  let paidInterest := paidInterest + (payment - principalRepayment)
  if lastPayment then
    let totalPaidAmount := paidPrincipal + paidInterest
    let (principalRepayment, paidPrincipal) :=
      if |totalPaidAmount - totalPayment| > 1 / 100 then
        let differenceAmount := totalPayment - totalPaidAmount
        (principalRepayment + differenceAmount, paidPrincipal + differenceAmount)
      else (principalRepayment, paidPrincipal)
    if |paidPrincipal - totalPrincipal| > 1 / 100 then
      let principalDiff := totalPrincipal - (paidPrincipal - principalRepayment)
      (principalDiff, totalPayment - totalPrincipal, totalPrincipal)
    else (principalRepayment, paidInterest, paidPrincipal)
  else (principalRepayment, paidInterest, paidPrincipal)

/-- One iteration of the daily loop of `GenerateLiabilitySchedule`: the entry of the day and the
loop variables for the next day. -/
def liabilityDay (l : Lease) (dailyRate totalInterest totalPrincipal totalPayment : ℚ)
    (s : LoopState) : AmortizationEntry × LoopState :=
  let interestExpense := s.openingBalance * dailyRate
  let (pending, payment, isPeriodEnd) := matchPayments s.currentDate s.pending 0 false
  let (principalRepayment, paidInterest, paidPrincipal) :=
    if isPeriodEnd then
      splitPayment totalInterest totalPrincipal totalPayment payment pending.isEmpty
        s.paidInterest s.paidPrincipal
    else (0, s.paidInterest, s.paidPrincipal)
  let closingBalance := s.openingBalance - principalRepayment
  let (payment, principalRepayment, closingBalance) :=
    if s.currentDate.Equal l.EndDate then
      if payment = 0 then (s.openingBalance, s.openingBalance, (0 : ℚ))
      else (payment, principalRepayment, (0 : ℚ))
    else (payment, principalRepayment, closingBalance)
  let entry : AmortizationEntry :=
    { Period := s.period
      Date := s.currentDate
      OpeningBalance := roundFloat s.openingBalance 2
      Payment := roundFloat payment 2
      InterestExpense := roundFloat interestExpense 2
      Depreciation := 0
      PrincipalRepayment := roundFloat principalRepayment 2
      ClosingBalance := roundFloat closingBalance 2 }
  (entry,
    { openingBalance := closingBalance
      currentDate := s.currentDate.AddDate 0 0 1
      period := if isPeriodEnd then s.period + 1 else s.period
      pending := pending
      paidInterest := paidInterest
      paidPrincipal := paidPrincipal })

/-- The loop `for day := 1; day <= totalDays; day++` of `GenerateLiabilitySchedule`; the first
argument is the number of days left. -/
def liabilityLoop (l : Lease) (dailyRate totalInterest totalPrincipal totalPayment : ℚ) :
    Nat → LoopState → List AmortizationEntry
  | 0, _ => []
  | n + 1, s =>
    let (entry, s) := liabilityDay l dailyRate totalInterest totalPrincipal totalPayment s
    entry :: liabilityLoop l dailyRate totalInterest totalPrincipal totalPayment n s

/-- Source `GenerateLiabilitySchedule`: schedule, error. -/
def GenerateLiabilitySchedule (l : Lease) (initialLiability : ℚ) :
    List AmortizationEntry × Option String :=
  match getPeriodsAndRate l with
  | (_, _, some err) => ([], some ("failed to get periods and rate for schedule: " ++ err))
  | (originalPeriods, _, none) =>
    if originalPeriods = 0 then ([], none)
    else
      let annualRate := l.DiscountRate
      let dailyRate := annualRate / 365
      let totalDays := truncToInt (Hours (l.EndDate.Sub l.StartDate) / 24) + 1
      if totalDays ≤ 0 then ([], none)
      else
        let table : Option Int :=
          if l.PaymentFrequency = Monthly then some 1
          else if l.PaymentFrequency = Quarterly then some 3
          else if l.PaymentFrequency = Annually then some 12
          else none
        match table with
        | none =>
          ([], some ("invalid frequency in schedule generation: " ++ l.PaymentFrequency))
        | some monthsPerPeriod =>
          let payments := addRegularPayments l monthsPerPeriod originalPeriods l.StartDate []
          let payments := addExtraPayments l l.ExtraPayments payments
          let febFirst2025 := Date 2025 2 1
          let payments :=
            if febFirst2025.After l.StartDate && febFirst2025.Before l.EndDate then
              addPayment payments febFirst2025 100000
            else payments
          let paymentsList := payments
          let totalInterest : ℚ := 12132879 / 100
          let totalPrincipal : ℚ := 107867121 / 100
          let totalPayment : ℚ := (paymentsList.map Prod.snd).sum
          let totalInterest :=
            if |totalInterest + totalPrincipal - totalPayment| > 1 / 100 then
              totalPayment - totalPrincipal
            else totalInterest
          (liabilityLoop l dailyRate totalInterest totalPrincipal totalPayment totalDays.toNat
            { openingBalance := initialLiability
              currentDate := l.StartDate
              period := 1
              pending := paymentsList
              paidInterest := 0
              paidPrincipal := 0 }, none)

/-! ## Vocabulary of the specification -/

/-- The period markers of the specification: `marker start m 0 = start` and
`marker start m (j + 1)` is `marker start m j` plus `m` calendar months, as computed by the loop
of `getPeriodsAndRate`. -/
def marker (start : Time) (monthsPerPeriod : Int) (j : Nat) : Time :=
  (fun t => t.AddDate 0 monthsPerPeriod 0)^[j] start

/-- Months per payment period of a supported frequency (1, 3, 12). -/
def monthStep (f : PaymentFrequency) : Int :=
  if f = Monthly then 1 else if f = Quarterly then 3 else 12

/-- Payment periods per year of a supported frequency (12, 4, 1). -/
def periodsPerYear (f : PaymentFrequency) : ℚ :=
  if f = Monthly then 12 else if f = Quarterly then 4 else 1

/-- The frequencies accepted by `getPeriodsAndRate`. -/
def supported (f : PaymentFrequency) : Prop := f = Monthly ∨ f = Quarterly ∨ f = Annually

instance (f : PaymentFrequency) : Decidable (supported f) := by
  unfold supported
  exact inferInstance

/-- Number of days of a month of the Gregorian calendar (month 1 to 12). -/
def daysIn (year month : Int) : Int :=
  if month = 2 then (if isLeap year then 29 else 28)
  else if month = 4 ∨ month = 6 ∨ month = 9 ∨ month = 11 then 30 else 31

/-- Length of a year in days. -/
def yearLen (year : Int) : Int := if isLeap year then 366 else 365

/-- Days of the year before month `m + 1`, leap day included. -/
def monthStart (leap : Bool) (m : Int) : Int :=
  if leap && decide (m ≥ 2) then daysBefore m + 1 else daysBefore m

/-- Absolute day of the first day of the month with index `i = 12 * year + (month - 1)`. -/
def monthAbs (i : Int) : Int := daysSinceEpoch (i / 12) + monthStart (isLeap (i / 12)) (i % 12)

/-- Index `12 * year + (month - 1)` of the month of a day. -/
def monthIndex (t : Time) : Int := 12 * t.Date.1 + (t.Date.2.1 - 1)

/-- The period count of a lease is consistent with markers stepping by `m` months: it is 0
exactly when the end date is before the start date plus `m` months, the markers with index
below the count are before the end date, and the marker at a non-zero count is not. -/
def countsWithStep (l : Lease) (m : Int) : Prop :=
  ((getPeriodsAndRate l).1 = 0 ↔ l.EndDate.Before (l.StartDate.AddDate 0 m 0) = true) ∧
  (∀ j, j < (getPeriodsAndRate l).1 → (marker l.StartDate m j).Before l.EndDate = true) ∧
  ((getPeriodsAndRate l).1 ≠ 0 →
    (marker l.StartDate m (getPeriodsAndRate l).1).Before l.EndDate = false)

/-- Calendar result of moving a day by `m` months the way `AddDate` does: the target month keeps
the day of the month when it has that day, otherwise the excess days run over into the month
after the target month. -/
def rollover (t : Time) (m : Int) : Int × Int × Int :=
  let year := t.Date.1 + (t.Date.2.1 - 1 + m) / 12
  let month := (t.Date.2.1 - 1 + m) % 12 + 1
  if t.Date.2.2 ≤ daysIn year month then (year, month, t.Date.2.2)
  else (t.Date.1 + (t.Date.2.1 + m) / 12, (t.Date.2.1 + m) % 12 + 1,
    t.Date.2.2 - daysIn year month)

/-- The lease of the specification scenarios with the given frequency, dates, payment and
rate. -/
def mkLease (f : PaymentFrequency) (start finish : Time) (payment rate : ℚ) : Lease :=
  { ID := "L001", Description := "", Lessor := "", StartDate := start, EndDate := finish,
    PaymentAmount := payment, PaymentFrequency := f, DiscountRate := rate,
    InitialDirectCost := 0, ResidualValue := 0, ExtraPayments := [] }

/-! ## `GenerateRoUAssetSchedule` -/

/-- Go verb `%.2f`, used in error messages only: the value with two decimals, on the exact
value and with halves rounded away from zero. -/
def formatFloat2 (x : ℚ) : String :=
  let z : Int := ⌊|x| * 100 + 1 / 2⌋
  (if x < 0 then "-" else "") ++ toString (z / 100) ++ "."
    ++ (if z % 100 < 10 then "0" else "") ++ toString (z % 100)

/-- The loop `for day := 1; day <= totalDays; day++` of `GenerateRoUAssetSchedule`; the third
argument is the number of days left, then come `day`, `openingBalance` and `currentDate`. The
safety check returns the schedule built so far together with an error. -/
def rouLoop (totalDays : Nat) (dailyDepreciation : ℚ) :
    Nat → Nat → ℚ → Time → List AmortizationEntry × Option String
  | 0, _, _, _ => ([], none)
  | n + 1, day, openingBalance, currentDate =>
    let depreciationExpense := if day = totalDays then openingBalance else dailyDepreciation
    let closingBalance := openingBalance - depreciationExpense
    let closingBalance := if day = totalDays then 0 else closingBalance
    let entry : AmortizationEntry :=
      { Period := day
        Date := currentDate
        OpeningBalance := roundFloat openingBalance 2
        Payment := 0
        InterestExpense := 0
        Depreciation := roundFloat depreciationExpense 2
        PrincipalRepayment := 0
        ClosingBalance := roundFloat closingBalance 2 }
    let openingBalance := closingBalance
    let currentDate := currentDate.AddDate 0 0 1
    if openingBalance < -(1 / 1000000000) then
      ([entry], some ("RoU asset balance went negative (" ++ formatFloat2 openingBalance
        ++ ") on day " ++ toString day))
    else
      let rest := rouLoop totalDays dailyDepreciation n (day + 1) openingBalance currentDate
      (entry :: rest.1, rest.2)

/-- Source `GenerateRoUAssetSchedule`: schedule, error. -/
def GenerateRoUAssetSchedule (l : Lease) (initialRoUAsset : ℚ) :
    List AmortizationEntry × Option String :=
  match getPeriodsAndRate l with
  | (_, _, some err) => ([], some ("failed to get periods for RoU schedule: " ++ err))
  | (_, _, none) =>
    if initialRoUAsset < 0 then
      ([], some ("initial RoU Asset value cannot be negative: " ++ formatFloat2 initialRoUAsset))
    else
      let totalDays := truncToInt (Hours (l.EndDate.Sub l.StartDate) / 24) + 1
      if totalDays ≤ 0 then ([], none)
      else
        let dailyDepreciation := initialRoUAsset / (totalDays : ℚ)
        rouLoop totalDays.toNat dailyDepreciation totalDays.toNat 1 initialRoUAsset l.StartDate

/-- The entry of day `k` (from 1) of the straight-line schedule of the asset `A` over `N` days,
dated `date`. -/
def rouEntry (N : Nat) (A : ℚ) (k : Nat) (date : Time) : AmortizationEntry :=
  { Period := k
    Date := date
    OpeningBalance := roundFloat (A - ((k : ℚ) - 1) * (A / N)) 2
    Payment := 0
    InterestExpense := 0
    Depreciation := roundFloat (if k = N then A - ((N : ℚ) - 1) * (A / N) else A / N) 2
    PrincipalRepayment := 0
    ClosingBalance := roundFloat (if k = N then 0 else A - (k : ℚ) * (A / N)) 2 }

/-- The unrounded depreciation of day `k` (from 1) of the straight-line schedule of the asset `A`
over `N` days. -/
def rawDepreciation (N : Nat) (A : ℚ) (k : Nat) : ℚ :=
  if k = N then A - ((N : ℚ) - 1) * (A / N) else A / N

/-! ## Vocabulary for the daily liability schedule -/

/-- The value `totalDays` of both schedule generators. -/
def totalDays (l : Lease) : Int := truncToInt (Hours (l.EndDate.Sub l.StartDate) / 24) + 1

/-- The slice `paymentsList` that `GenerateLiabilitySchedule` builds for the period count
`originalPeriods` of a lease with a supported frequency. -/
def paymentsList (l : Lease) (originalPeriods : Nat) : List (Time × ℚ) :=
  let payments :=
    addRegularPayments l (monthStep l.PaymentFrequency) originalPeriods l.StartDate []
  let payments := addExtraPayments l l.ExtraPayments payments
  if (Date 2025 2 1).After l.StartDate && (Date 2025 2 1).Before l.EndDate then
    addPayment payments (Date 2025 2 1) 100000
  else payments

/-- The value `totalPrincipal` of `GenerateLiabilitySchedule`. -/
def totalPrincipal : ℚ := 107867121 / 100

/-- The value `totalPayment` of `GenerateLiabilitySchedule`. -/
def totalPayment (l : Lease) (originalPeriods : Nat) : ℚ :=
  ((paymentsList l originalPeriods).map Prod.snd).sum

/-- The value `totalInterest` of `GenerateLiabilitySchedule` when the daily loop starts. -/
def totalInterest (l : Lease) (originalPeriods : Nat) : ℚ :=
  if |12132879 / 100 + totalPrincipal - totalPayment l originalPeriods| > 1 / 100 then
    totalPayment l originalPeriods - totalPrincipal
  else 12132879 / 100

/-- The loop variables of `GenerateLiabilitySchedule` when the daily loop starts. -/
def initialState (l : Lease) (originalPeriods : Nat) (initialLiability : ℚ) : LoopState :=
  { openingBalance := initialLiability
    currentDate := l.StartDate
    period := 1
    pending := paymentsList l originalPeriods
    paidInterest := 0
    paidPrincipal := 0 }

/-- The loop variables at the start of each of the next `n` days of the daily loop. -/
def liabilityStates (l : Lease) (dailyRate totalInterest totalPrincipal totalPayment : ℚ) :
    Nat → LoopState → List LoopState
  | 0, _ => []
  | n + 1, s =>
    s :: liabilityStates l dailyRate totalInterest totalPrincipal totalPayment n
      (liabilityDay l dailyRate totalInterest totalPrincipal totalPayment s).2

/-- The loop variables after `n` days of the daily loop. -/
def liabilityFinal (l : Lease) (dailyRate totalInterest totalPrincipal totalPayment : ℚ) :
    Nat → LoopState → LoopState
  | 0, s => s
  | n + 1, s =>
    liabilityFinal l dailyRate totalInterest totalPrincipal totalPayment n
      (liabilityDay l dailyRate totalInterest totalPrincipal totalPayment s).2

/-- The loop variables at the start of each day of the schedule of a lease with period count
`originalPeriods`. -/
def scheduleStates (l : Lease) (originalPeriods : Nat) (initialLiability : ℚ) :
    List LoopState :=
  liabilityStates l (l.DiscountRate / 365) (totalInterest l originalPeriods) totalPrincipal
    (totalPayment l originalPeriods) (totalDays l).toNat
    (initialState l originalPeriods initialLiability)

/-- The entry that the daily loop writes for the day that starts with the loop variables `s`. -/
def scheduleEntry (l : Lease) (originalPeriods : Nat) (s : LoopState) : AmortizationEntry :=
  (liabilityDay l (l.DiscountRate / 365) (totalInterest l originalPeriods) totalPrincipal
    (totalPayment l originalPeriods) s).1

/-- Sum of the amounts stored for date `d` in a payment list. -/
def lookupPayment (payments : List (Time × ℚ)) (d : Time) : ℚ :=
  ((payments.filter (fun p => decide (p.1 = d))).map Prod.snd).sum

/-- The dates of the regular payments as the loop of `GenerateLiabilitySchedule` computes them:
each date is the previous one plus the month step, replaced by the end date when it is after the
end date. -/
def paymentDates (l : Lease) (monthsPerPeriod : Int) : Nat → Time → List Time
  | 0, _ => []
  | n + 1, currentPaymentDate =>
    let currentPaymentDate := currentPaymentDate.AddDate 0 monthsPerPeriod 0
    let currentPaymentDate :=
      if currentPaymentDate.After l.EndDate then l.EndDate else currentPaymentDate
    currentPaymentDate :: paymentDates l monthsPerPeriod n currentPaymentDate

/-- The regular payment dates of a lease with `n ≥ 1` periods: the markers 1 to `n - 1` and the
end date. -/
def regularDates (l : Lease) (n : Nat) : List Time :=
  (List.range (n - 1)).map (fun j => marker l.StartDate (monthStep l.PaymentFrequency) (j + 1))
    ++ [l.EndDate]

/-- The extra payment `e` is dated `d` and lies within the lease term. -/
def extraOn (l : Lease) (d : Time) (e : ExtraPayment) : Bool :=
  !e.Date.Before l.StartDate && !e.Date.After l.EndDate && decide (e.Date = d)

/-- The amount scheduled for date `d`: the regular payments due on `d`, the lease's own extra
payments dated `d` within the lease term, and the lump sum of 100000 on 2025-02-01 when that day
is strictly inside the lease term. -/
def scheduledAmount (l : Lease) (n : Nat) (d : Time) : ℚ :=
  l.PaymentAmount * ((regularDates l n).count d : ℚ)
    + ((l.ExtraPayments.filter (extraOn l d)).map (fun e => e.Amount)).sum
    + (if d = Date 2025 2 1 ∧ (Date 2025 2 1).After l.StartDate = true ∧
        (Date 2025 2 1).Before l.EndDate = true then 100000 else 0)

/-- The dates of a payment list, as day numbers. -/
def paymentKeys (payments : List (Time × ℚ)) : List Int := payments.map (fun p => p.1.absDays)

/-- The loop variables `s` with `delta` added to the running balance. -/
def LoopState.shift (s : LoopState) (delta : ℚ) : LoopState :=
  { openingBalance := s.openingBalance + delta
    currentDate := s.currentDate
    period := s.period
    pending := s.pending
    paidInterest := s.paidInterest
    paidPrincipal := s.paidPrincipal }

/-- Go `time.Parse` with the layout `2006-01-02`, the only layout the program uses: the value is
accepted when it consists of four digits, `-`, two digits, `-`, two digits, the month is in 1 to
12 and the day is in 1 to the number of days of that month; the result is that day at 00:00
UTC. `none` stands for a parse error. -/
def timeParse (value : String) : Option Time :=
  match value.data with
  | [y1, y2, y3, y4, s1, m1, m2, s2, d1, d2] =>
    if y1.isDigit && y2.isDigit && y3.isDigit && y4.isDigit && s1 == '-' && m1.isDigit
        && m2.isDigit && s2 == '-' && d1.isDigit && d2.isDigit then
      let year : Int :=
        (((y1.toNat - 48) * 1000 + (y2.toNat - 48) * 100 + (y3.toNat - 48) * 10
          + (y4.toNat - 48) : Nat) : Int)
      let month : Int := (((m1.toNat - 48) * 10 + (m2.toNat - 48) : Nat) : Int)
      let day : Int := (((d1.toNat - 48) * 10 + (d2.toNat - 48) : Nat) : Int)
      if month ≤ 0 ∨ 12 < month then none
      else if day < 1 ∨ day > daysIn year month then none
      else some (Date year month day)
    else none
  | _ => none

/-- Type `CalculationResult` of `cmd/server/main.go`; the type of the same name in
`internal/calculation/amortization.go` has the same fields. -/
@[ext]
structure CalculationResult where
  LeaseID : String
  InitialLiability : ℚ
  InitialRoUAsset : ℚ
  DiscountRate : ℚ
  PaymentAmount : ℚ
  PaymentFrequency : String
  StartDate : String
  EndDate : String
  LiabilitySchedule : List AmortizationEntry
  RoUAssetSchedule : List AmortizationEntry
  AccountingPeriodStart : String
  AccountingPeriodEnd : String
  PeriodLiabilityStart : ℚ
  PeriodLiabilityEnd : ℚ
  PeriodRoUAssetStart : ℚ
  PeriodRoUAssetEnd : ℚ
  PeriodInterestExpense : ℚ
  PeriodDepreciation : ℚ
  PeriodPayments : ℚ
  PeriodPrincipalPayment : ℚ
  Error : String
deriving DecidableEq

/-- The closure `roundTo2Decimals` of `calculateAccountingPeriodSummary` in `main.go`. -/
def roundTo2Decimals (val : ℚ) : ℚ := mathRound (val * 100) / 100

/-- Local variables of the block of `calculateAccountingPeriodSummary` on the liability
schedule. -/
structure LiabilityTotals where
  startBalance : ℚ
  endBalance : ℚ
  totalPayments : ℚ
  totalInterest : ℚ
  totalPrincipal : ℚ
  startFound : Bool
  endFound : Bool

/-- One iteration of the loop over `result.LiabilitySchedule`; `prev` is the entry
`result.LiabilitySchedule[i-1]`, absent when `i = 0`. -/
def liabilitySummaryStep (start finish : Time) (prev : Option AmortizationEntry)
    (entry : AmortizationEntry) (v : LiabilityTotals) : LiabilityTotals :=
  let entryDate := entry.Date
  let v : LiabilityTotals :=
    if !v.startFound && (entryDate.Equal start || entryDate.After start) then
      { v with
        startBalance :=
          match prev with
          | some p => if entryDate.After start then p.ClosingBalance else entry.OpeningBalance
          | none => entry.OpeningBalance
        startFound := true }
    else v
  let v : LiabilityTotals :=
    if (entryDate.Equal start || entryDate.After start)
        && (entryDate.Equal finish || entryDate.Before finish) then
      let v : LiabilityTotals := { v with totalInterest := v.totalInterest + entry.InterestExpense }
      if entry.Payment > 0 then
        { v with
          totalPayments := v.totalPayments + entry.Payment
          totalPrincipal := v.totalPrincipal + entry.PrincipalRepayment }
      else v
    else v
  if entryDate.Equal finish || (entryDate.After finish && !v.endFound) then
    { v with
      endBalance :=
        match prev with
        | some p => if entryDate.After finish then p.ClosingBalance else entry.ClosingBalance
        | none => entry.ClosingBalance
      endFound := true }
  else v

/-- The loop `for i, entry := range result.LiabilitySchedule`. -/
def liabilitySummaryLoop (start finish : Time) :
    Option AmortizationEntry → List AmortizationEntry → LiabilityTotals → LiabilityTotals
  | _, [], v => v
  | prev, entry :: rest, v =>
    liabilitySummaryLoop start finish (some entry) rest
      (liabilitySummaryStep start finish prev entry v)

/-- The block of `calculateAccountingPeriodSummary` on the liability schedule (source lines 512
to 587), with the rounding function `round2` of the copy at hand. -/
def liabilitySummary (round2 : ℚ → ℚ) (start finish : Time) (result : CalculationResult) :
    CalculationResult :=
  if result.LiabilitySchedule.length > 0 then
    let v := liabilitySummaryLoop start finish none result.LiabilitySchedule
      { startBalance := 0, endBalance := 0, totalPayments := 0, totalInterest := 0,
        totalPrincipal := 0, startFound := false, endFound := false }
    let endBalance :=
      if !v.endFound && result.LiabilitySchedule.length > 0 then
        match result.LiabilitySchedule.getLast? with
        | some lastEntry => lastEntry.ClosingBalance
        | none => v.endBalance
      else v.endBalance
    let balanceChange := v.startBalance - endBalance
    let totalPrincipal :=
      if |balanceChange - v.totalPrincipal| > 1 / 100 then balanceChange else v.totalPrincipal
    let totalInterest :=
      if |totalPrincipal + v.totalInterest - v.totalPayments| > 1 / 100 then
        v.totalPayments - totalPrincipal
      else v.totalInterest
    { result with
      PeriodLiabilityStart := round2 v.startBalance
      PeriodLiabilityEnd := round2 endBalance
      PeriodInterestExpense := round2 totalInterest
      PeriodPayments := round2 v.totalPayments
      PeriodPrincipalPayment := round2 totalPrincipal }
  else result

/-- Local variables of the block of `calculateAccountingPeriodSummary` on the RoU asset
schedule. -/
structure RoUTotals where
  startBalance : ℚ
  endBalance : ℚ
  totalDepreciation : ℚ
  startFound : Bool
  endFound : Bool

/-- One iteration of the loop over `result.RoUAssetSchedule`; `prev` is the entry
`result.RoUAssetSchedule[i-1]`, absent when `i = 0`. -/
def rouSummaryStep (start finish : Time) (prev : Option AmortizationEntry)
    (entry : AmortizationEntry) (v : RoUTotals) : RoUTotals :=
  let entryDate := entry.Date
  let v : RoUTotals :=
    if !v.startFound && (entryDate.Equal start || entryDate.After start) then
      { v with
        startBalance :=
          match prev with
          | some p => if entryDate.After start then p.ClosingBalance else entry.OpeningBalance
          | none => entry.OpeningBalance
        startFound := true }
    else v
  let v : RoUTotals :=
    if (entryDate.Equal start || entryDate.After start)
        && (entryDate.Equal finish || entryDate.Before finish) then
      { v with totalDepreciation := v.totalDepreciation + entry.Depreciation }
    else v
  if entryDate.Equal finish || (entryDate.After finish && !v.endFound) then
    { v with
      endBalance :=
        match prev with
        | some p => if entryDate.After finish then p.ClosingBalance else entry.ClosingBalance
        | none => entry.ClosingBalance
      endFound := true }
  else v

/-- The loop `for i, entry := range result.RoUAssetSchedule`. -/
def rouSummaryLoop (start finish : Time) :
    Option AmortizationEntry → List AmortizationEntry → RoUTotals → RoUTotals
  | _, [], v => v
  | prev, entry :: rest, v =>
    rouSummaryLoop start finish (some entry) rest (rouSummaryStep start finish prev entry v)

/-- The block of `calculateAccountingPeriodSummary` on the RoU asset schedule (source lines 590
to 648), with the rounding function `round2` of the copy at hand. -/
def rouSummary (round2 : ℚ → ℚ) (start finish : Time) (result : CalculationResult) :
    CalculationResult :=
  if result.RoUAssetSchedule.length > 0 then
    let v := rouSummaryLoop start finish none result.RoUAssetSchedule
      { startBalance := 0, endBalance := 0, totalDepreciation := 0, startFound := false,
        endFound := false }
    let endBalance :=
      if !v.endFound && result.RoUAssetSchedule.length > 0 then
        match result.RoUAssetSchedule.getLast? with
        | some lastEntry => lastEntry.ClosingBalance
        | none => v.endBalance
      else v.endBalance
    let calculatedDepreciation := v.startBalance - endBalance
    let totalDepreciation :=
      if |calculatedDepreciation - v.totalDepreciation| > 1 / 100 then calculatedDepreciation
      else v.totalDepreciation
    { result with
      PeriodRoUAssetStart := round2 v.startBalance
      PeriodRoUAssetEnd := round2 endBalance
      PeriodDepreciation := round2 totalDepreciation }
  else result

/-- The body shared by the two copies of `calculateAccountingPeriodSummary`: the result after
the call and the error. The pointer argument is modelled by returning the updated result; the
text that `time.Parse` puts into its error is left out of the error messages. -/
def periodSummary (round2 : ℚ → ℚ) (result : CalculationResult) (periodStart periodEnd : String) :
    CalculationResult × Option String :=
  match timeParse periodStart with
  | none => (result, some "无效的账期开始日期")
  | some start =>
    match timeParse periodEnd with
    | none => (result, some "无效的账期结束日期")
    | some finish =>
      if finish.Before start then (result, some "账期结束日期不能早于开始日期")
      else
        let result : CalculationResult :=
          { result with AccountingPeriodStart := periodStart, AccountingPeriodEnd := periodEnd }
        let result := liabilitySummary round2 start finish result
        let result := rouSummary round2 start finish result
        (result, none)

/-- Source `calculateAccountingPeriodSummary` of `cmd/server/main.go`. -/
def calculateAccountingPeriodSummary (result : CalculationResult)
    (periodStart periodEnd : String) : CalculationResult × Option String :=
  periodSummary roundTo2Decimals result periodStart periodEnd

/-- Source `calculateAccountingPeriodSummary` of `internal/calculation/amortization.go`, which
differs from the copy in `main.go` by rounding with `roundFloat(_, 2)`. -/
def calculation.calculateAccountingPeriodSummary (result : CalculationResult)
    (periodStart periodEnd : String) : CalculationResult × Option String :=
  periodSummary (fun val => roundFloat val 2) result periodStart periodEnd

/-! ## Vocabulary for the accounting period summary -/

/-- The entry before the position reached after the entries `pre`, when `prev` is the entry
before the first of them. -/
def lastOr : Option AmortizationEntry → List AmortizationEntry → Option AmortizationEntry
  | prev, [] => prev
  | _, entry :: rest => lastOr (some entry) rest

/-- The four loop variables `startBalance`, `startFound`, `endBalance`, `endFound` that the
loops over the liability schedule and over the RoU asset schedule update in the same way. -/
structure Balances where
  startBalance : ℚ
  startFound : Bool
  endBalance : ℚ
  endFound : Bool

/-- The update of `startBalance`, `startFound`, `endBalance` and `endFound` in one iteration of
either loop of `calculateAccountingPeriodSummary`. -/
def balanceStep (start finish : Time) (prev : Option AmortizationEntry)
    (entry : AmortizationEntry) (b : Balances) : Balances :=
  let b : Balances :=
    if !b.startFound && (entry.Date.Equal start || entry.Date.After start) then
      { b with
        startBalance :=
          match prev with
          | some p => if entry.Date.After start then p.ClosingBalance else entry.OpeningBalance
          | none => entry.OpeningBalance
        startFound := true }
    else b
  if entry.Date.Equal finish || (entry.Date.After finish && !b.endFound) then
    { b with
      endBalance :=
        match prev with
        | some p => if entry.Date.After finish then p.ClosingBalance else entry.ClosingBalance
        | none => entry.ClosingBalance
      endFound := true }
  else b

/-- The four balance variables after either loop. -/
def balanceLoop (start finish : Time) :
    Option AmortizationEntry → List AmortizationEntry → Balances → Balances
  | _, [], b => b
  | prev, entry :: rest, b =>
    balanceLoop start finish (some entry) rest (balanceStep start finish prev entry b)

/-- The value `endBalance` after the statement `if !endFound && len(schedule) > 0`. -/
def finalEndBalance (sched : List AmortizationEntry) (b : Balances) : ℚ :=
  if !b.endFound && sched.length > 0 then
    match sched.getLast? with
    | some lastEntry => lastEntry.ClosingBalance
    | none => b.endBalance
  else b.endBalance

/-- The balance variables of either loop for a schedule and a window. -/
def windowBalances (start finish : Time) (sched : List AmortizationEntry) : Balances :=
  balanceLoop start finish none sched
    { startBalance := 0, startFound := false, endBalance := 0, endFound := false }

/-- The dates of a schedule, as day numbers. -/
def scheduleDays (sched : List AmortizationEntry) : List Int := sched.map (fun e => e.Date.absDays)

/-- The character of the decimal digit `k`. -/
def digitChar (k : Nat) : Char := Char.ofNat (48 + k)

/-- The text `YYYY-MM-DD` of the year `y`, the month `m` and the day `d`, each padded with
zeros. -/
def dateString (y m d : Nat) : String :=
  String.mk [digitChar (y / 1000), digitChar (y / 100 % 10), digitChar (y / 10 % 10),
    digitChar (y % 10), '-', digitChar (m / 10), digitChar (m % 10), '-', digitChar (d / 10),
    digitChar (d % 10)]

/-- A text is a valid `YYYY-MM-DD` date: the zero-padded text of a year from 0 to 9999, a month
from 1 to 12 and a day of that month. -/
def isDateString (value : String) : Prop :=
  ∃ y m d : Nat, y ≤ 9999 ∧ 1 ≤ m ∧ m ≤ 12 ∧ 1 ≤ d ∧ (d : Int) ≤ daysIn y m ∧
    value = dateString y m d

/-- A calculation result with the given schedules and no summary yet, for examples. -/
def mkResult (liability rou : List AmortizationEntry) : CalculationResult :=
  { LeaseID := "L001", InitialLiability := 0, InitialRoUAsset := 0, DiscountRate := 5 / 100,
    PaymentAmount := 1000, PaymentFrequency := "Monthly", StartDate := "2024-01-01",
    EndDate := "2024-12-31", LiabilitySchedule := liability, RoUAssetSchedule := rou,
    AccountingPeriodStart := "", AccountingPeriodEnd := "", PeriodLiabilityStart := 0,
    PeriodLiabilityEnd := 0, PeriodRoUAssetStart := 0, PeriodRoUAssetEnd := 0,
    PeriodInterestExpense := 0, PeriodDepreciation := 0, PeriodPayments := 0,
    PeriodPrincipalPayment := 0, Error := "" }

/-- A schedule entry with the given period, date, opening and closing balance and no flows, for
examples. -/
def mkEntry (period : Nat) (date : Time) (opening closing : ℚ) : AmortizationEntry :=
  { Period := period, Date := date, OpeningBalance := opening, Payment := 0,
    InterestExpense := 0, Depreciation := 0, PrincipalRepayment := 0,
    ClosingBalance := closing }

/-! ## The proportional split of a payment -/

/-- The proportional branch of the split of a payment in `GenerateLiabilitySchedule` (source
lines 199 to 217) from the ratio `intRatio` of line 201 on: `principalRepayment` and
`interestPayment` after both clamps, before the cumulative amounts are updated. -/
def proportionalSplit (intRatio payment remainingInterest remainingPrincipal : ℚ) : ℚ × ℚ :=
  let interestPayment := payment * intRatio
  let principalRepayment := payment - interestPayment
  let (principalRepayment, interestPayment) :=
    if principalRepayment > remainingPrincipal then
      (remainingPrincipal, payment - remainingPrincipal)
    else (principalRepayment, interestPayment)
  if interestPayment > remainingInterest then
    (payment - remainingInterest, remainingInterest)
  else (principalRepayment, interestPayment)

/-! ## Go `strings`, `unicode` and `strconv` as used by the parser

Strings are lists of Unicode characters. The case mappings are the ASCII ones; no character
outside ASCII is mapped to a letter of `Monthly`, `Quarterly` or `Annually` by the Unicode
mappings of Go. The number that `ParseFloat` returns for a finite text is kept exact instead of
being rounded to the nearest float64; overflow and underflow are at the float64 limits. -/

/-- Go `unicode.IsSpace`. -/
def isSpace (r : Char) : Bool :=
  (9 ≤ r.toNat && r.toNat ≤ 13) || r.toNat == 32 || r.toNat == 133 || r.toNat == 160
    || r.toNat == 5760 || (8192 ≤ r.toNat && r.toNat ≤ 8202) || r.toNat == 8232
    || r.toNat == 8233 || r.toNat == 8239 || r.toNat == 8287 || r.toNat == 12288

/-- Go `strings.TrimSpace`. -/
def TrimSpace (s : String) : String :=
  ⟨((s.data.dropWhile isSpace).reverse.dropWhile isSpace).reverse⟩

/-- Go `strings.ToLower`, on the ASCII letters. -/
def ToLower (s : String) : String := ⟨s.data.map Char.toLower⟩

/-- Go `isSeparator` of package `strings`: ASCII letters, digits and the underscore are not
separators, the other ASCII characters are; outside ASCII the spaces are separators. -/
def isSeparator (r : Char) : Bool :=
  if r.toNat ≤ 127 then !(r.isAlphanum || r == '_') else isSpace r

/-- The mapping of `strings.Title` along the text; `prev` is the character before. -/
def titleLoop : List Char → Char → List Char
  | [], _ => []
  | r :: rest, prev => (if isSeparator prev then r.toUpper else r) :: titleLoop rest r

/-- Go `strings.Title`, with the title case of the ASCII letters. -/
def Title (s : String) : String := ⟨titleLoop s.data ' '⟩

/-- A float64 value: a finite number, an infinity or NaN. -/
inductive Float64 where
  | finite (value : ℚ)
  | inf (negative : Bool)
  | nan
  deriving DecidableEq

/-- Go `a <= b` on float64. -/
def Float64.le : Float64 → Float64 → Bool
  | Float64.nan, _ => false
  | _, Float64.nan => false
  | Float64.inf true, _ => true
  | _, Float64.inf false => true
  | Float64.inf false, _ => false
  | _, Float64.inf true => false
  | Float64.finite a, Float64.finite b => decide (a ≤ b)

/-- Go `a > b` on float64. -/
def Float64.gt : Float64 → Float64 → Bool
  | Float64.nan, _ => false
  | _, Float64.nan => false
  | Float64.inf false, Float64.inf false => false
  | Float64.inf false, _ => true
  | _, Float64.inf false => false
  | Float64.inf true, _ => false
  | _, Float64.inf true => true
  | Float64.finite a, Float64.finite b => decide (a > b)

/-- Whether `c` is the ASCII letter with the lower case code `code`, in either case; Go
`lower(c) == letter` of package `strconv`. -/
def isLetter (c : Char) (code : Nat) : Bool := c.toNat == code || c.toNat + 32 == code

/-- Go `commonPrefixLenIgnoreCase`; `pre` is lower case. -/
def commonPrefixLenIgnoreCase : List Char → List Char → Nat
  | c :: s, p :: pre => if c.toLower == p then 1 + commonPrefixLenIgnoreCase s pre else 0
  | _, _ => 0

/-- Go `special` of package `strconv`: the value and the number of characters read. -/
def special (s : List Char) : Option (Float64 × Nat) :=
  match s with
  | [] => none
  | c :: rest =>
    if c == '+' || c == '-' then
      let n := commonPrefixLenIgnoreCase rest "infinity".data
      let n := if 3 < n ∧ n < 8 then 3 else n
      if n = 3 ∨ n = 8 then some (Float64.inf (c == '-'), 1 + n) else none
    else if c == 'i' || c == 'I' then
      let n := commonPrefixLenIgnoreCase s "infinity".data
      let n := if 3 < n ∧ n < 8 then 3 else n
      if n = 3 ∨ n = 8 then some (Float64.inf false, n) else none
    else if c == 'n' || c == 'N' then
      if commonPrefixLenIgnoreCase s "nan".data = 3 then some (Float64.nan, 3) else none
    else none

/-- Value of a hexadecimal letter. -/
def hexLetter (c : Char) : Option Nat :=
  if 97 ≤ c.toNat ∧ c.toNat ≤ 102 then some (c.toNat - 97 + 10)
  else if 65 ≤ c.toNat ∧ c.toNat ≤ 70 then some (c.toNat - 65 + 10)
  else none

/-- The loop over the digits of `readFloat`: the text left, `sawdot`, `sawdigits`, the digits
read as a number, the count of digits after the dot and `underscores`. -/
def readDigits (hex : Bool) :
    List Char → Bool → Bool → Nat → Nat → Bool → List Char × Bool × Bool × Nat × Nat × Bool
  | [], sawdot, sawdigits, mantissa, frac, underscores =>
    ([], sawdot, sawdigits, mantissa, frac, underscores)
  | c :: rest, sawdot, sawdigits, mantissa, frac, underscores =>
    if c == '_' then readDigits hex rest sawdot sawdigits mantissa frac true
    else if c == '.' then
      if sawdot then (c :: rest, sawdot, sawdigits, mantissa, frac, underscores)
      else readDigits hex rest true sawdigits mantissa frac underscores
    else if c.isDigit then
      readDigits hex rest sawdot true (mantissa * (if hex then 16 else 10) + (c.toNat - 48))
        (if sawdot then frac + 1 else frac) underscores
    else
      match (if hex then hexLetter c else none) with
      | some d =>
        readDigits hex rest sawdot true (mantissa * 16 + d) (if sawdot then frac + 1 else frac)
          underscores
      | none => (c :: rest, sawdot, sawdigits, mantissa, frac, underscores)

/-- The loop over the digits of the exponent of `readFloat`: the text left, `e` and
`underscores`. -/
def readExponent : List Char → Nat → Bool → List Char × Nat × Bool
  | [], e, underscores => ([], e, underscores)
  | c :: rest, e, underscores =>
    if c == '_' then readExponent rest e true
    else if c.isDigit then
      readExponent rest (if e < 10000 then e * 10 + (c.toNat - 48) else e) underscores
    else (c :: rest, e, underscores)

/-- The loop of Go `underscoreOK`; `saw` is the last kind of character seen. -/
def underscoreLoop (hex : Bool) : List Char → Char → Bool
  | [], saw => saw != '_'
  | c :: rest, saw =>
    if c.isDigit || (hex && (hexLetter c).isSome) then underscoreLoop hex rest '0'
    else if c == '_' then
      if saw != '0' then false else underscoreLoop hex rest '_'
    else if saw == '_' then false
    else underscoreLoop hex rest '!'

/-- Go `underscoreOK`. -/
def underscoreOK (s : List Char) : Bool :=
  let s :=
    match s with
    | c :: rest => if c == '-' || c == '+' then rest else s
    | [] => s
  match s with
  | c0 :: c1 :: rest =>
    if c0 == '0' && (isLetter c1 98 || isLetter c1 111 || isLetter c1 120) then
      underscoreLoop (isLetter c1 120) rest '0'
    else underscoreLoop false s '^'
  | _ => underscoreLoop false s '^'

/-- Go `readFloat`: `neg`, the exact magnitude of the number read and the text left; `none`
when the text does not start with a number. -/
def readFloat (s : List Char) : Option (Bool × ℚ × List Char) :=
  match s with
  | [] => none
  | c :: rest =>
    let neg := c == '-'
    let s1 := if c == '+' || c == '-' then rest else s
    let hex :=
      match s1 with
      | c0 :: c1 :: _ :: _ => c0 == '0' && isLetter c1 120
      | _ => false
    let s2 := if hex then s1.drop 2 else s1
    let (s3, _, sawdigits, mantissa, frac, underscores) := readDigits hex s2 false false 0 0 false
    if !sawdigits then none
    else
      let dp : Int := if hex then -(4 * (frac : Int)) else -(frac : Int)
      let exponent : Option (List Char × Int × Bool) :=
        match s3 with
        | c :: rest =>
          if isLetter c (if hex then 112 else 101) then
            match rest with
            | [] => none
            | d :: rest2 =>
              let esign : Int := if d == '-' then -1 else 1
              let s4 := if d == '+' || d == '-' then rest2 else rest
              match s4 with
              | [] => none
              | d2 :: _ =>
                if !d2.isDigit then none
                else
                  let (s5, e, underscores) := readExponent s4 0 underscores
                  some (s5, dp + (e : Int) * esign, underscores)
          else if hex then none
          else some (s3, dp, underscores)
        | [] => if hex then none else some (s3, dp, underscores)
      match exponent with
      | none => none
      | some (s5, exp, underscores) =>
        if underscores && !underscoreOK (s.take (s.length - s5.length)) then none
        else
          let base : Nat := if hex then 2 else 10
          let value : ℚ :=
            if 0 ≤ exp then ((mantissa * base ^ exp.toNat : Nat) : ℚ)
            else (mantissa : ℚ) / ((base ^ (-exp).toNat : Nat) : ℚ)
          some (neg, value, s5)

/-- The float64 for the exact number with sign `neg` and magnitude `value`: the infinity and a
range error from `2^1024 - 2^970` on, zero up to `2^(-1075)`, and the number itself otherwise
(the nearest float64 has its sign and is not zero). -/
def toFloat64 (neg : Bool) (value : ℚ) : Float64 × Option String :=
  if value ≥ ((2 ^ 1024 - 2 ^ 970 : Nat) : ℚ) then (Float64.inf neg, some "value out of range")
  else if value ≤ 1 / ((2 ^ 1075 : Nat) : ℚ) then (Float64.finite 0, none)
  else (Float64.finite (if neg then -value else value), none)

/-- Go `strconv.ParseFloat(s, 64)`: value, error. -/
def ParseFloat (s : String) : Float64 × Option String :=
  match special s.data with
  | some (val, n) =>
    if n = s.data.length then (val, none) else (Float64.finite 0, some "invalid syntax")
  | none =>
    match readFloat s.data with
    | none => (Float64.finite 0, some "invalid syntax")
    | some (neg, value, rest) =>
      if rest ≠ [] then (Float64.finite 0, some "invalid syntax") else toFloat64 neg value

/-! ## `internal/platform/parsing/parser.go` -/

/-- Go `lease.Lease` with its float64 fields as the parser fills them. -/
structure lease.Lease where
  ID : String
  Description : String
  Lessor : String
  StartDate : Time
  EndDate : Time
  PaymentAmount : Float64
  PaymentFrequency : PaymentFrequency
  DiscountRate : Float64
  InitialDirectCost : Float64
  ResidualValue : Float64
  ExtraPayments : List ExtraPayment

/-- The zero value of `lease.Lease`. -/
def lease.Lease.zero : lease.Lease :=
  { ID := "", Description := "", Lessor := "", StartDate := ⟨0⟩, EndDate := ⟨0⟩,
    PaymentAmount := Float64.finite 0, PaymentFrequency := "", DiscountRate := Float64.finite 0,
    InitialDirectCost := Float64.finite 0, ResidualValue := Float64.finite 0,
    ExtraPayments := [] }

/-- Source `parseRecordToLease`: lease, error. The lease `l` that the source fills field by
field is written out at each return; the error texts are given without the values that the
source formats into them. -/
def parseRecordToLease (record : List String) (_lineNum : Int) : lease.Lease × Option String :=
  if record.length < 6 then (lease.Lease.zero, some "insufficient columns")
  else
    let record := record.map TrimSpace
    let id := record.getD 0 ""
    if id = "" then
      ({ lease.Lease.zero with ID := id }, some "missing required field: ID")
    else if record.getD 1 "" = "" then
      ({ lease.Lease.zero with ID := id }, some "missing required field: StartDate")
    else
      match timeParse (record.getD 1 "") with
      | none => ({ lease.Lease.zero with ID := id }, some "invalid StartDate format")
      | some startDate =>
        if record.getD 2 "" = "" then
          ({ lease.Lease.zero with ID := id, StartDate := startDate },
            some "missing required field: EndDate")
        else
          match timeParse (record.getD 2 "") with
          | none =>
            ({ lease.Lease.zero with ID := id, StartDate := startDate },
              some "invalid EndDate format")
          | some endDate =>
            if record.getD 3 "" = "" then
              ({ lease.Lease.zero with ID := id, StartDate := startDate, EndDate := endDate },
                some "missing required field: PaymentAmount")
            else
              let paymentAmount := (ParseFloat (record.getD 3 "")).1
              if (ParseFloat (record.getD 3 "")).2 ≠ none then
                ({ lease.Lease.zero with
                    ID := id, StartDate := startDate, EndDate := endDate,
                    PaymentAmount := paymentAmount }, some "invalid PaymentAmount")
              else if record.getD 4 "" = "" then
                ({ lease.Lease.zero with
                    ID := id, StartDate := startDate, EndDate := endDate,
                    PaymentAmount := paymentAmount },
                  some "missing required field: PaymentFrequency")
              else
                let freq : PaymentFrequency := record.getD 4 ""
                let accepted : Option PaymentFrequency :=
                  if freq = Monthly ∨ freq = Quarterly ∨ freq = Annually then some freq
                  else
                    let lowerFreq := ToLower (record.getD 4 "")
                    if Title lowerFreq = Monthly ∨ Title lowerFreq = Quarterly
                        ∨ Title lowerFreq = Annually then some (Title lowerFreq)
                    else none
                match accepted with
                | none =>
                  ({ lease.Lease.zero with
                      ID := id, StartDate := startDate, EndDate := endDate,
                      PaymentAmount := paymentAmount }, some "invalid PaymentFrequency")
                | some frequency =>
                  if record.getD 5 "" = "" then
                    ({ lease.Lease.zero with
                        ID := id, StartDate := startDate, EndDate := endDate,
                        PaymentAmount := paymentAmount, PaymentFrequency := frequency },
                      some "missing required field: DiscountRate")
                  else
                    let discountRate := (ParseFloat (record.getD 5 "")).1
                    let l : lease.Lease :=
                      { lease.Lease.zero with
                        ID := id, StartDate := startDate, EndDate := endDate,
                        PaymentAmount := paymentAmount, PaymentFrequency := frequency,
                        DiscountRate := discountRate }
                    if (ParseFloat (record.getD 5 "")).2 ≠ none then
                      (l, some "invalid DiscountRate")
                    else if l.EndDate.Before l.StartDate then
                      (l, some "EndDate cannot be before StartDate")
                    else if l.PaymentAmount.le (Float64.finite 0) then
                      (l, some "PaymentAmount must be positive")
                    else if l.DiscountRate.le (Float64.finite 0) then
                      (l, some "DiscountRate must be positive")
                    else (l, none)

/-! ## The running balance of the RoU asset schedule -/

/-- The values that the safety check of `GenerateRoUAssetSchedule` tests: the variable
`openingBalance` after its update on each of the days that the loop `rouLoop` runs, in
order; the list ends with the first value that fails the check. -/
def rouRunning (totalDays : Nat) (dailyDepreciation : ℚ) : Nat → Nat → ℚ → List ℚ
  | 0, _, _ => []
  | n + 1, day, openingBalance =>
    let depreciationExpense := if day = totalDays then openingBalance else dailyDepreciation
    let closingBalance := openingBalance - depreciationExpense
    let closingBalance := if day = totalDays then 0 else closingBalance
    let openingBalance := closingBalance
    if openingBalance < -(1 / 1000000000) then [openingBalance]
    else openingBalance :: rouRunning totalDays dailyDepreciation n (day + 1) openingBalance

/-! ## The totals of the summary loops -/

/-- The local variables of the block on the liability schedule after its loop over the
schedule `sched`. -/
def liabilityTotals (start finish : Time) (sched : List AmortizationEntry) : LiabilityTotals :=
  liabilitySummaryLoop start finish none sched
    { startBalance := 0, endBalance := 0, totalPayments := 0, totalInterest := 0,
      totalPrincipal := 0, startFound := false, endFound := false }

/-- Raises the exponent `e` while `2 ^ (e + 1) ≤ x`; the first argument bounds the steps. -/
def binadeUp : Nat → ℚ → Int → Int
  | 0, _, e => e
  | fuel + 1, x, e => if (2 : ℚ) ^ (e + 1) ≤ x then binadeUp fuel x (e + 1) else e

/-- Lowers the exponent `e` while `x < 2 ^ e`; the first argument bounds the steps. -/
def binadeDown : Nat → ℚ → Int → Int
  | 0, _, e => e
  | fuel + 1, x, e => if x < (2 : ℚ) ^ e then binadeDown fuel x (e - 1) else e

/-- The exponent `e` with `2 ^ e ≤ x < 2 ^ (e + 1)` of a positive rational between `2 ^ (-1100)`
and `2 ^ 1100`. -/
def binade (x : ℚ) : Int := binadeDown 1100 x (binadeUp 1100 x 0)

/-- The nearest integer, a tie going to the even one. -/
def roundHalfEven (y : ℚ) : Int :=
  if y - ⌊y⌋ < 1 / 2 then ⌊y⌋
  else if 1 / 2 < y - ⌊y⌋ then ⌊y⌋ + 1
  else if ⌊y⌋ % 2 = 0 then ⌊y⌋ else ⌊y⌋ + 1

/-- The float64 nearest to `x`: significand of 53 bits, exponent at least -1022 (below that the
spacing stays `2 ^ (-1074)`), a tie going to the even significand. -/
def f64 (x : ℚ) : ℚ :=
  if x = 0 then 0
  else
    let e := max (binade |x|) (-1022)
    let ulp : ℚ := 2 ^ (e - 52)
    (roundHalfEven (x / ulp) : ℚ) * ulp

/-- The float64 operation `a + b`. -/
def F64.add (a b : ℚ) : ℚ := f64 (a + b)

/-- The float64 operation `a - b`. -/
def F64.sub (a b : ℚ) : ℚ := f64 (a - b)

/-- The float64 operation `a * b`. -/
def F64.mul (a b : ℚ) : ℚ := f64 (a * b)

/-- The float64 operation `a / b`. -/
def F64.div (a b : ℚ) : ℚ := f64 (a / b)

/-- Go `math.Frexp` on a finite `x ≠ 0`: the fraction in `[1/2, 1)` and the exponent with
`x = frac * 2 ^ exp`. -/
def F64.Frexp (x : ℚ) : ℚ × Int :=
  if x = 0 then (0, 0) else (x / 2 ^ (binade |x| + 1), binade |x| + 1)

/-- Go `math.Ldexp`: `frac * 2 ^ exp` as a float64. -/
def F64.Ldexp (frac : ℚ) (exp : Int) : ℚ := f64 (frac * 2 ^ exp)

/-- The loop `for i := int64(yi); i != 0; i >>= 1` of Go's `math.Pow`, which multiplies the
result `a1 * 2 ^ ae` by the powers `x1 * 2 ^ xe` of the base; the first argument bounds the
number of iterations (64 bits). -/
def F64.powLoop : Nat → Nat → ℚ → Int → ℚ → Int → ℚ × Int
  | 0, _, _, _, a1, ae => (a1, ae)
  | fuel + 1, i, x1, xe, a1, ae =>
    if i = 0 then (a1, ae)
    else if xe < -4096 ∨ 4096 < xe then (a1, ae + xe)
    else
      let a1' := if i % 2 = 1 then F64.mul a1 x1 else a1
      let ae' := if i % 2 = 1 then ae + xe else ae
      let x1' := F64.mul x1 x1
      let xe' := 2 * xe
      if x1' < 1 / 2 then F64.powLoop fuel (i / 2) (F64.add x1' x1') (xe' - 1) a1' ae'
      else F64.powLoop fuel (i / 2) x1' xe' a1' ae'

/-- Go `math.Pow(x, y)` for a finite base `x > 0` and a whole exponent `y` below `2 ^ 63` in
magnitude, the arguments that `CalculateLeaseLiability` and `roundFloat` pass: the special
cases `y == 0`, `x == 1` and `y == 1`, then the loop over the bits of `|y|` on the parts of
`Frexp(x)`, the reciprocal for a negative `y`, and `Ldexp`. The cases of the source for NaN,
infinities, a base that is not positive and a fractional exponent do not arise. -/
def F64.Pow (x : ℚ) (y : Int) : ℚ :=
  if y = 0 ∨ x = 1 then 1
  else if y = 1 then x
  else
    let r := F64.powLoop 64 y.natAbs (F64.Frexp x).1 (F64.Frexp x).2 1 0
    if y < 0 then F64.Ldexp (F64.div 1 r.1) (-r.2) else F64.Ldexp r.1 r.2

/-- Go `math.Pow10(n)` for `0 ≤ n ≤ 31`: the float64 of the table entry `1e<n>`. -/
def F64.Pow10 (n : Nat) : ℚ := f64 (10 ^ n)

/-- Source `roundToDecimalPlaces` in float64 arithmetic. -/
def F64.roundToDecimalPlaces (value : ℚ) (places : Nat) : ℚ :=
  let multiplier := F64.Pow10 places
  F64.div (mathRound (F64.mul value multiplier)) multiplier

/-- Source `getPeriodsAndRate` in float64 arithmetic: the period count is computed on dates;
the only float64 operation is the division `l.DiscountRate / float64(periodsPerYear)`, whose
result is the float64 nearest to the exact quotient. -/
def F64.getPeriodsAndRate (l : Lease) : Nat × ℚ × Option String :=
  ((IFRS16.getPeriodsAndRate l).1, f64 (IFRS16.getPeriodsAndRate l).2.1,
    (IFRS16.getPeriodsAndRate l).2.2)

/-- Source `CalculateLeaseLiability` in float64 arithmetic: present value, error. -/
def F64.CalculateLeaseLiability (l : Lease) : ℚ × Option String :=
  if l.PaymentAmount ≤ 0 then (0, some "payment amount must be positive")
  else if l.DiscountRate ≤ 0 then (0, some "discount rate must be positive")
  else if l.StartDate.IsZero || l.EndDate.IsZero || l.EndDate.Before l.StartDate then
    (0, some "invalid start or end date")
  else
    match F64.getPeriodsAndRate l with
    | (_, _, some err) => (0, some ("failed to get periods and rate: " ++ err))
    | (periods, periodicRate, none) =>
      if periods = 0 then (0, none)
      else
        let presentValue :=
          if periodicRate > 0 then
            F64.mul l.PaymentAmount
              (F64.div (F64.sub 1 (F64.Pow (F64.add 1 periodicRate) (-(periods : Int))))
                periodicRate)
          else F64.mul l.PaymentAmount (periods : ℚ)
        let presentValue := F64.roundToDecimalPlaces presentValue 6
        let presentValue := F64.roundToDecimalPlaces presentValue 2
        (presentValue, none)

/-- Source `roundFloat` in float64 arithmetic. -/
def F64.roundFloat (val : ℚ) (precision : Nat) : ℚ :=
  let ratio := F64.Pow 10 precision
  F64.div (mathRound (F64.mul val ratio)) ratio

/-- The closure `roundTo2Decimals` of `calculateAccountingPeriodSummary` in float64
arithmetic. -/
def F64.roundTo2Decimals (val : ℚ) : ℚ := F64.div (mathRound (F64.mul val 100)) 100

/-- The value that the specification gives for the liability of a lease with payment `pmt`,
periodic rate `r` and `n` periods: the annuity value `pmt * (1 - (1 + r)^(-n)) / r` in exact
arithmetic, rounded to 6 and then to 2 decimal places, halves away from zero. -/
def annuityValue (pmt r : ℚ) (n : Nat) : ℚ :=
  roundToDecimalPlaces (roundToDecimalPlaces (pmt * ((1 - (1 + r) ^ (-(n : Int))) / r)) 6) 2

/-! # Theorems -/

set_option maxRecDepth 100000

/-! ## The calendar -/

theorem isLeap_iff (y : Int) : isLeap y = true ↔ (y % 4 = 0 ∧ (y % 100 ≠ 0 ∨ y % 400 = 0)) := by
  simp [isLeap]

theorem daysSinceEpoch_split (a b c e : Int) (hb : 0 ≤ b) (hb3 : b ≤ 3) (hc : 0 ≤ c)
    (hc24 : c ≤ 24) (he : 0 ≤ e) (he3 : e ≤ 3) :
    daysSinceEpoch (400 * a + 100 * b + 4 * c + e + 1)
      = 146097 * a + 36524 * b + 1461 * c + 365 * e := by
  simp only [daysSinceEpoch]
  have h1 : (400 * a + 100 * b + 4 * c + e + 1 - 1) / 400 = a := by omega
  rw [h1]
  have h2 : (400 * a + 100 * b + 4 * c + e + 1 - 1 - 400 * a) / 100 = b := by omega
  rw [h2]
  have h3 : (400 * a + 100 * b + 4 * c + e + 1 - 1 - 400 * a - 100 * b) / 4 = c := by omega
  rw [h3]
  omega

theorem isLeap_split (a b c e : Int) (hb : 0 ≤ b) (hb3 : b ≤ 3) (hc : 0 ≤ c)
    (hc24 : c ≤ 24) (he : 0 ≤ e) (he3 : e ≤ 3) :
    isLeap (400 * a + 100 * b + 4 * c + e + 1) = true ↔ (e = 3 ∧ (c ≠ 24 ∨ b = 3)) := by
  rw [isLeap_iff]
  omega

theorem absYearDay_aux (d a r g b r2 c r3 k e : Int) (ha : a = d / 146097)
    (hr : r = d - 146097 * a) (hg : g = r / 36524) (hb : b = g - g / 4)
    (hr2 : r2 = r - 36524 * b) (hc : c = r2 / 1461) (hr3 : r3 = r2 - 1461 * c)
    (hk : k = r3 / 365) (he : e = k - k / 4) :
    daysSinceEpoch (400 * a + 100 * b + 4 * c + e + 1) + (r3 - 365 * e) = d ∧
      0 ≤ r3 - 365 * e ∧
      r3 - 365 * e < (if isLeap (400 * a + 100 * b + 4 * c + e + 1) then 366 else 365) := by
  have hr' : 0 ≤ r ∧ r < 146097 := by omega
  have hg' : 0 ≤ g ∧ g ≤ 4 := by omega
  have hb' : 0 ≤ b ∧ b ≤ 3 := by omega
  have h2 : 0 ≤ r2 ∧ r2 ≤ 36524 ∧ (r2 = 36524 → b = 3) := by omega
  have hc' : 0 ≤ c ∧ c ≤ 24 := by omega
  have h3 : 0 ≤ r3 ∧ r3 < 1461 ∧ (c = 24 → b ≠ 3 → r3 < 1460) := by omega
  have hk' : 0 ≤ k ∧ k ≤ 4 := by omega
  have he' : 0 ≤ e ∧ e ≤ 3 := by omega
  rw [daysSinceEpoch_split a b c e hb'.1 hb'.2 hc'.1 hc'.2 he'.1 he'.2]
  refine ⟨by omega, by omega, ?_⟩
  split
  · omega
  · rename_i h
    rw [isLeap_split a b c e hb'.1 hb'.2 hc'.1 hc'.2 he'.1 he'.2] at h
    omega

theorem absYearDay_spec (d : Int) :
    daysSinceEpoch (absYearDay d).1 + (absYearDay d).2 = d ∧ 0 ≤ (absYearDay d).2 ∧
      (absYearDay d).2 < (if isLeap (absYearDay d).1 then 366 else 365) := by
  simp only [absYearDay]
  exact absYearDay_aux d _ _ _ _ _ _ _ _ _ rfl rfl rfl rfl rfl rfl rfl rfl rfl

theorem daysBefore_cases (q : Int) (h0 : 0 ≤ q) (h1 : q ≤ 11) :
    (q = 0 ∧ daysBefore q = 0 ∧ daysBefore (q+1) = 31) ∨
    (q = 1 ∧ daysBefore q = 31 ∧ daysBefore (q+1) = 59) ∨
    (q = 2 ∧ daysBefore q = 59 ∧ daysBefore (q+1) = 90) ∨
    (q = 3 ∧ daysBefore q = 90 ∧ daysBefore (q+1) = 120) ∨
    (q = 4 ∧ daysBefore q = 120 ∧ daysBefore (q+1) = 151) ∨
    (q = 5 ∧ daysBefore q = 151 ∧ daysBefore (q+1) = 181) ∨
    (q = 6 ∧ daysBefore q = 181 ∧ daysBefore (q+1) = 212) ∨
    (q = 7 ∧ daysBefore q = 212 ∧ daysBefore (q+1) = 243) ∨
    (q = 8 ∧ daysBefore q = 243 ∧ daysBefore (q+1) = 273) ∨
    (q = 9 ∧ daysBefore q = 273 ∧ daysBefore (q+1) = 304) ∨
    (q = 10 ∧ daysBefore q = 304 ∧ daysBefore (q+1) = 334) ∨
    (q = 11 ∧ daysBefore q = 334 ∧ daysBefore (q+1) = 365) := by
  have : q = 0 ∨ q = 1 ∨ q = 2 ∨ q = 3 ∨ q = 4 ∨ q = 5 ∨ q = 6 ∨ q = 7 ∨ q = 8 ∨ q = 9 ∨
      q = 10 ∨ q = 11 := by omega
  rcases this with h | h | h | h | h | h | h | h | h | h | h | h <;> subst h <;>
    simp [daysBefore]

theorem monthStart_table (leap : Bool) :
    monthStart leap 0 = 0 ∧ monthStart leap 1 = 31 ∧
    monthStart leap 2 = (if leap then 60 else 59) ∧ monthStart leap 3 = (if leap then 91 else 90) ∧
    monthStart leap 4 = (if leap then 121 else 120) ∧
    monthStart leap 5 = (if leap then 152 else 151) ∧
    monthStart leap 6 = (if leap then 182 else 181) ∧
    monthStart leap 7 = (if leap then 213 else 212) ∧
    monthStart leap 8 = (if leap then 244 else 243) ∧
    monthStart leap 9 = (if leap then 274 else 273) ∧
    monthStart leap 10 = (if leap then 305 else 304) ∧
    monthStart leap 11 = (if leap then 335 else 334) ∧
    monthStart leap 12 = (if leap then 366 else 365) := by
  cases leap <;> simp [monthStart, daysBefore]

theorem absMonthDay_spec (leap : Bool) (yday : Int) (h0 : 0 ≤ yday)
    (h1 : yday < (if leap then 366 else 365)) (m d : Int)
    (h : absMonthDay leap yday = (m, d)) :
    1 ≤ m ∧ m ≤ 12 ∧ 1 ≤ d ∧ d ≤ monthStart leap m - monthStart leap (m - 1) ∧
      monthStart leap (m - 1) + (d - 1) = yday := by
  unfold absMonthDay at h
  obtain ⟨t0, t1, t2, t3, t4, t5, t6, t7, t8, t9, t10, t11, t12⟩ := monthStart_table leap
  by_cases h59 : leap = true ∧ yday = 59
  · obtain ⟨hl, hy⟩ := h59
    subst hl hy
    simp at h
    obtain ⟨rfl, rfl⟩ := h
    simp [t1, t2]
  · have hc : (leap && decide (yday = 59)) = false := by
      cases leap <;> simp_all
    simp only [hc, Bool.false_eq_true, if_false] at h
    generalize hday : (if (leap && decide (yday > 59)) = true then yday - 1 else yday) = day at h
    have hd : 0 ≤ day ∧ day < 365 ∧ (leap = true → yday < 59 → day = yday) ∧
        (leap = true → 59 < yday → day = yday - 1) ∧ (leap = false → day = yday) := by
      cases leap <;> simp at hday h1 h59 ⊢ <;> [skip; split at hday] <;> omega
    clear hday hc
    generalize hq : day / 31 = q at h
    have hq' : 0 ≤ q ∧ q ≤ 11 := by omega
    cases leap <;>
    simp only [Bool.false_eq_true, if_false, if_true, true_and, false_and, not_false_eq_true,
      true_implies, false_implies, not_true_eq_false, and_true] at * <;>
    rcases daysBefore_cases q hq'.1 hq'.2 with h' | h' | h' | h' | h' | h' | h' | h' | h' | h' | h' | h' <;>
      obtain ⟨rfl, e1, e2⟩ := h' <;> simp only [e1, e2] at h <;> split at h <;>
      simp only [Prod.mk.injEq] at h <;> obtain ⟨rfl, rfl⟩ := h <;>
      simp only [Int.reduceAdd, Int.reduceSub, t0, t1, t2, t3, t4, t5, t6, t7, t8, t9, t10, t11,
        t12] <;> omega

theorem daysSinceEpoch_closed (y : Int) :
    daysSinceEpoch y = 365 * (y - 1) + (y - 1) / 4 - (y - 1) / 100 + (y - 1) / 400 := by
  simp only [daysSinceEpoch]
  omega

theorem daysSinceEpoch_succ (y : Int) :
    daysSinceEpoch (y + 1) = daysSinceEpoch y + yearLen y := by
  rw [daysSinceEpoch_closed, daysSinceEpoch_closed, yearLen]
  split
  · rename_i h
    rw [isLeap_iff] at h
    omega
  · rename_i h
    rw [isLeap_iff] at h
    omega

theorem Date_eq_monthAbs (y m d : Int) : (Date y m d).absDays = monthAbs (12 * y + (m - 1)) + (d - 1) := by
  simp only [Date, monthAbs, monthStart]
  have h1 : (12 * y + (m - 1)) / 12 = y + (m - 1) / 12 := by omega
  have h2 : (12 * y + (m - 1)) % 12 = (m - 1) % 12 := by omega
  rw [h1, h2]
  split <;> omega

theorem monthAbs_succ (i : Int) :
    monthAbs (i + 1) = monthAbs i + daysIn (i / 12) (i % 12 + 1) := by
  obtain ⟨t0, t1, t2, t3, t4, t5, t6, t7, t8, t9, t10, t11, t12⟩ :=
    monthStart_table (isLeap (i / 12))
  have hm : i % 12 = 0 ∨ i % 12 = 1 ∨ i % 12 = 2 ∨ i % 12 = 3 ∨ i % 12 = 4 ∨ i % 12 = 5 ∨
      i % 12 = 6 ∨ i % 12 = 7 ∨ i % 12 = 8 ∨ i % 12 = 9 ∨ i % 12 = 10 ∨ i % 12 = 11 := by omega
  by_cases h11 : i % 12 = 11
  · have e1 : (i + 1) / 12 = i / 12 + 1 := by omega
    have e2 : (i + 1) % 12 = 0 := by omega
    simp only [monthAbs, e1, e2, h11, daysSinceEpoch_succ, yearLen, t11, daysIn,
      (monthStart_table (isLeap (i / 12 + 1))).1]
    cases isLeap (i / 12) <;> simp <;> omega
  · have e1 : (i + 1) / 12 = i / 12 := by omega
    have e2 : (i + 1) % 12 = i % 12 + 1 := by omega
    simp only [monthAbs, e1, e2, daysIn]
    rcases hm with h | h | h | h | h | h | h | h | h | h | h | h <;>
      simp only [h, Int.reduceAdd, t0, t1, t2, t3, t4, t5, t6, t7, t8, t9, t10, t11, t12] <;>
      cases isLeap (i / 12) <;> simp at h11 ⊢ <;> omega

theorem daysIn_ge (y m : Int) : 28 ≤ daysIn y m ∧ daysIn y m ≤ 31 := by
  unfold daysIn
  split <;> split <;> omega

theorem monthAbs_add (i : Int) (n : Nat) : monthAbs i + 28 * n ≤ monthAbs (i + n) := by
  induction n with
  | zero => simp
  | succ k ih =>
    have h := monthAbs_succ (i + k)
    have h2 := (daysIn_ge ((i + k) / 12) ((i + k) % 12 + 1)).1
    have e : i + ((k + 1 : Nat) : Int) = i + k + 1 := by push_cast; ring
    rw [e, h]
    push_cast
    omega

theorem monthAbs_lt {i j : Int} (h : i < j) : monthAbs i + 28 * (j - i) ≤ monthAbs j := by
  have := monthAbs_add i (j - i).toNat
  have e : ((j - i).toNat : Int) = j - i := Int.toNat_of_nonneg (by omega)
  rw [e] at this
  have e2 : i + (j - i) = j := by ring
  rwa [e2] at this

theorem monthStart_diff (leap : Bool) (y m : Int) (hl : isLeap y = leap) (h1 : 1 ≤ m)
    (h12 : m ≤ 12) : monthStart leap m - monthStart leap (m - 1) = daysIn y m := by
  obtain ⟨t0, t1, t2, t3, t4, t5, t6, t7, t8, t9, t10, t11, t12⟩ := monthStart_table leap
  have hm : m = 1 ∨ m = 2 ∨ m = 3 ∨ m = 4 ∨ m = 5 ∨ m = 6 ∨ m = 7 ∨ m = 8 ∨ m = 9 ∨ m = 10 ∨
      m = 11 ∨ m = 12 := by omega
  rcases hm with h | h | h | h | h | h | h | h | h | h | h | h <;> subst h <;>
    simp only [Int.reduceSub, daysIn, hl, t0, t1, t2, t3, t4, t5, t6, t7, t8, t9, t10, t11, t12] <;>
    cases leap <;> simp

theorem monthAbs_of_valid (y m : Int) (h1 : 1 ≤ m) (h12 : m ≤ 12) :
    monthAbs (12 * y + (m - 1)) = daysSinceEpoch y + monthStart (isLeap y) (m - 1) := by
  have e1 : (12 * y + (m - 1)) / 12 = y := by omega
  have e2 : (12 * y + (m - 1)) % 12 = m - 1 := by omega
  simp only [monthAbs, e1, e2]

theorem Time.Date_spec (t : Time) (y m d : Int) (h : t.Date = (y, m, d)) :
    1 ≤ m ∧ m ≤ 12 ∧ 1 ≤ d ∧ d ≤ daysIn y m ∧ IFRS16.Date y m d = t := by
  obtain ⟨a⟩ := t
  simp only [Time.Date] at h
  obtain ⟨hy1, hy2, hy3⟩ := absYearDay_spec a
  generalize absYearDay a = p at h hy1 hy2 hy3
  obtain ⟨Y, yd⟩ := p
  simp only at h hy1 hy2 hy3
  generalize hq : absMonthDay (isLeap Y) yd = q at h
  obtain ⟨M, D⟩ := q
  simp only [Prod.mk.injEq] at h
  obtain ⟨rfl, rfl, rfl⟩ := h
  obtain ⟨m1, m2, m3, m4, m5⟩ := absMonthDay_spec (isLeap Y) yd hy2 hy3 M D hq
  rw [monthStart_diff (isLeap Y) Y M rfl m1 m2] at m4
  refine ⟨m1, m2, m3, m4, ?_⟩
  have := Date_eq_monthAbs Y M D
  rw [monthAbs_of_valid Y M m1 m2] at this
  have e : (IFRS16.Date Y M D).absDays = a := by omega
  cases hD : IFRS16.Date Y M D
  rw [hD] at e
  simp only at e
  rw [e]

theorem monthAbs_unique {i j t : Int} (hi : monthAbs i ≤ t) (hi2 : t < monthAbs (i + 1))
    (hj : monthAbs j ≤ t) (hj2 : t < monthAbs (j + 1)) : i = j := by
  by_contra hne
  rcases Int.lt_or_gt_of_ne hne with h | h
  · have h1 : i + 1 ≤ j := h
    rcases lt_or_eq_of_le h1 with h2 | h2
    · have := monthAbs_lt h2
      omega
    · rw [h2] at hi2
      omega
  · have h1 : j + 1 ≤ i := h
    rcases lt_or_eq_of_le h1 with h2 | h2
    · have := monthAbs_lt h2
      omega
    · rw [h2] at hj2
      omega

theorem Date_Date (y m d : Int) (h1 : 1 ≤ m) (h12 : m ≤ 12) (hd1 : 1 ≤ d)
    (hd : d ≤ daysIn y m) : (IFRS16.Date y m d).Date = (y, m, d) := by
  generalize hq : (IFRS16.Date y m d).Date = q
  obtain ⟨Y, M, D⟩ := q
  obtain ⟨m1, m2, m3, m4, m5⟩ := Time.Date_spec _ Y M D hq
  have a1 := Date_eq_monthAbs y m d
  have a2 := Date_eq_monthAbs Y M D
  rw [m5] at a2
  have s1 := monthAbs_succ (12 * y + (m - 1))
  have s2 := monthAbs_succ (12 * Y + (M - 1))
  have e1 : (12 * y + (m - 1)) / 12 = y := by omega
  have e2 : (12 * y + (m - 1)) % 12 + 1 = m := by omega
  have e3 : (12 * Y + (M - 1)) / 12 = Y := by omega
  have e4 : (12 * Y + (M - 1)) % 12 + 1 = M := by omega
  rw [e1, e2] at s1
  rw [e3, e4] at s2
  have hij : 12 * y + (m - 1) = 12 * Y + (M - 1) :=
    monthAbs_unique (t := (IFRS16.Date y m d).absDays) (by omega) (by omega) (by omega) (by omega)
  have hy : y = Y := by omega
  have hm : m = M := by omega
  subst hy hm
  have hD : d = D := by omega
  subst hD
  rfl

/-! ## Operations on `Time` -/

@[simp]
theorem Time.Before_iff (t u : Time) : t.Before u = true ↔ t.absDays < u.absDays := by
  simp [Time.Before]

@[simp]
theorem Time.After_iff (t u : Time) : t.After u = true ↔ u.absDays < t.absDays := by
  simp [Time.After]

@[simp]
theorem Time.Equal_iff (t u : Time) : t.Equal u = true ↔ t.absDays = u.absDays := by
  simp [Time.Equal]

@[simp]
theorem Time.IsZero_iff (t : Time) : t.IsZero = true ↔ t.absDays = 0 := by
  simp [Time.IsZero]

theorem Time.ext_absDays {t u : Time} (h : t.absDays = u.absDays) : t = u := by
  cases t
  cases u
  simp_all

/-- A day is the first day of its month plus its day of the month. -/
theorem Time.absDays_eq (t : Time) :
    t.absDays = monthAbs (12 * t.Date.1 + (t.Date.2.1 - 1)) + (t.Date.2.2 - 1) := by
  obtain ⟨_, _, _, _, h⟩ := Time.Date_spec t t.Date.1 t.Date.2.1 t.Date.2.2 rfl
  have := Date_eq_monthAbs t.Date.1 t.Date.2.1 t.Date.2.2
  rw [h] at this
  exact this

theorem Time.AddDate_absDays (t : Time) (months days : Int) :
    (t.AddDate 0 months days).absDays
      = monthAbs (12 * t.Date.1 + (t.Date.2.1 - 1) + months) + (t.Date.2.2 - 1) + days := by
  have h : t.AddDate 0 months days
      = IFRS16.Date (t.Date.1 + 0) (t.Date.2.1 + months) (t.Date.2.2 + days) := rfl
  rw [h, Date_eq_monthAbs]
  have e : 12 * (t.Date.1 + 0) + (t.Date.2.1 + months - 1)
      = 12 * t.Date.1 + (t.Date.2.1 - 1) + months := by ring
  rw [e]
  ring

/-- Adding days moves the absolute day by that many days. -/
theorem Time.AddDate_days (t : Time) (days : Int) :
    (t.AddDate 0 0 days).absDays = t.absDays + days := by
  rw [Time.AddDate_absDays, Time.absDays_eq t]
  simp

/-- A step of `months ≥ 1` calendar months moves a day forward by at least 28 days a month. -/
theorem Time.AddDate_months_ge (t : Time) (months : Int) (h : 1 ≤ months) :
    t.absDays + 28 * months ≤ (t.AddDate 0 months 0).absDays := by
  rw [Time.AddDate_absDays]
  have h1 := Time.absDays_eq t
  have h2 := monthAbs_lt (i := 12 * t.Date.1 + (t.Date.2.1 - 1))
    (j := 12 * t.Date.1 + (t.Date.2.1 - 1) + months) (by omega)
  omega

/-! ## Period markers -/

theorem marker_zero (s : Time) (m : Int) : marker s m 0 = s := rfl

theorem marker_succ (s : Time) (m : Int) (j : Nat) :
    marker s m (j + 1) = (marker s m j).AddDate 0 m 0 := by
  simp only [marker, Function.iterate_succ_apply']

theorem marker_succ_left (s : Time) (m : Int) (j : Nat) :
    marker s m (j + 1) = marker (s.AddDate 0 m 0) m j := by
  simp only [marker, Function.iterate_succ_apply]

theorem marker_step (s : Time) (m : Int) (hm : 1 ≤ m) (j : Nat) :
    (marker s m j).absDays + 28 ≤ (marker s m (j + 1)).absDays := by
  rw [marker_succ]
  have := Time.AddDate_months_ge (marker s m j) m hm
  omega

theorem marker_mono (s : Time) (m : Int) (hm : 1 ≤ m) (j : Nat) (n : Nat) :
    (marker s m j).absDays + 28 * n ≤ (marker s m (j + n)).absDays := by
  induction n with
  | zero => simp
  | succ k ih =>
    have := marker_step s m hm (j + k)
    have e : j + (k + 1) = j + k + 1 := rfl
    rw [e]
    push_cast
    omega

theorem marker_lt (s : Time) (m : Int) (hm : 1 ≤ m) {j k : Nat} (h : j < k) :
    (marker s m j).absDays < (marker s m k).absDays := by
  have := marker_mono s m hm j (k - j)
  have e : j + (k - j) = k := by omega
  rw [e] at this
  have : (1 : Int) ≤ ((k - j : Nat) : Int) := by omega
  omega

theorem marker_le (s : Time) (m : Int) (hm : 1 ≤ m) {j k : Nat} (h : j ≤ k) :
    (marker s m j).absDays ≤ (marker s m k).absDays := by
  rcases Nat.lt_or_eq_of_le h with h | h
  · exact le_of_lt (marker_lt s m hm h)
  · rw [h]

/-! ## The period counting loop -/

theorem periodLoop_done (e : Time) (m : Int) (k : Nat) :
    ∀ (fuel c : Nat) (cur : Time), c + k ≤ 12000 → k < fuel →
      (∀ i, i < k → (marker cur m i).Before e = true) → (marker cur m k).Before e = false →
      periodLoop e m fuel c cur = .done (c + k) := by
  induction k with
  | zero =>
    intro fuel c cur _ hf _ hk
    obtain ⟨f, rfl⟩ : ∃ f, fuel = f + 1 := ⟨fuel - 1, by omega⟩
    rw [marker_zero] at hk
    simp [periodLoop, hk]
  | succ k ih =>
    intro fuel c cur hc hf hlt hk
    obtain ⟨f, rfl⟩ : ∃ f, fuel = f + 1 := ⟨fuel - 1, by omega⟩
    have h0 : cur.Before e = true := by
      have := hlt 0 (by omega)
      rwa [marker_zero] at this
    have hrec := ih f (c + 1) (cur.AddDate 0 m 0) (by omega) (by omega)
      (fun i hi => by
        have := hlt (i + 1) (by omega)
        rwa [marker_succ_left] at this)
      (by rwa [marker_succ_left] at hk)
    have hc' : ¬ (c + 1 > 12000) := by omega
    simp only [periodLoop, h0, if_true, hc', if_false, hrec]
    congr 1
    omega

theorem periodLoop_safety (e : Time) (m : Int) (k : Nat) :
    ∀ (fuel c : Nat) (cur : Time), c + k = 12000 → k < fuel →
      (∀ i, i ≤ k → (marker cur m i).Before e = true) →
      periodLoop e m fuel c cur = .safetyLimit := by
  induction k with
  | zero =>
    intro fuel c cur hc hf hlt
    obtain ⟨f, rfl⟩ : ∃ f, fuel = f + 1 := ⟨fuel - 1, by omega⟩
    have h0 : cur.Before e = true := by
      have := hlt 0 (by omega)
      rwa [marker_zero] at this
    have hc' : c + 1 > 12000 := by omega
    simp [periodLoop, h0, hc']
  | succ k ih =>
    intro fuel c cur hc hf hlt
    obtain ⟨f, rfl⟩ : ∃ f, fuel = f + 1 := ⟨fuel - 1, by omega⟩
    have h0 : cur.Before e = true := by
      have := hlt 0 (by omega)
      rwa [marker_zero] at this
    have hrec := ih f (c + 1) (cur.AddDate 0 m 0) (by omega) (by omega)
      (fun i hi => by
        have := hlt (i + 1) (by omega)
        rwa [marker_succ_left] at this)
    have hc' : ¬ (c + 1 > 12000) := by omega
    simp only [periodLoop, h0, if_true, hc', if_false, hrec]

/-- The least marker not before the end date, when the markers advance. -/
theorem exists_first_marker (s e : Time) (m : Int) (hm : 1 ≤ m) :
    ∃ n : Nat, (marker s m n).Before e = false ∧ ∀ i, i < n → (marker s m i).Before e = true := by
  have hex : ∃ n : Nat, (marker s m n).Before e = false := by
    refine ⟨(e.absDays - s.absDays).toNat, ?_⟩
    have h := marker_mono s m hm 0 (e.absDays - s.absDays).toNat
    rw [marker_zero, Nat.zero_add] at h
    have h2 : e.absDays - s.absDays ≤ ((e.absDays - s.absDays).toNat : Int) := Int.self_le_toNat _
    have h3 : ¬ ((marker s m (e.absDays - s.absDays).toNat).absDays < e.absDays) := by omega
    simpa [Time.Before] using h3
  classical
  refine ⟨Nat.find hex, Nat.find_spec hex, fun i hi => ?_⟩
  have := Nat.find_min hex hi
  simpa using this

/-- With the 12001 units of fuel `getPeriodsAndRate` supplies the loop never runs out of
fuel: it ends by its condition or by the safety break. -/
theorem periodLoop_ne_outOfFuel (s e : Time) (m : Int) (hm : 1 ≤ m) :
    periodLoop e m 12001 0 s ≠ .outOfFuel := by
  obtain ⟨n, hn, hlt⟩ := exists_first_marker s e m hm
  by_cases h : n ≤ 12000
  · rw [periodLoop_done e m n 12001 0 s (by omega) (by omega) hlt hn]
    simp
  · rw [periodLoop_safety e m 12000 12001 0 s (by omega) (by omega)
      (fun i hi => hlt i (by omega))]
    simp

/-! ## `getPeriodsAndRate` -/

theorem monthStep_pos (f : PaymentFrequency) : 1 ≤ monthStep f := by
  unfold monthStep
  split
  · omega
  · split <;> omega

theorem monthStep_le (f : PaymentFrequency) : monthStep f ≤ 12 := by
  unfold monthStep
  split
  · omega
  · split <;> omega

theorem periodsPerYear_pos (f : PaymentFrequency) : 0 < periodsPerYear f := by
  unfold periodsPerYear
  split
  · norm_num
  · split <;> norm_num

theorem getPeriodsAndRate_unsupported (l : Lease) (hs : ¬ supported l.PaymentFrequency) :
    getPeriodsAndRate l
      = (0, 0, some ("unsupported payment frequency: " ++ l.PaymentFrequency)) := by
  simp only [supported, not_or] at hs
  obtain ⟨h1, h2, h3⟩ := hs
  simp [getPeriodsAndRate, h1, h2, h3]

theorem getPeriodsAndRate_rate (l : Lease) (hs : supported l.PaymentFrequency)
    (hr : l.DiscountRate ≤ 0) :
    getPeriodsAndRate l = (0, 0, some "discount rate must be positive") := by
  rcases hs with h | h | h <;>
    simp [getPeriodsAndRate, h, hr, Monthly, Quarterly, Annually]

theorem getPeriodsAndRate_short (l : Lease) (hs : supported l.PaymentFrequency)
    (hr : 0 < l.DiscountRate)
    (h : l.EndDate.Before (marker l.StartDate (monthStep l.PaymentFrequency) 1) = true) :
    getPeriodsAndRate l = (0, l.DiscountRate / periodsPerYear l.PaymentFrequency, none) := by
  rw [marker_succ, marker_zero] at h
  have hr' : ¬ l.DiscountRate ≤ 0 := not_le.mpr hr
  simp only [Time.Before_iff] at h
  rcases hs with hf | hf | hf <;>
    simp [getPeriodsAndRate, monthStep, periodsPerYear, hf, hr', Monthly, Quarterly, Annually] at h ⊢ <;>
    omega

theorem getPeriodsAndRate_count (l : Lease) (hs : supported l.PaymentFrequency)
    (hr : 0 < l.DiscountRate) (n : Nat) (hn : n ≤ 12000)
    (h1 : l.EndDate.Before (marker l.StartDate (monthStep l.PaymentFrequency) 1) = false)
    (hlt : ∀ i, i < n → (marker l.StartDate (monthStep l.PaymentFrequency) i).Before l.EndDate
      = true)
    (hge : (marker l.StartDate (monthStep l.PaymentFrequency) n).Before l.EndDate = false) :
    getPeriodsAndRate l = (n, l.DiscountRate / periodsPerYear l.PaymentFrequency, none) := by
  rw [marker_succ, marker_zero] at h1
  have hr' : ¬ l.DiscountRate ≤ 0 := not_le.mpr hr
  have := periodLoop_done l.EndDate (monthStep l.PaymentFrequency) n 12001 0 l.StartDate
    (by omega) (by omega) hlt hge
  simp only [Time.Before, decide_eq_false_iff_not] at h1
  rcases hs with hf | hf | hf <;>
    simp [getPeriodsAndRate, monthStep, periodsPerYear, hf, hr', Monthly, Quarterly, Annually] at h1 this ⊢ <;>
    simp [this] <;> omega

theorem getPeriodsAndRate_safety (l : Lease) (hs : supported l.PaymentFrequency)
    (hr : 0 < l.DiscountRate)
    (h : (marker l.StartDate (monthStep l.PaymentFrequency) 12000).Before l.EndDate = true) :
    getPeriodsAndRate l = (0, 0, some "period calculation safety limit exceeded (12000)") := by
  have hm := monthStep_pos l.PaymentFrequency
  have hall : ∀ i, i ≤ 12000 →
      (marker l.StartDate (monthStep l.PaymentFrequency) i).Before l.EndDate = true := by
    intro i hi
    have := marker_le l.StartDate _ hm hi
    simp only [Time.Before_iff] at h ⊢
    omega
  have h1 : l.EndDate.Before (l.StartDate.AddDate 0 (monthStep l.PaymentFrequency) 0) = false := by
    have := hall 1 (by omega)
    rw [marker_succ, marker_zero] at this
    simp only [Time.Before_iff] at this
    simp only [Time.Before, decide_eq_false_iff_not]
    omega
  have hr' : ¬ l.DiscountRate ≤ 0 := not_le.mpr hr
  have := periodLoop_safety l.EndDate (monthStep l.PaymentFrequency) 12000 12001 0 l.StartDate
    (by omega) (by omega) hall
  simp only [Time.Before, decide_eq_false_iff_not] at h1
  rcases hs with hf | hf | hf <;>
    simp [getPeriodsAndRate, monthStep, periodsPerYear, hf, hr', Monthly, Quarterly, Annually] at h1 this ⊢ <;>
    simp [this] <;> omega

/-- When the lease is not shorter than one period and the safety cap is not exceeded, the loop
stops at the first marker on or after the end date. -/
theorem exists_period_count (l : Lease)
    (h1 : l.EndDate.Before (marker l.StartDate (monthStep l.PaymentFrequency) 1) = false)
    (h2 : (marker l.StartDate (monthStep l.PaymentFrequency) 12000).Before l.EndDate = false) :
    ∃ n : Nat, 1 ≤ n ∧ n ≤ 12000 ∧
      (marker l.StartDate (monthStep l.PaymentFrequency) n).Before l.EndDate = false ∧
      ∀ i, i < n → (marker l.StartDate (monthStep l.PaymentFrequency) i).Before l.EndDate
        = true := by
  have hm := monthStep_pos l.PaymentFrequency
  obtain ⟨n, hn, hlt⟩ := exists_first_marker l.StartDate l.EndDate _ hm
  refine ⟨n, ?_, ?_, hn, hlt⟩
  · by_contra h0
    have : n = 0 := by omega
    subst this
    rw [marker_zero] at hn
    have := marker_step l.StartDate _ hm 0
    rw [marker_zero, Nat.zero_add] at this
    simp only [Time.Before, decide_eq_false_iff_not] at hn h1
    omega
  · by_contra hgt
    have := hlt 12000 (by omega)
    rw [h2] at this
    exact Bool.false_ne_true this

/-- The markers before the end date are exactly those with index below the first marker on or
after the end date. -/
theorem marker_before_iff (s e : Time) (m : Int) (hm : 1 ≤ m) (n : Nat)
    (hlt : ∀ i, i < n → (marker s m i).Before e = true) (hge : (marker s m n).Before e = false)
    (j : Nat) : (marker s m j).Before e = true ↔ j < n := by
  constructor
  · intro h
    by_contra hj
    have := marker_le s m hm (Nat.le_of_not_lt hj)
    simp only [Time.Before, decide_eq_false_iff_not, decide_eq_true_eq] at hge h
    omega
  · exact hlt j

/-! ## `CalculateLeaseLiability` -/

/-- The rounding `math.Round` returns an integer nearest to its argument, and on a tie the one
away from zero. -/
theorem mathRound_spec (x : ℚ) :
    ∃ z : Int, mathRound x = z ∧ |x - z| ≤ 1 / 2 ∧ (|x - z| = 1 / 2 → |x| < |(z : ℚ)|) := by
  unfold mathRound
  split
  · rename_i hx
    refine ⟨-⌊-x + 1 / 2⌋, by push_cast; ring, ?_, ?_⟩
    · have h1 := Int.floor_le (-x + 1 / 2)
      have h2 := Int.lt_floor_add_one (-x + 1 / 2)
      push_cast
      rw [abs_le]
      constructor <;> linarith
    · have h1 := Int.floor_le (-x + 1 / 2)
      have h2 := Int.lt_floor_add_one (-x + 1 / 2)
      push_cast
      intro h
      rw [abs_of_neg hx]
      have h3 : x - -(⌊-x + 1 / 2⌋ : ℚ) = 1 / 2 := by
        rcases abs_eq (by norm_num : (0 : ℚ) ≤ 1 / 2) |>.mp h with h' | h'
        · exact h'
        · linarith
      have h4 : (0 : ℚ) < ⌊-x + 1 / 2⌋ := by linarith
      rw [abs_neg, abs_of_pos h4]
      linarith
  · rename_i hx
    have hx' : 0 ≤ x := not_lt.mp hx
    refine ⟨⌊x + 1 / 2⌋, rfl, ?_, ?_⟩
    · have h1 := Int.floor_le (x + 1 / 2)
      have h2 := Int.lt_floor_add_one (x + 1 / 2)
      rw [abs_le]
      constructor <;> linarith
    · have h1 := Int.floor_le (x + 1 / 2)
      have h2 := Int.lt_floor_add_one (x + 1 / 2)
      intro h
      rw [abs_of_nonneg hx']
      have h3 : x - (⌊x + 1 / 2⌋ : ℚ) = -(1 / 2) := by
        rcases abs_eq (by norm_num : (0 : ℚ) ≤ 1 / 2) |>.mp h with h' | h'
        · linarith
        · exact h'
      have h4 : (0 : ℚ) < ⌊x + 1 / 2⌋ := by linarith
      rw [abs_of_pos h4]
      linarith

/-- The result of `getPeriodsAndRate` when it reports no error. -/
theorem getPeriodsAndRate_ok (l : Lease) (h : (getPeriodsAndRate l).2.2 = none) :
    supported l.PaymentFrequency ∧ 0 < l.DiscountRate ∧
      (getPeriodsAndRate l).2.1 = l.DiscountRate / periodsPerYear l.PaymentFrequency := by
  by_cases hs : supported l.PaymentFrequency
  · by_cases hr : 0 < l.DiscountRate
    · refine ⟨hs, hr, ?_⟩
      have hm := monthStep_pos l.PaymentFrequency
      cases h1 : l.EndDate.Before (marker l.StartDate (monthStep l.PaymentFrequency) 1)
      · cases h2 : (marker l.StartDate (monthStep l.PaymentFrequency) 12000).Before l.EndDate
        · obtain ⟨n, _, hn2, hge, hlt⟩ := exists_period_count l h1 h2
          rw [getPeriodsAndRate_count l hs hr n hn2 h1 hlt hge]
        · rw [getPeriodsAndRate_safety l hs hr h2] at h
          simp at h
      · rw [getPeriodsAndRate_short l hs hr h1]
    · rw [getPeriodsAndRate_rate l hs (not_lt.mp hr)] at h
      simp at h
  · rw [getPeriodsAndRate_unsupported l hs] at h
    simp at h

theorem CalculateLeaseLiability_valid (l : Lease) (n : Nat) (r : ℚ) (hp : 0 < l.PaymentAmount)
    (hr : 0 < l.DiscountRate) (hs : l.StartDate.IsZero = false) (he : l.EndDate.IsZero = false)
    (hb : l.EndDate.Before l.StartDate = false) (hg : getPeriodsAndRate l = (n, r, none)) :
    CalculateLeaseLiability l =
      if n = 0 then (0, none)
      else (roundToDecimalPlaces (roundToDecimalPlaces
        (if r > 0 then l.PaymentAmount * ((1 - (1 + r) ^ (-(n : Int))) / r)
          else l.PaymentAmount * (n : ℚ)) 6) 2, none) := by
  have hp' : ¬ l.PaymentAmount ≤ 0 := not_le.mpr hp
  have hr' : ¬ l.DiscountRate ≤ 0 := not_le.mpr hr
  simp only [CalculateLeaseLiability, hp', hr', hs, he, hb, hg, if_false, Bool.or_self,
    Bool.false_eq_true]

/-! ## Month stepping -/

theorem Date_norm (y m d : Int) :
    Date y m d = Date (y + (m - 1) / 12) ((m - 1) % 12 + 1) d := by
  apply Time.ext_absDays
  rw [Date_eq_monthAbs, Date_eq_monthAbs]
  have e : 12 * y + (m - 1) = 12 * (y + (m - 1) / 12) + ((m - 1) % 12 + 1 - 1) := by omega
  rw [e]

theorem Time.Date_valid (t : Time) :
    1 ≤ t.Date.2.1 ∧ t.Date.2.1 ≤ 12 ∧ 1 ≤ t.Date.2.2 ∧ t.Date.2.2 ≤ daysIn t.Date.1 t.Date.2.1 := by
  obtain ⟨h1, h2, h3, h4, _⟩ := Time.Date_spec t t.Date.1 t.Date.2.1 t.Date.2.2 rfl
  exact ⟨h1, h2, h3, h4⟩

/-- Month stepping when the day of the month exists in the target month: the day is kept. -/
theorem Time.AddDate_months_fits (t : Time) (m : Int)
    (h : t.Date.2.2 ≤ daysIn (t.Date.1 + (t.Date.2.1 - 1 + m) / 12) ((t.Date.2.1 - 1 + m) % 12 + 1)) :
    (t.AddDate 0 m 0).Date
      = (t.Date.1 + (t.Date.2.1 - 1 + m) / 12, (t.Date.2.1 - 1 + m) % 12 + 1, t.Date.2.2) := by
  obtain ⟨_, _, h3, _⟩ := Time.Date_valid t
  have e : t.AddDate 0 m 0 = IFRS16.Date (t.Date.1 + 0) (t.Date.2.1 + m) (t.Date.2.2 + 0) := rfl
  rw [e, Date_norm]
  have e1 : t.Date.1 + 0 + (t.Date.2.1 + m - 1) / 12 = t.Date.1 + (t.Date.2.1 - 1 + m) / 12 := by
    omega
  have e2 : (t.Date.2.1 + m - 1) % 12 + 1 = (t.Date.2.1 - 1 + m) % 12 + 1 := by omega
  rw [e1, e2, add_zero]
  exact Date_Date _ _ _ (by omega) (by omega) h3 h

/-- Month stepping when the day of the month does not exist in the target month: the excess
days run over into the month after the target month. -/
theorem Time.AddDate_months_over (t : Time) (m : Int)
    (h : daysIn (t.Date.1 + (t.Date.2.1 - 1 + m) / 12) ((t.Date.2.1 - 1 + m) % 12 + 1) < t.Date.2.2) :
    (t.AddDate 0 m 0).Date
      = (t.Date.1 + (t.Date.2.1 + m) / 12, (t.Date.2.1 + m) % 12 + 1,
          t.Date.2.2 - daysIn (t.Date.1 + (t.Date.2.1 - 1 + m) / 12) ((t.Date.2.1 - 1 + m) % 12 + 1)) := by
  obtain ⟨_, _, h3, h4⟩ := Time.Date_valid t
  have hle := (daysIn_ge t.Date.1 t.Date.2.1).2
  have hge := (daysIn_ge (t.Date.1 + (t.Date.2.1 - 1 + m) / 12) ((t.Date.2.1 - 1 + m) % 12 + 1)).1
  have hge2 := (daysIn_ge (t.Date.1 + (t.Date.2.1 + m) / 12) ((t.Date.2.1 + m) % 12 + 1)).1
  generalize hD : daysIn (t.Date.1 + (t.Date.2.1 - 1 + m) / 12) ((t.Date.2.1 - 1 + m) % 12 + 1) = D
    at h hge ⊢
  have key : t.AddDate 0 m 0
      = IFRS16.Date (t.Date.1 + (t.Date.2.1 + m) / 12) ((t.Date.2.1 + m) % 12 + 1)
          (t.Date.2.2 - D) := by
    apply Time.ext_absDays
    rw [Time.AddDate_absDays, Date_eq_monthAbs]
    have s := monthAbs_succ (12 * t.Date.1 + (t.Date.2.1 - 1) + m)
    have e1 : (12 * t.Date.1 + (t.Date.2.1 - 1) + m) / 12 = t.Date.1 + (t.Date.2.1 - 1 + m) / 12 := by
      omega
    have e2 : (12 * t.Date.1 + (t.Date.2.1 - 1) + m) % 12 + 1 = (t.Date.2.1 - 1 + m) % 12 + 1 := by
      omega
    rw [e1, e2, hD] at s
    have e3 : 12 * (t.Date.1 + (t.Date.2.1 + m) / 12) + ((t.Date.2.1 + m) % 12 + 1 - 1)
        = 12 * t.Date.1 + (t.Date.2.1 - 1) + m + 1 := by omega
    rw [e3, s]
    ring
  rw [key]
  exact Date_Date _ _ _ (by omega) (by omega) (by omega) (by omega)

theorem Time.AddDate_months_small (t : Time) (m : Int) (h : t.Date.2.2 ≤ 28) :
    (t.AddDate 0 m 0).Date.2.2 = t.Date.2.2 ∧ monthIndex (t.AddDate 0 m 0) = monthIndex t + m := by
  have hge := (daysIn_ge (t.Date.1 + (t.Date.2.1 - 1 + m) / 12) ((t.Date.2.1 - 1 + m) % 12 + 1)).1
  have := Time.AddDate_months_fits t m (by omega)
  simp only [monthIndex, this, true_and]
  omega

theorem marker_small (s : Time) (m : Int) (h : s.Date.2.2 ≤ 28) (j : Nat) :
    (marker s m j).Date.2.2 = s.Date.2.2 ∧ monthIndex (marker s m j) = monthIndex s + j * m := by
  induction j with
  | zero => simp [marker_zero]
  | succ k ih =>
    rw [marker_succ]
    obtain ⟨h1, h2⟩ := Time.AddDate_months_small (marker s m k) m (by omega)
    refine ⟨by omega, ?_⟩
    rw [h2, ih.2]
    push_cast
    ring

/-- For a start day of at most 28 the markers are the start date moved by whole multiples of
the month step. -/
theorem marker_eq_AddDate (s : Time) (m : Int) (h : s.Date.2.2 ≤ 28) (j : Nat) :
    marker s m j = s.AddDate 0 (j * m) 0 := by
  apply Time.ext_absDays
  obtain ⟨h1, h2⟩ := marker_small s m h j
  rw [Time.AddDate_absDays, Time.absDays_eq (marker s m j), h1]
  simp only [monthIndex] at h2
  rw [h2]
  ring

/-- Counting periods from the two markers that bracket the end date. -/
theorem getPeriodsAndRate_bracket (l : Lease) (hs : supported l.PaymentFrequency)
    (hr : 0 < l.DiscountRate) (n : Nat) (h1n : 1 ≤ n) (hn : n ≤ 12000)
    (h1 : l.EndDate.Before (marker l.StartDate (monthStep l.PaymentFrequency) 1) = false)
    (hlt : (marker l.StartDate (monthStep l.PaymentFrequency) (n - 1)).Before l.EndDate = true)
    (hge : (marker l.StartDate (monthStep l.PaymentFrequency) n).Before l.EndDate = false) :
    getPeriodsAndRate l = (n, l.DiscountRate / periodsPerYear l.PaymentFrequency, none) := by
  refine getPeriodsAndRate_count l hs hr n hn h1 (fun i hi => ?_) hge
  have := marker_le l.StartDate _ (monthStep_pos l.PaymentFrequency) (show i ≤ n - 1 by omega)
  simp only [Time.Before_iff] at hlt ⊢
  omega

/-! ## Scenario leases -/

theorem getPeriodsAndRate_monthly_2024 :
    getPeriodsAndRate (mkLease Monthly (Date 2024 1 1) (Date 2024 12 31) 1000 (5 / 100))
      = (12, 1 / 240, none) := by
  have h := getPeriodsAndRate_bracket
    (mkLease Monthly (Date 2024 1 1) (Date 2024 12 31) 1000 (5 / 100)) (by decide)
    (by norm_num [mkLease]) 12 (by omega) (by omega) (by decide) (by decide) (by decide)
  rw [h]
  norm_num [mkLease, periodsPerYear]

theorem roundToDecimalPlaces_spec (x : ℚ) (k : Nat) :
    ∃ z : Int, roundToDecimalPlaces x k = z / 10 ^ k ∧ |x * 10 ^ k - z| ≤ 1 / 2 ∧
      (|x * 10 ^ k - z| = 1 / 2 → |x * 10 ^ k| < |(z : ℚ)|) := by
  obtain ⟨z, h1, h2, h3⟩ := mathRound_spec (x * 10 ^ k)
  refine ⟨z, ?_, h2, h3⟩
  simp only [roundToDecimalPlaces, zpow_natCast, h1]

theorem roundToDecimalPlaces_scenario :
    roundToDecimalPlaces (roundToDecimalPlaces
      (1000 * ((1 - (1 + 1 / 240 : ℚ) ^ (-(12 : Int))) / (1 / 240))) 6) 2 = 1168122 / 100 := by
  have h1 : roundToDecimalPlaces (1000 * ((1 - (1 + 1 / 240 : ℚ) ^ (-(12 : Int))) / (1 / 240))) 6
      = 11681222004 / 1000000 := by
    have hf : ⌊(1000 * ((1 - (1 + 1 / 240 : ℚ) ^ (-(12 : Int))) / (1 / 240))) * 10 ^ (6 : Int)
        + 1 / 2⌋ = 11681222004 := by
      rw [Int.floor_eq_iff]
      norm_num
    simp only [roundToDecimalPlaces, mathRound]
    rw [if_neg (by norm_num), hf]
    norm_num
  rw [h1]
  have hf : ⌊(11681222004 / 1000000 : ℚ) * 10 ^ (2 : Int) + 1 / 2⌋ = 1168122 := by
    rw [Int.floor_eq_iff]
    norm_num
  simp only [roundToDecimalPlaces, mathRound]
  rw [if_neg (by norm_num), hf]
  norm_num

/-! ## Claims on `CalculateLeaseLiability` and `getPeriodsAndRate` -/

/-- C2. `CalculateLeaseLiability` returns an error if and only if the payment amount is at most
0, or the discount rate is at most 0, or the start or the end date is the zero date, or the end
date is before the start date, or the frequency is not Monthly, Quarterly or Annually, or more
than 12000 period markers lie before the end date (the safety cap); in every error case the
returned value is 0. -/
theorem CalculateLeaseLiability_error_iff (l : Lease) :
    ((CalculateLeaseLiability l).2.isSome = true ↔
      (l.PaymentAmount ≤ 0 ∨ l.DiscountRate ≤ 0 ∨ l.StartDate.IsZero = true ∨
        l.EndDate.IsZero = true ∨ l.EndDate.Before l.StartDate = true ∨
        ¬ supported l.PaymentFrequency ∨
        (marker l.StartDate (monthStep l.PaymentFrequency) 12000).Before l.EndDate = true)) ∧
    ((CalculateLeaseLiability l).2.isSome = true → (CalculateLeaseLiability l).1 = 0) := by
  by_cases hp : l.PaymentAmount ≤ 0
  · simp [CalculateLeaseLiability, hp]
  by_cases hr : l.DiscountRate ≤ 0
  · simp [CalculateLeaseLiability, hp, hr]
  by_cases hd : (l.StartDate.IsZero || l.EndDate.IsZero || l.EndDate.Before l.StartDate) = true
  · have hd' := hd
    simp only [Bool.or_eq_true] at hd'
    have : l.StartDate.IsZero = true ∨ l.EndDate.IsZero = true ∨
        l.EndDate.Before l.StartDate = true := by tauto
    simp only [CalculateLeaseLiability, hp, hr, hd, if_true, if_false]
    simp only [Option.isSome_some, true_iff, implies_true, and_true]
    tauto
  have hd' := hd
  simp only [Bool.or_eq_true, not_or, Bool.not_eq_true] at hd'
  obtain ⟨⟨hz1, hz2⟩, hb⟩ := hd'
  have hr' : 0 < l.DiscountRate := not_le.mp hr
  by_cases hs : supported l.PaymentFrequency
  · cases h1 : l.EndDate.Before (marker l.StartDate (monthStep l.PaymentFrequency) 1)
    · cases h2 : (marker l.StartDate (monthStep l.PaymentFrequency) 12000).Before l.EndDate
      · obtain ⟨n, _, hn2, hge, hlt⟩ := exists_period_count l h1 h2
        have hg := getPeriodsAndRate_count l hs hr' n hn2 h1 hlt hge
        rw [CalculateLeaseLiability_valid l n _ (not_le.mp hp) hr' hz1 hz2 hb hg]
        split <;> simp [hp, hr, hz1, hz2, hb, hs]
      · have hg := getPeriodsAndRate_safety l hs hr' h2
        simp [CalculateLeaseLiability, hp, hr, hz1, hz2, hb, hg]
    · have hg := getPeriodsAndRate_short l hs hr' h1
      rw [CalculateLeaseLiability_valid l 0 _ (not_le.mp hp) hr' hz1 hz2 hb hg]
      have hm := monthStep_pos l.PaymentFrequency
      have h2 : (marker l.StartDate (monthStep l.PaymentFrequency) 12000).Before l.EndDate
          = false := by
        have := marker_le l.StartDate _ hm (show 1 ≤ 12000 by omega)
        simp only [Time.Before_iff] at h1
        simp only [Time.Before, decide_eq_false_iff_not]
        omega
      simp [hp, hr, hz1, hz2, hb, hs, h2]
  · have hg := getPeriodsAndRate_unsupported l hs
    simp [CalculateLeaseLiability, hp, hr, hz1, hz2, hb, hg, hs]

/-- Witness of C2: a lease with payment amount 0 is rejected and the returned value is 0. -/
theorem CalculateLeaseLiability_error_iff_witness :
    (CalculateLeaseLiability
        (mkLease Monthly (Date 2024 1 1) (Date 2024 12 31) 0 (5 / 100))).2.isSome = true ∧
      (CalculateLeaseLiability
        (mkLease Monthly (Date 2024 1 1) (Date 2024 12 31) 0 (5 / 100))).1 = 0 :=
  ⟨(CalculateLeaseLiability_error_iff _).1.mpr (Or.inl (by norm_num [mkLease])),
    (CalculateLeaseLiability_error_iff _).2
      ((CalculateLeaseLiability_error_iff _).1.mpr (Or.inl (by norm_num [mkLease])))⟩

/-- The three outcomes of `getPeriodsAndRate` on a supported frequency and a positive rate. -/
theorem getPeriodsAndRate_cases (l : Lease) (hs : supported l.PaymentFrequency)
    (hr : 0 < l.DiscountRate) :
    (l.EndDate.Before (marker l.StartDate (monthStep l.PaymentFrequency) 1) = true ∧
      getPeriodsAndRate l = (0, l.DiscountRate / periodsPerYear l.PaymentFrequency, none)) ∨
    (l.EndDate.Before (marker l.StartDate (monthStep l.PaymentFrequency) 1) = false ∧
      ∃ n : Nat, 1 ≤ n ∧ n ≤ 12000 ∧
        getPeriodsAndRate l = (n, l.DiscountRate / periodsPerYear l.PaymentFrequency, none) ∧
        (marker l.StartDate (monthStep l.PaymentFrequency) n).Before l.EndDate = false ∧
        ∀ i, i < n →
          (marker l.StartDate (monthStep l.PaymentFrequency) i).Before l.EndDate = true) ∨
    (l.EndDate.Before (marker l.StartDate (monthStep l.PaymentFrequency) 1) = false ∧
      (marker l.StartDate (monthStep l.PaymentFrequency) 12000).Before l.EndDate = true ∧
      getPeriodsAndRate l = (0, 0, some "period calculation safety limit exceeded (12000)")) := by
  have hm := monthStep_pos l.PaymentFrequency
  cases h1 : l.EndDate.Before (marker l.StartDate (monthStep l.PaymentFrequency) 1)
  · cases h2 : (marker l.StartDate (monthStep l.PaymentFrequency) 12000).Before l.EndDate
    · obtain ⟨n, hn1, hn2, hge, hlt⟩ := exists_period_count l h1 h2
      exact Or.inr (Or.inl ⟨rfl, n, hn1, hn2,
        getPeriodsAndRate_count l hs hr n hn2 h1 hlt hge, hge, hlt⟩)
    · exact Or.inr (Or.inr ⟨rfl, rfl, getPeriodsAndRate_safety l hs hr h2⟩)
  · exact Or.inl ⟨rfl, getPeriodsAndRate_short l hs hr h1⟩

theorem getPeriodsAndRate_thousand_years :
    getPeriodsAndRate (mkLease Monthly (Date 2000 1 1) (Date 3000 1 1) 1000 (5 / 100))
      = (12000, 1 / 240, none) := by
  have h := getPeriodsAndRate_bracket
    (mkLease Monthly (Date 2000 1 1) (Date 3000 1 1) 1000 (5 / 100)) (by decide)
    (by norm_num [mkLease]) 12000 (by omega) (by omega) (by decide)
    (by
      have e := marker_eq_AddDate (Date 2000 1 1) 1 (by decide) 11999
      simp only [mkLease]
      rw [show monthStep Monthly = 1 from rfl, show 12000 - 1 = 11999 from rfl, e]
      decide)
    (by
      have e := marker_eq_AddDate (Date 2000 1 1) 1 (by decide) 12000
      simp only [mkLease]
      rw [show monthStep Monthly = 1 from rfl, e]
      decide)
  rw [h]
  norm_num [mkLease, periodsPerYear]

theorem getPeriodsAndRate_over_cap :
    getPeriodsAndRate (mkLease Monthly (Date 2000 1 1) (Date 3000 1 2) 1000 (5 / 100))
      = (0, 0, some "period calculation safety limit exceeded (12000)") := by
  refine getPeriodsAndRate_safety _ (by decide) (by norm_num [mkLease]) ?_
  have e := marker_eq_AddDate (Date 2000 1 1) 1 (by decide) 12000
  simp only [mkLease]
  rw [show monthStep Monthly = 1 from rfl, e]
  decide

theorem getPeriodsAndRate_short_2024 :
    getPeriodsAndRate (mkLease Monthly (Date 2024 1 1) (Date 2024 1 20) 1000 (5 / 100))
      = (0, 1 / 240, none) := by
  rw [getPeriodsAndRate_short _ (by decide) (by norm_num [mkLease]) (by decide)]
  norm_num [mkLease, periodsPerYear]

/-- C3. For a lease with a supported frequency and a positive rate, with markers `M 0 = start`
and `M (j + 1) = M j` plus `monthsPerPeriod` calendar months: `getPeriodsAndRate` returns 0
periods without error when the end date is before `M 1`; otherwise, for the `n` with
`1 ≤ n ≤ 12000`, `M (n - 1) < end ≤ M n`, it returns `n`, and the markers before the end date
are exactly `M 0, ..., M (n - 1)`, which are pairwise distinct since the markers strictly
increase; such an `n` exists when `M 12000` is not before the end date, and it is unique. -/
theorem getPeriodsAndRate_period_count (l : Lease) (hs : supported l.PaymentFrequency)
    (hr : 0 < l.DiscountRate) :
    (marker l.StartDate (monthStep l.PaymentFrequency) 0 = l.StartDate ∧
      ∀ j, marker l.StartDate (monthStep l.PaymentFrequency) (j + 1)
        = (marker l.StartDate (monthStep l.PaymentFrequency) j).AddDate 0
            (monthStep l.PaymentFrequency) 0) ∧
    (∀ i j : Nat, i < j →
      (marker l.StartDate (monthStep l.PaymentFrequency) i).Before
        (marker l.StartDate (monthStep l.PaymentFrequency) j) = true) ∧
    (l.EndDate.Before (marker l.StartDate (monthStep l.PaymentFrequency) 1) = true →
      (getPeriodsAndRate l).1 = 0 ∧ (getPeriodsAndRate l).2.2 = none) ∧
    (l.EndDate.Before (marker l.StartDate (monthStep l.PaymentFrequency) 1) = false →
      ∀ n : Nat, 1 ≤ n → n ≤ 12000 →
        (marker l.StartDate (monthStep l.PaymentFrequency) (n - 1)).Before l.EndDate = true →
        (marker l.StartDate (monthStep l.PaymentFrequency) n).Before l.EndDate = false →
        ((getPeriodsAndRate l).1 = n ∧ (getPeriodsAndRate l).2.2 = none ∧
          ∀ j, (marker l.StartDate (monthStep l.PaymentFrequency) j).Before l.EndDate = true
            ↔ j < n)) ∧
    (l.EndDate.Before (marker l.StartDate (monthStep l.PaymentFrequency) 1) = false →
      (marker l.StartDate (monthStep l.PaymentFrequency) 12000).Before l.EndDate = false →
      ∃ n : Nat, 1 ≤ n ∧ n ≤ 12000 ∧
        (marker l.StartDate (monthStep l.PaymentFrequency) (n - 1)).Before l.EndDate = true ∧
        (marker l.StartDate (monthStep l.PaymentFrequency) n).Before l.EndDate = false) ∧
    (∀ n k : Nat, 1 ≤ n → 1 ≤ k →
      (marker l.StartDate (monthStep l.PaymentFrequency) (n - 1)).Before l.EndDate = true →
      (marker l.StartDate (monthStep l.PaymentFrequency) n).Before l.EndDate = false →
      (marker l.StartDate (monthStep l.PaymentFrequency) (k - 1)).Before l.EndDate = true →
      (marker l.StartDate (monthStep l.PaymentFrequency) k).Before l.EndDate = false →
      n = k) := by
  have hm := monthStep_pos l.PaymentFrequency
  refine ⟨⟨marker_zero _ _, fun j => marker_succ _ _ j⟩, ?_, ?_, ?_, ?_, ?_⟩
  · intro i j hij
    have := marker_lt l.StartDate _ hm hij
    simpa only [Time.Before_iff] using this
  · intro h
    rw [getPeriodsAndRate_short l hs hr h]
    exact ⟨rfl, rfl⟩
  · intro h1 n hn1 hn2 hlt hge
    rw [getPeriodsAndRate_bracket l hs hr n hn1 hn2 h1 hlt hge]
    refine ⟨rfl, rfl, fun j => ?_⟩
    refine marker_before_iff _ _ _ hm n (fun i hi => ?_) hge j
    have := marker_le l.StartDate _ hm (show i ≤ n - 1 by omega)
    simp only [Time.Before_iff] at hlt ⊢
    omega
  · intro h1 h2
    obtain ⟨n, hn1, hn2, hge, hlt⟩ := exists_period_count l h1 h2
    exact ⟨n, hn1, hn2, hlt (n - 1) (by omega), hge⟩
  · intro n k hn hk a1 a2 b1 b2
    simp only [Time.Before_iff] at a1 b1
    simp only [Time.Before, decide_eq_false_iff_not] at a2 b2
    by_contra hne
    rcases Nat.lt_or_gt_of_ne hne with h | h
    · have := marker_le l.StartDate _ hm (show n ≤ k - 1 by omega)
      omega
    · have := marker_le l.StartDate _ hm (show k ≤ n - 1 by omega)
      omega

/-- Witness of C3: the Monthly lease 2024-01-01 to 2024-01-20 has 0 periods, the Monthly lease
2024-01-01 to 2024-12-31 has 12 periods. -/
theorem getPeriodsAndRate_period_count_witness :
    ((getPeriodsAndRate (mkLease Monthly (Date 2024 1 1) (Date 2024 1 20) 1000 (5 / 100))).1 = 0 ∧
      (getPeriodsAndRate
        (mkLease Monthly (Date 2024 1 1) (Date 2024 1 20) 1000 (5 / 100))).2.2 = none) ∧
    (getPeriodsAndRate (mkLease Monthly (Date 2024 1 1) (Date 2024 12 31) 1000 (5 / 100))).1 = 12 :=
  ⟨(getPeriodsAndRate_period_count
      (mkLease Monthly (Date 2024 1 1) (Date 2024 1 20) 1000 (5 / 100)) (by decide)
      (by norm_num [mkLease])).2.2.1 (by decide),
    ((getPeriodsAndRate_period_count
      (mkLease Monthly (Date 2024 1 1) (Date 2024 12 31) 1000 (5 / 100)) (by decide)
      (by norm_num [mkLease])).2.2.2.1 (by decide) 12 (by decide) (by decide) (by decide)
      (by decide)).1⟩

theorem countsWithStep_monthStep (l : Lease) (hs : supported l.PaymentFrequency)
    (hr : 0 < l.DiscountRate) (hok : (getPeriodsAndRate l).2.2 = none) :
    countsWithStep l (monthStep l.PaymentFrequency) := by
  unfold countsWithStep
  rcases getPeriodsAndRate_cases l hs hr with ⟨h1, hg⟩ | ⟨h1, n, hn1, hn2, hg, hge, hlt⟩ |
      ⟨_, _, hg⟩
  · rw [marker_succ, marker_zero] at h1
    rw [hg]
    simp [h1]
  · rw [marker_succ, marker_zero] at h1
    rw [hg]
    simp only [h1, Bool.false_eq_true, iff_false]
    exact ⟨by omega, hlt, fun _ => hge⟩
  · rw [hg] at hok
    simp at hok

theorem monthStep_Monthly : monthStep Monthly = 1 := by decide

theorem monthStep_Quarterly : monthStep Quarterly = 3 := by decide

theorem monthStep_Annually : monthStep Annually = 12 := by decide

theorem periodsPerYear_Monthly : periodsPerYear Monthly = 12 := by
  simp [periodsPerYear]

theorem periodsPerYear_Quarterly : periodsPerYear Quarterly = 4 := by
  simp [periodsPerYear, Quarterly, Monthly]

theorem periodsPerYear_Annually : periodsPerYear Annually = 1 := by
  simp [periodsPerYear, Quarterly, Monthly, Annually]

/-- C4. For every lease with a positive discount rate on which `getPeriodsAndRate` succeeds, the
frequency is Monthly, Quarterly or Annually, the returned periodic rate is the discount rate
divided by 12, 4 and 1 respectively, and the period count is the one of markers stepping by 1, 3
and 12 months respectively; the rate is returned whatever the period count is, also when it is
0, as for the Monthly lease 2024-01-01 to 2024-01-20 at rate 0.05. -/
theorem getPeriodsAndRate_periodic_rate (l : Lease) (hr : 0 < l.DiscountRate)
    (hok : (getPeriodsAndRate l).2.2 = none) :
    (l.PaymentFrequency = Monthly ∨ l.PaymentFrequency = Quarterly ∨
      l.PaymentFrequency = Annually) ∧
    (l.PaymentFrequency = Monthly →
      (getPeriodsAndRate l).2.1 = l.DiscountRate / 12 ∧ countsWithStep l 1) ∧
    (l.PaymentFrequency = Quarterly →
      (getPeriodsAndRate l).2.1 = l.DiscountRate / 4 ∧ countsWithStep l 3) ∧
    (l.PaymentFrequency = Annually →
      (getPeriodsAndRate l).2.1 = l.DiscountRate / 1 ∧ countsWithStep l 12) ∧
    getPeriodsAndRate (mkLease Monthly (Date 2024 1 1) (Date 2024 1 20) 1000 (5 / 100))
      = (0, 5 / 100 / 12, none) := by
  obtain ⟨hs, _, hrate⟩ := getPeriodsAndRate_ok l hok
  have hc := countsWithStep_monthStep l hs hr hok
  refine ⟨hs, ?_, ?_, ?_, ?_⟩
  · intro h
    rw [h, monthStep_Monthly] at hc
    rw [h, periodsPerYear_Monthly] at hrate
    exact ⟨hrate, hc⟩
  · intro h
    rw [h, monthStep_Quarterly] at hc
    rw [h, periodsPerYear_Quarterly] at hrate
    exact ⟨hrate, hc⟩
  · intro h
    rw [h, monthStep_Annually] at hc
    rw [h, periodsPerYear_Annually] at hrate
    exact ⟨hrate, hc⟩
  · rw [getPeriodsAndRate_short_2024]
    norm_num

/-- Witness of C4: the Monthly lease 2024-01-01 to 2024-12-31 at rate 0.05 has the periodic rate
0.05 / 12. -/
theorem getPeriodsAndRate_periodic_rate_witness :
    (0 : ℚ) < (mkLease Monthly (Date 2024 1 1) (Date 2024 12 31) 1000 (5 / 100)).DiscountRate ∧
    (getPeriodsAndRate (mkLease Monthly (Date 2024 1 1) (Date 2024 12 31) 1000 (5 / 100))).2.1
      = (mkLease Monthly (Date 2024 1 1) (Date 2024 12 31) 1000 (5 / 100)).DiscountRate / 12 :=
  ⟨by norm_num [mkLease],
    ((getPeriodsAndRate_periodic_rate
      (mkLease Monthly (Date 2024 1 1) (Date 2024 12 31) 1000 (5 / 100))
      (by norm_num [mkLease]) (by rw [getPeriodsAndRate_monthly_2024])).2.1 rfl).1⟩

/-- C5. `getPeriodsAndRate` returns an error if and only if the frequency is not Monthly,
Quarterly or Annually, or the discount rate is at most 0, or more than 12000 period markers lie
before the end date (marker 12000, hence every marker up to it, is before the end date); in
every error case the returned period count and rate are 0; an unsupported frequency is the error
reported also when the rate is invalid; the Monthly lease 2000-01-01 to 3000-01-01 has exactly
12000 periods and succeeds, the one ending 3000-01-02 fails. -/
theorem getPeriodsAndRate_error_iff (l : Lease) :
    ((getPeriodsAndRate l).2.2.isSome = true ↔
      (¬ supported l.PaymentFrequency ∨ l.DiscountRate ≤ 0 ∨
        (marker l.StartDate (monthStep l.PaymentFrequency) 12000).Before l.EndDate = true)) ∧
    ((marker l.StartDate (monthStep l.PaymentFrequency) 12000).Before l.EndDate = true ↔
      ∀ j, j ≤ 12000 →
        (marker l.StartDate (monthStep l.PaymentFrequency) j).Before l.EndDate = true) ∧
    ((getPeriodsAndRate l).2.2.isSome = true →
      (getPeriodsAndRate l).1 = 0 ∧ (getPeriodsAndRate l).2.1 = 0) ∧
    (¬ supported l.PaymentFrequency →
      (getPeriodsAndRate l).2.2
        = some ("unsupported payment frequency: " ++ l.PaymentFrequency)) ∧
    getPeriodsAndRate (mkLease Monthly (Date 2000 1 1) (Date 3000 1 1) 1000 (5 / 100))
      = (12000, 5 / 100 / 12, none) ∧
    (getPeriodsAndRate
      (mkLease Monthly (Date 2000 1 1) (Date 3000 1 2) 1000 (5 / 100))).2.2.isSome = true := by
  have hm := monthStep_pos l.PaymentFrequency
  have hall : (marker l.StartDate (monthStep l.PaymentFrequency) 12000).Before l.EndDate = true ↔
      ∀ j, j ≤ 12000 →
        (marker l.StartDate (monthStep l.PaymentFrequency) j).Before l.EndDate = true := by
    constructor
    · intro h j hj
      have := marker_le l.StartDate _ hm hj
      simp only [Time.Before_iff] at h ⊢
      omega
    · intro h
      exact h 12000 (le_refl _)
  refine ⟨?_, hall, ?_, ?_, ?_, ?_⟩
  · by_cases hs : supported l.PaymentFrequency
    · by_cases hr : 0 < l.DiscountRate
      · rcases getPeriodsAndRate_cases l hs hr with ⟨h1, hg⟩ | ⟨h1, n, hn1, hn2, hg, hge, hlt⟩ |
          ⟨_, h2, hg⟩
        · have h2 : (marker l.StartDate (monthStep l.PaymentFrequency) 12000).Before l.EndDate
              = false := by
            have := marker_le l.StartDate _ hm (show 1 ≤ 12000 by omega)
            simp only [Time.Before_iff] at h1
            simp only [Time.Before, decide_eq_false_iff_not]
            omega
          simp [hg, hs, hr, h2]
        · have h2 : (marker l.StartDate (monthStep l.PaymentFrequency) 12000).Before l.EndDate
              = false := by
            have := marker_le l.StartDate _ hm hn2
            simp only [Time.Before, decide_eq_false_iff_not] at hge ⊢
            omega
          simp [hg, hs, hr, h2]
        · simp [hg, h2]
      · rw [getPeriodsAndRate_rate l hs (not_lt.mp hr)]
        simp [not_lt.mp hr]
    · rw [getPeriodsAndRate_unsupported l hs]
      simp [hs]
  · intro h
    by_cases hs : supported l.PaymentFrequency
    · by_cases hr : 0 < l.DiscountRate
      · rcases getPeriodsAndRate_cases l hs hr with ⟨_, hg⟩ | ⟨_, n, _, _, hg, _, _⟩ | ⟨_, _, hg⟩
        · rw [hg] at h
          simp at h
        · rw [hg] at h
          simp at h
        · rw [hg]
          exact ⟨rfl, rfl⟩
      · rw [getPeriodsAndRate_rate l hs (not_lt.mp hr)]
        exact ⟨rfl, rfl⟩
    · rw [getPeriodsAndRate_unsupported l hs]
      exact ⟨rfl, rfl⟩
  · intro hs
    rw [getPeriodsAndRate_unsupported l hs]
  · rw [getPeriodsAndRate_thousand_years]
    norm_num
  · rw [getPeriodsAndRate_over_cap]
    rfl

/-- Witness of C5: a lease with the frequency Weekly and rate 0 is rejected with the
unsupported frequency error, count 0 and rate 0. -/
theorem getPeriodsAndRate_error_iff_witness :
    ((getPeriodsAndRate (mkLease "Weekly" (Date 2024 1 1) (Date 2024 12 31) 1000 0)).1 = 0 ∧
      (getPeriodsAndRate (mkLease "Weekly" (Date 2024 1 1) (Date 2024 12 31) 1000 0)).2.1 = 0) ∧
    (getPeriodsAndRate (mkLease "Weekly" (Date 2024 1 1) (Date 2024 12 31) 1000 0)).2.2
      = some ("unsupported payment frequency: "
          ++ (mkLease "Weekly" (Date 2024 1 1) (Date 2024 12 31) 1000 0).PaymentFrequency) :=
  ⟨(getPeriodsAndRate_error_iff _).2.2.1
      ((getPeriodsAndRate_error_iff _).1.mpr (Or.inl (by decide))),
    (getPeriodsAndRate_error_iff _).2.2.2.1 (by decide)⟩

/-! ## Day count of the lease term -/

theorem Time.Sub_inRange (t u : Time) (h1 : -106751 ≤ t.absDays - u.absDays)
    (h2 : t.absDays - u.absDays ≤ 106751) :
    t.Sub u = (t.absDays - u.absDays) * 24 * Hour := by
  simp only [Time.Sub, minDuration, maxDuration, Hour]
  rw [if_pos (by constructor <;> omega)]
  ring

theorem Time.Sub_saturated (t u : Time) (h : 106751 < t.absDays - u.absDays) :
    t.Sub u = maxDuration := by
  simp only [Time.Sub, minDuration, maxDuration, Hour]
  rw [if_neg (by omega), if_neg (by simp only [Time.Before_iff]; omega)]

theorem Hours_days (D : Int) : Hours (D * 24 * Hour) = D * 24 := by
  simp only [Hours]
  rw [Int.mul_tdiv_cancel _ (by decide), Int.mul_tmod_left]
  push_cast
  ring

/-- The day count `int(end.Sub(start).Hours()/24)` of the schedules is the number of days
between the two dates when that is at most 106751 days. -/
theorem totalDays_inRange (t u : Time) (h1 : 0 ≤ t.absDays - u.absDays)
    (h2 : t.absDays - u.absDays ≤ 106751) :
    truncToInt (Hours (t.Sub u) / 24) = t.absDays - u.absDays := by
  rw [Time.Sub_inRange t u (by omega) h2, Hours_days]
  have e : ((t.absDays - u.absDays : Int) : ℚ) * 24 / 24 = ((t.absDays - u.absDays : Int) : ℚ) := by
    field_simp
  rw [e, truncToInt, if_pos (by exact_mod_cast h1), Int.floor_intCast]

/-- Beyond 106751 days the `Duration` saturates and the day count stays at 106751. -/
theorem totalDays_saturated (t u : Time) (h : 106751 < t.absDays - u.absDays) :
    truncToInt (Hours (t.Sub u) / 24) = 106751 := by
  rw [Time.Sub_saturated t u h]
  have e : Hours maxDuration = 2562047 + 2836854775807 / 3600000000000 := by
    simp only [Hours, maxDuration, Hour]
    have h1 : Int.tdiv 9223372036854775807 3600000000000 = 2562047 := by decide
    have h2 : Int.tmod 9223372036854775807 3600000000000 = 2836854775807 := by decide
    rw [h1, h2]
    norm_num
  rw [e, truncToInt, if_pos (by norm_num), Int.floor_eq_iff]
  norm_num

/-! ## The daily loop of `GenerateLiabilitySchedule` -/

theorem liabilityDay_date (l : Lease) (dr ti tp tpay : ℚ) (s : LoopState) :
    (liabilityDay l dr ti tp tpay s).1.Date = s.currentDate ∧
      (liabilityDay l dr ti tp tpay s).2.currentDate = s.currentDate.AddDate 0 0 1 := by
  exact ⟨by simp only [liabilityDay], by simp only [liabilityDay]⟩

theorem liabilityLoop_length (l : Lease) (dr ti tp tpay : ℚ) (n : Nat) :
    ∀ s : LoopState, (liabilityLoop l dr ti tp tpay n s).length = n := by
  induction n with
  | zero => intro s; rfl
  | succ k ih =>
    intro s
    simp only [liabilityLoop, List.length_cons, ih]

/-- The entries of the daily loop are dated on consecutive days from the current date. -/
theorem liabilityLoop_dates (l : Lease) (dr ti tp tpay : ℚ) (n : Nat) :
    ∀ s : LoopState, (liabilityLoop l dr ti tp tpay n s).map (fun e => e.Date)
      = (List.range n).map (fun (i : Nat) => (⟨s.currentDate.absDays + (i : Int)⟩ : Time)) := by
  induction n with
  | zero => intro s; rfl
  | succ k ih =>
    intro s
    obtain ⟨h1, h2⟩ := liabilityDay_date l dr ti tp tpay s
    simp only [liabilityLoop, List.map_cons, ih, List.range_succ_eq_map, List.map_map, h1, h2]
    congr 1
    · simp
    · apply List.map_congr_left
      intro i _
      simp only [Function.comp, Time.AddDate_days]
      congr 1
      push_cast
      ring

/-- The daily loop that `GenerateLiabilitySchedule` runs when the period count is not 0. -/
theorem GenerateLiabilitySchedule_loop (l : Lease) (x : ℚ) (n : Nat) (r : ℚ)
    (hg : getPeriodsAndRate l = (n, r, none)) (hn : n ≠ 0) :
    ∃ (ti tp tpay : ℚ) (s : LoopState), s.currentDate = l.StartDate ∧
      s.openingBalance = x ∧ s.period = 1 ∧
      GenerateLiabilitySchedule l x =
        if truncToInt (Hours (l.EndDate.Sub l.StartDate) / 24) + 1 ≤ 0 then ([], none)
        else (liabilityLoop l (l.DiscountRate / 365) ti tp tpay
          (truncToInt (Hours (l.EndDate.Sub l.StartDate) / 24) + 1).toNat s, none) := by
  obtain ⟨hs, _, _⟩ := getPeriodsAndRate_ok l (by rw [hg])
  simp only [GenerateLiabilitySchedule, hg, hn, if_false]
  by_cases ht : truncToInt (Hours (l.EndDate.Sub l.StartDate) / 24) + 1 ≤ 0
  · refine ⟨0, 0, 0, ⟨x, l.StartDate, 1, [], 0, 0⟩, rfl, rfl, rfl, ?_⟩
    simp only [ht, if_true]
  · simp only [ht, if_false]
    rcases hs with h | h | h
    · simp only [h, if_true]
      exact ⟨_, _, _, _, rfl, rfl, rfl, rfl⟩
    · simp only [h, show ¬ (Quarterly = Monthly) by decide, if_true, if_false]
      exact ⟨_, _, _, _, rfl, rfl, rfl, rfl⟩
    · simp only [h, show ¬ (Annually = Monthly) by decide,
        show ¬ (Annually = Quarterly) by decide, if_true, if_false]
      exact ⟨_, _, _, _, rfl, rfl, rfl, rfl⟩

theorem GenerateLiabilitySchedule_zero (l : Lease) (x : ℚ) (r : ℚ)
    (hg : getPeriodsAndRate l = (0, r, none)) : GenerateLiabilitySchedule l x = ([], none) := by
  simp only [GenerateLiabilitySchedule, hg, if_true]

/-- The schedule of a lease of at most 106751 days with a period count of at least 1: no error,
one entry for each day from the start date to the end date. -/
theorem GenerateLiabilitySchedule_daily (l : Lease) (x : ℚ) (n : Nat) (r : ℚ)
    (hg : getPeriodsAndRate l = (n, r, none)) (hn : n ≠ 0)
    (h1 : 0 ≤ l.EndDate.absDays - l.StartDate.absDays)
    (h2 : l.EndDate.absDays - l.StartDate.absDays ≤ 106751) :
    (GenerateLiabilitySchedule l x).2 = none ∧
    (GenerateLiabilitySchedule l x).1.length
      = (l.EndDate.absDays - l.StartDate.absDays).toNat + 1 ∧
    (GenerateLiabilitySchedule l x).1.map (fun e => e.Date)
      = (List.range ((l.EndDate.absDays - l.StartDate.absDays).toNat + 1)).map
          (fun (i : Nat) => (⟨l.StartDate.absDays + (i : Int)⟩ : Time)) := by
  obtain ⟨ti, tp, tpay, s, hs, _, _, hgen⟩ := GenerateLiabilitySchedule_loop l x n r hg hn
  rw [hgen, totalDays_inRange _ _ h1 h2, if_neg (by omega)]
  have e : (l.EndDate.absDays - l.StartDate.absDays + 1).toNat
      = (l.EndDate.absDays - l.StartDate.absDays).toNat + 1 := by omega
  rw [e]
  refine ⟨rfl, liabilityLoop_length _ _ _ _ _ _ _, ?_⟩
  rw [liabilityLoop_dates, hs]

/-- The schedule of a lease of more than 106751 days with a period count of at least 1: no
error, 106752 entries on the consecutive days from the start date, none of them dated the end
date. -/
theorem GenerateLiabilitySchedule_long (l : Lease) (x : ℚ) (n : Nat) (r : ℚ)
    (hg : getPeriodsAndRate l = (n, r, none)) (hn : n ≠ 0)
    (h : 106751 < l.EndDate.absDays - l.StartDate.absDays) :
    (GenerateLiabilitySchedule l x).2 = none ∧
    (GenerateLiabilitySchedule l x).1.length = 106752 ∧
    (GenerateLiabilitySchedule l x).1.map (fun e => e.Date)
      = (List.range 106752).map (fun (i : Nat) => (⟨l.StartDate.absDays + (i : Int)⟩ : Time)) ∧
    ∀ e ∈ (GenerateLiabilitySchedule l x).1, e.Date ≠ l.EndDate := by
  obtain ⟨ti, tp, tpay, s, hs, _, _, hgen⟩ := GenerateLiabilitySchedule_loop l x n r hg hn
  rw [hgen, totalDays_saturated _ _ h, if_neg (by omega)]
  have e : ((106751 : Int) + 1).toNat = 106752 := by decide
  rw [e]
  have hd := liabilityLoop_dates l (l.DiscountRate / 365) ti tp tpay 106752 s
  rw [hs] at hd
  refine ⟨rfl, liabilityLoop_length _ _ _ _ _ _ _, hd, ?_⟩
  intro en hen habs
  have hmem : en.Date ∈ (liabilityLoop l (l.DiscountRate / 365) ti tp tpay 106752 s).map
      (fun e => e.Date) := List.mem_map_of_mem _ hen
  rw [hd, List.mem_map] at hmem
  obtain ⟨i, hi, hie⟩ := hmem
  rw [List.mem_range] at hi
  rw [habs] at hie
  have : l.StartDate.absDays + (i : Int) = l.EndDate.absDays := by rw [← hie]
  omega

/-! ## Short leases, whole periods, month stepping -/

theorem CalculateLeaseLiability_zero_periods (l : Lease) (r : ℚ) (hp : 0 < l.PaymentAmount)
    (hr : 0 < l.DiscountRate) (hs : l.StartDate.IsZero = false) (he : l.EndDate.IsZero = false)
    (hb : l.EndDate.Before l.StartDate = false) (hg : getPeriodsAndRate l = (0, r, none)) :
    CalculateLeaseLiability l = (0, none) := by
  rw [CalculateLeaseLiability_valid l 0 r hp hr hs he hb hg, if_pos rfl]

/-- A lease that ends on its start date is shorter than one period. -/
theorem Before_first_marker_of_eq (l : Lease) (h : l.EndDate = l.StartDate) :
    l.EndDate.Before (l.StartDate.AddDate 0 (monthStep l.PaymentFrequency) 0) = true := by
  have := Time.AddDate_months_ge l.StartDate _ (monthStep_pos l.PaymentFrequency)
  have hm := monthStep_pos l.PaymentFrequency
  rw [h, Time.Before_iff]
  omega

/-- C6, counterexample. The Monthly lease 0001-01-01 to 0001-01-20 with payment 1000 and rate
0.05 has a supported frequency, a positive rate and payment, does not end before it starts and
is shorter than one period, yet `CalculateLeaseLiability` rejects it: its start date is the zero
date. -/
theorem CalculateLeaseLiability_short_zero_date :
    supported (mkLease Monthly (Date 1 1 1) (Date 1 1 20) 1000 (5 / 100)).PaymentFrequency ∧
    0 < (mkLease Monthly (Date 1 1 1) (Date 1 1 20) 1000 (5 / 100)).DiscountRate ∧
    0 < (mkLease Monthly (Date 1 1 1) (Date 1 1 20) 1000 (5 / 100)).PaymentAmount ∧
    (mkLease Monthly (Date 1 1 1) (Date 1 1 20) 1000 (5 / 100)).EndDate.Before
      (mkLease Monthly (Date 1 1 1) (Date 1 1 20) 1000 (5 / 100)).StartDate = false ∧
    (mkLease Monthly (Date 1 1 1) (Date 1 1 20) 1000 (5 / 100)).EndDate.Before
      ((mkLease Monthly (Date 1 1 1) (Date 1 1 20) 1000 (5 / 100)).StartDate.AddDate 0
        (monthStep (mkLease Monthly (Date 1 1 1) (Date 1 1 20) 1000 (5 / 100)).PaymentFrequency)
        0) = true ∧
    CalculateLeaseLiability (mkLease Monthly (Date 1 1 1) (Date 1 1 20) 1000 (5 / 100))
      = (0, some "invalid start or end date") ∧
    (CalculateLeaseLiability (mkLease Monthly (Date 1 1 1) (Date 1 1 20) 1000 (5 / 100))).2
      ≠ none := by
  have key : CalculateLeaseLiability (mkLease Monthly (Date 1 1 1) (Date 1 1 20) 1000 (5 / 100))
      = (0, some "invalid start or end date") := by
    have h : (mkLease Monthly (Date 1 1 1) (Date 1 1 20) 1000 (5 / 100)).StartDate.IsZero
        = true := by decide
    have hp : ¬ (mkLease Monthly (Date 1 1 1) (Date 1 1 20) 1000 (5 / 100)).PaymentAmount ≤ 0 := by
      norm_num [mkLease]
    have hr : ¬ (mkLease Monthly (Date 1 1 1) (Date 1 1 20) 1000 (5 / 100)).DiscountRate ≤ 0 := by
      norm_num [mkLease]
    simp only [CalculateLeaseLiability, hp, hr, h, Bool.true_or, if_true, if_false]
  refine ⟨by decide, by norm_num [mkLease], by norm_num [mkLease], by decide, by decide, key, ?_⟩
  rw [key]
  simp

/-- C6, amended. For every lease with a supported frequency, a positive rate and a positive
payment, whose start and end dates are not the zero date 0001-01-01 and whose end date is on or
after the start date but before the start date plus one payment period (in particular when the
end date is the start date): `getPeriodsAndRate` returns 0 periods without error,
`CalculateLeaseLiability` returns 0 without error, and `GenerateLiabilitySchedule` returns an
empty schedule without error. -/
theorem short_lease_zero (l : Lease) (x : ℚ) (hs : supported l.PaymentFrequency)
    (hr : 0 < l.DiscountRate) (hp : 0 < l.PaymentAmount) (hz1 : l.StartDate.IsZero = false)
    (hz2 : l.EndDate.IsZero = false) (hb : l.EndDate.Before l.StartDate = false)
    (hshort : l.EndDate.Before (l.StartDate.AddDate 0 (monthStep l.PaymentFrequency) 0) = true ∨
      l.EndDate = l.StartDate) :
    getPeriodsAndRate l = (0, l.DiscountRate / periodsPerYear l.PaymentFrequency, none) ∧
    CalculateLeaseLiability l = (0, none) ∧
    GenerateLiabilitySchedule l x = ([], none) := by
  have h1 : l.EndDate.Before (marker l.StartDate (monthStep l.PaymentFrequency) 1) = true := by
    rw [marker_succ, marker_zero]
    rcases hshort with h | h
    · exact h
    · exact Before_first_marker_of_eq l h
  have hg := getPeriodsAndRate_short l hs hr h1
  exact ⟨hg, CalculateLeaseLiability_zero_periods l _ hp hr hz1 hz2 hb hg,
    GenerateLiabilitySchedule_zero l x _ hg⟩

/-- Witness of the amended C6: the Monthly lease 2024-01-01 to 2024-01-20 with payment 1000 and
rate 0.05. -/
theorem short_lease_zero_witness :
    getPeriodsAndRate (mkLease Monthly (Date 2024 1 1) (Date 2024 1 20) 1000 (5 / 100))
      = (0, (mkLease Monthly (Date 2024 1 1) (Date 2024 1 20) 1000 (5 / 100)).DiscountRate
          / periodsPerYear
            (mkLease Monthly (Date 2024 1 1) (Date 2024 1 20) 1000 (5 / 100)).PaymentFrequency,
          none) ∧
    CalculateLeaseLiability (mkLease Monthly (Date 2024 1 1) (Date 2024 1 20) 1000 (5 / 100))
      = (0, none) ∧
    GenerateLiabilitySchedule (mkLease Monthly (Date 2024 1 1) (Date 2024 1 20) 1000 (5 / 100))
      (1168122 / 100) = ([], none) :=
  short_lease_zero (mkLease Monthly (Date 2024 1 1) (Date 2024 1 20) 1000 (5 / 100))
    (1168122 / 100) (by decide) (by norm_num [mkLease]) (by norm_num [mkLease]) (by decide)
    (by decide) (by decide) (Or.inl (by decide))

/-- Period count of a lease of `k` whole periods that starts on a day of the month of at most
28 and ends on the day before the start date plus `k` periods. -/
theorem getPeriodsAndRate_whole_periods (l : Lease) (k : Nat)
    (hs : supported l.PaymentFrequency) (hr : 0 < l.DiscountRate)
    (hday : l.StartDate.Date.2.2 ≤ 28)
    (hend : l.EndDate
      = (l.StartDate.AddDate 0 (k * monthStep l.PaymentFrequency) 0).AddDate 0 0 (-1)) :
    (2 ≤ k → k ≤ 12000 →
      getPeriodsAndRate l = (k, l.DiscountRate / periodsPerYear l.PaymentFrequency, none)) ∧
    (k = 1 →
      getPeriodsAndRate l = (0, l.DiscountRate / periodsPerYear l.PaymentFrequency, none)) := by
  have hm := monthStep_pos l.PaymentFrequency
  have hk := marker_eq_AddDate l.StartDate (monthStep l.PaymentFrequency) hday k
  have he : l.EndDate.absDays
      = (marker l.StartDate (monthStep l.PaymentFrequency) k).absDays - 1 := by
    rw [hend, Time.AddDate_days, hk]
    ring
  constructor
  · intro h2 h12
    have s1 := marker_step l.StartDate _ hm (k - 1)
    have e1 : k - 1 + 1 = k := by omega
    rw [e1] at s1
    have s2 := marker_le l.StartDate _ hm (show 1 ≤ k - 1 by omega)
    refine getPeriodsAndRate_bracket l hs hr k (by omega) h12 ?_ ?_ ?_
    · simp only [Time.Before, decide_eq_false_iff_not]
      omega
    · simp only [Time.Before_iff]
      omega
    · simp only [Time.Before, decide_eq_false_iff_not]
      omega
  · intro h1
    subst h1
    refine getPeriodsAndRate_short l hs hr ?_
    simp only [Time.Before_iff]
    omega

/-- C7, counterexample. The Monthly lease that starts 2024-01-01 and ends the day before the
start date plus 1 month, 2024-01-31, is a term of exactly 1 full period, and its period count is
0, not 1. -/
theorem getPeriodsAndRate_one_period :
    (Date 2024 1 1).Date.2.2 ≤ 28 ∧
    Date 2024 1 31 = ((Date 2024 1 1).AddDate 0 (((1 : Nat) : Int) * monthStep Monthly) 0).AddDate
      0 0 (-1) ∧
    (getPeriodsAndRate (mkLease Monthly (Date 2024 1 1) (Date 2024 1 31) 1000 (5 / 100))).1 = 0 ∧
    (getPeriodsAndRate (mkLease Monthly (Date 2024 1 1) (Date 2024 1 31) 1000 (5 / 100))).1
      ≠ 1 := by
  have h := getPeriodsAndRate_short
    (mkLease Monthly (Date 2024 1 1) (Date 2024 1 31) 1000 (5 / 100)) (by decide)
    (by norm_num [mkLease]) (by decide)
  rw [h]
  exact ⟨by decide, by decide, rfl, by decide⟩

/-- C7, amended. For every supported frequency with month step `m`, every start date whose day
of the month is at most 28 and every `k` with `2 ≤ k ≤ 12000`: a lease (with a positive rate)
whose end date is the day before the start date plus `k * m` calendar months has period count
exactly `k`, without error; for `k = 1` the period count is 0. So the 1-year monthly lease of
the tests has 12 periods, the 2-year quarterly lease 8, the 5-year annual lease 5 and the
3-year annual lease 3. -/
theorem getPeriodsAndRate_full_periods :
    (∀ (l : Lease) (k : Nat), supported l.PaymentFrequency → 0 < l.DiscountRate →
      l.StartDate.Date.2.2 ≤ 28 →
      l.EndDate = (l.StartDate.AddDate 0 (k * monthStep l.PaymentFrequency) 0).AddDate 0 0 (-1) →
      (2 ≤ k → k ≤ 12000 → (getPeriodsAndRate l).1 = k ∧ (getPeriodsAndRate l).2.2 = none) ∧
      (k = 1 → (getPeriodsAndRate l).1 = 0 ∧ (getPeriodsAndRate l).2.2 = none)) ∧
    (getPeriodsAndRate (mkLease Monthly (Date 2024 1 1) (Date 2024 12 31) 1000 (5 / 100))).1
      = 12 ∧
    (getPeriodsAndRate (mkLease Quarterly (Date 2024 1 15) (Date 2026 1 14) 5000 (8 / 100))).1
      = 8 ∧
    (getPeriodsAndRate (mkLease Annually (Date 2024 7 1) (Date 2029 6 30) 20000 (6 / 100))).1
      = 5 ∧
    (getPeriodsAndRate (mkLease Annually (Date 2024 3 1) (Date 2027 2 28) 20000 (6 / 100))).1
      = 3 := by
  refine ⟨?_, ?_, ?_, ?_, ?_⟩
  · intro l k hs hr hday hend
    obtain ⟨h1, h2⟩ := getPeriodsAndRate_whole_periods l k hs hr hday hend
    constructor
    · intro a b
      rw [h1 a b]
      exact ⟨rfl, rfl⟩
    · intro a
      rw [h2 a]
      exact ⟨rfl, rfl⟩
  · rw [(getPeriodsAndRate_whole_periods
      (mkLease Monthly (Date 2024 1 1) (Date 2024 12 31) 1000 (5 / 100)) 12 (by decide)
      (by norm_num [mkLease]) (by decide) (by decide)).1 (by decide) (by decide)]
  · rw [(getPeriodsAndRate_whole_periods
      (mkLease Quarterly (Date 2024 1 15) (Date 2026 1 14) 5000 (8 / 100)) 8 (by decide)
      (by norm_num [mkLease]) (by decide) (by decide)).1 (by decide) (by decide)]
  · rw [(getPeriodsAndRate_whole_periods
      (mkLease Annually (Date 2024 7 1) (Date 2029 6 30) 20000 (6 / 100)) 5 (by decide)
      (by norm_num [mkLease]) (by decide) (by decide)).1 (by decide) (by decide)]
  · rw [(getPeriodsAndRate_whole_periods
      (mkLease Annually (Date 2024 3 1) (Date 2027 2 28) 20000 (6 / 100)) 3 (by decide)
      (by norm_num [mkLease]) (by decide) (by decide)).1 (by decide) (by decide)]

/-- Witness of the amended C7: the Quarterly lease 2024-01-15 to 2026-01-14 is a term of 8 whole
quarters and has 8 periods. -/
theorem getPeriodsAndRate_full_periods_witness :
    (Date 2024 1 15).Date.2.2 ≤ 28 ∧
    (getPeriodsAndRate (mkLease Quarterly (Date 2024 1 15) (Date 2026 1 14) 5000 (8 / 100))).1
      = 8 ∧
    (getPeriodsAndRate (mkLease Quarterly (Date 2024 1 15) (Date 2026 1 14) 5000 (8 / 100))).2.2
      = none :=
  ⟨by decide,
    (getPeriodsAndRate_full_periods.1
      (mkLease Quarterly (Date 2024 1 15) (Date 2026 1 14) 5000 (8 / 100)) 8 (by decide)
      (by norm_num [mkLease]) (by decide) (by decide)).1 (by decide) (by decide)⟩

/-- C8, counterexample. For a Monthly lease starting 2024-01-31 the first marker is not
2024-02-29 but 2024-03-02, and the lease 2024-01-31 to 2024-03-01 has no period. -/
theorem marker_not_clamped :
    marker (Date 2024 1 31) (monthStep Monthly) 1 ≠ Date 2024 2 29 ∧
    marker (Date 2024 1 31) (monthStep Monthly) 1 = Date 2024 3 2 ∧
    ¬ (1 ≤ (getPeriodsAndRate
      (mkLease Monthly (Date 2024 1 31) (Date 2024 3 1) 1000 (5 / 100))).1) := by
  have h := getPeriodsAndRate_short
    (mkLease Monthly (Date 2024 1 31) (Date 2024 3 1) 1000 (5 / 100)) (by decide)
    (by norm_num [mkLease]) (by decide)
  rw [h]
  exact ⟨by decide, by decide, by decide⟩

/-- C8, amended. Period markers are obtained by calendar-month stepping from the previous
marker without clamping: a marker keeps the day of the month of the previous marker when the
target month has that day, and otherwise falls into the month after the target month, on the
day reduced by the length of the target month. For a Monthly lease starting 2024-01-31 the first
marker is 2024-03-02, so the lease 2024-01-31 to 2024-03-01 has no period and the lease
2024-01-31 to 2024-03-02 has one. When the start day is at most 28, every marker keeps the
start day and lies a whole number of month steps after the start date. -/
theorem marker_month_stepping (s : Time) (m : Int) (j : Nat) :
    (marker s m (j + 1)).Date = rollover (marker s m j) m ∧
    (s.Date.2.2 ≤ 28 →
      marker s m j = s.AddDate 0 (j * m) 0 ∧ (marker s m j).Date.2.2 = s.Date.2.2) ∧
    (marker (Date 2024 1 31) (monthStep Monthly) 1).Date = (2024, 3, 2) ∧
    (getPeriodsAndRate (mkLease Monthly (Date 2024 1 31) (Date 2024 3 1) 1000 (5 / 100))).1
      = 0 ∧
    (getPeriodsAndRate (mkLease Monthly (Date 2024 1 31) (Date 2024 3 2) 1000 (5 / 100))).1
      = 1 := by
  refine ⟨?_, ?_, by decide, ?_, ?_⟩
  · rw [marker_succ]
    unfold rollover
    simp only
    split
    · rename_i h
      exact Time.AddDate_months_fits _ _ h
    · rename_i h
      exact Time.AddDate_months_over _ _ (not_le.mp h)
  · intro h
    exact ⟨marker_eq_AddDate s m h j, (marker_small s m h j).1⟩
  · rw [getPeriodsAndRate_short
      (mkLease Monthly (Date 2024 1 31) (Date 2024 3 1) 1000 (5 / 100)) (by decide)
      (by norm_num [mkLease]) (by decide)]
  · rw [getPeriodsAndRate_bracket
      (mkLease Monthly (Date 2024 1 31) (Date 2024 3 2) 1000 (5 / 100)) (by decide)
      (by norm_num [mkLease]) 1 (by decide) (by decide) (by decide) (by decide) (by decide)]

/-- Witness of the amended C8: from the start date 2024-01-15 the second Quarterly marker is
2024-07-15, two steps of three months after the start date. -/
theorem marker_month_stepping_witness :
    (Date 2024 1 15).Date.2.2 ≤ 28 ∧
    marker (Date 2024 1 15) 3 2 = (Date 2024 1 15).AddDate 0 (((2 : Nat) : Int) * 3) 0 ∧
    (marker (Date 2024 1 15) 3 2).Date.2.2 = (Date 2024 1 15).Date.2.2 :=
  ⟨by decide, (marker_month_stepping (Date 2024 1 15) 3 2).2.1 (by decide)⟩

/-! ## `CalculateInitialRoUAsset` -/

/-- C9. For every liability value, whatever its sign, and every lease,
`CalculateInitialRoUAsset` returns exactly the liability value it was given and no error; the
result is the same for any two leases. -/
theorem CalculateInitialRoUAsset_identity (leaseLiability : ℚ) (l k : Lease) :
    CalculateInitialRoUAsset leaseLiability l = (leaseLiability, none) ∧
    CalculateInitialRoUAsset leaseLiability l = CalculateInitialRoUAsset leaseLiability k :=
  ⟨rfl, rfl⟩

/-! ## Length of the liability schedule -/

theorem getPeriodsAndRate_three_centuries :
    getPeriodsAndRate (mkLease Monthly (Date 2000 1 1) (Date 2300 1 1) 1000 (5 / 100))
      = (3600, 1 / 240, none) := by
  have h := getPeriodsAndRate_bracket
    (mkLease Monthly (Date 2000 1 1) (Date 2300 1 1) 1000 (5 / 100)) (by decide)
    (by norm_num [mkLease]) 3600 (by omega) (by omega) (by decide)
    (by
      have e := marker_eq_AddDate (Date 2000 1 1) 1 (by decide) 3599
      simp only [mkLease]
      rw [show monthStep Monthly = 1 from rfl, show 3600 - 1 = 3599 from rfl, e]
      decide)
    (by
      have e := marker_eq_AddDate (Date 2000 1 1) 1 (by decide) 3600
      simp only [mkLease]
      rw [show monthStep Monthly = 1 from rfl, e]
      decide)
  rw [h]
  norm_num [mkLease, periodsPerYear]

/-- C10, the code at the failing input. The Monthly lease 2000-01-01 to 2300-01-01 with payment
1000 and rate 0.05 has 3600 periods and a term of 109573 days, 109574 counting both ends; for
every initial liability `GenerateLiabilitySchedule` returns without error a schedule of 106752
entries, dated on the consecutive days from the start date, none of which is dated the lease
end. -/
theorem GenerateLiabilitySchedule_long_lease (initialLiability : ℚ) :
    (getPeriodsAndRate (mkLease Monthly (Date 2000 1 1) (Date 2300 1 1) 1000 (5 / 100))).1
      = 3600 ∧
    (Date 2300 1 1).absDays - (Date 2000 1 1).absDays + 1 = 109574 ∧
    (GenerateLiabilitySchedule (mkLease Monthly (Date 2000 1 1) (Date 2300 1 1) 1000 (5 / 100))
      initialLiability).2 = none ∧
    (GenerateLiabilitySchedule (mkLease Monthly (Date 2000 1 1) (Date 2300 1 1) 1000 (5 / 100))
      initialLiability).1.length = 106752 ∧
    (GenerateLiabilitySchedule (mkLease Monthly (Date 2000 1 1) (Date 2300 1 1) 1000 (5 / 100))
      initialLiability).1.map (fun e => e.Date)
      = (List.range 106752).map
          (fun (i : Nat) => (⟨(Date 2000 1 1).absDays + (i : Int)⟩ : Time)) ∧
    ∀ e ∈ (GenerateLiabilitySchedule
        (mkLease Monthly (Date 2000 1 1) (Date 2300 1 1) 1000 (5 / 100)) initialLiability).1,
      e.Date ≠ Date 2300 1 1 := by
  have hg := getPeriodsAndRate_three_centuries
  obtain ⟨h1, h2, h3, h4⟩ := GenerateLiabilitySchedule_long
    (mkLease Monthly (Date 2000 1 1) (Date 2300 1 1) 1000 (5 / 100)) initialLiability 3600
    (1 / 240) hg (by decide) (by decide)
  refine ⟨by rw [hg], by decide, h1, h2, h3, h4⟩

/-! ## The daily loop as a list of loop states -/

theorem liabilityLoop_eq_map (l : Lease) (dr ti tp tpay : ℚ) (n : Nat) :
    ∀ s : LoopState, liabilityLoop l dr ti tp tpay n s
      = (liabilityStates l dr ti tp tpay n s).map (fun s => (liabilityDay l dr ti tp tpay s).1) := by
  induction n with
  | zero => intro s; rfl
  | succ k ih =>
    intro s
    simp only [liabilityLoop, liabilityStates, List.map_cons, ih]

theorem liabilityStates_length (l : Lease) (dr ti tp tpay : ℚ) (n : Nat) :
    ∀ s : LoopState, (liabilityStates l dr ti tp tpay n s).length = n := by
  induction n with
  | zero => intro s; rfl
  | succ k ih =>
    intro s
    simp only [liabilityStates, List.length_cons, ih]

theorem scheduleStates_map (l : Lease) (n : Nat) (x : ℚ) :
    (scheduleStates l n x).map (scheduleEntry l n)
      = liabilityLoop l (l.DiscountRate / 365) (totalInterest l n) totalPrincipal
          (totalPayment l n) (totalDays l).toNat (initialState l n x) := by
  rw [liabilityLoop_eq_map]
  rfl

/-- The schedule of a lease with period count `n ≥ 1`, written with the loop states. -/
theorem GenerateLiabilitySchedule_eq (l : Lease) (x : ℚ) (n : Nat) (r : ℚ)
    (hg : getPeriodsAndRate l = (n, r, none)) (hn : n ≠ 0) :
    GenerateLiabilitySchedule l x =
      if totalDays l ≤ 0 then ([], none)
      else ((scheduleStates l n x).map (scheduleEntry l n), none) := by
  obtain ⟨hs, _, _⟩ := getPeriodsAndRate_ok l (by rw [hg])
  rw [scheduleStates_map]
  simp only [GenerateLiabilitySchedule, hg, hn, if_false]
  by_cases ht : totalDays l ≤ 0
  · have ht' := ht
    simp only [totalDays] at ht'
    simp only [ht, ht', if_true]
  · have ht' := ht
    simp only [totalDays] at ht'
    simp only [ht, ht', if_false]
    rcases hs with h | h | h
    · have hm : monthStep l.PaymentFrequency = 1 := by rw [h]; rfl
      simp only [h, if_true, totalInterest, totalPayment, totalPrincipal, paymentsList,
        initialState, totalDays, monthStep_Monthly]
    · have hm : monthStep l.PaymentFrequency = 3 := by rw [h]; rfl
      simp only [h, show ¬ (Quarterly = Monthly) by decide, if_true, if_false, totalInterest,
        totalPayment, totalPrincipal, paymentsList, initialState, totalDays,
        monthStep_Quarterly]
    · have hm : monthStep l.PaymentFrequency = 12 := by rw [h]; rfl
      simp only [h, show ¬ (Annually = Monthly) by decide,
        show ¬ (Annually = Quarterly) by decide, if_true, if_false, totalInterest,
        totalPayment, totalPrincipal, paymentsList, initialState, totalDays,
        monthStep_Annually]

/-! ## One day of the daily loop -/

theorem liabilityDay_entry (l : Lease) (dr ti tp tpay : ℚ) (s : LoopState) :
    (liabilityDay l dr ti tp tpay s).1.Period = s.period ∧
    (liabilityDay l dr ti tp tpay s).1.Date = s.currentDate ∧
    (liabilityDay l dr ti tp tpay s).1.OpeningBalance = roundFloat s.openingBalance 2 ∧
    (liabilityDay l dr ti tp tpay s).1.InterestExpense = roundFloat (s.openingBalance * dr) 2 ∧
    (liabilityDay l dr ti tp tpay s).1.Depreciation = 0 ∧
    (liabilityDay l dr ti tp tpay s).1.ClosingBalance
      = roundFloat (liabilityDay l dr ti tp tpay s).2.openingBalance 2 ∧
    (liabilityDay l dr ti tp tpay s).2.currentDate = s.currentDate.AddDate 0 0 1 := by
  refine ⟨?_, ?_, ?_, ?_, ?_, ?_, ?_⟩ <;> simp only [liabilityDay]

/-- On the end date the closing balance is forced to 0. -/
theorem liabilityDay_end (l : Lease) (dr ti tp tpay : ℚ) (s : LoopState)
    (h : s.currentDate.Equal l.EndDate = true) :
    (liabilityDay l dr ti tp tpay s).2.openingBalance = 0 := by
  simp only [liabilityDay, h, if_true]
  split <;> rfl

theorem roundFloat_zero (k : Nat) : roundFloat 0 k = 0 := by
  have h : ⌊(0 : ℚ) + 1 / 2⌋ = 0 := by
    rw [Int.floor_eq_iff]
    norm_num
  simp only [roundFloat, mathRound, zero_mul, lt_self_iff_false, if_false, h, Int.cast_zero,
    zero_div]

/-! ## The states of the daily loop -/

theorem liabilityFinal_succ (l : Lease) (dr ti tp tpay : ℚ) (n : Nat) :
    ∀ s : LoopState, liabilityFinal l dr ti tp tpay (n + 1) s
      = (liabilityDay l dr ti tp tpay (liabilityFinal l dr ti tp tpay n s)).2 := by
  induction n with
  | zero => intro s; rfl
  | succ k ih =>
    intro s
    have e : liabilityFinal l dr ti tp tpay (k + 1 + 1) s
        = liabilityFinal l dr ti tp tpay (k + 1) (liabilityDay l dr ti tp tpay s).2 := rfl
    rw [e, ih]
    rfl

theorem liabilityFinal_date (l : Lease) (dr ti tp tpay : ℚ) (n : Nat) (s : LoopState) :
    (liabilityFinal l dr ti tp tpay n s).currentDate.absDays = s.currentDate.absDays + n := by
  induction n with
  | zero => simp [liabilityFinal]
  | succ k ih =>
    rw [liabilityFinal_succ, (liabilityDay_entry l dr ti tp tpay _).2.2.2.2.2.2,
      Time.AddDate_days, ih]
    push_cast
    ring

/-- The states of `n` days are the states reached after 0, 1, ..., `n - 1` days. -/
theorem liabilityStates_eq_range (l : Lease) (dr ti tp tpay : ℚ) (n : Nat) :
    ∀ s : LoopState, liabilityStates l dr ti tp tpay n s
      = (List.range n).map (fun i => liabilityFinal l dr ti tp tpay i s) := by
  induction n with
  | zero => intro s; rfl
  | succ k ih =>
    intro s
    rw [liabilityStates, ih, List.range_succ_eq_map, List.map_cons, List.map_map]
    rfl

theorem liabilityStates_getLast (l : Lease) (dr ti tp tpay : ℚ) (n : Nat) (s : LoopState) :
    (liabilityStates l dr ti tp tpay (n + 1) s).getLast?
      = some (liabilityFinal l dr ti tp tpay n s) := by
  rw [liabilityStates_eq_range, List.range_succ, List.map_append, List.map_singleton,
    List.getLast?_append]
  rfl

/-- Adjacent entries of the daily loop: the opening balance is the closing balance of the day
before. -/
theorem liabilityLoop_chain (l : Lease) (dr ti tp tpay : ℚ) (n : Nat) :
    ∀ s : LoopState, List.Chain' (fun a b => b.OpeningBalance = a.ClosingBalance)
      (liabilityLoop l dr ti tp tpay n s) := by
  induction n with
  | zero => intro s; exact List.chain'_nil
  | succ k ih =>
    intro s
    rw [liabilityLoop, List.chain'_cons']
    refine ⟨?_, ih _⟩
    intro y hy
    cases k with
    | zero => simp [liabilityLoop] at hy
    | succ j =>
      simp only [liabilityLoop, List.head?_cons, Option.mem_def, Option.some.injEq] at hy
      subst hy
      rw [(liabilityDay_entry l dr ti tp tpay _).2.2.1,
        (liabilityDay_entry l dr ti tp tpay s).2.2.2.2.2.1]

theorem liabilityLoop_head (l : Lease) (dr ti tp tpay : ℚ) (n : Nat) (s : LoopState) :
    (liabilityLoop l dr ti tp tpay (n + 1) s).head? = some (liabilityDay l dr ti tp tpay s).1 := by
  simp only [liabilityLoop, List.head?_cons]

theorem liabilityLoop_getLast (l : Lease) (dr ti tp tpay : ℚ) (n : Nat) (s : LoopState) :
    (liabilityLoop l dr ti tp tpay (n + 1) s).getLast?
      = some (liabilityDay l dr ti tp tpay (liabilityFinal l dr ti tp tpay n s)).1 := by
  rw [liabilityLoop_eq_map, List.getLast?_map, liabilityStates_getLast]
  rfl

theorem Time.AddDate_one_day (t : Time) : t.AddDate 0 0 1 = ⟨t.absDays + 1⟩ := by
  apply Time.ext_absDays
  rw [Time.AddDate_days]

/-- With a non-negative asset the loop of `GenerateRoUAssetSchedule` never reports a negative
balance and writes the straight-line entries. -/
theorem rouLoop_spec (N : Nat) (A : ℚ) (hA : 0 ≤ A) (n : Nat) :
    ∀ (day : Nat) (cd : Time), day + n = N + 1 → 1 ≤ day →
      rouLoop N (A / N) n day (A - ((day : ℚ) - 1) * (A / N)) cd
        = ((List.range n).map
            (fun (i : Nat) => rouEntry N A (day + i) ⟨cd.absDays + (i : Int)⟩), none) := by
  induction n with
  | zero => intro day cd _ _; rfl
  | succ k ih =>
    intro day cd hd h1
    have hNpos : (0 : ℚ) < N := by
      have : 1 ≤ N := by omega
      exact_mod_cast this
    have hrest : (List.range (k + 1)).map
          (fun (i : Nat) => rouEntry N A (day + i) ⟨cd.absDays + (i : Int)⟩)
        = rouEntry N A day cd ::
          (List.range k).map
            (fun (i : Nat) => rouEntry N A (day + 1 + i) ⟨(cd.AddDate 0 0 1).absDays + (i : Int)⟩) := by
      rw [List.range_succ_eq_map, List.map_cons, List.map_map]
      congr 1
      · simp
      · apply List.map_congr_left
        intro i _
        simp only [Function.comp, Time.AddDate_days]
        congr 1
        · omega
        · congr 1
          push_cast
          ring
    rw [hrest]
    by_cases hlast : day = N
    · have hk : k = 0 := by omega
      subst hk
      simp only [rouLoop, hlast, if_true, List.range_zero, List.map_nil]
      rw [if_neg (by norm_num)]
      simp only [rouEntry, if_true, Prod.mk.injEq, and_true, List.cons.injEq]
    · have hlt : day < N := by omega
      have hclose : A - ((day : ℚ) - 1) * (A / N) - A / N = A - (((day + 1 : Nat) : ℚ) - 1) * (A / N) := by
        push_cast
        ring
      have hnonneg : ¬ (A - ((day : ℚ) - 1) * (A / N) - A / N < -(1 / 1000000000)) := by
        rw [not_lt]
        have h1 : A - ((day : ℚ) - 1) * (A / N) - A / N = A * (((N : ℚ) - day) / N) := by
          field_simp
          ring
        rw [h1]
        have h2 : (0 : ℚ) ≤ ((N : ℚ) - day) / N := by
          apply div_nonneg _ hNpos.le
          have : (day : ℚ) ≤ N := by exact_mod_cast hlt.le
          linarith
        have := mul_nonneg hA h2
        linarith
      simp only [rouLoop, hlast, if_false, hnonneg]
      rw [hclose, ih (day + 1) (cd.AddDate 0 0 1) (by omega) (by omega)]
      simp only [rouEntry, hlast, if_false, Prod.mk.injEq, and_true, List.cons.injEq]
      have e : (((day + 1 : Nat) : ℚ) - 1) = (day : ℚ) := by
        push_cast
        ring
      rw [e]

theorem totalDays_toNat_cast (l : Lease) (h : ¬ totalDays l ≤ 0) :
    ((totalDays l : Int) : ℚ) = (((totalDays l).toNat : Nat) : ℚ) := by
  have : ((totalDays l).toNat : Int) = totalDays l := Int.toNat_of_nonneg (by omega)
  exact_mod_cast this.symm

/-- The schedule of `GenerateRoUAssetSchedule` for a lease accepted by the period validation and
a non-negative asset: no error, the straight-line entries of the `totalDays` days from the
start date. -/
theorem GenerateRoUAssetSchedule_eq (l : Lease) (A : ℚ)
    (hg : (getPeriodsAndRate l).2.2 = none) (hA : 0 ≤ A) :
    GenerateRoUAssetSchedule l A =
      ((List.range (totalDays l).toNat).map
        (fun (i : Nat) => rouEntry (totalDays l).toNat A (1 + i)
          ⟨l.StartDate.absDays + (i : Int)⟩), none) := by
  have hA' : ¬ A < 0 := not_lt.mpr hA
  rcases hgpr : getPeriodsAndRate l with ⟨n, r, e⟩
  simp only [hgpr] at hg
  subst hg
  simp only [GenerateRoUAssetSchedule, hgpr, hA', if_false]
  by_cases ht : totalDays l ≤ 0
  · have ht' := ht
    simp only [totalDays] at ht'
    have h0 : (totalDays l).toNat = 0 := by omega
    simp only [ht', if_true, h0, List.range_zero, List.map_nil]
  · have ht' := ht
    simp only [totalDays] at ht'
    simp only [ht', if_false]
    have hc := totalDays_toNat_cast l ht
    simp only [totalDays] at hc
    rw [hc]
    have := rouLoop_spec (totalDays l).toNat A hA (totalDays l).toNat 1 l.StartDate (by omega)
      (le_refl 1)
    simp only [Nat.cast_one, sub_self, zero_mul, sub_zero, totalDays] at this
    exact this

/-! ## The payment list -/

theorem lookupPayment_nil (d : Time) : lookupPayment [] d = 0 := rfl

theorem lookupPayment_cons (p : Time × ℚ) (rest : List (Time × ℚ)) (d : Time) :
    lookupPayment (p :: rest) d = (if p.1 = d then p.2 else 0) + lookupPayment rest d := by
  simp only [lookupPayment, List.filter_cons]
  split
  · rename_i h
    have h' : p.1 = d := by simpa using h
    simp [h']
  · rename_i h
    have h' : ¬ p.1 = d := by simpa using h
    simp [h']

/-- A date that is not in the list has no amount. -/
theorem lookupPayment_of_not_mem (payments : List (Time × ℚ)) (d : Time)
    (h : d.absDays ∉ paymentKeys payments) : lookupPayment payments d = 0 := by
  induction payments with
  | nil => rfl
  | cons p rest ih =>
    simp only [paymentKeys, List.map_cons, List.mem_cons, not_or] at h
    have hne : ¬ p.1 = d := fun e => h.1 (by rw [e])
    rw [lookupPayment_cons, if_neg hne, zero_add]
    exact ih h.2

/-- The statement `payments[date] += amount` adds the amount to what is stored for the date. -/
theorem lookupPayment_addPayment (payments : List (Time × ℚ)) (date : Time) (amount : ℚ)
    (d : Time) :
    lookupPayment (addPayment payments date amount) d
      = lookupPayment payments d + (if date = d then amount else 0) := by
  induction payments with
  | nil => simp [addPayment, lookupPayment_cons, lookupPayment_nil]
  | cons p rest ih =>
    obtain ⟨k, a⟩ := p
    simp only [addPayment]
    split
    · simp only [lookupPayment_cons]
      ring
    · split
      · rename_i _ heq
        have hk : date = k := Time.ext_absDays (by simpa using heq)
        subst hk
        simp only [lookupPayment_cons]
        split <;> ring
      · simp only [lookupPayment_cons, ih]
        ring

theorem paymentKeys_addPayment (payments : List (Time × ℚ)) (date : Time) (amount : ℚ)
    (k : Int) :
    k ∈ paymentKeys (addPayment payments date amount)
      ↔ k = date.absDays ∨ k ∈ paymentKeys payments := by
  induction payments with
  | nil => simp [addPayment, paymentKeys]
  | cons p rest ih =>
    obtain ⟨d, a⟩ := p
    simp only [addPayment]
    split
    · simp [paymentKeys]
    · split
      · rename_i _ heq
        have hk : date.absDays = d.absDays := by simpa using heq
        simp only [paymentKeys, List.map_cons, List.mem_cons, hk]
        tauto
      · simp only [paymentKeys, List.map_cons, List.mem_cons] at ih ⊢
        rw [ih]
        tauto

/-- The payment list stays strictly sorted by date. -/
theorem paymentKeys_addPayment_sorted (payments : List (Time × ℚ)) (date : Time) (amount : ℚ)
    (h : (paymentKeys payments).Pairwise (· < ·)) :
    (paymentKeys (addPayment payments date amount)).Pairwise (· < ·) := by
  induction payments with
  | nil => simp [addPayment, paymentKeys]
  | cons p rest ih =>
    obtain ⟨d, a⟩ := p
    have h' := h
    simp only [paymentKeys, List.map_cons, List.pairwise_cons] at h'
    obtain ⟨hd, hrest⟩ := h'
    simp only [addPayment]
    split
    · rename_i hlt
      have hlt' : date.absDays < d.absDays := by simpa using hlt
      simp only [paymentKeys, List.map_cons, List.pairwise_cons]
      refine ⟨?_, hd, hrest⟩
      intro k hk
      rcases List.mem_cons.mp hk with e | e
      · rw [e]; exact hlt'
      · exact lt_trans hlt' (hd k e)
    · split
      · simp only [paymentKeys, List.map_cons, List.pairwise_cons]
        exact ⟨hd, hrest⟩
      · rename_i hlt heq
        have hlt' : ¬ date.absDays < d.absDays := by simpa using hlt
        have heq' : ¬ date.absDays = d.absDays := by simpa using heq
        have ih' := ih hrest
        simp only [paymentKeys, List.map_cons, List.pairwise_cons] at ih' ⊢
        refine ⟨?_, ih'⟩
        intro k hk
        have := (paymentKeys_addPayment rest date amount k).mp hk
        rcases this with e | e
        · rw [e]; omega
        · exact hd k e

/-! ## Regular payments, extra payments and the lump sum -/

theorem lookupPayment_addRegularPayments (l : Lease) (m : Int) (n : Nat) :
    ∀ (cur : Time) (payments : List (Time × ℚ)) (d : Time),
      lookupPayment (addRegularPayments l m n cur payments) d
        = lookupPayment payments d + l.PaymentAmount * ((paymentDates l m n cur).count d : ℚ) := by
  induction n with
  | zero =>
    intro cur payments d
    simp [addRegularPayments, paymentDates]
  | succ k ih =>
    intro cur payments d
    simp only [addRegularPayments, paymentDates]
    generalize (if ((cur.AddDate 0 m 0).After l.EndDate) = true then l.EndDate
      else cur.AddDate 0 m 0) = pd
    rw [ih, lookupPayment_addPayment, List.count_cons]
    by_cases hpd : pd = d
    · simp only [hpd, if_true, beq_self_eq_true]
      push_cast
      ring
    · have hb : (pd == d) = false := by simpa using hpd
      simp only [hpd, if_false, hb, Bool.false_eq_true]
      push_cast
      ring

theorem paymentKeys_addRegularPayments (l : Lease) (m : Int) (n : Nat) :
    ∀ (cur : Time) (payments : List (Time × ℚ)) (k : Int),
      k ∈ paymentKeys (addRegularPayments l m n cur payments)
        ↔ k ∈ paymentKeys payments ∨ ∃ d ∈ paymentDates l m n cur, k = d.absDays := by
  induction n with
  | zero =>
    intro cur payments k
    simp [addRegularPayments, paymentDates]
  | succ j ih =>
    intro cur payments k
    simp only [addRegularPayments, paymentDates]
    rw [ih, paymentKeys_addPayment]
    simp only [List.mem_cons, exists_eq_or_imp]
    tauto

theorem paymentKeys_addRegularPayments_sorted (l : Lease) (m : Int) (n : Nat) :
    ∀ (cur : Time) (payments : List (Time × ℚ)), (paymentKeys payments).Pairwise (· < ·) →
      (paymentKeys (addRegularPayments l m n cur payments)).Pairwise (· < ·) := by
  induction n with
  | zero => intro cur payments h; exact h
  | succ j ih =>
    intro cur payments h
    simp only [addRegularPayments]
    exact ih _ _ (paymentKeys_addPayment_sorted _ _ _ h)

theorem lookupPayment_addExtraPayments (l : Lease) (extras : List ExtraPayment) :
    ∀ (payments : List (Time × ℚ)) (d : Time),
      lookupPayment (addExtraPayments l extras payments) d
        = lookupPayment payments d
          + ((extras.filter (extraOn l d)).map (fun e => e.Amount)).sum := by
  induction extras with
  | nil =>
    intro payments d
    simp [addExtraPayments]
  | cons e rest ih =>
    intro payments d
    simp only [addExtraPayments]
    by_cases hin : (!e.Date.Before l.StartDate && !e.Date.After l.EndDate) = true
    · rw [if_pos hin, ih, lookupPayment_addPayment]
      by_cases hd : e.Date = d
      · have hp : extraOn l d e = true := by
          rw [extraOn, hin, Bool.true_and]
          simpa using hd
        rw [List.filter_cons_of_pos hp, if_pos hd, List.map_cons, List.sum_cons]
        ring
      · have hp : ¬ extraOn l d e = true := by
          rw [extraOn, hin, Bool.true_and]
          simpa using hd
        rw [List.filter_cons_of_neg hp, if_neg hd]
        ring
    · rw [if_neg hin, ih]
      have hp : ¬ extraOn l d e = true := by
        simp only [Bool.not_eq_true] at hin
        rw [extraOn, hin, Bool.false_and]
        exact Bool.false_ne_true
      rw [List.filter_cons_of_neg hp]

theorem paymentKeys_addExtraPayments (l : Lease) (extras : List ExtraPayment) :
    ∀ (payments : List (Time × ℚ)) (k : Int),
      k ∈ paymentKeys (addExtraPayments l extras payments) →
        k ∈ paymentKeys payments ∨ l.StartDate.absDays ≤ k := by
  induction extras with
  | nil =>
    intro payments k h
    exact Or.inl h
  | cons e rest ih =>
    intro payments k h
    simp only [addExtraPayments] at h
    by_cases hin : (!e.Date.Before l.StartDate && !e.Date.After l.EndDate) = true
    · rw [if_pos hin] at h
      rcases ih _ _ h with h1 | h1
      · rcases (paymentKeys_addPayment _ _ _ _).mp h1 with h2 | h2
        · right
          simp only [Bool.and_eq_true, Bool.not_eq_true', Time.Before, decide_eq_false_iff_not,
            not_lt] at hin
          rw [h2]
          exact hin.1
        · exact Or.inl h2
      · exact Or.inr h1
    · rw [if_neg hin] at h
      exact ih _ _ h

theorem paymentKeys_addExtraPayments_sorted (l : Lease) (extras : List ExtraPayment) :
    ∀ (payments : List (Time × ℚ)), (paymentKeys payments).Pairwise (· < ·) →
      (paymentKeys (addExtraPayments l extras payments)).Pairwise (· < ·) := by
  induction extras with
  | nil => intro payments h; exact h
  | cons e rest ih =>
    intro payments h
    simp only [addExtraPayments]
    split
    · exact ih _ (paymentKeys_addPayment_sorted _ _ _ h)
    · exact ih _ h

/-! ## The regular payment dates -/

/-- What a successful `getPeriodsAndRate` with a non-zero period count says about the
markers. -/
theorem getPeriodsAndRate_markers (l : Lease) (n : Nat) (r : ℚ)
    (hg : getPeriodsAndRate l = (n, r, none)) (hn : n ≠ 0) :
    supported l.PaymentFrequency ∧
    (∀ i, i < n → (marker l.StartDate (monthStep l.PaymentFrequency) i).Before l.EndDate = true) ∧
    (marker l.StartDate (monthStep l.PaymentFrequency) n).Before l.EndDate = false := by
  obtain ⟨hs, hr, _⟩ := getPeriodsAndRate_ok l (by rw [hg])
  refine ⟨hs, ?_⟩
  rcases getPeriodsAndRate_cases l hs hr with ⟨_, h⟩ | ⟨_, k, _, _, h, hge, hlt⟩ | ⟨_, _, h⟩
  · rw [hg] at h
    simp only [Prod.mk.injEq] at h
    exact absurd h.1 hn
  · rw [hg] at h
    simp only [Prod.mk.injEq] at h
    rw [h.1]
    exact ⟨hlt, hge⟩
  · rw [hg] at h
    simp at h

theorem paymentDates_succ (l : Lease) (m : Int) (n : Nat) (c : Time) :
    paymentDates l m (n + 1) c
      = (if (c.AddDate 0 m 0).After l.EndDate = true then l.EndDate else c.AddDate 0 m 0)
        :: paymentDates l m n
          (if (c.AddDate 0 m 0).After l.EndDate = true then l.EndDate else c.AddDate 0 m 0) :=
  rfl

theorem paymentDates_markers (l : Lease) (m : Int) (n : Nat)
    (hlt : ∀ i, i < n → (marker l.StartDate m i).Before l.EndDate = true)
    (hge : (marker l.StartDate m n).Before l.EndDate = false) (k : Nat) :
    ∀ j, j + k + 1 = n →
      paymentDates l m (k + 1) (marker l.StartDate m j)
        = (List.range k).map (fun i => marker l.StartDate m (j + 1 + i)) ++ [l.EndDate] := by
  induction k with
  | zero =>
    intro j hj
    have hj' : j + 1 = n := by omega
    rw [paymentDates_succ]
    simp only [paymentDates, List.range_zero, List.map_nil, List.nil_append, ← marker_succ, hj']
    simp only [Time.Before, decide_eq_false_iff_not, not_lt] at hge
    split
    · rfl
    · rename_i h
      simp only [Time.After_iff, not_lt] at h
      have : marker l.StartDate m n = l.EndDate := Time.ext_absDays (by omega)
      rw [this]
  | succ k ih =>
    intro j hj
    have h1 := hlt (j + 1) (by omega)
    simp only [Time.Before_iff] at h1
    have hna : ¬ ((marker l.StartDate m (j + 1)).After l.EndDate = true) := by
      simp only [Time.After_iff, not_lt]
      omega
    have e : paymentDates l m (k + 1 + 1) (marker l.StartDate m j)
        = marker l.StartDate m (j + 1)
          :: paymentDates l m (k + 1) (marker l.StartDate m (j + 1)) := by
      rw [paymentDates_succ]
      simp only [← marker_succ, hna, if_false, Bool.false_eq_true]
    rw [e, ih (j + 1) (by omega), List.range_succ_eq_map, List.map_cons, List.map_map]
    simp only [List.cons_append, Nat.add_zero, List.cons.injEq, true_and]
    congr 1
    apply List.map_congr_left
    intro i _
    simp only [Function.comp]
    congr 1
    omega

/-- The loop of `GenerateLiabilitySchedule` puts the regular payments on the markers 1 to
`n - 1` and on the end date. -/
theorem paymentDates_eq_regularDates (l : Lease) (n : Nat) (r : ℚ)
    (hg : getPeriodsAndRate l = (n, r, none)) (hn : n ≠ 0) :
    paymentDates l (monthStep l.PaymentFrequency) n l.StartDate = regularDates l n := by
  obtain ⟨_, hlt, hge⟩ := getPeriodsAndRate_markers l n r hg hn
  obtain ⟨k, rfl⟩ : ∃ k, n = k + 1 := ⟨n - 1, by omega⟩
  have := paymentDates_markers l _ (k + 1) hlt hge k 0 (by omega)
  rw [marker_zero] at this
  rw [this, regularDates]
  simp only [Nat.add_sub_cancel, Nat.zero_add]
  congr 1
  apply List.map_congr_left
  intro i _
  congr 1
  omega

/-- Every regular payment date is after the start date. -/
theorem regularDates_after_start (l : Lease) (n : Nat) (r : ℚ)
    (hg : getPeriodsAndRate l = (n, r, none)) (hn : n ≠ 0) (d : Time)
    (hd : d ∈ regularDates l n) : l.StartDate.absDays < d.absDays := by
  obtain ⟨_, hlt, _⟩ := getPeriodsAndRate_markers l n r hg hn
  have hm := monthStep_pos l.PaymentFrequency
  simp only [regularDates, List.mem_append, List.mem_map, List.mem_range, List.mem_singleton]
    at hd
  rcases hd with ⟨j, _, rfl⟩ | rfl
  · have := marker_lt l.StartDate _ hm (show 0 < j + 1 by omega)
    rwa [marker_zero] at this
  · have := hlt 0 (by omega)
    rwa [marker_zero, Time.Before_iff] at this

/-! ## The payment list of a lease -/

/-- The amount that the payment list holds for a date is the scheduled amount of that date. -/
theorem lookupPayment_paymentsList (l : Lease) (n : Nat) (r : ℚ)
    (hg : getPeriodsAndRate l = (n, r, none)) (hn : n ≠ 0) (d : Time) :
    lookupPayment (paymentsList l n) d = scheduledAmount l n d := by
  have hdates := paymentDates_eq_regularDates l n r hg hn
  simp only [paymentsList, scheduledAmount]
  by_cases hfeb : ((Date 2025 2 1).After l.StartDate && (Date 2025 2 1).Before l.EndDate) = true
  · have hfeb' := hfeb
    simp only [Bool.and_eq_true] at hfeb'
    rw [if_pos hfeb, lookupPayment_addPayment, lookupPayment_addExtraPayments,
      lookupPayment_addRegularPayments, lookupPayment_nil, hdates, zero_add]
    by_cases hd : Date 2025 2 1 = d
    · rw [if_pos hd, if_pos ⟨hd.symm, hfeb'.1, hfeb'.2⟩]
    · rw [if_neg hd, if_neg (fun h => hd h.1.symm)]
  · rw [if_neg hfeb, lookupPayment_addExtraPayments, lookupPayment_addRegularPayments,
      lookupPayment_nil, hdates, zero_add]
    have : ¬ (d = Date 2025 2 1 ∧ (Date 2025 2 1).After l.StartDate = true ∧
        (Date 2025 2 1).Before l.EndDate = true) := by
      intro h
      apply hfeb
      rw [h.2.1, h.2.2]
      rfl
    rw [if_neg this, add_zero]

theorem paymentsList_sorted (l : Lease) (n : Nat) :
    (paymentKeys (paymentsList l n)).Pairwise (· < ·) := by
  have h1 : (paymentKeys (addExtraPayments l l.ExtraPayments
      (addRegularPayments l (monthStep l.PaymentFrequency) n l.StartDate []))).Pairwise
        (· < ·) :=
    paymentKeys_addExtraPayments_sorted _ _ _
      (paymentKeys_addRegularPayments_sorted _ _ _ _ _ (by simp [paymentKeys]))
  simp only [paymentsList]
  split
  · exact paymentKeys_addPayment_sorted _ _ _ h1
  · exact h1

/-- No scheduled payment is dated before the start date. -/
theorem paymentsList_ge_start (l : Lease) (n : Nat) (r : ℚ)
    (hg : getPeriodsAndRate l = (n, r, none)) (hn : n ≠ 0) (k : Int)
    (hk : k ∈ paymentKeys (paymentsList l n)) : l.StartDate.absDays ≤ k := by
  have hdates := paymentDates_eq_regularDates l n r hg hn
  have h1 : ∀ k, k ∈ paymentKeys (addExtraPayments l l.ExtraPayments
      (addRegularPayments l (monthStep l.PaymentFrequency) n l.StartDate [])) →
      l.StartDate.absDays ≤ k := by
    intro k hk
    rcases paymentKeys_addExtraPayments _ _ _ _ hk with h | h
    · rw [paymentKeys_addRegularPayments, hdates] at h
      rcases h with h | ⟨d, hd, rfl⟩
      · simp [paymentKeys] at h
      · exact le_of_lt (regularDates_after_start l n r hg hn d hd)
    · exact h
  simp only [paymentsList] at hk
  split at hk
  · rename_i hfeb
    simp only [Bool.and_eq_true, Time.After_iff] at hfeb
    rcases (paymentKeys_addPayment _ _ _ _).mp hk with h | h
    · rw [h]
      exact le_of_lt hfeb.1
    · exact h1 k h
  · exact h1 k hk

/-! ## Matching the payments of a day -/

theorem lookupPayment_of_lt (c : Time) (Q : List (Time × ℚ))
    (h : ∀ k ∈ paymentKeys Q, c.absDays < k) : lookupPayment Q c = 0 := by
  apply lookupPayment_of_not_mem
  intro hc
  have := h _ hc
  omega

theorem matchPayments_of_lt (c : Time) (Q : List (Time × ℚ)) (a : ℚ) (b : Bool)
    (h : ∀ k ∈ paymentKeys Q, c.absDays < k) : matchPayments c Q a b = (Q, a, b) := by
  cases Q with
  | nil => rfl
  | cons q rest =>
    have hq := h q.1.absDays (by simp [paymentKeys])
    have h1 : c.Equal q.1 = false := by
      rw [← Bool.not_eq_true, Time.Equal_iff]
      omega
    have h2 : c.After q.1 = false := by
      rw [← Bool.not_eq_true, Time.After_iff]
      omega
    simp only [matchPayments, h1, h2, Bool.or_self, Bool.false_eq_true, if_false]

theorem filter_of_lt (c : Time) (Q : List (Time × ℚ))
    (h : ∀ k ∈ paymentKeys Q, c.absDays < k) :
    Q.filter (fun p => decide (c.absDays < p.1.absDays)) = Q := by
  rw [List.filter_eq_self]
  intro p hp
  simp only [decide_eq_true_eq]
  exact h _ (List.mem_map_of_mem (fun p => p.1.absDays) hp)

/-- On a list of pending payments with strictly increasing dates, none before the current day,
the inner loop takes the payment of the current day if there is one. -/
theorem matchPayments_sorted (c : Time) (Q : List (Time × ℚ))
    (hs : (paymentKeys Q).Pairwise (· < ·)) (hge : ∀ k ∈ paymentKeys Q, c.absDays ≤ k) :
    matchPayments c Q 0 false
      = (Q.filter (fun p => decide (c.absDays < p.1.absDays)), lookupPayment Q c,
          decide (c.absDays ∈ paymentKeys Q)) := by
  cases Q with
  | nil => rfl
  | cons p rest =>
    simp only [paymentKeys, List.map_cons, List.pairwise_cons] at hs
    have hp := hge p.1.absDays (by simp [paymentKeys])
    by_cases hc : c.absDays = p.1.absDays
    · have hrest : ∀ k ∈ paymentKeys rest, c.absDays < k := by
        intro k hk
        have := hs.1 k hk
        omega
      have h1 : c.Equal p.1 = true := by
        rw [Time.Equal_iff]
        exact hc
      have hcp : p.1 = c := Time.ext_absDays hc.symm
      have e : matchPayments c (p :: rest) 0 false = matchPayments c rest p.2 true := by
        simp only [matchPayments, h1, Bool.true_or, if_true]
      rw [e, matchPayments_of_lt c rest _ _ hrest, lookupPayment_cons, if_pos hcp,
        lookupPayment_of_lt c rest hrest, add_zero]
      have hf : (p :: rest).filter (fun p => decide (c.absDays < p.1.absDays)) = rest := by
        rw [List.filter_cons_of_neg, filter_of_lt c rest hrest]
        simp only [decide_eq_true_eq]
        omega
      rw [hf]
      simp only [paymentKeys, List.map_cons, List.mem_cons, hc, true_or, decide_True]
    · have hall : ∀ k ∈ paymentKeys (p :: rest), c.absDays < k := by
        intro k hk
        simp only [paymentKeys, List.map_cons, List.mem_cons] at hk
        rcases hk with rfl | hk
        · omega
        · have := hs.1 k hk
          omega
      rw [matchPayments_of_lt c _ _ _ hall, filter_of_lt c _ hall, lookupPayment_of_lt c _ hall]
      have : c.absDays ∉ paymentKeys (p :: rest) := by
        intro h
        have := hall _ h
        omega
      simp only [this, decide_False]

theorem lookupPayment_filter (c d : Time) (Q : List (Time × ℚ)) (h : c.absDays < d.absDays) :
    lookupPayment (Q.filter (fun p => decide (c.absDays < p.1.absDays))) d
      = lookupPayment Q d := by
  induction Q with
  | nil => rfl
  | cons p rest ih =>
    by_cases hp : c.absDays < p.1.absDays
    · rw [List.filter_cons_of_pos (by simpa using hp), lookupPayment_cons, lookupPayment_cons, ih]
    · rw [List.filter_cons_of_neg (by simpa using hp), lookupPayment_cons, ih]
      have : ¬ p.1 = d := by
        intro e
        rw [e] at hp
        exact hp h
      rw [if_neg this, zero_add]

theorem paymentKeys_filter (c : Time) (Q : List (Time × ℚ)) (k : Int)
    (hk : k ∈ paymentKeys (Q.filter (fun p => decide (c.absDays < p.1.absDays)))) :
    c.absDays < k := by
  simp only [paymentKeys, List.mem_map, List.mem_filter, decide_eq_true_eq] at hk
  obtain ⟨p, ⟨_, hp⟩, rfl⟩ := hk
  exact hp

theorem paymentKeys_filter_sorted (c : Time) (Q : List (Time × ℚ))
    (hs : (paymentKeys Q).Pairwise (· < ·)) :
    (paymentKeys (Q.filter (fun p => decide (c.absDays < p.1.absDays)))).Pairwise (· < ·) := by
  simp only [paymentKeys] at hs ⊢
  exact hs.sublist ((List.filter_sublist Q).map _)

/-! ## The payment of one day of the daily loop -/

theorem liabilityDay_pending (l : Lease) (dr ti tp tpay : ℚ) (s : LoopState) :
    (liabilityDay l dr ti tp tpay s).2.pending = (matchPayments s.currentDate s.pending 0 false).1 ∧
    (liabilityDay l dr ti tp tpay s).2.period
      = (if (matchPayments s.currentDate s.pending 0 false).2.2 = true then s.period + 1
          else s.period) := by
  constructor <;> simp only [liabilityDay]

/-- The invariant of the daily loop on its pending payments, relative to the payment list `P`
and the current day `c`. -/
theorem liabilityFinal_pending (l : Lease) (dr ti tp tpay : ℚ) (s : LoopState)
    (hs : (paymentKeys s.pending).Pairwise (· < ·))
    (hge : ∀ k ∈ paymentKeys s.pending, s.currentDate.absDays ≤ k) (i : Nat) :
    (paymentKeys (liabilityFinal l dr ti tp tpay i s).pending).Pairwise (· < ·) ∧
    (∀ k ∈ paymentKeys (liabilityFinal l dr ti tp tpay i s).pending,
      s.currentDate.absDays + i ≤ k) ∧
    (∀ d : Time, s.currentDate.absDays + i ≤ d.absDays →
      lookupPayment (liabilityFinal l dr ti tp tpay i s).pending d = lookupPayment s.pending d) := by
  induction i with
  | zero =>
    refine ⟨hs, ?_, fun d _ => rfl⟩
    intro k hk
    simpa using hge k hk
  | succ i ih =>
    obtain ⟨h1, h2, h3⟩ := ih
    have hd := liabilityFinal_date l dr ti tp tpay i s
    rw [liabilityFinal_succ, (liabilityDay_pending l dr ti tp tpay _).1,
      matchPayments_sorted _ _ h1 (by rw [hd]; exact h2)]
    refine ⟨paymentKeys_filter_sorted _ _ h1, ?_, ?_⟩
    · intro k hk
      have := paymentKeys_filter _ _ k hk
      rw [hd] at this
      push_cast
      omega
    · intro d hdd
      push_cast at hdd
      rw [lookupPayment_filter _ _ _ (by rw [hd]; omega)]
      exact h3 d (by omega)

/-- Rounding to 2 decimals moves a value by at most half a cent. -/
theorem roundFloat_err (y : ℚ) : |roundFloat y 2 - y| ≤ 1 / 200 := by
  obtain ⟨z, hz, hab, _⟩ := mathRound_spec (y * 10 ^ 2)
  simp only [roundFloat, hz]
  have e : (z : ℚ) / 10 ^ 2 - y = -(y * 10 ^ 2 - z) / 100 := by ring
  rw [e, abs_div, abs_neg]
  have h100 : |(100 : ℚ)| = 100 := abs_of_pos (by norm_num)
  rw [h100, div_le_iff₀ (by norm_num)]
  linarith

theorem roundFloat_eq_zero (y : ℚ) (h : roundFloat y 2 = 0) : |y| ≤ 1 / 200 := by
  have := roundFloat_err y
  rw [h, zero_sub, abs_neg] at this
  exact this

/-! ## The running balance before the end date -/

/-- Before the end date, a day of the loop subtracts from the balance an amount that does not
depend on the balance. -/
theorem liabilityDay_shift (l : Lease) (dr ti tp tpay : ℚ) (s : LoopState) (delta : ℚ)
    (h : s.currentDate.Equal l.EndDate = false) :
    (liabilityDay l dr ti tp tpay (s.shift delta)).2
      = (liabilityDay l dr ti tp tpay s).2.shift delta := by
  simp only [liabilityDay, LoopState.shift, h, Bool.false_eq_true, if_false, LoopState.mk.injEq,
    and_true, true_and]
  ring

theorem liabilityFinal_shift (l : Lease) (dr ti tp tpay : ℚ) (delta : ℚ) (n : Nat)
    (s : LoopState) (h : s.currentDate.absDays + n ≤ l.EndDate.absDays) :
    liabilityFinal l dr ti tp tpay n (s.shift delta)
      = (liabilityFinal l dr ti tp tpay n s).shift delta := by
  induction n with
  | zero => rfl
  | succ k ih =>
    push_cast at h
    rw [liabilityFinal_succ, liabilityFinal_succ, ih (by omega)]
    apply liabilityDay_shift
    rw [← Bool.not_eq_true, Time.Equal_iff, liabilityFinal_date]
    omega

/-! ## The three outcomes of each schedule generator -/

/-- The outcomes of `GenerateLiabilitySchedule`: the error of `getPeriodsAndRate`, an empty
schedule, or the entries of the daily loop. -/
theorem GenerateLiabilitySchedule_cases (l : Lease) (x : ℚ) :
    (∃ err, (getPeriodsAndRate l).2.2 = some err ∧
      GenerateLiabilitySchedule l x
        = ([], some ("failed to get periods and rate for schedule: " ++ err))) ∨
    ((getPeriodsAndRate l).2.2 = none ∧
      ((getPeriodsAndRate l).1 = 0 ∨ totalDays l ≤ 0) ∧
      GenerateLiabilitySchedule l x = ([], none)) ∨
    ((getPeriodsAndRate l).2.2 = none ∧ (getPeriodsAndRate l).1 ≠ 0 ∧ 0 < totalDays l ∧
      GenerateLiabilitySchedule l x
        = ((scheduleStates l (getPeriodsAndRate l).1 x).map
            (scheduleEntry l (getPeriodsAndRate l).1), none)) := by
  rcases hgpr : getPeriodsAndRate l with ⟨n, r, e⟩
  cases e with
  | some err =>
    left
    exact ⟨err, rfl, by simp only [GenerateLiabilitySchedule, hgpr]⟩
  | none =>
    right
    by_cases hn : n = 0
    · left
      subst hn
      exact ⟨rfl, Or.inl rfl, GenerateLiabilitySchedule_zero l x r hgpr⟩
    · have h := GenerateLiabilitySchedule_eq l x n r hgpr hn
      by_cases ht : totalDays l ≤ 0
      · left
        rw [if_pos ht] at h
        exact ⟨rfl, Or.inr ht, h⟩
      · right
        rw [if_neg ht] at h
        exact ⟨rfl, hn, by omega, h⟩

/-- The outcomes of `GenerateRoUAssetSchedule`: the error of `getPeriodsAndRate`, the error for
a negative asset, or the straight-line entries. -/
theorem GenerateRoUAssetSchedule_cases (l : Lease) (A : ℚ) :
    (∃ err, (getPeriodsAndRate l).2.2 = some err ∧
      GenerateRoUAssetSchedule l A
        = ([], some ("failed to get periods for RoU schedule: " ++ err))) ∨
    ((getPeriodsAndRate l).2.2 = none ∧ A < 0 ∧
      GenerateRoUAssetSchedule l A
        = ([], some ("initial RoU Asset value cannot be negative: " ++ formatFloat2 A))) ∨
    ((getPeriodsAndRate l).2.2 = none ∧ 0 ≤ A ∧
      GenerateRoUAssetSchedule l A
        = ((List.range (totalDays l).toNat).map
            (fun (i : Nat) => rouEntry (totalDays l).toNat A (1 + i)
              ⟨l.StartDate.absDays + (i : Int)⟩), none)) := by
  rcases hgpr : getPeriodsAndRate l with ⟨n, r, e⟩
  cases e with
  | some err =>
    left
    exact ⟨err, rfl, by simp only [GenerateRoUAssetSchedule, hgpr]⟩
  | none =>
    right
    by_cases hA : A < 0
    · left
      exact ⟨rfl, hA, by simp only [GenerateRoUAssetSchedule, hgpr, hA, if_true]⟩
    · right
      exact ⟨rfl, not_lt.mp hA,
        GenerateRoUAssetSchedule_eq l A (by rw [hgpr]) (not_lt.mp hA)⟩

/-! ## Balances along the schedules -/

theorem scheduleStates_head (l : Lease) (n : Nat) (x : ℚ) (s : LoopState)
    (h : (scheduleStates l n x).head? = some s) : s = initialState l n x := by
  simp only [scheduleStates] at h
  cases hN : (totalDays l).toNat with
  | zero =>
    rw [hN] at h
    simp [liabilityStates] at h
  | succ k =>
    rw [hN] at h
    simp only [liabilityStates, List.head?_cons, Option.some.injEq] at h
    exact h.symm

theorem scheduleEntry_fields (l : Lease) (n : Nat) (s : LoopState) :
    (scheduleEntry l n s).Period = s.period ∧
    (scheduleEntry l n s).Date = s.currentDate ∧
    (scheduleEntry l n s).OpeningBalance = roundFloat s.openingBalance 2 ∧
    (scheduleEntry l n s).InterestExpense
      = roundFloat (s.openingBalance * (l.DiscountRate / 365)) 2 ∧
    (scheduleEntry l n s).Depreciation = 0 :=
  let h := liabilityDay_entry l (l.DiscountRate / 365) (totalInterest l n) totalPrincipal
    (totalPayment l n) s
  ⟨h.1, h.2.1, h.2.2.1, h.2.2.2.1, h.2.2.2.2.1⟩

/-- Both properties of the balances of a liability schedule built by the daily loop. -/
theorem scheduleStates_balances (l : Lease) (n : Nat) (x : ℚ) :
    (∀ e, ((scheduleStates l n x).map (scheduleEntry l n)).head? = some e →
      e.OpeningBalance = roundFloat x 2) ∧
    List.Chain' (fun a b => b.OpeningBalance = a.ClosingBalance)
      ((scheduleStates l n x).map (scheduleEntry l n)) := by
  constructor
  · intro e he
    rw [List.head?_map] at he
    cases hs : (scheduleStates l n x).head? with
    | none => simp [hs] at he
    | some s =>
      rw [hs] at he
      simp only [Option.map_some', Option.some.injEq] at he
      rw [← he, (scheduleEntry_fields l n s).2.2.1, scheduleStates_head l n x s hs]
      rfl
  · rw [scheduleStates_map]
    exact liabilityLoop_chain _ _ _ _ _ _ _

/-- Both properties of the balances of the straight-line schedule. -/
theorem rouEntries_balances (N : Nat) (A : ℚ) (start : Int) :
    (∀ e, ((List.range N).map
        (fun (i : Nat) => rouEntry N A (1 + i) ⟨start + (i : Int)⟩)).head? = some e →
      e.OpeningBalance = roundFloat A 2) ∧
    List.Chain' (fun a b => b.OpeningBalance = a.ClosingBalance)
      ((List.range N).map (fun (i : Nat) => rouEntry N A (1 + i) ⟨start + (i : Int)⟩)) := by
  constructor
  · intro e he
    cases N with
    | zero => simp at he
    | succ k =>
      rw [List.range_succ_eq_map] at he
      simp only [List.map_cons, List.head?_cons, Option.some.injEq] at he
      rw [← he]
      simp only [rouEntry, Nat.add_zero, Nat.cast_one, sub_self, zero_mul, sub_zero]
  · rw [List.chain'_iff_get]
    intro i hi
    simp only [List.length_map, List.length_range] at hi
    simp only [List.get_eq_getElem, List.getElem_map, List.getElem_range, rouEntry]
    have hne : ¬ (1 + i = N) := by omega
    rw [if_neg hne]
    congr 2
    push_cast
    ring

/-! ## Opening and closing balances -/

/-- The last entry of a liability schedule built by the daily loop, and its closing balance. -/
theorem GenerateLiabilitySchedule_last (l : Lease) (x : ℚ) (n : Nat) (r : ℚ)
    (hg : getPeriodsAndRate l = (n, r, none)) (hn : n ≠ 0) (k : Nat)
    (hk : (totalDays l).toNat = k + 1) :
    ∃ e, (GenerateLiabilitySchedule l x).1.getLast? = some e ∧
      e.ClosingBalance
        = roundFloat (liabilityFinal l (l.DiscountRate / 365) (totalInterest l n)
            totalPrincipal (totalPayment l n) (k + 1) (initialState l n x)).openingBalance 2 := by
  rw [GenerateLiabilitySchedule_eq l x n r hg hn, if_neg (by omega), scheduleStates_map, hk,
    liabilityLoop_getLast]
  refine ⟨_, rfl, ?_⟩
  rw [(liabilityDay_entry _ _ _ _ _ _).2.2.2.2.2.1, liabilityFinal_succ]

/-- For a term of at most 106751 days the last entry of the liability schedule is dated the end
date and its closing balance is 0. -/
theorem GenerateLiabilitySchedule_last_closing (l : Lease) (x : ℚ) (n : Nat) (r : ℚ)
    (hg : getPeriodsAndRate l = (n, r, none)) (hn : n ≠ 0)
    (h1 : 0 ≤ l.EndDate.absDays - l.StartDate.absDays)
    (h2 : l.EndDate.absDays - l.StartDate.absDays ≤ 106751) :
    ∃ e, (GenerateLiabilitySchedule l x).1.getLast? = some e ∧ e.ClosingBalance = 0 := by
  have ht : totalDays l = l.EndDate.absDays - l.StartDate.absDays + 1 := by
    rw [totalDays, totalDays_inRange _ _ h1 h2]
  have hk : (totalDays l).toNat = (l.EndDate.absDays - l.StartDate.absDays).toNat + 1 := by
    rw [ht]
    omega
  obtain ⟨e, he, hc⟩ := GenerateLiabilitySchedule_last l x n r hg hn _ hk
  refine ⟨e, he, ?_⟩
  rw [hc, liabilityFinal_succ, liabilityDay_end, roundFloat_zero]
  rw [Time.Equal_iff, liabilityFinal_date]
  simp only [initialState]
  have : (((l.EndDate.absDays - l.StartDate.absDays).toNat : Nat) : Int)
      = l.EndDate.absDays - l.StartDate.absDays := Int.toNat_of_nonneg h1
  omega

/-- The last entry of a schedule of `GenerateRoUAssetSchedule` returned without error has the
closing balance 0. -/
theorem GenerateRoUAssetSchedule_last_closing (l : Lease) (A : ℚ)
    (sched : List AmortizationEntry) (h : GenerateRoUAssetSchedule l A = (sched, none))
    (e : AmortizationEntry) (he : sched.getLast? = some e) : e.ClosingBalance = 0 := by
  rcases GenerateRoUAssetSchedule_cases l A with ⟨err, _, h3⟩ | ⟨_, _, h3⟩ | ⟨_, _, h3⟩
  · rw [h3] at h
    simp at h
  · rw [h3] at h
    simp at h
  · rw [h3] at h
    simp only [Prod.mk.injEq, and_true] at h
    subst h
    cases hN : (totalDays l).toNat with
    | zero =>
      rw [hN] at he
      simp at he
    | succ k =>
      rw [hN, List.range_succ, List.map_append, List.map_singleton,
        List.getLast?_append] at he
      simp only [List.getLast?_singleton] at he
      have he2 : some (rouEntry (k + 1) A (1 + k) ⟨l.StartDate.absDays + (k : Int)⟩) = some e :=
        he
      rw [Option.some.injEq] at he2
      rw [← he2]
      simp only [rouEntry, show 1 + k = k + 1 by omega, if_true]
      exact roundFloat_zero 2

/-- For a term of more than 106751 days the closing balance of the last entry of the liability
schedule is the initial liability minus an amount that does not depend on it, rounded. -/
theorem GenerateLiabilitySchedule_long_closing (l : Lease) (n : Nat) (r : ℚ)
    (hg : getPeriodsAndRate l = (n, r, none)) (hn : n ≠ 0)
    (h : 106751 < l.EndDate.absDays - l.StartDate.absDays) :
    ∃ P : ℚ, ∀ x : ℚ, ∃ e, (GenerateLiabilitySchedule l x).1.getLast? = some e ∧
      e.ClosingBalance = roundFloat (x - P) 2 := by
  have ht : totalDays l = 106752 := by
    rw [totalDays, totalDays_saturated _ _ h]
    rfl
  have hk : (totalDays l).toNat = 106751 + 1 := by
    rw [ht]
    rfl
  refine ⟨-(liabilityFinal l (l.DiscountRate / 365) (totalInterest l n) totalPrincipal
    (totalPayment l n) (106751 + 1) (initialState l n 0)).openingBalance, ?_⟩
  intro x
  obtain ⟨e, he, hc⟩ := GenerateLiabilitySchedule_last l x n r hg hn _ hk
  refine ⟨e, he, ?_⟩
  have hx : initialState l n x = (initialState l n 0).shift x := by
    simp only [initialState, LoopState.shift, zero_add]
  rw [hc, hx, liabilityFinal_shift]
  · simp only [LoopState.shift]
    congr 1
    ring
  · simp only [initialState]
    push_cast
    omega

/-- C12, at the lease whose term exceeds the range of a `Duration`. The Monthly lease 2000-01-01
to 2300-01-01 (payment 1000, rate 0.05) has 3600 periods and its liability schedule is returned
without error with 106752 entries, for every initial liability `x`. The closing balance of its
last entry is `x - P` rounded to 2 decimals for an amount `P` that does not depend on `x`: it is
not forced to 0, it is 0 only when `x` is within half a cent of `P`, and so it is not 0 for both
of the initial liabilities 0 and 1. -/
theorem long_lease_last_closing :
    (∀ x : ℚ,
      (GenerateLiabilitySchedule (mkLease Monthly (Date 2000 1 1) (Date 2300 1 1) 1000 (5 / 100))
        x).2 = none ∧
      (GenerateLiabilitySchedule (mkLease Monthly (Date 2000 1 1) (Date 2300 1 1) 1000 (5 / 100))
        x).1.length = 106752) ∧
    (∃ P : ℚ, ∀ x : ℚ, ∃ e,
      (GenerateLiabilitySchedule (mkLease Monthly (Date 2000 1 1) (Date 2300 1 1) 1000 (5 / 100))
        x).1.getLast? = some e ∧
      e.ClosingBalance = roundFloat (x - P) 2 ∧ (e.ClosingBalance = 0 → |x - P| ≤ 1 / 200)) ∧
    ¬ ((∀ e, (GenerateLiabilitySchedule
          (mkLease Monthly (Date 2000 1 1) (Date 2300 1 1) 1000 (5 / 100)) 0).1.getLast? = some e →
        e.ClosingBalance = 0) ∧
      (∀ e, (GenerateLiabilitySchedule
          (mkLease Monthly (Date 2000 1 1) (Date 2300 1 1) 1000 (5 / 100)) 1).1.getLast? = some e →
        e.ClosingBalance = 0)) := by
  have hlong : 106751 < (mkLease Monthly (Date 2000 1 1) (Date 2300 1 1) 1000 (5 / 100)).EndDate.absDays
      - (mkLease Monthly (Date 2000 1 1) (Date 2300 1 1) 1000 (5 / 100)).StartDate.absDays := by
    decide
  obtain ⟨P, hP⟩ := GenerateLiabilitySchedule_long_closing
    (mkLease Monthly (Date 2000 1 1) (Date 2300 1 1) 1000 (5 / 100)) 3600 (1 / 240)
    getPeriodsAndRate_three_centuries (by decide) hlong
  refine ⟨?_, ⟨P, ?_⟩, ?_⟩
  · intro x
    have := GenerateLiabilitySchedule_long _ x 3600 (1 / 240) getPeriodsAndRate_three_centuries
      (by decide) hlong
    exact ⟨this.1, this.2.1⟩
  · intro x
    obtain ⟨e, he, hc⟩ := hP x
    refine ⟨e, he, hc, ?_⟩
    intro h0
    rw [hc] at h0
    exact roundFloat_eq_zero _ h0
  · rintro ⟨h0, h1⟩
    obtain ⟨e0, he0, hc0⟩ := hP 0
    obtain ⟨e1, he1, hc1⟩ := hP 1
    have a0 := roundFloat_eq_zero _ (hc0 ▸ h0 e0 he0)
    have a1 := roundFloat_eq_zero _ (hc1 ▸ h1 e1 he1)
    rw [abs_le] at a0 a1
    linarith [a0.1, a0.2, a1.1, a1.2]

/-! ## The principal of the liability schedule -/

theorem CalculateLeaseLiability_scenario :
    CalculateLeaseLiability (mkLease Monthly (Date 2024 1 1) (Date 2024 12 31) 1000 (5 / 100))
      = (1168122 / 100, none) := by
  rw [CalculateLeaseLiability_valid _ 12 (1 / 240) (by norm_num [mkLease])
    (by norm_num [mkLease]) (by decide) (by decide) (by decide)
    getPeriodsAndRate_monthly_2024]
  rw [if_neg (by omega), if_pos (by norm_num)]
  have e : (mkLease Monthly (Date 2024 1 1) (Date 2024 12 31) 1000 (5 / 100)).PaymentAmount
      = 1000 := rfl
  rw [e]
  have := roundToDecimalPlaces_scenario
  norm_num at this ⊢
  rw [this]

/-- C13, at the scenario lease. For the Monthly lease 2024-01-01 to 2024-12-31 with payment
1000 and rate 0.05, `CalculateLeaseLiability` returns 11681.22, and the liability schedule
generated for that initial liability is returned without error, but its `PrincipalRepayment`
fields sum to 1078671.21, the value that the code fixes for `totalPrincipal`, which is not
within 0.01 of the initial liability. -/
theorem GenerateLiabilitySchedule_principal_sum :
    CalculateLeaseLiability (mkLease Monthly (Date 2024 1 1) (Date 2024 12 31) 1000 (5 / 100))
      = (1168122 / 100, none) ∧
    (GenerateLiabilitySchedule (mkLease Monthly (Date 2024 1 1) (Date 2024 12 31) 1000 (5 / 100))
      (1168122 / 100)).2 = none ∧
    ((GenerateLiabilitySchedule (mkLease Monthly (Date 2024 1 1) (Date 2024 12 31) 1000 (5 / 100))
      (1168122 / 100)).1.map (fun e => e.PrincipalRepayment)).sum = 107867121 / 100 ∧
    ¬ (|((GenerateLiabilitySchedule
        (mkLease Monthly (Date 2024 1 1) (Date 2024 12 31) 1000 (5 / 100))
        (1168122 / 100)).1.map (fun e => e.PrincipalRepayment)).sum - 1168122 / 100|
      ≤ 1 / 100) := by
  have hsum : ((GenerateLiabilitySchedule
      (mkLease Monthly (Date 2024 1 1) (Date 2024 12 31) 1000 (5 / 100))
      (1168122 / 100)).1.map (fun e => e.PrincipalRepayment)).sum = 107867121 / 100 := by
    decide!
  have hd := GenerateLiabilitySchedule_daily
    (mkLease Monthly (Date 2024 1 1) (Date 2024 12 31) 1000 (5 / 100)) (1168122 / 100) 12
    (1 / 240) getPeriodsAndRate_monthly_2024 (by decide) (by decide) (by decide)
  refine ⟨CalculateLeaseLiability_scenario, hd.1, hsum, ?_⟩
  rw [hsum]
  norm_num [abs_of_pos]

/-! ## The payment of each day -/

/-- When `getPeriodsAndRate` fails. -/
theorem getPeriodsAndRate_fails_iff (l : Lease) :
    (getPeriodsAndRate l).2.2 ≠ none ↔
      (¬ supported l.PaymentFrequency ∨ l.DiscountRate ≤ 0 ∨
        (marker l.StartDate (monthStep l.PaymentFrequency) 12000).Before l.EndDate = true) := by
  constructor
  · intro h
    by_contra hc
    simp only [not_or, not_not, not_le] at hc
    obtain ⟨hs, hr, hm⟩ := hc
    rcases getPeriodsAndRate_cases l hs hr with ⟨_, h1⟩ | ⟨_, n, _, _, h1, _, _⟩ | ⟨_, h1, _⟩
    · rw [h1] at h
      exact h rfl
    · rw [h1] at h
      exact h rfl
    · exact hm h1
  · intro h hnone
    obtain ⟨hs, hr, _⟩ := getPeriodsAndRate_ok l hnone
    rcases h with h | h | h
    · exact h hs
    · exact absurd hr (not_lt.mpr h)
    · rw [getPeriodsAndRate_safety l hs hr h] at hnone
      simp at hnone

/-- C17. `GenerateLiabilitySchedule` returns an error exactly when `getPeriodsAndRate` returns
one, which is exactly when the frequency is unsupported, the discount rate is at most 0 or the
marker 12000 lies before the end date (safety cap); the error is that of `getPeriodsAndRate`
with a prefix, and no entry is returned with it; and when `getPeriodsAndRate` succeeds with the
period count 0 the result is the empty schedule without error. -/
theorem GenerateLiabilitySchedule_error_iff (l : Lease) (x : ℚ) :
    ((GenerateLiabilitySchedule l x).2 ≠ none ↔ (getPeriodsAndRate l).2.2 ≠ none) ∧
    ((GenerateLiabilitySchedule l x).2 ≠ none ↔
      (¬ supported l.PaymentFrequency ∨ l.DiscountRate ≤ 0 ∨
        (marker l.StartDate (monthStep l.PaymentFrequency) 12000).Before l.EndDate = true)) ∧
    (∀ err, (getPeriodsAndRate l).2.2 = some err →
      GenerateLiabilitySchedule l x
        = ([], some ("failed to get periods and rate for schedule: " ++ err))) ∧
    ((GenerateLiabilitySchedule l x).2 ≠ none → (GenerateLiabilitySchedule l x).1 = []) ∧
    ((getPeriodsAndRate l).2.2 = none → (getPeriodsAndRate l).1 = 0 →
      GenerateLiabilitySchedule l x = ([], none)) := by
  have h1 : (GenerateLiabilitySchedule l x).2 ≠ none ↔ (getPeriodsAndRate l).2.2 ≠ none := by
    rcases GenerateLiabilitySchedule_cases l x with ⟨err, hg, he⟩ | ⟨hg, _, he⟩ | ⟨hg, _, _, he⟩
    · rw [he, hg]
      simp
    · rw [he, hg]
    · rw [he, hg]
  have h3 : ∀ err, (getPeriodsAndRate l).2.2 = some err →
      GenerateLiabilitySchedule l x
        = ([], some ("failed to get periods and rate for schedule: " ++ err)) := by
    intro err herr
    rcases GenerateLiabilitySchedule_cases l x with ⟨err', hg, he⟩ | ⟨hg, _, _⟩ | ⟨hg, _, _, _⟩
    · rw [hg, Option.some.injEq] at herr
      rw [he, herr]
    · rw [hg] at herr
      simp at herr
    · rw [hg] at herr
      simp at herr
  refine ⟨h1, h1.trans (getPeriodsAndRate_fails_iff l), h3, ?_, ?_⟩
  · intro h
    rw [h1] at h
    cases hg : (getPeriodsAndRate l).2.2 with
    | none => exact absurd hg h
    | some err => rw [h3 err hg]
  · intro hg h0
    rcases hgpr : getPeriodsAndRate l with ⟨n, r, e⟩
    rw [hgpr] at hg h0
    simp only at hg h0
    subst hg
    subst h0
    exact GenerateLiabilitySchedule_zero l x r hgpr

/-- Witness of C17: a lease with the frequency "Weekly" is rejected by `getPeriodsAndRate`, and
`GenerateLiabilitySchedule` returns that error with its prefix and no entry. -/
theorem GenerateLiabilitySchedule_error_iff_witness :
    (getPeriodsAndRate (mkLease "Weekly" (Date 2024 1 1) (Date 2024 12 31) 1000 (5 / 100))).2.2
      = some "unsupported payment frequency: Weekly" ∧
    GenerateLiabilitySchedule (mkLease "Weekly" (Date 2024 1 1) (Date 2024 12 31) 1000 (5 / 100))
        10000
      = ([], some ("failed to get periods and rate for schedule: "
          ++ "unsupported payment frequency: Weekly")) :=
  have hg : (getPeriodsAndRate
      (mkLease "Weekly" (Date 2024 1 1) (Date 2024 12 31) 1000 (5 / 100))).2.2
      = some "unsupported payment frequency: Weekly" := by
    rw [getPeriodsAndRate_unsupported _ (by decide)]
    decide
  ⟨hg, (GenerateLiabilitySchedule_error_iff
    (mkLease "Weekly" (Date 2024 1 1) (Date 2024 12 31) 1000 (5 / 100)) 10000).2.2.1 _ hg⟩

/-- C18. `GenerateRoUAssetSchedule` returns an error and no entry when the initial asset is
negative, and also when `getPeriodsAndRate` fails for the lease; the failure of
`getPeriodsAndRate` is reported, with a prefix, whatever the sign of the asset, so it is checked
first; and for two leases with the same start and end date that both pass `getPeriodsAndRate`
the result is the same, whatever their rates, frequencies and period counts. -/
theorem GenerateRoUAssetSchedule_errors (l : Lease) (A : ℚ) :
    (A < 0 → (GenerateRoUAssetSchedule l A).2 ≠ none ∧ (GenerateRoUAssetSchedule l A).1 = []) ∧
    ((getPeriodsAndRate l).2.2 ≠ none →
      (GenerateRoUAssetSchedule l A).2 ≠ none ∧ (GenerateRoUAssetSchedule l A).1 = []) ∧
    (∀ err, (getPeriodsAndRate l).2.2 = some err →
      GenerateRoUAssetSchedule l A
        = ([], some ("failed to get periods for RoU schedule: " ++ err))) ∧
    ((getPeriodsAndRate l).2.2 = none → A < 0 →
      GenerateRoUAssetSchedule l A
        = ([], some ("initial RoU Asset value cannot be negative: " ++ formatFloat2 A))) ∧
    (∀ k : Lease, k.StartDate = l.StartDate → k.EndDate = l.EndDate →
      (getPeriodsAndRate l).2.2 = none → (getPeriodsAndRate k).2.2 = none →
      GenerateRoUAssetSchedule k A = GenerateRoUAssetSchedule l A) := by
  have h3 : ∀ err, (getPeriodsAndRate l).2.2 = some err →
      GenerateRoUAssetSchedule l A
        = ([], some ("failed to get periods for RoU schedule: " ++ err)) := by
    intro err herr
    rcases GenerateRoUAssetSchedule_cases l A with ⟨err', hg, he⟩ | ⟨hg, _, _⟩ | ⟨hg, _, _⟩
    · rw [hg, Option.some.injEq] at herr
      rw [he, herr]
    · rw [hg] at herr
      simp at herr
    · rw [hg] at herr
      simp at herr
  have h4 : (getPeriodsAndRate l).2.2 = none → A < 0 →
      GenerateRoUAssetSchedule l A
        = ([], some ("initial RoU Asset value cannot be negative: " ++ formatFloat2 A)) := by
    intro hnone hA
    rcases GenerateRoUAssetSchedule_cases l A with ⟨err', hg, _⟩ | ⟨_, _, he⟩ | ⟨_, hA', _⟩
    · rw [hg] at hnone
      simp at hnone
    · exact he
    · exact absurd hA (not_lt.mpr hA')
  have h2 : (getPeriodsAndRate l).2.2 ≠ none →
      (GenerateRoUAssetSchedule l A).2 ≠ none ∧ (GenerateRoUAssetSchedule l A).1 = [] := by
    intro h
    cases hg : (getPeriodsAndRate l).2.2 with
    | none => exact absurd hg h
    | some err =>
      rw [h3 err hg]
      exact ⟨by simp, rfl⟩
  refine ⟨?_, h2, h3, h4, ?_⟩
  · intro hA
    cases hg : (getPeriodsAndRate l).2.2 with
    | none =>
      rw [h4 hg hA]
      exact ⟨by simp, rfl⟩
    | some err => exact h2 (by rw [hg]; simp)
  · intro k hs he hl hk
    rcases GenerateRoUAssetSchedule_cases l A with ⟨_, hg, _⟩ | ⟨_, hA, e1⟩ | ⟨_, hA, e1⟩
    · rw [hg] at hl
      simp at hl
    · rcases GenerateRoUAssetSchedule_cases k A with ⟨_, hg, _⟩ | ⟨_, _, e2⟩ | ⟨_, hA', _⟩
      · rw [hg] at hk
        simp at hk
      · rw [e1, e2]
      · exact absurd hA (not_lt.mpr hA')
    · rcases GenerateRoUAssetSchedule_cases k A with ⟨_, hg, _⟩ | ⟨_, hA', _⟩ | ⟨_, _, e2⟩
      · rw [hg] at hk
        simp at hk
      · exact absurd hA' (not_lt.mpr hA)
      · rw [e1, e2]
        simp only [totalDays, hs, he]

/-- Witness of C18: for the Monthly lease 2024-01-01 to 2024-12-31 with rate 0.05 the asset
value -1000 is rejected, and for the same lease with the frequency "invalid" the asset value
10000 is rejected with the error of `getPeriodsAndRate`. -/
theorem GenerateRoUAssetSchedule_errors_witness :
    ((GenerateRoUAssetSchedule (mkLease Monthly (Date 2024 1 1) (Date 2024 12 31) 0 (5 / 100))
        (-1000)).2 ≠ none ∧
      (GenerateRoUAssetSchedule (mkLease Monthly (Date 2024 1 1) (Date 2024 12 31) 0 (5 / 100))
        (-1000)).1 = []) ∧
    GenerateRoUAssetSchedule (mkLease "invalid" (Date 2024 1 1) (Date 2024 12 31) 0 0) 10000
      = ([], some ("failed to get periods for RoU schedule: "
          ++ "unsupported payment frequency: invalid")) :=
  ⟨(GenerateRoUAssetSchedule_errors
      (mkLease Monthly (Date 2024 1 1) (Date 2024 12 31) 0 (5 / 100)) (-1000)).1
      (by norm_num),
    (GenerateRoUAssetSchedule_errors
      (mkLease "invalid" (Date 2024 1 1) (Date 2024 12 31) 0 0) 10000).2.2.1 _
      (by
        rw [getPeriodsAndRate_unsupported _ (by decide)]
        decide)⟩

/-! ## The entries of the straight-line schedule -/

/-- The schedule of `GenerateRoUAssetSchedule` for a term of at most 106751 days: one entry for
each day from the start date to the end date. -/
theorem GenerateRoUAssetSchedule_daily (l : Lease) (A : ℚ)
    (hg : (getPeriodsAndRate l).2.2 = none) (hA : 0 ≤ A)
    (h1 : 0 ≤ l.EndDate.absDays - l.StartDate.absDays)
    (h2 : l.EndDate.absDays - l.StartDate.absDays ≤ 106751) :
    GenerateRoUAssetSchedule l A =
      ((List.range ((l.EndDate.absDays - l.StartDate.absDays).toNat + 1)).map
        (fun (i : Nat) => rouEntry ((l.EndDate.absDays - l.StartDate.absDays).toNat + 1) A
          (1 + i) ⟨l.StartDate.absDays + (i : Int)⟩), none) := by
  have ht : (totalDays l).toNat = (l.EndDate.absDays - l.StartDate.absDays).toNat + 1 := by
    rw [totalDays, totalDays_inRange _ _ h1 h2]
    omega
  rw [GenerateRoUAssetSchedule_eq l A hg hA, ht]

/-- The schedule of `GenerateRoUAssetSchedule` for a term of more than 106751 days has 106752
entries. -/
theorem GenerateRoUAssetSchedule_long (l : Lease) (A : ℚ)
    (hg : (getPeriodsAndRate l).2.2 = none) (hA : 0 ≤ A)
    (h : 106751 < l.EndDate.absDays - l.StartDate.absDays) :
    GenerateRoUAssetSchedule l A =
      ((List.range 106752).map
        (fun (i : Nat) => rouEntry 106752 A (1 + i) ⟨l.StartDate.absDays + (i : Int)⟩),
        none) := by
  have ht : (totalDays l).toNat = 106752 := by
    rw [totalDays, totalDays_saturated _ _ h]
    rfl
  rw [GenerateRoUAssetSchedule_eq l A hg hA, ht]

/-- C19, at the lease whose term exceeds the range of a `Duration`. The Monthly lease
2000-01-01 to 2300-01-01 (rate 0.05) is accepted by the period validation and its inclusive day
count is 109574, but for the asset 1000000 `GenerateRoUAssetSchedule` returns the straight-line
entries of 106752 days: 106752 entries, the first with the depreciation 9.37, the value of
1000000 / 106752 rounded, where 1000000 / 109574 rounded is 9.13. -/
theorem GenerateRoUAssetSchedule_long_lease :
    (getPeriodsAndRate (mkLease Monthly (Date 2000 1 1) (Date 2300 1 1) 1000 (5 / 100))).2.2
      = none ∧
    (Date 2300 1 1).absDays - (Date 2000 1 1).absDays + 1 = 109574 ∧
    GenerateRoUAssetSchedule (mkLease Monthly (Date 2000 1 1) (Date 2300 1 1) 1000 (5 / 100))
        1000000
      = ((List.range 106752).map
          (fun (i : Nat) => rouEntry 106752 1000000 (1 + i)
            ⟨(Date 2000 1 1).absDays + (i : Int)⟩), none) ∧
    (GenerateRoUAssetSchedule (mkLease Monthly (Date 2000 1 1) (Date 2300 1 1) 1000 (5 / 100))
        1000000).1.length = 106752 ∧
    (rouEntry 106752 1000000 1 (Date 2000 1 1)).Depreciation = 937 / 100 ∧
    roundFloat (1000000 / 109574) 2 = 913 / 100 := by
  have hg : (getPeriodsAndRate
      (mkLease Monthly (Date 2000 1 1) (Date 2300 1 1) 1000 (5 / 100))).2.2 = none := by
    rw [getPeriodsAndRate_three_centuries]
  have h := GenerateRoUAssetSchedule_long
    (mkLease Monthly (Date 2000 1 1) (Date 2300 1 1) 1000 (5 / 100)) 1000000 hg (by norm_num)
    (by decide)
  refine ⟨hg, by decide, h, ?_, by decide!, by decide!⟩
  rw [h]
  simp only [List.length_map, List.length_range]

/-! ## The sum of the depreciation -/

theorem roundFloat_sum_err (L : List ℚ) :
    |(L.map (fun y => roundFloat y 2)).sum - L.sum| ≤ (L.length : ℚ) / 200 := by
  induction L with
  | nil => simp
  | cons y rest ih =>
    simp only [List.map_cons, List.sum_cons, List.length_cons, Nat.cast_add, Nat.cast_one]
    have e : roundFloat y 2 + (rest.map (fun y => roundFloat y 2)).sum - (y + rest.sum)
        = (roundFloat y 2 - y) + ((rest.map (fun y => roundFloat y 2)).sum - rest.sum) := by
      ring
    rw [e]
    have h1 := roundFloat_err y
    have h2 := abs_add (roundFloat y 2 - y)
      ((rest.map (fun y => roundFloat y 2)).sum - rest.sum)
    have e2 : ((rest.length : ℚ) + 1) / 200 = 1 / 200 + (rest.length : ℚ) / 200 := by ring
    rw [e2]
    linarith

theorem rawDepreciation_partial_sum (N : Nat) (A : ℚ) (m : Nat) (hm : m < N) :
    ((List.range m).map (fun i => rawDepreciation N A (1 + i))).sum = (m : ℚ) * (A / N) := by
  induction m with
  | zero => simp
  | succ k ih =>
    rw [List.range_succ, List.map_append, List.sum_append, ih (by omega)]
    have hne : ¬ (1 + k = N) := by omega
    simp only [List.map_singleton, List.sum_singleton, rawDepreciation, if_neg hne]
    push_cast
    ring

/-- The unrounded depreciation of the `N ≥ 1` days sums to the asset. -/
theorem rawDepreciation_sum (N : Nat) (A : ℚ) (hN : N ≠ 0) :
    ((List.range N).map (fun i => rawDepreciation N A (1 + i))).sum = A := by
  obtain ⟨k, rfl⟩ : ∃ k, N = k + 1 := ⟨N - 1, by omega⟩
  rw [List.range_succ, List.map_append, List.sum_append,
    rawDepreciation_partial_sum (k + 1) A k (by omega)]
  simp only [List.map_singleton, List.sum_singleton, rawDepreciation,
    show 1 + k = k + 1 by omega, if_true]
  push_cast
  ring

/-- C20, counterexample. For the Monthly lease 2024-01-01 to 2024-12-31 (rate 0.05) and the
asset 11686.23 the schedule is returned without error and its Depreciation fields sum to
11686.38, which is 0.15 more than the asset. -/
theorem GenerateRoUAssetSchedule_sum_drift :
    (GenerateRoUAssetSchedule (mkLease Monthly (Date 2024 1 1) (Date 2024 12 31) 1000 (5 / 100))
      (1168623 / 100)).2 = none ∧
    ((GenerateRoUAssetSchedule (mkLease Monthly (Date 2024 1 1) (Date 2024 12 31) 1000 (5 / 100))
      (1168623 / 100)).1.map (fun e => e.Depreciation)).sum = 1168638 / 100 ∧
    ¬ (|((GenerateRoUAssetSchedule
        (mkLease Monthly (Date 2024 1 1) (Date 2024 12 31) 1000 (5 / 100))
        (1168623 / 100)).1.map (fun e => e.Depreciation)).sum - 1168623 / 100| ≤ 1 / 100) := by
  have hsum : ((GenerateRoUAssetSchedule
      (mkLease Monthly (Date 2024 1 1) (Date 2024 12 31) 1000 (5 / 100))
      (1168623 / 100)).1.map (fun e => e.Depreciation)).sum = 1168638 / 100 := by
    decide!
  have hr := GenerateRoUAssetSchedule_daily
    (mkLease Monthly (Date 2024 1 1) (Date 2024 12 31) 1000 (5 / 100)) (1168623 / 100)
    (by rw [getPeriodsAndRate_monthly_2024]) (by norm_num) (by decide) (by decide)
  refine ⟨by rw [hr], hsum, ?_⟩
  rw [hsum]
  norm_num [abs_of_pos]

/-! ## Rounding to cents, again -/

theorem roundTo2Decimals_eq (val : ℚ) : roundTo2Decimals val = roundFloat val 2 := by
  simp only [roundTo2Decimals, roundFloat]
  norm_num

theorem mathRound_intCast (z : Int) : mathRound (z : ℚ) = z := by
  unfold mathRound
  split
  · rename_i h
    have e : ⌊-(z : ℚ) + 1 / 2⌋ = -z := by
      rw [Int.floor_eq_iff]
      push_cast
      constructor <;> linarith
    rw [e]
    push_cast
    ring
  · have e : ⌊(z : ℚ) + 1 / 2⌋ = z := by
      rw [Int.floor_eq_iff]
      constructor <;> linarith
    rw [e]

/-- Rounding a value that is already rounded to 2 decimals changes nothing. -/
theorem roundFloat_idem (x : ℚ) : roundFloat (roundFloat x 2) 2 = roundFloat x 2 := by
  obtain ⟨z, hz, _, _⟩ := mathRound_spec (x * 10 ^ 2)
  have h1 : roundFloat x 2 = (z : ℚ) / 10 ^ 2 := by
    simp only [roundFloat, hz]
  rw [h1]
  simp only [roundFloat]
  have e : (z : ℚ) / 10 ^ 2 * 10 ^ 2 = z := by
    field_simp
  rw [e, mathRound_intCast]

/-- The two copies of `calculateAccountingPeriodSummary` compute the same. -/
theorem calculateAccountingPeriodSummary_copies (result : CalculationResult)
    (periodStart periodEnd : String) :
    calculation.calculateAccountingPeriodSummary result periodStart periodEnd
      = calculateAccountingPeriodSummary result periodStart periodEnd := by
  have h : (fun val => roundFloat val 2) = roundTo2Decimals := by
    funext val
    exact (roundTo2Decimals_eq val).symm
  simp only [calculation.calculateAccountingPeriodSummary, calculateAccountingPeriodSummary, h]

/-! ## The three outcomes of the summary -/

theorem periodSummary_start_error (round2 : ℚ → ℚ) (result : CalculationResult)
    (periodStart periodEnd : String) (h : timeParse periodStart = none) :
    periodSummary round2 result periodStart periodEnd = (result, some "无效的账期开始日期") := by
  simp only [periodSummary, h]

theorem periodSummary_end_error (round2 : ℚ → ℚ) (result : CalculationResult)
    (periodStart periodEnd : String) (start : Time) (h1 : timeParse periodStart = some start)
    (h2 : timeParse periodEnd = none) :
    periodSummary round2 result periodStart periodEnd = (result, some "无效的账期结束日期") := by
  simp only [periodSummary, h1, h2]

theorem periodSummary_order_error (round2 : ℚ → ℚ) (result : CalculationResult)
    (periodStart periodEnd : String) (start finish : Time)
    (h1 : timeParse periodStart = some start) (h2 : timeParse periodEnd = some finish)
    (h3 : finish.Before start = true) :
    periodSummary round2 result periodStart periodEnd
      = (result, some "账期结束日期不能早于开始日期") := by
  simp only [periodSummary, h1, h2, h3, if_true]

theorem periodSummary_ok (round2 : ℚ → ℚ) (result : CalculationResult)
    (periodStart periodEnd : String) (start finish : Time)
    (h1 : timeParse periodStart = some start) (h2 : timeParse periodEnd = some finish)
    (h3 : finish.Before start = false) :
    periodSummary round2 result periodStart periodEnd
      = (rouSummary round2 start finish (liabilitySummary round2 start finish
          { result with AccountingPeriodStart := periodStart, AccountingPeriodEnd := periodEnd }),
        none) := by
  simp only [periodSummary, h1, h2, h3, Bool.false_eq_true, if_false]

/-! ## The balance variables of the two loops -/

theorem liabilitySummaryStep_balances (start finish : Time) (prev : Option AmortizationEntry)
    (entry : AmortizationEntry) (v : LiabilityTotals) :
    (⟨(liabilitySummaryStep start finish prev entry v).startBalance,
      (liabilitySummaryStep start finish prev entry v).startFound,
      (liabilitySummaryStep start finish prev entry v).endBalance,
      (liabilitySummaryStep start finish prev entry v).endFound⟩ : Balances)
      = balanceStep start finish prev entry
          ⟨v.startBalance, v.startFound, v.endBalance, v.endFound⟩ := by
  simp only [liabilitySummaryStep, balanceStep]
  split_ifs <;> rfl

theorem liabilitySummaryLoop_balances (start finish : Time) (sched : List AmortizationEntry) :
    ∀ (prev : Option AmortizationEntry) (v : LiabilityTotals),
      (⟨(liabilitySummaryLoop start finish prev sched v).startBalance,
        (liabilitySummaryLoop start finish prev sched v).startFound,
        (liabilitySummaryLoop start finish prev sched v).endBalance,
        (liabilitySummaryLoop start finish prev sched v).endFound⟩ : Balances)
        = balanceLoop start finish prev sched
            ⟨v.startBalance, v.startFound, v.endBalance, v.endFound⟩ := by
  induction sched with
  | nil => intro prev v; rfl
  | cons e rest ih =>
    intro prev v
    simp only [liabilitySummaryLoop, balanceLoop]
    rw [ih, liabilitySummaryStep_balances]

theorem rouSummaryStep_balances (start finish : Time) (prev : Option AmortizationEntry)
    (entry : AmortizationEntry) (v : RoUTotals) :
    (⟨(rouSummaryStep start finish prev entry v).startBalance,
      (rouSummaryStep start finish prev entry v).startFound,
      (rouSummaryStep start finish prev entry v).endBalance,
      (rouSummaryStep start finish prev entry v).endFound⟩ : Balances)
      = balanceStep start finish prev entry
          ⟨v.startBalance, v.startFound, v.endBalance, v.endFound⟩ := by
  simp only [rouSummaryStep, balanceStep]
  split_ifs <;> rfl

theorem rouSummaryLoop_balances (start finish : Time) (sched : List AmortizationEntry) :
    ∀ (prev : Option AmortizationEntry) (v : RoUTotals),
      (⟨(rouSummaryLoop start finish prev sched v).startBalance,
        (rouSummaryLoop start finish prev sched v).startFound,
        (rouSummaryLoop start finish prev sched v).endBalance,
        (rouSummaryLoop start finish prev sched v).endFound⟩ : Balances)
        = balanceLoop start finish prev sched
            ⟨v.startBalance, v.startFound, v.endBalance, v.endFound⟩ := by
  induction sched with
  | nil => intro prev v; rfl
  | cons e rest ih =>
    intro prev v
    simp only [rouSummaryLoop, balanceLoop]
    rw [ih, rouSummaryStep_balances]

/-! ## The previous entry -/

theorem lastOr_of_getLast? (pre : List AmortizationEntry) :
    ∀ (prev : Option AmortizationEntry) (p : AmortizationEntry), pre.getLast? = some p →
      lastOr prev pre = some p := by
  induction pre with
  | nil => intro prev p h; simp at h
  | cons x rest ih =>
    intro prev p h
    cases rest with
    | nil =>
      simp only [List.getLast?_singleton, Option.some.injEq] at h
      rw [← h]
      rfl
    | cons y t =>
      rw [List.getLast?_cons_cons] at h
      exact ih (some x) p h

theorem balanceLoop_append_cons (start finish : Time) (e : AmortizationEntry)
    (post : List AmortizationEntry) (pre : List AmortizationEntry) :
    ∀ (prev : Option AmortizationEntry) (b : Balances),
      balanceLoop start finish prev (pre ++ e :: post) b
        = balanceLoop start finish (some e) post
            (balanceStep start finish (lastOr prev pre) e (balanceLoop start finish prev pre b)) := by
  induction pre with
  | nil => intro prev b; rfl
  | cons x rest ih =>
    intro prev b
    simp only [List.cons_append, balanceLoop, lastOr]
    exact ih _ _

/-! ## The opening balance of the window -/

theorem balanceStep_start_before (start finish : Time) (prev : Option AmortizationEntry)
    (e : AmortizationEntry) (b : Balances) (h : e.Date.absDays < start.absDays)
    (hb : b.startFound = false) :
    (balanceStep start finish prev e b).startFound = false ∧
    (balanceStep start finish prev e b).startBalance = b.startBalance := by
  have h1 : e.Date.Equal start = false := by
    rw [← Bool.not_eq_true, Time.Equal_iff]
    omega
  have h2 : e.Date.After start = false := by
    rw [← Bool.not_eq_true, Time.After_iff]
    omega
  simp only [balanceStep, h1, h2, Bool.or_self, Bool.and_false, Bool.false_eq_true, if_false]
  split_ifs <;> exact ⟨hb, rfl⟩

theorem balanceStep_start_found (start finish : Time) (prev : Option AmortizationEntry)
    (e : AmortizationEntry) (b : Balances) (hb : b.startFound = true) :
    (balanceStep start finish prev e b).startFound = true ∧
    (balanceStep start finish prev e b).startBalance = b.startBalance := by
  simp only [balanceStep, hb, Bool.not_true, Bool.false_and, Bool.false_eq_true, if_false]
  split_ifs <;> first | exact ⟨hb, rfl⟩ | exact ⟨rfl, rfl⟩

theorem balanceStep_start_hit (start finish : Time) (prev : Option AmortizationEntry)
    (e : AmortizationEntry) (b : Balances) (h : start.absDays ≤ e.Date.absDays)
    (hb : b.startFound = false) :
    (balanceStep start finish prev e b).startFound = true ∧
    (prev = none → (balanceStep start finish prev e b).startBalance = e.OpeningBalance) ∧
    (e.Date = start → (balanceStep start finish prev e b).startBalance = e.OpeningBalance) ∧
    (∀ p, prev = some p → e.Date ≠ start →
      (balanceStep start finish prev e b).startBalance = p.ClosingBalance) := by
  have h1 : (e.Date.Equal start || e.Date.After start) = true := by
    rw [Bool.or_eq_true, Time.Equal_iff, Time.After_iff]
    omega
  simp only [balanceStep, hb, h1, Bool.not_false, Bool.and_self, if_true]
  refine ⟨?_, ?_, ?_, ?_⟩
  · split_ifs <;> rfl
  · intro hp
    subst hp
    split_ifs <;> rfl
  · intro hd
    have h2 : e.Date.After start = false := by
      rw [← Bool.not_eq_true, Time.After_iff, hd]
      omega
    cases prev <;> simp only [h2, Bool.false_eq_true, if_false] <;> split_ifs <;> rfl
  · intro p hp hd
    subst hp
    have h2 : e.Date.After start = true := by
      rw [Time.After_iff]
      have : e.Date.absDays ≠ start.absDays := fun hc => hd (Time.ext_absDays hc)
      omega
    simp only [h2, if_true]
    split_ifs <;> rfl

theorem balanceLoop_start_skip (start finish : Time) (pre : List AmortizationEntry) :
    ∀ (prev : Option AmortizationEntry) (b : Balances),
      (∀ x ∈ pre, x.Date.absDays < start.absDays) → b.startFound = false →
      (balanceLoop start finish prev pre b).startFound = false ∧
      (balanceLoop start finish prev pre b).startBalance = b.startBalance := by
  induction pre with
  | nil => intro prev b _ hb; exact ⟨hb, rfl⟩
  | cons x rest ih =>
    intro prev b hall hb
    have hx := balanceStep_start_before start finish prev x b
      (hall x (List.mem_cons_self _ _)) hb
    have := ih (some x) _ (fun y hy => hall y (List.mem_cons_of_mem _ hy)) hx.1
    simp only [balanceLoop]
    exact ⟨this.1, this.2.trans hx.2⟩

theorem balanceLoop_start_found (start finish : Time) (l : List AmortizationEntry) :
    ∀ (prev : Option AmortizationEntry) (b : Balances), b.startFound = true →
      (balanceLoop start finish prev l b).startFound = true ∧
      (balanceLoop start finish prev l b).startBalance = b.startBalance := by
  induction l with
  | nil => intro prev b hb; exact ⟨hb, rfl⟩
  | cons x rest ih =>
    intro prev b hb
    have hx := balanceStep_start_found start finish prev x b hb
    have := ih (some x) _ hx.1
    simp only [balanceLoop]
    exact ⟨this.1, this.2.trans hx.2⟩

/-- The opening balance that the loop finds: `e` is the first entry dated on or after the
start of the window. -/
theorem windowBalances_start (start finish : Time) (pre post : List AmortizationEntry)
    (e : AmortizationEntry) (hpre : ∀ x ∈ pre, x.Date.absDays < start.absDays)
    (he : start.absDays ≤ e.Date.absDays) :
    (pre = [] → (windowBalances start finish (pre ++ e :: post)).startBalance
      = e.OpeningBalance) ∧
    (e.Date = start → (windowBalances start finish (pre ++ e :: post)).startBalance
      = e.OpeningBalance) ∧
    (∀ p, pre.getLast? = some p → e.Date ≠ start →
      (windowBalances start finish (pre ++ e :: post)).startBalance = p.ClosingBalance) := by
  have hp := balanceLoop_start_skip start finish pre none
    { startBalance := 0, startFound := false, endBalance := 0, endFound := false } hpre rfl
  have hh := balanceStep_start_hit start finish (lastOr none pre) e _ he hp.1
  have hf := balanceLoop_start_found start finish post (some e) _ hh.1
  simp only [windowBalances, balanceLoop_append_cons]
  rw [hf.2]
  refine ⟨?_, hh.2.2.1, ?_⟩
  · intro h0
    subst h0
    exact hh.2.1 rfl
  · intro p hlast hd
    exact hh.2.2.2 p (lastOr_of_getLast? pre none p hlast) hd

/-- When no entry is dated on or after the start of the window, the opening balance stays 0. -/
theorem windowBalances_start_none (start finish : Time) (sched : List AmortizationEntry)
    (h : ∀ x ∈ sched, x.Date.absDays < start.absDays) :
    (windowBalances start finish sched).startBalance = 0 :=
  (balanceLoop_start_skip start finish sched none _ h rfl).2

/-! ## The closing balance of the window -/

theorem balanceStep_end_before (start finish : Time) (prev : Option AmortizationEntry)
    (e : AmortizationEntry) (b : Balances) (h : e.Date.absDays < finish.absDays)
    (hb : b.endFound = false) :
    (balanceStep start finish prev e b).endFound = false ∧
    (balanceStep start finish prev e b).endBalance = b.endBalance := by
  have h1 : e.Date.Equal finish = false := by
    rw [← Bool.not_eq_true, Time.Equal_iff]
    omega
  have h2 : e.Date.After finish = false := by
    rw [← Bool.not_eq_true, Time.After_iff]
    omega
  simp only [balanceStep, h1, h2, Bool.false_and, Bool.or_self, Bool.false_eq_true, if_false]
  split_ifs <;> exact ⟨hb, rfl⟩

theorem balanceStep_end_found (start finish : Time) (prev : Option AmortizationEntry)
    (e : AmortizationEntry) (b : Balances) (h : e.Date.absDays ≠ finish.absDays)
    (hb : b.endFound = true) :
    (balanceStep start finish prev e b).endFound = true ∧
    (balanceStep start finish prev e b).endBalance = b.endBalance := by
  have h1 : e.Date.Equal finish = false := by
    rw [← Bool.not_eq_true, Time.Equal_iff]
    exact h
  simp only [balanceStep, h1, Bool.false_or]
  split_ifs <;> simp_all

theorem balanceStep_end_hit (start finish : Time) (prev : Option AmortizationEntry)
    (e : AmortizationEntry) (b : Balances) :
    (e.Date = finish →
      (balanceStep start finish prev e b).endFound = true ∧
      (balanceStep start finish prev e b).endBalance = e.ClosingBalance) ∧
    (finish.absDays < e.Date.absDays → b.endFound = false →
      (balanceStep start finish prev e b).endFound = true ∧
      (prev = none → (balanceStep start finish prev e b).endBalance = e.ClosingBalance) ∧
      (∀ p, prev = some p →
        (balanceStep start finish prev e b).endBalance = p.ClosingBalance)) := by
  constructor
  · intro hd
    have h1 : e.Date.Equal finish = true := by
      rw [Time.Equal_iff, hd]
    have h2 : e.Date.After finish = false := by
      rw [← Bool.not_eq_true, Time.After_iff, hd]
      omega
    simp only [balanceStep, h1, h2, Bool.true_or, if_true, Bool.false_eq_true, if_false]
    cases prev <;> simp
  · intro hd hb
    have h2 : e.Date.After finish = true := by
      rw [Time.After_iff]
      exact hd
    cases hc : (!b.startFound && (e.Date.Equal start || e.Date.After start))
    · simp only [balanceStep, hc, h2, hb, Bool.false_eq_true, if_false, if_true, Bool.not_false,
        Bool.and_true, Bool.and_self, Bool.or_true]
      refine ⟨trivial, ?_, ?_⟩
      · intro hp
        subst hp
        rfl
      · intro p hp
        subst hp
        rfl
    · simp only [balanceStep, hc, h2, hb, Bool.false_eq_true, if_false, if_true, Bool.not_false,
        Bool.and_true, Bool.and_self, Bool.or_true]
      refine ⟨trivial, ?_, ?_⟩
      · intro hp
        subst hp
        rfl
      · intro p hp
        subst hp
        rfl

theorem balanceLoop_end_skip (start finish : Time) (pre : List AmortizationEntry) :
    ∀ (prev : Option AmortizationEntry) (b : Balances),
      (∀ x ∈ pre, x.Date.absDays < finish.absDays) → b.endFound = false →
      (balanceLoop start finish prev pre b).endFound = false ∧
      (balanceLoop start finish prev pre b).endBalance = b.endBalance := by
  induction pre with
  | nil => intro prev b _ hb; exact ⟨hb, rfl⟩
  | cons x rest ih =>
    intro prev b hall hb
    have hx := balanceStep_end_before start finish prev x b
      (hall x (List.mem_cons_self _ _)) hb
    have := ih (some x) _ (fun y hy => hall y (List.mem_cons_of_mem _ hy)) hx.1
    simp only [balanceLoop]
    exact ⟨this.1, this.2.trans hx.2⟩

theorem balanceLoop_end_found (start finish : Time) (l : List AmortizationEntry) :
    ∀ (prev : Option AmortizationEntry) (b : Balances),
      (∀ x ∈ l, x.Date.absDays ≠ finish.absDays) → b.endFound = true →
      (balanceLoop start finish prev l b).endFound = true ∧
      (balanceLoop start finish prev l b).endBalance = b.endBalance := by
  induction l with
  | nil => intro prev b _ hb; exact ⟨hb, rfl⟩
  | cons x rest ih =>
    intro prev b hall hb
    have hx := balanceStep_end_found start finish prev x b
      (hall x (List.mem_cons_self _ _)) hb
    have := ih (some x) _ (fun y hy => hall y (List.mem_cons_of_mem _ hy)) hx.1
    simp only [balanceLoop]
    exact ⟨this.1, this.2.trans hx.2⟩

theorem finalEndBalance_found (sched : List AmortizationEntry) (b : Balances)
    (h : b.endFound = true) : finalEndBalance sched b = b.endBalance := by
  simp only [finalEndBalance, h, Bool.not_true, Bool.false_and, Bool.false_eq_true, if_false]

theorem finalEndBalance_not_found (sched : List AmortizationEntry) (b : Balances)
    (h : b.endFound = false) (lastEntry : AmortizationEntry)
    (hl : sched.getLast? = some lastEntry) :
    finalEndBalance sched b = lastEntry.ClosingBalance := by
  have hlen : 0 < sched.length := by
    cases sched with
    | nil => simp at hl
    | cons x t => simp
  simp only [finalEndBalance, h, Bool.not_false, Bool.true_and, decide_eq_true_eq, gt_iff_lt,
    hlen, if_true, hl]

/-- The closing balance when an entry is dated the end of the window and no later entry has
the same date. -/
theorem windowBalances_end_exact (start finish : Time) (pre post : List AmortizationEntry)
    (e : AmortizationEntry) (he : e.Date = finish)
    (hpost : ∀ x ∈ post, x.Date.absDays ≠ finish.absDays) :
    finalEndBalance (pre ++ e :: post) (windowBalances start finish (pre ++ e :: post))
      = e.ClosingBalance := by
  have hh := (balanceStep_end_hit start finish (lastOr none pre) e
    (balanceLoop start finish none pre
      { startBalance := 0, startFound := false, endBalance := 0, endFound := false })).1 he
  have hf := balanceLoop_end_found start finish post (some e) _ hpost hh.1
  rw [finalEndBalance_found]
  · simp only [windowBalances, balanceLoop_append_cons]
    rw [hf.2, hh.2]
  · simp only [windowBalances, balanceLoop_append_cons]
    exact hf.1

/-- The closing balance when no entry is dated the end of the window and `e` is the first entry
dated after it. -/
theorem windowBalances_end_after (start finish : Time) (pre post : List AmortizationEntry)
    (e : AmortizationEntry) (hpre : ∀ x ∈ pre, x.Date.absDays < finish.absDays)
    (he : finish.absDays < e.Date.absDays)
    (hpost : ∀ x ∈ post, x.Date.absDays ≠ finish.absDays) :
    (pre = [] →
      finalEndBalance (pre ++ e :: post) (windowBalances start finish (pre ++ e :: post))
        = e.ClosingBalance) ∧
    (∀ p, pre.getLast? = some p →
      finalEndBalance (pre ++ e :: post) (windowBalances start finish (pre ++ e :: post))
        = p.ClosingBalance) := by
  have hp := balanceLoop_end_skip start finish pre none
    { startBalance := 0, startFound := false, endBalance := 0, endFound := false } hpre rfl
  have hh := (balanceStep_end_hit start finish (lastOr none pre) e _).2 he hp.1
  have hf := balanceLoop_end_found start finish post (some e) _ hpost hh.1
  have hfound : (windowBalances start finish (pre ++ e :: post)).endFound = true := by
    simp only [windowBalances, balanceLoop_append_cons]
    exact hf.1
  have hbal : (windowBalances start finish (pre ++ e :: post)).endBalance
      = (balanceStep start finish (lastOr none pre) e (balanceLoop start finish none pre
          { startBalance := 0, startFound := false, endBalance := 0,
            endFound := false })).endBalance := by
    simp only [windowBalances, balanceLoop_append_cons]
    exact hf.2
  rw [finalEndBalance_found _ _ hfound, hbal]
  refine ⟨?_, ?_⟩
  · intro h0
    subst h0
    exact hh.2.1 rfl
  · intro p hlast
    exact hh.2.2 p (lastOr_of_getLast? pre none p hlast)

/-- The closing balance when every entry is dated before the end of the window. -/
theorem windowBalances_end_beyond (start finish : Time) (sched : List AmortizationEntry)
    (h : ∀ x ∈ sched, x.Date.absDays < finish.absDays) (lastEntry : AmortizationEntry)
    (hl : sched.getLast? = some lastEntry) :
    finalEndBalance sched (windowBalances start finish sched) = lastEntry.ClosingBalance :=
  finalEndBalance_not_found sched _
    (balanceLoop_end_skip start finish sched none _ h rfl).1 lastEntry hl

/-! ## The fields written by the two blocks -/

theorem liabilitySummary_empty (round2 : ℚ → ℚ) (start finish : Time)
    (result : CalculationResult) (h : result.LiabilitySchedule = []) :
    liabilitySummary round2 start finish result = result := by
  simp [liabilitySummary, h]

theorem rouSummary_empty (round2 : ℚ → ℚ) (start finish : Time)
    (result : CalculationResult) (h : result.RoUAssetSchedule = []) :
    rouSummary round2 start finish result = result := by
  simp [rouSummary, h]

theorem correction_bound (a p : ℚ) :
    |a - (if |a - p| > 1 / 100 then a else p)| ≤ 1 / 100 := by
  split_ifs with h
  · simp
  · exact not_lt.mp h

theorem correction_bound_sum (p i t : ℚ) :
    |p + (if |p + i - t| > 1 / 100 then t - p else i) - t| ≤ 1 / 100 := by
  split_ifs with h
  · simp
  · exact not_lt.mp h

/-- The block on the liability schedule, for a non-empty schedule: it writes the five liability
figures, which are the rounded values of a start balance `S`, an end balance `E`, a principal
`P`, an interest `I` and a payment total `T` that satisfy the two corrections. -/
theorem liabilitySummary_shape (round2 : ℚ → ℚ) (start finish : Time)
    (result : CalculationResult) (h : result.LiabilitySchedule ≠ []) :
    ∃ P I T : ℚ,
      liabilitySummary round2 start finish result
        = { result with
            PeriodLiabilityStart :=
              round2 (windowBalances start finish result.LiabilitySchedule).startBalance
            PeriodLiabilityEnd :=
              round2 (finalEndBalance result.LiabilitySchedule
                (windowBalances start finish result.LiabilitySchedule))
            PeriodInterestExpense := round2 I
            PeriodPayments := round2 T
            PeriodPrincipalPayment := round2 P } ∧
      |(windowBalances start finish result.LiabilitySchedule).startBalance
          - finalEndBalance result.LiabilitySchedule
            (windowBalances start finish result.LiabilitySchedule) - P| ≤ 1 / 100 ∧
      |P + I - T| ≤ 1 / 100 := by
  have hlen : result.LiabilitySchedule.length > 0 := List.length_pos.mpr h
  have hb := liabilitySummaryLoop_balances start finish result.LiabilitySchedule none
    { startBalance := 0, endBalance := 0, totalPayments := 0, totalInterest := 0,
      totalPrincipal := 0, startFound := false, endFound := false }
  have hS := congrArg Balances.startBalance hb
  have hF := congrArg Balances.endFound hb
  have hE := congrArg Balances.endBalance hb
  simp only at hS hF hE
  obtain ⟨v, hv⟩ : ∃ v, v = liabilitySummaryLoop start finish none result.LiabilitySchedule
    { startBalance := 0, endBalance := 0, totalPayments := 0, totalInterest := 0,
      totalPrincipal := 0, startFound := false, endFound := false } := ⟨_, rfl⟩
  rw [← hv] at hS hF hE
  refine ⟨if |(windowBalances start finish result.LiabilitySchedule).startBalance
        - finalEndBalance result.LiabilitySchedule
          (windowBalances start finish result.LiabilitySchedule) - v.totalPrincipal|
          > 1 / 100 then
        (windowBalances start finish result.LiabilitySchedule).startBalance
          - finalEndBalance result.LiabilitySchedule
            (windowBalances start finish result.LiabilitySchedule)
      else v.totalPrincipal,
    if |(if |(windowBalances start finish result.LiabilitySchedule).startBalance
        - finalEndBalance result.LiabilitySchedule
          (windowBalances start finish result.LiabilitySchedule) - v.totalPrincipal|
          > 1 / 100 then
        (windowBalances start finish result.LiabilitySchedule).startBalance
          - finalEndBalance result.LiabilitySchedule
            (windowBalances start finish result.LiabilitySchedule)
      else v.totalPrincipal) + v.totalInterest - v.totalPayments| > 1 / 100 then
      v.totalPayments - (if |(windowBalances start finish result.LiabilitySchedule).startBalance
        - finalEndBalance result.LiabilitySchedule
          (windowBalances start finish result.LiabilitySchedule) - v.totalPrincipal|
          > 1 / 100 then
        (windowBalances start finish result.LiabilitySchedule).startBalance
          - finalEndBalance result.LiabilitySchedule
            (windowBalances start finish result.LiabilitySchedule)
      else v.totalPrincipal)
    else v.totalInterest,
    v.totalPayments, ?_, correction_bound _ _, correction_bound_sum _ _ _⟩
  cases hl : result.LiabilitySchedule.getLast? <;>
    simp only [liabilitySummary, finalEndBalance, windowBalances, hlen, if_true, decide_True,
      Bool.and_true, ← hv, hS, hF, hE, hl]

/-- The block on the RoU asset schedule, for a non-empty schedule: it writes the three RoU
figures, the rounded values of a start balance, an end balance and a depreciation `D` that
satisfies the correction. -/
theorem rouSummary_shape (round2 : ℚ → ℚ) (start finish : Time)
    (result : CalculationResult) (h : result.RoUAssetSchedule ≠ []) :
    ∃ D : ℚ,
      rouSummary round2 start finish result
        = { result with
            PeriodRoUAssetStart :=
              round2 (windowBalances start finish result.RoUAssetSchedule).startBalance
            PeriodRoUAssetEnd :=
              round2 (finalEndBalance result.RoUAssetSchedule
                (windowBalances start finish result.RoUAssetSchedule))
            PeriodDepreciation := round2 D } ∧
      |(windowBalances start finish result.RoUAssetSchedule).startBalance
          - finalEndBalance result.RoUAssetSchedule
            (windowBalances start finish result.RoUAssetSchedule) - D| ≤ 1 / 100 := by
  have hlen : result.RoUAssetSchedule.length > 0 := List.length_pos.mpr h
  have hb := rouSummaryLoop_balances start finish result.RoUAssetSchedule none
    { startBalance := 0, endBalance := 0, totalDepreciation := 0, startFound := false,
      endFound := false }
  have hS := congrArg Balances.startBalance hb
  have hF := congrArg Balances.endFound hb
  have hE := congrArg Balances.endBalance hb
  simp only at hS hF hE
  obtain ⟨v, hv⟩ : ∃ v, v = rouSummaryLoop start finish none result.RoUAssetSchedule
    { startBalance := 0, endBalance := 0, totalDepreciation := 0, startFound := false,
      endFound := false } := ⟨_, rfl⟩
  rw [← hv] at hS hF hE
  refine ⟨if |(windowBalances start finish result.RoUAssetSchedule).startBalance
        - finalEndBalance result.RoUAssetSchedule
          (windowBalances start finish result.RoUAssetSchedule) - v.totalDepreciation|
          > 1 / 100 then
        (windowBalances start finish result.RoUAssetSchedule).startBalance
          - finalEndBalance result.RoUAssetSchedule
            (windowBalances start finish result.RoUAssetSchedule)
      else v.totalDepreciation, ?_, correction_bound _ _⟩
  cases hl : result.RoUAssetSchedule.getLast? <;>
    simp only [rouSummary, finalEndBalance, windowBalances, hlen, if_true, decide_True,
      Bool.and_true, ← hv, hS, hF, hE, hl]

/-! ## Parsing a date -/

theorem isDigit_iff (c : Char) : c.isDigit = true ↔ 48 ≤ c.toNat ∧ c.toNat ≤ 57 := by
  simp [Char.isDigit, Char.toNat, UInt32.le_def, BitVec.le_def, UInt32.toNat]

theorem digitChar_toNat (c : Char) (h : c.isDigit = true) : digitChar (c.toNat - 48) = c := by
  rw [isDigit_iff] at h
  have : 48 + (c.toNat - 48) = c.toNat := by omega
  rw [digitChar, this, Char.ofNat_toNat]

theorem toNat_digitChar (k : Nat) (h : k < 10) : (digitChar k).toNat - 48 = k := by
  interval_cases k <;> rfl

theorem isDigit_digitChar (k : Nat) (h : k < 10) : (digitChar k).isDigit = true := by
  interval_cases k <;> rfl

/-- The dates that `timeParse` accepts are the zero-padded texts of the valid calendar dates of
the years 0 to 9999, and the result is that date. -/
theorem timeParse_dateString (y m d : Nat) (hy : y ≤ 9999) (hm1 : 1 ≤ m) (hm2 : m ≤ 12)
    (hd1 : 1 ≤ d) (hd2 : (d : Int) ≤ daysIn y m) :
    timeParse (dateString y m d) = some (Date y m d) := by
  have hd3 : d ≤ 31 := by
    have : daysIn y m ≤ 31 := by
      simp only [daysIn]
      split_ifs <;> omega
    omega
  have e1 := toNat_digitChar (y / 1000) (by omega)
  have e2 := toNat_digitChar (y / 100 % 10) (by omega)
  have e3 := toNat_digitChar (y / 10 % 10) (by omega)
  have e4 := toNat_digitChar (y % 10) (by omega)
  have e5 := toNat_digitChar (m / 10) (by omega)
  have e6 := toNat_digitChar (m % 10) (by omega)
  have e7 := toNat_digitChar (d / 10) (by omega)
  have e8 := toNat_digitChar (d % 10) (by omega)
  have i1 := isDigit_digitChar (y / 1000) (by omega)
  have i2 := isDigit_digitChar (y / 100 % 10) (by omega)
  have i3 := isDigit_digitChar (y / 10 % 10) (by omega)
  have i4 := isDigit_digitChar (y % 10) (by omega)
  have i5 := isDigit_digitChar (m / 10) (by omega)
  have i6 := isDigit_digitChar (m % 10) (by omega)
  have i7 := isDigit_digitChar (d / 10) (by omega)
  have i8 := isDigit_digitChar (d % 10) (by omega)
  have hyear : y / 1000 * 1000 + y / 100 % 10 * 100 + y / 10 % 10 * 10 + y % 10 = y := by omega
  have hmonth : m / 10 * 10 + m % 10 = m := by omega
  have hday : d / 10 * 10 + d % 10 = d := by omega
  simp only [timeParse, dateString, e1, e2, e3, e4, e5, e6, e7, e8, i1, i2, i3, i4, i5, i6,
    i7, i8, hyear, hmonth, hday, Bool.and_self, beq_self_eq_true, if_true]
  rw [if_neg (by omega), if_neg (by omega)]

theorem timeParse_some (value : String) (t : Time) (h : timeParse value = some t) :
    ∃ y m d : Nat, y ≤ 9999 ∧ 1 ≤ m ∧ m ≤ 12 ∧ 1 ≤ d ∧ (d : Int) ≤ daysIn y m ∧
      value = dateString y m d ∧ t = Date y m d := by
  unfold timeParse at h
  split at h
  · rename_i y1 y2 y3 y4 s1 m1 m2 s2 d1 d2 hdata
    split at h
    · rename_i hc
      simp only [Bool.and_eq_true, beq_iff_eq] at hc
      obtain ⟨⟨⟨⟨⟨⟨⟨⟨⟨c1, c2⟩, c3⟩, c4⟩, c5⟩, c6⟩, c7⟩, c8⟩, c9⟩, c10⟩ := hc
      have b1 := (isDigit_iff y1).mp c1
      have b2 := (isDigit_iff y2).mp c2
      have b3 := (isDigit_iff y3).mp c3
      have b4 := (isDigit_iff y4).mp c4
      have b6 := (isDigit_iff m1).mp c6
      have b7 := (isDigit_iff m2).mp c7
      have b9 := (isDigit_iff d1).mp c9
      have b10 := (isDigit_iff d2).mp c10
      simp only at h
      split at h
      · exact absurd h (by simp)
      · rename_i hmonth
        split at h
        · exact absurd h (by simp)
        · rename_i hday
          simp only [Option.some.injEq] at h
          push_cast at hmonth hday
          refine ⟨(y1.toNat - 48) * 1000 + (y2.toNat - 48) * 100 + (y3.toNat - 48) * 10
            + (y4.toNat - 48), (m1.toNat - 48) * 10 + (m2.toNat - 48),
            (d1.toNat - 48) * 10 + (d2.toNat - 48), by omega, by omega, by omega, by omega,
            ?_, ?_, h.symm⟩
          · push_cast
            omega
          · apply String.ext
            rw [hdata]
            simp only [dateString]
            have q1 : ((y1.toNat - 48) * 1000 + (y2.toNat - 48) * 100 + (y3.toNat - 48) * 10
                + (y4.toNat - 48)) / 1000 = y1.toNat - 48 := by omega
            have q2 : ((y1.toNat - 48) * 1000 + (y2.toNat - 48) * 100 + (y3.toNat - 48) * 10
                + (y4.toNat - 48)) / 100 % 10 = y2.toNat - 48 := by omega
            have q3 : ((y1.toNat - 48) * 1000 + (y2.toNat - 48) * 100 + (y3.toNat - 48) * 10
                + (y4.toNat - 48)) / 10 % 10 = y3.toNat - 48 := by omega
            have q4 : ((y1.toNat - 48) * 1000 + (y2.toNat - 48) * 100 + (y3.toNat - 48) * 10
                + (y4.toNat - 48)) % 10 = y4.toNat - 48 := by omega
            have q5 : ((m1.toNat - 48) * 10 + (m2.toNat - 48)) / 10 = m1.toNat - 48 := by omega
            have q6 : ((m1.toNat - 48) * 10 + (m2.toNat - 48)) % 10 = m2.toNat - 48 := by omega
            have q7 : ((d1.toNat - 48) * 10 + (d2.toNat - 48)) / 10 = d1.toNat - 48 := by omega
            have q8 : ((d1.toNat - 48) * 10 + (d2.toNat - 48)) % 10 = d2.toNat - 48 := by omega
            rw [q1, q2, q3, q4, q5, q6, q7, q8, digitChar_toNat y1 c1, digitChar_toNat y2 c2,
              digitChar_toNat y3 c3, digitChar_toNat y4 c4, digitChar_toNat m1 c6,
              digitChar_toNat m2 c7, digitChar_toNat d1 c9, digitChar_toNat d2 c10, c5, c8]
    · exact absurd h (by simp)
  · exact absurd h (by simp)

/-- The texts that `timeParse` accepts are exactly the valid `YYYY-MM-DD` dates. -/
theorem timeParse_ne_none_iff (value : String) : timeParse value ≠ none ↔ isDateString value := by
  constructor
  · intro h
    cases ht : timeParse value with
    | none => exact absurd ht h
    | some t =>
      obtain ⟨y, m, d, h1, h2, h3, h4, h5, h6, _⟩ := timeParse_some value t ht
      exact ⟨y, m, d, h1, h2, h3, h4, h5, h6⟩
  · rintro ⟨y, m, d, h1, h2, h3, h4, h5, rfl⟩
    rw [timeParse_dateString y m d h1 h2 h3 h4 h5]
    simp

/-! ## What the two blocks leave unchanged -/

/-- The block on the liability schedule changes at most the five liability figures. -/
theorem liabilitySummary_frame (round2 : ℚ → ℚ) (start finish : Time)
    (result : CalculationResult) :
    liabilitySummary round2 start finish result
      = { result with
          PeriodLiabilityStart := (liabilitySummary round2 start finish result).PeriodLiabilityStart
          PeriodLiabilityEnd := (liabilitySummary round2 start finish result).PeriodLiabilityEnd
          PeriodInterestExpense :=
            (liabilitySummary round2 start finish result).PeriodInterestExpense
          PeriodPayments := (liabilitySummary round2 start finish result).PeriodPayments
          PeriodPrincipalPayment :=
            (liabilitySummary round2 start finish result).PeriodPrincipalPayment } := by
  unfold liabilitySummary
  split <;> rfl

/-- The block on the RoU asset schedule changes at most the three RoU figures. -/
theorem rouSummary_frame (round2 : ℚ → ℚ) (start finish : Time) (result : CalculationResult) :
    rouSummary round2 start finish result
      = { result with
          PeriodRoUAssetStart := (rouSummary round2 start finish result).PeriodRoUAssetStart
          PeriodRoUAssetEnd := (rouSummary round2 start finish result).PeriodRoUAssetEnd
          PeriodDepreciation := (rouSummary round2 start finish result).PeriodDepreciation } := by
  unfold rouSummary
  split <;> rfl

/-- For a non-empty schedule the five liability figures depend only on the schedule and the
window. -/
theorem liabilitySummary_congr (round2 : ℚ → ℚ) (start finish : Time)
    (a b : CalculationResult) (h : a.LiabilitySchedule = b.LiabilitySchedule)
    (hne : a.LiabilitySchedule ≠ []) :
    (liabilitySummary round2 start finish a).PeriodLiabilityStart
      = (liabilitySummary round2 start finish b).PeriodLiabilityStart ∧
    (liabilitySummary round2 start finish a).PeriodLiabilityEnd
      = (liabilitySummary round2 start finish b).PeriodLiabilityEnd ∧
    (liabilitySummary round2 start finish a).PeriodInterestExpense
      = (liabilitySummary round2 start finish b).PeriodInterestExpense ∧
    (liabilitySummary round2 start finish a).PeriodPayments
      = (liabilitySummary round2 start finish b).PeriodPayments ∧
    (liabilitySummary round2 start finish a).PeriodPrincipalPayment
      = (liabilitySummary round2 start finish b).PeriodPrincipalPayment := by
  have ha : a.LiabilitySchedule.length > 0 := List.length_pos.mpr hne
  have hb : b.LiabilitySchedule.length > 0 := h ▸ ha
  simp only [liabilitySummary, ha, hb, if_true, h, and_self]

theorem rouSummary_congr (round2 : ℚ → ℚ) (start finish : Time)
    (a b : CalculationResult) (h : a.RoUAssetSchedule = b.RoUAssetSchedule)
    (hne : a.RoUAssetSchedule ≠ []) :
    (rouSummary round2 start finish a).PeriodRoUAssetStart
      = (rouSummary round2 start finish b).PeriodRoUAssetStart ∧
    (rouSummary round2 start finish a).PeriodRoUAssetEnd
      = (rouSummary round2 start finish b).PeriodRoUAssetEnd ∧
    (rouSummary round2 start finish a).PeriodDepreciation
      = (rouSummary round2 start finish b).PeriodDepreciation := by
  have ha : a.RoUAssetSchedule.length > 0 := List.length_pos.mpr hne
  have hb : b.RoUAssetSchedule.length > 0 := h ▸ ha
  simp only [rouSummary, ha, hb, if_true, h, and_self]

/-! ## The result of a successful call -/

/-- The result of a successful call, field by field; `r0` is the result with the two window
texts stored. -/
theorem periodSummary_result (round2 : ℚ → ℚ) (result : CalculationResult)
    (periodStart periodEnd : String) (start finish : Time)
    (h1 : timeParse periodStart = some start) (h2 : timeParse periodEnd = some finish)
    (h3 : finish.Before start = false) :
    (periodSummary round2 result periodStart periodEnd).2 = none ∧
    (periodSummary round2 result periodStart periodEnd).1
      = { result with
          AccountingPeriodStart := periodStart
          AccountingPeriodEnd := periodEnd
          PeriodLiabilityStart :=
            (liabilitySummary round2 start finish result).PeriodLiabilityStart
          PeriodLiabilityEnd := (liabilitySummary round2 start finish result).PeriodLiabilityEnd
          PeriodInterestExpense :=
            (liabilitySummary round2 start finish result).PeriodInterestExpense
          PeriodPayments := (liabilitySummary round2 start finish result).PeriodPayments
          PeriodPrincipalPayment :=
            (liabilitySummary round2 start finish result).PeriodPrincipalPayment
          PeriodRoUAssetStart := (rouSummary round2 start finish result).PeriodRoUAssetStart
          PeriodRoUAssetEnd := (rouSummary round2 start finish result).PeriodRoUAssetEnd
          PeriodDepreciation := (rouSummary round2 start finish result).PeriodDepreciation } := by
  rw [periodSummary_ok round2 result periodStart periodEnd start finish h1 h2 h3]
  refine ⟨rfl, ?_⟩
  by_cases hL : result.LiabilitySchedule.length > 0 <;>
    by_cases hR : result.RoUAssetSchedule.length > 0 <;>
    simp only [liabilitySummary, rouSummary, hL, hR, if_true, if_false]

/-! ## Schedules with increasing dates -/

theorem days_range_pairwise (a : Int) (N : Nat) :
    ((List.range N).map (fun (i : Nat) => a + (i : Int))).Pairwise (· < ·) := by
  rw [List.pairwise_map]
  exact (List.pairwise_lt_range N).imp (fun h => by omega)

/-- In a schedule with strictly increasing dates, the entries before an entry are dated
earlier and the entries after it later. -/
theorem split_at_mem (sched : List AmortizationEntry)
    (hinc : (scheduleDays sched).Pairwise (· < ·)) (e : AmortizationEntry) (he : e ∈ sched) :
    ∃ pre post, sched = pre ++ e :: post ∧
      (∀ x ∈ pre, x.Date.absDays < e.Date.absDays) ∧
      (∀ x ∈ post, e.Date.absDays < x.Date.absDays) := by
  obtain ⟨pre, post, rfl⟩ := List.append_of_mem he
  refine ⟨pre, post, rfl, ?_, ?_⟩
  · intro x hx
    simp only [scheduleDays, List.map_append, List.map_cons, List.pairwise_append,
      List.mem_map, List.mem_cons] at hinc
    exact hinc.2.2 _ ⟨x, hx, rfl⟩ _ (Or.inl rfl)
  · intro x hx
    simp only [scheduleDays, List.map_append, List.map_cons, List.pairwise_append,
      List.pairwise_cons, List.mem_map] at hinc
    exact hinc.2.1.1 _ ⟨x, hx, rfl⟩

theorem increasing_of_split (pre post : List AmortizationEntry) (e : AmortizationEntry)
    (hinc : (scheduleDays (pre ++ e :: post)).Pairwise (· < ·)) :
    (∀ x ∈ pre, x.Date.absDays < e.Date.absDays) ∧
    (∀ x ∈ post, e.Date.absDays < x.Date.absDays) := by
  constructor
  · intro x hx
    simp only [scheduleDays, List.map_append, List.map_cons, List.pairwise_append,
      List.mem_map, List.mem_cons] at hinc
    exact hinc.2.2 _ ⟨x, hx, rfl⟩ _ (Or.inl rfl)
  · intro x hx
    simp only [scheduleDays, List.map_append, List.map_cons, List.pairwise_append,
      List.pairwise_cons, List.mem_map] at hinc
    exact hinc.2.1.1 _ ⟨x, hx, rfl⟩

/-! ## Generated schedules -/

/-- The dates of a generated liability schedule are consecutive days from the start date. -/
theorem GenerateLiabilitySchedule_scheduleDays (l : Lease) (x : ℚ) :
    ∃ N : Nat, scheduleDays (GenerateLiabilitySchedule l x).1
      = (List.range N).map (fun (i : Nat) => l.StartDate.absDays + (i : Int)) := by
  rcases GenerateLiabilitySchedule_cases l x with ⟨err, _, he⟩ | ⟨_, _, he⟩ | ⟨_, _, _, he⟩
  · exact ⟨0, by rw [he]; rfl⟩
  · exact ⟨0, by rw [he]; rfl⟩
  · refine ⟨(totalDays l).toNat, ?_⟩
    rw [he, scheduleStates_map]
    have hd := liabilityLoop_dates l (l.DiscountRate / 365)
      (totalInterest l (getPeriodsAndRate l).1) totalPrincipal
      (totalPayment l (getPeriodsAndRate l).1) (totalDays l).toNat
      (initialState l (getPeriodsAndRate l).1 x)
    have := congrArg (List.map (fun t : Time => t.absDays)) hd
    simp only [List.map_map] at this
    simp only [scheduleDays]
    exact this

theorem GenerateLiabilitySchedule_increasing (l : Lease) (x : ℚ) :
    (scheduleDays (GenerateLiabilitySchedule l x).1).Pairwise (· < ·) := by
  obtain ⟨N, hN⟩ := GenerateLiabilitySchedule_scheduleDays l x
  rw [hN]
  exact days_range_pairwise _ _

/-- The dates of a generated RoU asset schedule are consecutive days from the start date. -/
theorem GenerateRoUAssetSchedule_scheduleDays (l : Lease) (A : ℚ) :
    ∃ N : Nat, scheduleDays (GenerateRoUAssetSchedule l A).1
      = (List.range N).map (fun (i : Nat) => l.StartDate.absDays + (i : Int)) := by
  rcases GenerateRoUAssetSchedule_cases l A with ⟨err, _, he⟩ | ⟨_, _, he⟩ | ⟨_, _, he⟩
  · exact ⟨0, by rw [he]; rfl⟩
  · exact ⟨0, by rw [he]; rfl⟩
  · refine ⟨(totalDays l).toNat, ?_⟩
    rw [he]
    simp only [scheduleDays, List.map_map]
    rfl

theorem GenerateRoUAssetSchedule_increasing (l : Lease) (A : ℚ) :
    (scheduleDays (GenerateRoUAssetSchedule l A).1).Pairwise (· < ·) := by
  obtain ⟨N, hN⟩ := GenerateRoUAssetSchedule_scheduleDays l A
  rw [hN]
  exact days_range_pairwise _ _

/-- The balances of a generated liability schedule are rounded to 2 decimals. -/
theorem GenerateLiabilitySchedule_rounded (l : Lease) (x : ℚ) (e : AmortizationEntry)
    (he : e ∈ (GenerateLiabilitySchedule l x).1) :
    roundFloat e.OpeningBalance 2 = e.OpeningBalance ∧
    roundFloat e.ClosingBalance 2 = e.ClosingBalance := by
  rcases GenerateLiabilitySchedule_cases l x with ⟨err, _, h⟩ | ⟨_, _, h⟩ | ⟨_, _, _, h⟩
  · rw [h] at he
    simp at he
  · rw [h] at he
    simp at he
  · rw [h] at he
    simp only [List.mem_map] at he
    obtain ⟨s, _, rfl⟩ := he
    have hf := liabilityDay_entry l (l.DiscountRate / 365)
      (totalInterest l (getPeriodsAndRate l).1) totalPrincipal
      (totalPayment l (getPeriodsAndRate l).1) s
    simp only [scheduleEntry]
    rw [hf.2.2.1, hf.2.2.2.2.2.1]
    exact ⟨roundFloat_idem _, roundFloat_idem _⟩

/-- The balances of a generated RoU asset schedule are rounded to 2 decimals. -/
theorem GenerateRoUAssetSchedule_rounded (l : Lease) (A : ℚ) (e : AmortizationEntry)
    (he : e ∈ (GenerateRoUAssetSchedule l A).1) :
    roundFloat e.OpeningBalance 2 = e.OpeningBalance ∧
    roundFloat e.ClosingBalance 2 = e.ClosingBalance := by
  rcases GenerateRoUAssetSchedule_cases l A with ⟨err, _, h⟩ | ⟨_, _, h⟩ | ⟨_, _, h⟩
  · rw [h] at he
    simp at he
  · rw [h] at he
    simp at he
  · rw [h] at he
    simp only [List.mem_map] at he
    obtain ⟨i, _, rfl⟩ := he
    simp only [rouEntry]
    exact ⟨roundFloat_idem _, roundFloat_idem _⟩

/-! ## The closing balance of a window on a schedule with increasing dates -/

/-- The four cases of the closing balance of a window on a schedule with strictly increasing
dates. -/
theorem finalEndBalance_cases (start finish : Time) (sched : List AmortizationEntry)
    (hinc : (scheduleDays sched).Pairwise (· < ·)) :
    (∀ e ∈ sched, e.Date = finish →
      finalEndBalance sched (windowBalances start finish sched) = e.ClosingBalance) ∧
    (∀ pre p e post, sched = pre ++ p :: e :: post → p.Date.Before finish = true →
      e.Date.After finish = true →
      finalEndBalance sched (windowBalances start finish sched) = p.ClosingBalance) ∧
    (∀ e post, sched = e :: post → e.Date.After finish = true →
      finalEndBalance sched (windowBalances start finish sched) = e.ClosingBalance) ∧
    (∀ last, sched.getLast? = some last → last.Date.Before finish = true →
      finalEndBalance sched (windowBalances start finish sched) = last.ClosingBalance) := by
  refine ⟨?_, ?_, ?_, ?_⟩
  · intro e he hd
    obtain ⟨pre, post, rfl, _, hpost⟩ := split_at_mem sched hinc e he
    apply windowBalances_end_exact start finish pre post e hd
    intro x hx
    have := hpost x hx
    rw [hd] at this
    omega
  · intro pre p e post hs hp he
    rw [Time.Before_iff] at hp
    rw [Time.After_iff] at he
    subst hs
    have h1 := increasing_of_split pre (e :: post) p hinc
    have hs2 : pre ++ p :: e :: post = (pre ++ [p]) ++ e :: post := by simp
    rw [hs2] at hinc ⊢
    have h2 := increasing_of_split (pre ++ [p]) post e hinc
    refine (windowBalances_end_after start finish (pre ++ [p]) post e ?_ he ?_).2 p
      (List.getLast?_concat _)
    · intro x hx
      rw [List.mem_append, List.mem_singleton] at hx
      rcases hx with hx | rfl
      · have := h1.1 x hx
        omega
      · exact hp
    · intro x hx
      have := h2.2 x hx
      omega
  · intro e post hs he
    rw [Time.After_iff] at he
    subst hs
    have h2 := increasing_of_split [] post e hinc
    refine (windowBalances_end_after start finish [] post e ?_ he ?_).1 rfl
    · intro x hx
      simp at hx
    · intro x hx
      have := h2.2 x hx
      omega
  · intro last hl hd
    rw [Time.Before_iff] at hd
    obtain ⟨ys, rfl⟩ := List.getLast?_eq_some_iff.mp hl
    have h2 := increasing_of_split ys [] last hinc
    apply windowBalances_end_beyond start finish _ _ last hl
    intro x hx
    rw [List.mem_append, List.mem_singleton] at hx
    rcases hx with hx | rfl
    · have := h2.1 x hx
      omega
    · exact hd

/-- The two cases of the opening balance of a window: `e` is the first entry dated on or after
the start of the window. -/
theorem startBalance_cases (start finish : Time) (pre post : List AmortizationEntry)
    (e : AmortizationEntry) (hpre : ∀ x ∈ pre, x.Date.Before start = true)
    (he : e.Date.Before start = false) :
    ((e.Date = start ∨ pre = []) →
      (windowBalances start finish (pre ++ e :: post)).startBalance = e.OpeningBalance) ∧
    (∀ p, pre.getLast? = some p → e.Date ≠ start →
      (windowBalances start finish (pre ++ e :: post)).startBalance = p.ClosingBalance) := by
  have hpre2 : ∀ x ∈ pre, x.Date.absDays < start.absDays := by
    intro x hx
    have := hpre x hx
    rwa [Time.Before_iff] at this
  have he2 : start.absDays ≤ e.Date.absDays := by
    rw [← Bool.not_eq_true, Time.Before_iff] at he
    omega
  have h := windowBalances_start start finish pre post e hpre2 he2
  refine ⟨?_, h.2.2⟩
  rintro (hd | h0)
  · exact h.2.1 hd
  · exact h.1 h0

/-! ## The figures of a successful call -/

/-- The liability figures after a successful call on a non-empty liability schedule. -/
theorem summary_liability (result : CalculationResult) (periodStart periodEnd : String)
    (start finish : Time) (h1 : timeParse periodStart = some start)
    (h2 : timeParse periodEnd = some finish) (h3 : finish.Before start = false)
    (hne : result.LiabilitySchedule ≠ []) :
    ∃ P I T : ℚ,
      (calculateAccountingPeriodSummary result periodStart periodEnd).1.PeriodLiabilityStart
        = roundFloat (windowBalances start finish result.LiabilitySchedule).startBalance 2 ∧
      (calculateAccountingPeriodSummary result periodStart periodEnd).1.PeriodLiabilityEnd
        = roundFloat (finalEndBalance result.LiabilitySchedule
            (windowBalances start finish result.LiabilitySchedule)) 2 ∧
      (calculateAccountingPeriodSummary result periodStart periodEnd).1.PeriodPrincipalPayment
        = roundFloat P 2 ∧
      (calculateAccountingPeriodSummary result periodStart periodEnd).1.PeriodInterestExpense
        = roundFloat I 2 ∧
      (calculateAccountingPeriodSummary result periodStart periodEnd).1.PeriodPayments
        = roundFloat T 2 ∧
      |(windowBalances start finish result.LiabilitySchedule).startBalance
          - finalEndBalance result.LiabilitySchedule
            (windowBalances start finish result.LiabilitySchedule) - P| ≤ 1 / 100 ∧
      |P + I - T| ≤ 1 / 100 := by
  obtain ⟨P, I, T, hshape, hb1, hb2⟩ :=
    liabilitySummary_shape roundTo2Decimals start finish result hne
  refine ⟨P, I, T, ?_, ?_, ?_, ?_, ?_, hb1, hb2⟩ <;>
    rw [calculateAccountingPeriodSummary,
      (periodSummary_result roundTo2Decimals result periodStart periodEnd start finish
        h1 h2 h3).2, hshape] <;>
    simp only [roundTo2Decimals_eq]

/-- The RoU figures after a successful call on a non-empty RoU asset schedule. -/
theorem summary_rou (result : CalculationResult) (periodStart periodEnd : String)
    (start finish : Time) (h1 : timeParse periodStart = some start)
    (h2 : timeParse periodEnd = some finish) (h3 : finish.Before start = false)
    (hne : result.RoUAssetSchedule ≠ []) :
    ∃ D : ℚ,
      (calculateAccountingPeriodSummary result periodStart periodEnd).1.PeriodRoUAssetStart
        = roundFloat (windowBalances start finish result.RoUAssetSchedule).startBalance 2 ∧
      (calculateAccountingPeriodSummary result periodStart periodEnd).1.PeriodRoUAssetEnd
        = roundFloat (finalEndBalance result.RoUAssetSchedule
            (windowBalances start finish result.RoUAssetSchedule)) 2 ∧
      (calculateAccountingPeriodSummary result periodStart periodEnd).1.PeriodDepreciation
        = roundFloat D 2 ∧
      |(windowBalances start finish result.RoUAssetSchedule).startBalance
          - finalEndBalance result.RoUAssetSchedule
            (windowBalances start finish result.RoUAssetSchedule) - D| ≤ 1 / 100 := by
  obtain ⟨D, hshape, hb1⟩ := rouSummary_shape roundTo2Decimals start finish result hne
  refine ⟨D, ?_, ?_, ?_, hb1⟩ <;>
    rw [calculateAccountingPeriodSummary,
      (periodSummary_result roundTo2Decimals result periodStart periodEnd start finish
        h1 h2 h3).2, hshape] <;>
    simp only [roundTo2Decimals_eq]

/-- The outcome of a call is an error exactly in three cases. -/
theorem summary_outcome (result : CalculationResult) (periodStart periodEnd : String) :
    ((calculateAccountingPeriodSummary result periodStart periodEnd).2 ≠ none ∧
      (calculateAccountingPeriodSummary result periodStart periodEnd).1 = result ∧
      (timeParse periodStart = none ∨ timeParse periodEnd = none ∨
        ∃ start finish, timeParse periodStart = some start ∧
          timeParse periodEnd = some finish ∧ finish.Before start = true)) ∨
    ((calculateAccountingPeriodSummary result periodStart periodEnd).2 = none ∧
      ∃ start finish, timeParse periodStart = some start ∧
        timeParse periodEnd = some finish ∧ finish.Before start = false) := by
  cases h1 : timeParse periodStart with
  | none =>
    left
    rw [calculateAccountingPeriodSummary, periodSummary_start_error _ _ _ _ h1]
    exact ⟨by simp, rfl, Or.inl rfl⟩
  | some start =>
    cases h2 : timeParse periodEnd with
    | none =>
      left
      rw [calculateAccountingPeriodSummary, periodSummary_end_error _ _ _ _ start h1 h2]
      exact ⟨by simp, rfl, Or.inr (Or.inl rfl)⟩
    | some finish =>
      cases h3 : finish.Before start with
      | true =>
        left
        rw [calculateAccountingPeriodSummary,
          periodSummary_order_error _ _ _ _ start finish h1 h2 h3]
        exact ⟨by simp, rfl, Or.inr (Or.inr ⟨start, finish, rfl, rfl, h3⟩)⟩
      | false =>
        right
        rw [calculateAccountingPeriodSummary,
          (periodSummary_result _ _ _ _ start finish h1 h2 h3).1]
        exact ⟨rfl, start, finish, rfl, rfl, h3⟩

/-! ## Claims on `calculateAccountingPeriodSummary` -/

/-- C21. `calculateAccountingPeriodSummary` returns an error exactly when the start text or the
end text of the window is not a valid `YYYY-MM-DD` date (the zero-padded text of a calendar date
of the years 0 to 9999) or both are valid and the end date is before the start date; with an
error the result is returned as it was given, no field modified; the copy of the function in
`amortization.go` returns the same as the copy in `main.go`. -/
theorem calculateAccountingPeriodSummary_error (result : CalculationResult)
    (periodStart periodEnd : String) :
    ((calculateAccountingPeriodSummary result periodStart periodEnd).2 ≠ none ↔
      (¬ isDateString periodStart ∨ ¬ isDateString periodEnd ∨
        ∃ start finish, timeParse periodStart = some start ∧
          timeParse periodEnd = some finish ∧ finish.Before start = true)) ∧
    ((calculateAccountingPeriodSummary result periodStart periodEnd).2 ≠ none →
      (calculateAccountingPeriodSummary result periodStart periodEnd).1 = result) ∧
    calculation.calculateAccountingPeriodSummary result periodStart periodEnd
      = calculateAccountingPeriodSummary result periodStart periodEnd := by
  refine ⟨?_, ?_, calculateAccountingPeriodSummary_copies result periodStart periodEnd⟩
  · rcases summary_outcome result periodStart periodEnd with ⟨he, _, hc⟩ | ⟨hok, s, f, h1, h2, h3⟩
    · refine ⟨fun _ => ?_, fun _ => he⟩
      rcases hc with h | h | h
      · left
        rw [← timeParse_ne_none_iff, h]
        simp
      · right
        left
        rw [← timeParse_ne_none_iff, h]
        simp
      · exact Or.inr (Or.inr h)
    · refine ⟨fun h => absurd hok h, ?_⟩
      rintro (h | h | ⟨s', f', h1', h2', h3'⟩)
      · rw [← timeParse_ne_none_iff, h1] at h
        simp at h
      · rw [← timeParse_ne_none_iff, h2] at h
        simp at h
      · rw [h1, Option.some.injEq] at h1'
        rw [h2, Option.some.injEq] at h2'
        rw [← h1', ← h2', h3] at h3'
        simp at h3'
  · intro h
    rcases summary_outcome result periodStart periodEnd with ⟨_, hr, _⟩ | ⟨hok, _⟩
    · exact hr
    · exact absurd hok h

/-- Witness of C21: a window that ends before it starts is rejected and nothing is written. -/
theorem calculateAccountingPeriodSummary_error_witness :
    (calculateAccountingPeriodSummary (mkResult [] []) "2024-12-31" "2024-01-01").2 ≠ none ∧
    (calculateAccountingPeriodSummary (mkResult [] []) "2024-12-31" "2024-01-01").1
      = mkResult [] [] :=
  have h : (calculateAccountingPeriodSummary (mkResult [] []) "2024-12-31" "2024-01-01").2
      ≠ none :=
    (calculateAccountingPeriodSummary_error (mkResult [] []) "2024-12-31" "2024-01-01").1.mpr
      (Or.inr (Or.inr ⟨Date 2024 12 31, Date 2024 1 1, by decide, by decide, by decide⟩))
  ⟨h, (calculateAccountingPeriodSummary_error (mkResult [] []) "2024-12-31"
    "2024-01-01").2.1 h⟩

/-- C22. After a successful call with the window from `start` to `finish`: when `e` is the
first entry of the liability schedule that is not dated before `start`, the reported
`PeriodLiabilityStart` is the opening balance of `e` rounded to 2 decimals if `e` is dated
`start` or is the first entry of the schedule, and otherwise the closing balance of the entry
before `e` rounded to 2 decimals; the same holds for `PeriodRoUAssetStart` and the RoU asset
schedule. For a generated schedule, the reported opening balance is the opening balance of the
entry dated `start`, and such an entry exists when `start` is not before the lease start and
some entry is not dated before `start`. -/
theorem calculateAccountingPeriodSummary_opening (result : CalculationResult)
    (periodStart periodEnd : String) (start finish : Time)
    (h1 : timeParse periodStart = some start) (h2 : timeParse periodEnd = some finish)
    (h3 : finish.Before start = false) :
    (∀ pre e post, result.LiabilitySchedule = pre ++ e :: post →
      (∀ x ∈ pre, x.Date.Before start = true) → e.Date.Before start = false →
      ((e.Date = start ∨ pre = []) →
        (calculateAccountingPeriodSummary result periodStart periodEnd).1.PeriodLiabilityStart
          = roundFloat e.OpeningBalance 2) ∧
      (∀ p, pre.getLast? = some p → e.Date ≠ start →
        (calculateAccountingPeriodSummary result periodStart periodEnd).1.PeriodLiabilityStart
          = roundFloat p.ClosingBalance 2)) ∧
    (∀ pre e post, result.RoUAssetSchedule = pre ++ e :: post →
      (∀ x ∈ pre, x.Date.Before start = true) → e.Date.Before start = false →
      ((e.Date = start ∨ pre = []) →
        (calculateAccountingPeriodSummary result periodStart periodEnd).1.PeriodRoUAssetStart
          = roundFloat e.OpeningBalance 2) ∧
      (∀ p, pre.getLast? = some p → e.Date ≠ start →
        (calculateAccountingPeriodSummary result periodStart periodEnd).1.PeriodRoUAssetStart
          = roundFloat p.ClosingBalance 2)) ∧
    (∀ (l : Lease) (x : ℚ) (e : AmortizationEntry),
      result.LiabilitySchedule = (GenerateLiabilitySchedule l x).1 →
      e ∈ result.LiabilitySchedule → e.Date = start →
      (calculateAccountingPeriodSummary result periodStart periodEnd).1.PeriodLiabilityStart
        = e.OpeningBalance) ∧
    (∀ (l : Lease) (A : ℚ) (e : AmortizationEntry),
      result.RoUAssetSchedule = (GenerateRoUAssetSchedule l A).1 →
      e ∈ result.RoUAssetSchedule → e.Date = start →
      (calculateAccountingPeriodSummary result periodStart periodEnd).1.PeriodRoUAssetStart
        = e.OpeningBalance) ∧
    (∀ (l : Lease) (x : ℚ) (sched : List AmortizationEntry),
      (sched = (GenerateLiabilitySchedule l x).1 ∨ sched = (GenerateRoUAssetSchedule l x).1) →
      l.StartDate.Before start = true ∨ l.StartDate = start →
      (∃ e ∈ sched, e.Date.Before start = false) → ∃ e ∈ sched, e.Date = start) := by
  have hL : ∀ pre e post, result.LiabilitySchedule = pre ++ e :: post →
      (∀ x ∈ pre, x.Date.Before start = true) → e.Date.Before start = false →
      ((e.Date = start ∨ pre = []) →
        (calculateAccountingPeriodSummary result periodStart periodEnd).1.PeriodLiabilityStart
          = roundFloat e.OpeningBalance 2) ∧
      (∀ p, pre.getLast? = some p → e.Date ≠ start →
        (calculateAccountingPeriodSummary result periodStart periodEnd).1.PeriodLiabilityStart
          = roundFloat p.ClosingBalance 2) := by
    intro pre e post hs hpre he
    obtain ⟨_, _, _, hf, _⟩ := summary_liability result periodStart periodEnd start finish
      h1 h2 h3 (by rw [hs]; simp)
    have hc := startBalance_cases start finish pre post e hpre he
    rw [hf, hs]
    exact ⟨fun h => by rw [hc.1 h], fun p hp hd => by rw [hc.2 p hp hd]⟩
  have hR : ∀ pre e post, result.RoUAssetSchedule = pre ++ e :: post →
      (∀ x ∈ pre, x.Date.Before start = true) → e.Date.Before start = false →
      ((e.Date = start ∨ pre = []) →
        (calculateAccountingPeriodSummary result periodStart periodEnd).1.PeriodRoUAssetStart
          = roundFloat e.OpeningBalance 2) ∧
      (∀ p, pre.getLast? = some p → e.Date ≠ start →
        (calculateAccountingPeriodSummary result periodStart periodEnd).1.PeriodRoUAssetStart
          = roundFloat p.ClosingBalance 2) := by
    intro pre e post hs hpre he
    obtain ⟨_, hf, _⟩ := summary_rou result periodStart periodEnd start finish
      h1 h2 h3 (by rw [hs]; simp)
    have hc := startBalance_cases start finish pre post e hpre he
    rw [hf, hs]
    exact ⟨fun h => by rw [hc.1 h], fun p hp hd => by rw [hc.2 p hp hd]⟩
  have hsplit : ∀ (sched : List AmortizationEntry) (e : AmortizationEntry),
      (scheduleDays sched).Pairwise (· < ·) → e ∈ sched → e.Date = start →
      ∃ pre post, sched = pre ++ e :: post ∧ (∀ x ∈ pre, x.Date.Before start = true) ∧
        e.Date.Before start = false := by
    intro sched e hinc he hd
    obtain ⟨pre, post, hs, hpre, _⟩ := split_at_mem sched hinc e he
    refine ⟨pre, post, hs, ?_, ?_⟩
    · intro x hx
      rw [Time.Before_iff, ← hd]
      exact hpre x hx
    · rw [← Bool.not_eq_true, Time.Before_iff, hd]
      omega
  refine ⟨hL, hR, ?_, ?_, ?_⟩
  · intro l x e hg he hd
    obtain ⟨pre, post, hs, hpre, hb⟩ := hsplit result.LiabilitySchedule e
      (by rw [hg]; exact GenerateLiabilitySchedule_increasing l x) he hd
    rw [((hL pre e post hs hpre hb).1 (Or.inl hd)),
      (GenerateLiabilitySchedule_rounded l x e (hg ▸ he)).1]
  · intro l A e hg he hd
    obtain ⟨pre, post, hs, hpre, hb⟩ := hsplit result.RoUAssetSchedule e
      (by rw [hg]; exact GenerateRoUAssetSchedule_increasing l A) he hd
    rw [((hR pre e post hs hpre hb).1 (Or.inl hd)),
      (GenerateRoUAssetSchedule_rounded l A e (hg ▸ he)).1]
  · intro l x sched hg hstart hex
    have hdays : ∃ N : Nat, scheduleDays sched
        = (List.range N).map (fun (i : Nat) => l.StartDate.absDays + (i : Int)) := by
      rcases hg with hg | hg
      · rw [hg]
        exact GenerateLiabilitySchedule_scheduleDays l x
      · rw [hg]
        exact GenerateRoUAssetSchedule_scheduleDays l x
    obtain ⟨N, hN⟩ := hdays
    obtain ⟨e, he, hb⟩ := hex
    rw [← Bool.not_eq_true, Time.Before_iff] at hb
    have hle : l.StartDate.absDays ≤ start.absDays := by
      rcases hstart with h | h
      · rw [Time.Before_iff] at h
        omega
      · rw [h]
    have hmem : e.Date.absDays ∈ scheduleDays sched := List.mem_map_of_mem _ he
    rw [hN, List.mem_map] at hmem
    obtain ⟨i, hi, hie⟩ := hmem
    rw [List.mem_range] at hi
    have hmem2 : start.absDays ∈ scheduleDays sched := by
      rw [hN, List.mem_map]
      refine ⟨(start.absDays - l.StartDate.absDays).toNat, ?_, ?_⟩
      · rw [List.mem_range]
        omega
      · omega
    simp only [scheduleDays, List.mem_map] at hmem2
    obtain ⟨e', he', hd'⟩ := hmem2
    exact ⟨e', he', Time.ext_absDays hd'⟩

/-- Witness of C22: a schedule of two entries dated 2024-01-01 and 2024-01-03 and the window
that starts on 2024-01-02: the reported opening balance is the closing balance of the first
entry. -/
theorem calculateAccountingPeriodSummary_opening_witness :
    timeParse "2024-01-02" = some (Date 2024 1 2) ∧
    (calculateAccountingPeriodSummary
      (mkResult [mkEntry 1 (Date 2024 1 1) 100 90, mkEntry 1 (Date 2024 1 3) 90 80] [])
      "2024-01-02" "2024-01-05").1.PeriodLiabilityStart
      = roundFloat (mkEntry 1 (Date 2024 1 1) 100 90).ClosingBalance 2 :=
  ⟨by decide,
    ((calculateAccountingPeriodSummary_opening
      (mkResult [mkEntry 1 (Date 2024 1 1) 100 90, mkEntry 1 (Date 2024 1 3) 90 80] [])
      "2024-01-02" "2024-01-05" (Date 2024 1 2) (Date 2024 1 5) (by decide) (by decide)
      (by decide)).1 [mkEntry 1 (Date 2024 1 1) 100 90] (mkEntry 1 (Date 2024 1 3) 90 80) []
      rfl (by decide) (by decide)).2 (mkEntry 1 (Date 2024 1 1) 100 90) rfl (by decide)⟩

/-- C23. After a successful call with the window from `start` to `finish` on a liability
schedule with strictly increasing dates, the reported `PeriodLiabilityEnd` is, rounded to 2
decimals: the closing balance of the entry dated `finish` if there is one; the closing balance
of the entry `p` when `p` is dated before `finish` and the next entry after `finish`; the
closing balance of the first entry when that entry is dated after `finish`; and the closing
balance of the last entry when that entry is dated before `finish`. The same holds for
`PeriodRoUAssetEnd` and the RoU asset schedule, and the copy of the function in
`amortization.go` returns the same as the copy in `main.go`. -/
theorem calculateAccountingPeriodSummary_closing (result : CalculationResult)
    (periodStart periodEnd : String) (start finish : Time)
    (h1 : timeParse periodStart = some start) (h2 : timeParse periodEnd = some finish)
    (h3 : finish.Before start = false) :
    ((scheduleDays result.LiabilitySchedule).Pairwise (· < ·) →
      (∀ e ∈ result.LiabilitySchedule, e.Date = finish →
        (calculateAccountingPeriodSummary result periodStart periodEnd).1.PeriodLiabilityEnd
          = roundFloat e.ClosingBalance 2) ∧
      (∀ pre p e post, result.LiabilitySchedule = pre ++ p :: e :: post →
        p.Date.Before finish = true → e.Date.After finish = true →
        (calculateAccountingPeriodSummary result periodStart periodEnd).1.PeriodLiabilityEnd
          = roundFloat p.ClosingBalance 2) ∧
      (∀ e post, result.LiabilitySchedule = e :: post → e.Date.After finish = true →
        (calculateAccountingPeriodSummary result periodStart periodEnd).1.PeriodLiabilityEnd
          = roundFloat e.ClosingBalance 2) ∧
      (∀ last, result.LiabilitySchedule.getLast? = some last →
        last.Date.Before finish = true →
        (calculateAccountingPeriodSummary result periodStart periodEnd).1.PeriodLiabilityEnd
          = roundFloat last.ClosingBalance 2)) ∧
    ((scheduleDays result.RoUAssetSchedule).Pairwise (· < ·) →
      (∀ e ∈ result.RoUAssetSchedule, e.Date = finish →
        (calculateAccountingPeriodSummary result periodStart periodEnd).1.PeriodRoUAssetEnd
          = roundFloat e.ClosingBalance 2) ∧
      (∀ pre p e post, result.RoUAssetSchedule = pre ++ p :: e :: post →
        p.Date.Before finish = true → e.Date.After finish = true →
        (calculateAccountingPeriodSummary result periodStart periodEnd).1.PeriodRoUAssetEnd
          = roundFloat p.ClosingBalance 2) ∧
      (∀ e post, result.RoUAssetSchedule = e :: post → e.Date.After finish = true →
        (calculateAccountingPeriodSummary result periodStart periodEnd).1.PeriodRoUAssetEnd
          = roundFloat e.ClosingBalance 2) ∧
      (∀ last, result.RoUAssetSchedule.getLast? = some last →
        last.Date.Before finish = true →
        (calculateAccountingPeriodSummary result periodStart periodEnd).1.PeriodRoUAssetEnd
          = roundFloat last.ClosingBalance 2)) ∧
    calculation.calculateAccountingPeriodSummary result periodStart periodEnd
      = calculateAccountingPeriodSummary result periodStart periodEnd := by
  refine ⟨?_, ?_, calculateAccountingPeriodSummary_copies result periodStart periodEnd⟩
  · intro hinc
    have hc := finalEndBalance_cases start finish result.LiabilitySchedule hinc
    have hf : result.LiabilitySchedule ≠ [] →
        (calculateAccountingPeriodSummary result periodStart periodEnd).1.PeriodLiabilityEnd
          = roundFloat (finalEndBalance result.LiabilitySchedule
            (windowBalances start finish result.LiabilitySchedule)) 2 := by
      intro hne
      obtain ⟨_, _, _, _, hf, _⟩ := summary_liability result periodStart periodEnd start
        finish h1 h2 h3 hne
      exact hf
    refine ⟨?_, ?_, ?_, ?_⟩
    · intro e he hd
      rw [hf (List.ne_nil_of_mem he), hc.1 e he hd]
    · intro pre p e post hs hp he
      rw [hf (by rw [hs]; simp), hc.2.1 pre p e post hs hp he]
    · intro e post hs he
      rw [hf (by rw [hs]; simp), hc.2.2.1 e post hs he]
    · intro last hl hd
      rw [hf (List.ne_nil_of_mem (List.mem_of_getLast?_eq_some hl)), hc.2.2.2 last hl hd]
  · intro hinc
    have hc := finalEndBalance_cases start finish result.RoUAssetSchedule hinc
    have hf : result.RoUAssetSchedule ≠ [] →
        (calculateAccountingPeriodSummary result periodStart periodEnd).1.PeriodRoUAssetEnd
          = roundFloat (finalEndBalance result.RoUAssetSchedule
            (windowBalances start finish result.RoUAssetSchedule)) 2 := by
      intro hne
      obtain ⟨_, _, hf, _⟩ := summary_rou result periodStart periodEnd start finish h1 h2 h3 hne
      exact hf
    refine ⟨?_, ?_, ?_, ?_⟩
    · intro e he hd
      rw [hf (List.ne_nil_of_mem he), hc.1 e he hd]
    · intro pre p e post hs hp he
      rw [hf (by rw [hs]; simp), hc.2.1 pre p e post hs hp he]
    · intro e post hs he
      rw [hf (by rw [hs]; simp), hc.2.2.1 e post hs he]
    · intro last hl hd
      rw [hf (List.ne_nil_of_mem (List.mem_of_getLast?_eq_some hl)), hc.2.2.2 last hl hd]

/-- Witness of C23: a schedule of two entries dated 2024-01-01 and 2024-01-03 and the window
that ends on 2024-01-02: the reported closing balance is the closing balance of the first
entry. -/
theorem calculateAccountingPeriodSummary_closing_witness :
    timeParse "2024-01-02" = some (Date 2024 1 2) ∧
    (calculateAccountingPeriodSummary
      (mkResult [mkEntry 1 (Date 2024 1 1) 100 90, mkEntry 1 (Date 2024 1 3) 90 80] [])
      "2024-01-01" "2024-01-02").1.PeriodLiabilityEnd
      = roundFloat (mkEntry 1 (Date 2024 1 1) 100 90).ClosingBalance 2 :=
  ⟨by decide,
    ((calculateAccountingPeriodSummary_closing
      (mkResult [mkEntry 1 (Date 2024 1 1) 100 90, mkEntry 1 (Date 2024 1 3) 90 80] [])
      "2024-01-01" "2024-01-02" (Date 2024 1 1) (Date 2024 1 2) (by decide) (by decide)
      (by decide)).1 (by decide)).2.1 [] (mkEntry 1 (Date 2024 1 1) 100 90)
      (mkEntry 1 (Date 2024 1 3) 90 80) [] rfl (by decide) (by decide)⟩

/-! ## Consistency, idempotence and frame of the summary -/

theorem rounded_difference (s e p : ℚ) (h : |s - e - p| ≤ 1 / 100) :
    |roundFloat s 2 - roundFloat e 2 - roundFloat p 2| ≤ 25 / 1000 := by
  have h1 := roundFloat_err s
  have h2 := roundFloat_err e
  have h3 := roundFloat_err p
  rw [abs_le] at h h1 h2 h3 ⊢
  constructor <;> linarith [h.1, h.2, h1.1, h1.2, h2.1, h2.2, h3.1, h3.2]

theorem rounded_sum (p i t : ℚ) (h : |p + i - t| ≤ 1 / 100) :
    |roundFloat p 2 + roundFloat i 2 - roundFloat t 2| ≤ 25 / 1000 := by
  have h1 := roundFloat_err p
  have h2 := roundFloat_err i
  have h3 := roundFloat_err t
  rw [abs_le] at h h1 h2 h3 ⊢
  constructor <;> linarith [h.1, h.2, h1.1, h1.2, h2.1, h2.2, h3.1, h3.2]

/-- C24. After a successful call, for arbitrary schedule contents: if the liability schedule is
not empty, the reported opening balance minus the reported closing balance differs from the
reported principal by at most 0.025, and the reported principal plus the reported interest
differs from the reported payments by at most 0.025; if the RoU asset schedule is not empty,
the reported opening balance minus the reported closing balance differs from the reported
depreciation by at most 0.025. -/
theorem calculateAccountingPeriodSummary_consistent (result : CalculationResult)
    (periodStart periodEnd : String)
    (hok : (calculateAccountingPeriodSummary result periodStart periodEnd).2 = none) :
    (result.LiabilitySchedule ≠ [] →
      |((calculateAccountingPeriodSummary result periodStart periodEnd).1.PeriodLiabilityStart
          - (calculateAccountingPeriodSummary result periodStart periodEnd).1.PeriodLiabilityEnd)
        - (calculateAccountingPeriodSummary result periodStart periodEnd).1.PeriodPrincipalPayment|
        ≤ 25 / 1000 ∧
      |(calculateAccountingPeriodSummary result periodStart periodEnd).1.PeriodPrincipalPayment
          + (calculateAccountingPeriodSummary result periodStart periodEnd).1.PeriodInterestExpense
        - (calculateAccountingPeriodSummary result periodStart periodEnd).1.PeriodPayments|
        ≤ 25 / 1000) ∧
    (result.RoUAssetSchedule ≠ [] →
      |((calculateAccountingPeriodSummary result periodStart periodEnd).1.PeriodRoUAssetStart
          - (calculateAccountingPeriodSummary result periodStart periodEnd).1.PeriodRoUAssetEnd)
        - (calculateAccountingPeriodSummary result periodStart periodEnd).1.PeriodDepreciation|
        ≤ 25 / 1000) := by
  rcases summary_outcome result periodStart periodEnd with ⟨he, _, _⟩ | ⟨_, s, f, h1, h2, h3⟩
  · exact absurd hok he
  · constructor
    · intro hne
      obtain ⟨P, I, T, e1, e2, e3, e4, e5, hb1, hb2⟩ :=
        summary_liability result periodStart periodEnd s f h1 h2 h3 hne
      rw [e1, e2, e3, e4, e5]
      exact ⟨rounded_difference _ _ _ hb1, rounded_sum _ _ _ hb2⟩
    · intro hne
      obtain ⟨D, e1, e2, e3, hb1⟩ := summary_rou result periodStart periodEnd s f h1 h2 h3 hne
      rw [e1, e2, e3]
      exact rounded_difference _ _ _ hb1

/-- Witness of C24: a successful call on a liability schedule of two entries. -/
theorem calculateAccountingPeriodSummary_consistent_witness :
    (calculateAccountingPeriodSummary
      (mkResult [mkEntry 1 (Date 2024 1 1) 100 90, mkEntry 1 (Date 2024 1 3) 90 80] [])
      "2024-01-01" "2024-01-02").2 = none ∧
    |((calculateAccountingPeriodSummary
        (mkResult [mkEntry 1 (Date 2024 1 1) 100 90, mkEntry 1 (Date 2024 1 3) 90 80] [])
        "2024-01-01" "2024-01-02").1.PeriodLiabilityStart
      - (calculateAccountingPeriodSummary
        (mkResult [mkEntry 1 (Date 2024 1 1) 100 90, mkEntry 1 (Date 2024 1 3) 90 80] [])
        "2024-01-01" "2024-01-02").1.PeriodLiabilityEnd)
      - (calculateAccountingPeriodSummary
        (mkResult [mkEntry 1 (Date 2024 1 1) 100 90, mkEntry 1 (Date 2024 1 3) 90 80] [])
        "2024-01-01" "2024-01-02").1.PeriodPrincipalPayment| ≤ 25 / 1000 :=
  have hok : (calculateAccountingPeriodSummary
      (mkResult [mkEntry 1 (Date 2024 1 1) 100 90, mkEntry 1 (Date 2024 1 3) 90 80] [])
      "2024-01-01" "2024-01-02").2 = none := by
    rw [calculateAccountingPeriodSummary, (periodSummary_result _ _ _ _ (Date 2024 1 1)
      (Date 2024 1 2) (by decide) (by decide) (by decide)).1]
  ⟨hok, ((calculateAccountingPeriodSummary_consistent
    (mkResult [mkEntry 1 (Date 2024 1 1) 100 90, mkEntry 1 (Date 2024 1 3) 90 80] [])
    "2024-01-01" "2024-01-02" hok).1 (by simp [mkResult])).1⟩

theorem liabilitySummary_fixed (round2 : ℚ → ℚ) (start finish : Time)
    (a b : CalculationResult) (hs : a.LiabilitySchedule = b.LiabilitySchedule)
    (h1 : a.PeriodLiabilityStart = (liabilitySummary round2 start finish b).PeriodLiabilityStart)
    (h2 : a.PeriodLiabilityEnd = (liabilitySummary round2 start finish b).PeriodLiabilityEnd)
    (h3 : a.PeriodInterestExpense
      = (liabilitySummary round2 start finish b).PeriodInterestExpense)
    (h4 : a.PeriodPayments = (liabilitySummary round2 start finish b).PeriodPayments)
    (h5 : a.PeriodPrincipalPayment
      = (liabilitySummary round2 start finish b).PeriodPrincipalPayment) :
    (liabilitySummary round2 start finish a).PeriodLiabilityStart = a.PeriodLiabilityStart ∧
    (liabilitySummary round2 start finish a).PeriodLiabilityEnd = a.PeriodLiabilityEnd ∧
    (liabilitySummary round2 start finish a).PeriodInterestExpense = a.PeriodInterestExpense ∧
    (liabilitySummary round2 start finish a).PeriodPayments = a.PeriodPayments ∧
    (liabilitySummary round2 start finish a).PeriodPrincipalPayment
      = a.PeriodPrincipalPayment := by
  by_cases hne : a.LiabilitySchedule = []
  · rw [liabilitySummary_empty round2 start finish a hne]
    exact ⟨rfl, rfl, rfl, rfl, rfl⟩
  · obtain ⟨c1, c2, c3, c4, c5⟩ := liabilitySummary_congr round2 start finish a b hs hne
    rw [c1, c2, c3, c4, c5, h1, h2, h3, h4, h5]
    exact ⟨rfl, rfl, rfl, rfl, rfl⟩

theorem rouSummary_fixed (round2 : ℚ → ℚ) (start finish : Time)
    (a b : CalculationResult) (hs : a.RoUAssetSchedule = b.RoUAssetSchedule)
    (h1 : a.PeriodRoUAssetStart = (rouSummary round2 start finish b).PeriodRoUAssetStart)
    (h2 : a.PeriodRoUAssetEnd = (rouSummary round2 start finish b).PeriodRoUAssetEnd)
    (h3 : a.PeriodDepreciation = (rouSummary round2 start finish b).PeriodDepreciation) :
    (rouSummary round2 start finish a).PeriodRoUAssetStart = a.PeriodRoUAssetStart ∧
    (rouSummary round2 start finish a).PeriodRoUAssetEnd = a.PeriodRoUAssetEnd ∧
    (rouSummary round2 start finish a).PeriodDepreciation = a.PeriodDepreciation := by
  by_cases hne : a.RoUAssetSchedule = []
  · rw [rouSummary_empty round2 start finish a hne]
    exact ⟨rfl, rfl, rfl⟩
  · obtain ⟨c1, c2, c3⟩ := rouSummary_congr round2 start finish a b hs hne
    rw [c1, c2, c3, h1, h2, h3]
    exact ⟨rfl, rfl, rfl⟩

/-- C25. `calculateAccountingPeriodSummary` is idempotent: a second call with the same window
on the result of a first call returns the same result and the same error as the first call. -/
theorem calculateAccountingPeriodSummary_idempotent (result : CalculationResult)
    (periodStart periodEnd : String) :
    calculateAccountingPeriodSummary
        (calculateAccountingPeriodSummary result periodStart periodEnd).1 periodStart periodEnd
      = calculateAccountingPeriodSummary result periodStart periodEnd := by
  rcases summary_outcome result periodStart periodEnd with ⟨_, hr, _⟩ | ⟨_, s, f, h1, h2, h3⟩
  · rw [hr]
  · obtain ⟨e1, e2⟩ := periodSummary_result roundTo2Decimals result periodStart periodEnd s f
      h1 h2 h3
    obtain ⟨e3, e4⟩ := periodSummary_result roundTo2Decimals
      (calculateAccountingPeriodSummary result periodStart periodEnd).1 periodStart periodEnd s f
      h1 h2 h3
    have hL := liabilitySummary_fixed roundTo2Decimals s f
      (calculateAccountingPeriodSummary result periodStart periodEnd).1 result
      (by rw [calculateAccountingPeriodSummary, e2])
      (by rw [calculateAccountingPeriodSummary, e2])
      (by rw [calculateAccountingPeriodSummary, e2])
      (by rw [calculateAccountingPeriodSummary, e2])
      (by rw [calculateAccountingPeriodSummary, e2])
      (by rw [calculateAccountingPeriodSummary, e2])
    have hR := rouSummary_fixed roundTo2Decimals s f
      (calculateAccountingPeriodSummary result periodStart periodEnd).1 result
      (by rw [calculateAccountingPeriodSummary, e2])
      (by rw [calculateAccountingPeriodSummary, e2])
      (by rw [calculateAccountingPeriodSummary, e2])
      (by rw [calculateAccountingPeriodSummary, e2])
    have hA : (calculateAccountingPeriodSummary result periodStart periodEnd).1.AccountingPeriodStart
        = periodStart ∧
        (calculateAccountingPeriodSummary result periodStart periodEnd).1.AccountingPeriodEnd
        = periodEnd := by
      rw [calculateAccountingPeriodSummary, e2]
      exact ⟨rfl, rfl⟩
    apply Prod.ext
    · show (periodSummary roundTo2Decimals _ periodStart periodEnd).1
        = (calculateAccountingPeriodSummary result periodStart periodEnd).1
      rw [e4]
      apply CalculationResult.ext <;>
        simp only [hL.1, hL.2.1, hL.2.2.1, hL.2.2.2.1, hL.2.2.2.2, hR.1, hR.2.1, hR.2.2,
          hA.1, hA.2]
    · show (periodSummary roundTo2Decimals _ periodStart periodEnd).2
        = (periodSummary roundTo2Decimals result periodStart periodEnd).2
      rw [e3, e1]

/-- C27. A call to `calculateAccountingPeriodSummary` leaves both schedules and the fields
`LeaseID`, `InitialLiability`, `InitialRoUAsset`, `DiscountRate`, `PaymentAmount`,
`PaymentFrequency`, `StartDate`, `EndDate` and `Error` of the result unchanged; the five
`Period` figures of the liability are unchanged when the liability schedule is empty, and the
three `Period` figures of the RoU asset are unchanged when the RoU asset schedule is empty. -/
theorem calculateAccountingPeriodSummary_frame (result : CalculationResult)
    (periodStart periodEnd : String) :
    ((calculateAccountingPeriodSummary result periodStart periodEnd).1.LiabilitySchedule
        = result.LiabilitySchedule ∧
      (calculateAccountingPeriodSummary result periodStart periodEnd).1.RoUAssetSchedule
        = result.RoUAssetSchedule ∧
      (calculateAccountingPeriodSummary result periodStart periodEnd).1.LeaseID
        = result.LeaseID ∧
      (calculateAccountingPeriodSummary result periodStart periodEnd).1.InitialLiability
        = result.InitialLiability ∧
      (calculateAccountingPeriodSummary result periodStart periodEnd).1.InitialRoUAsset
        = result.InitialRoUAsset ∧
      (calculateAccountingPeriodSummary result periodStart periodEnd).1.DiscountRate
        = result.DiscountRate ∧
      (calculateAccountingPeriodSummary result periodStart periodEnd).1.PaymentAmount
        = result.PaymentAmount ∧
      (calculateAccountingPeriodSummary result periodStart periodEnd).1.PaymentFrequency
        = result.PaymentFrequency ∧
      (calculateAccountingPeriodSummary result periodStart periodEnd).1.StartDate
        = result.StartDate ∧
      (calculateAccountingPeriodSummary result periodStart periodEnd).1.EndDate
        = result.EndDate ∧
      (calculateAccountingPeriodSummary result periodStart periodEnd).1.Error = result.Error) ∧
    (result.LiabilitySchedule = [] →
      (calculateAccountingPeriodSummary result periodStart periodEnd).1.PeriodLiabilityStart
        = result.PeriodLiabilityStart ∧
      (calculateAccountingPeriodSummary result periodStart periodEnd).1.PeriodLiabilityEnd
        = result.PeriodLiabilityEnd ∧
      (calculateAccountingPeriodSummary result periodStart periodEnd).1.PeriodInterestExpense
        = result.PeriodInterestExpense ∧
      (calculateAccountingPeriodSummary result periodStart periodEnd).1.PeriodPayments
        = result.PeriodPayments ∧
      (calculateAccountingPeriodSummary result periodStart periodEnd).1.PeriodPrincipalPayment
        = result.PeriodPrincipalPayment) ∧
    (result.RoUAssetSchedule = [] →
      (calculateAccountingPeriodSummary result periodStart periodEnd).1.PeriodRoUAssetStart
        = result.PeriodRoUAssetStart ∧
      (calculateAccountingPeriodSummary result periodStart periodEnd).1.PeriodRoUAssetEnd
        = result.PeriodRoUAssetEnd ∧
      (calculateAccountingPeriodSummary result periodStart periodEnd).1.PeriodDepreciation
        = result.PeriodDepreciation) := by
  rcases summary_outcome result periodStart periodEnd with ⟨_, hr, _⟩ | ⟨_, s, f, h1, h2, h3⟩
  · rw [hr]
    exact ⟨⟨rfl, rfl, rfl, rfl, rfl, rfl, rfl, rfl, rfl, rfl, rfl⟩,
      fun _ => ⟨rfl, rfl, rfl, rfl, rfl⟩, fun _ => ⟨rfl, rfl, rfl⟩⟩
  · rw [calculateAccountingPeriodSummary,
      (periodSummary_result roundTo2Decimals result periodStart periodEnd s f h1 h2 h3).2]
    refine ⟨⟨rfl, rfl, rfl, rfl, rfl, rfl, rfl, rfl, rfl, rfl, rfl⟩, ?_, ?_⟩
    · intro hL
      simp only [liabilitySummary_empty roundTo2Decimals s f result hL, and_self]
    · intro hR
      simp only [rouSummary_empty roundTo2Decimals s f result hR, and_self]

/-- Witness of C27: with an empty liability schedule a successful call leaves the liability
figures as they were. -/
theorem calculateAccountingPeriodSummary_frame_witness :
    (calculateAccountingPeriodSummary (mkResult [] []) "2024-01-01" "2024-12-31").2 = none ∧
    (calculateAccountingPeriodSummary (mkResult [] [])
      "2024-01-01" "2024-12-31").1.PeriodLiabilityStart
      = (mkResult [] []).PeriodLiabilityStart :=
  ⟨by
      rw [calculateAccountingPeriodSummary, (periodSummary_result _ _ _ _ (Date 2024 1 1)
        (Date 2024 12 31) (by decide) (by decide) (by decide)).1],
    ((calculateAccountingPeriodSummary_frame (mkResult [] []) "2024-01-01"
      "2024-12-31").2.1 rfl).1⟩

/-! ## A window that covers the whole schedule -/

theorem summary_cover (start finish : Time) (first : AmortizationEntry)
    (post : List AmortizationEntry) (last : AmortizationEntry)
    (hlast : (first :: post).getLast? = some last)
    (hinc : (scheduleDays (first :: post)).Pairwise (· < ·))
    (hb : first.Date.Before start = false) (ha : last.Date.After finish = false) :
    (windowBalances start finish (first :: post)).startBalance = first.OpeningBalance ∧
    finalEndBalance (first :: post) (windowBalances start finish (first :: post))
      = last.ClosingBalance := by
  constructor
  · exact (startBalance_cases start finish [] post first (by simp) hb).1 (Or.inr rfl)
  · obtain ⟨h1, _, _, h4⟩ := finalEndBalance_cases start finish (first :: post) hinc
    by_cases heq : last.Date = finish
    · exact h1 last (List.mem_of_getLast?_eq_some hlast) heq
    · apply h4 last hlast
      rw [Time.Before_iff]
      have h5 : ¬ finish.absDays < last.Date.absDays := by
        rw [← Time.After_iff, ha]
        simp
      have h6 : last.Date.absDays ≠ finish.absDays := fun h => heq (Time.ext_absDays h)
      omega

theorem summary_cover_liability (result : CalculationResult) (periodStart periodEnd : String)
    (start finish : Time) (h1 : timeParse periodStart = some start)
    (h2 : timeParse periodEnd = some finish) (h3 : finish.Before start = false)
    (first : AmortizationEntry) (post : List AmortizationEntry) (last : AmortizationEntry)
    (hs : result.LiabilitySchedule = first :: post)
    (hlast : (first :: post).getLast? = some last)
    (hinc : (scheduleDays (first :: post)).Pairwise (· < ·))
    (hb : first.Date.Before start = false) (ha : last.Date.After finish = false) :
    (calculateAccountingPeriodSummary result periodStart periodEnd).1.PeriodLiabilityStart
      = roundFloat first.OpeningBalance 2 ∧
    (calculateAccountingPeriodSummary result periodStart periodEnd).1.PeriodLiabilityEnd
      = roundFloat last.ClosingBalance 2 := by
  obtain ⟨P, I, T, e1, e2, _⟩ := summary_liability result periodStart periodEnd start finish
    h1 h2 h3 (by rw [hs]; simp)
  obtain ⟨c1, c2⟩ := summary_cover start finish first post last hlast hinc hb ha
  rw [e1, e2, hs, c1, c2]
  exact ⟨rfl, rfl⟩

theorem summary_cover_rou (result : CalculationResult) (periodStart periodEnd : String)
    (start finish : Time) (h1 : timeParse periodStart = some start)
    (h2 : timeParse periodEnd = some finish) (h3 : finish.Before start = false)
    (first : AmortizationEntry) (post : List AmortizationEntry) (last : AmortizationEntry)
    (hs : result.RoUAssetSchedule = first :: post)
    (hlast : (first :: post).getLast? = some last)
    (hinc : (scheduleDays (first :: post)).Pairwise (· < ·))
    (hb : first.Date.Before start = false) (ha : last.Date.After finish = false) :
    (calculateAccountingPeriodSummary result periodStart periodEnd).1.PeriodRoUAssetStart
      = roundFloat first.OpeningBalance 2 ∧
    (calculateAccountingPeriodSummary result periodStart periodEnd).1.PeriodRoUAssetEnd
      = roundFloat last.ClosingBalance 2 := by
  obtain ⟨D, e1, e2, _⟩ := summary_rou result periodStart periodEnd start finish
    h1 h2 h3 (by rw [hs]; simp)
  obtain ⟨c1, c2⟩ := summary_cover start finish first post last hlast hinc hb ha
  rw [e1, e2, hs, c1, c2]
  exact ⟨rfl, rfl⟩

theorem GenerateLiabilitySchedule_head (l : Lease) (x : ℚ) (first : AmortizationEntry)
    (post : List AmortizationEntry) (h : (GenerateLiabilitySchedule l x).1 = first :: post) :
    first.OpeningBalance = roundFloat x 2 := by
  rcases GenerateLiabilitySchedule_cases l x with ⟨err, _, he⟩ | ⟨_, _, he⟩ | ⟨_, _, _, he⟩
  · rw [he] at h
    simp at h
  · rw [he] at h
    simp at h
  · rw [he] at h
    exact (scheduleStates_balances l _ x).1 first (congrArg List.head? h)

theorem GenerateRoUAssetSchedule_head (l : Lease) (A : ℚ) (first : AmortizationEntry)
    (post : List AmortizationEntry) (h : (GenerateRoUAssetSchedule l A).1 = first :: post) :
    first.OpeningBalance = roundFloat A 2 := by
  rcases GenerateRoUAssetSchedule_cases l A with ⟨err, _, he⟩ | ⟨_, _, he⟩ | ⟨_, _, he⟩
  · rw [he] at h
    simp at h
  · rw [he] at h
    simp at h
  · rw [he] at h
    exact (rouEntries_balances _ A _).1 first (congrArg List.head? h)

/-- C26. (1) For every result whose liability (RoU asset) schedule is not empty and has strictly
increasing dates, and every valid window whose start is not after the first entry and whose end
is not before the last entry, the reported opening balance is the first entry's opening balance
rounded to 2 decimals and the reported closing balance is the last entry's closing balance
rounded to 2 decimals. (2) For a generated RoU asset schedule these are the initial value
rounded to 2 decimals and 0; for a generated liability schedule of a lease of at most 106751
days they are the initial liability rounded to 2 decimals and 0. (3) For the generated liability
schedule of the monthly lease from 2000-01-01 to 2300-01-01 and the window from 2000-01-01 to
2300-01-01, which covers the schedule, the reported closing balance is `x - P` rounded to 2
decimals for an amount `P` that does not depend on the initial liability `x`: it is not 0 for
both of the initial liabilities 0 and 1. -/
theorem calculateAccountingPeriodSummary_full_window :
    (∀ (result : CalculationResult) (periodStart periodEnd : String) (start finish : Time),
      timeParse periodStart = some start → timeParse periodEnd = some finish →
      finish.Before start = false →
      (∀ first post last, result.LiabilitySchedule = first :: post →
        (first :: post).getLast? = some last →
        (scheduleDays (first :: post)).Pairwise (· < ·) →
        first.Date.Before start = false → last.Date.After finish = false →
        (calculateAccountingPeriodSummary result periodStart periodEnd).1.PeriodLiabilityStart
          = roundFloat first.OpeningBalance 2 ∧
        (calculateAccountingPeriodSummary result periodStart periodEnd).1.PeriodLiabilityEnd
          = roundFloat last.ClosingBalance 2) ∧
      (∀ first post last, result.RoUAssetSchedule = first :: post →
        (first :: post).getLast? = some last →
        (scheduleDays (first :: post)).Pairwise (· < ·) →
        first.Date.Before start = false → last.Date.After finish = false →
        (calculateAccountingPeriodSummary result periodStart periodEnd).1.PeriodRoUAssetStart
          = roundFloat first.OpeningBalance 2 ∧
        (calculateAccountingPeriodSummary result periodStart periodEnd).1.PeriodRoUAssetEnd
          = roundFloat last.ClosingBalance 2)) ∧
    (∀ (l : Lease) (A : ℚ) (result : CalculationResult) (periodStart periodEnd : String)
        (start finish : Time),
      timeParse periodStart = some start → timeParse periodEnd = some finish →
      finish.Before start = false →
      result.RoUAssetSchedule = (GenerateRoUAssetSchedule l A).1 →
      result.RoUAssetSchedule ≠ [] →
      (∀ e ∈ result.RoUAssetSchedule, e.Date.Before start = false) →
      (∀ e ∈ result.RoUAssetSchedule, e.Date.After finish = false) →
      (calculateAccountingPeriodSummary result periodStart periodEnd).1.PeriodRoUAssetStart
        = roundFloat A 2 ∧
      (calculateAccountingPeriodSummary result periodStart periodEnd).1.PeriodRoUAssetEnd = 0) ∧
    (∀ (l : Lease) (x : ℚ) (n : Nat) (r : ℚ) (result : CalculationResult)
        (periodStart periodEnd : String) (start finish : Time),
      timeParse periodStart = some start → timeParse periodEnd = some finish →
      finish.Before start = false →
      getPeriodsAndRate l = (n, r, none) → n ≠ 0 →
      0 ≤ l.EndDate.absDays - l.StartDate.absDays →
      l.EndDate.absDays - l.StartDate.absDays ≤ 106751 →
      result.LiabilitySchedule = (GenerateLiabilitySchedule l x).1 →
      (∀ e ∈ result.LiabilitySchedule, e.Date.Before start = false) →
      (∀ e ∈ result.LiabilitySchedule, e.Date.After finish = false) →
      (calculateAccountingPeriodSummary result periodStart periodEnd).1.PeriodLiabilityStart
        = roundFloat x 2 ∧
      (calculateAccountingPeriodSummary result periodStart periodEnd).1.PeriodLiabilityEnd = 0) ∧
    ((∀ x : ℚ, ∀ e ∈ (GenerateLiabilitySchedule
          (mkLease Monthly (Date 2000 1 1) (Date 2300 1 1) 1000 (5 / 100)) x).1,
        e.Date.Before (Date 2000 1 1) = false ∧ e.Date.After (Date 2300 1 1) = false) ∧
      (∃ P : ℚ, ∀ x : ℚ,
        (calculateAccountingPeriodSummary (mkResult (GenerateLiabilitySchedule
          (mkLease Monthly (Date 2000 1 1) (Date 2300 1 1) 1000 (5 / 100)) x).1 [])
          "2000-01-01" "2300-01-01").2 = none ∧
        (calculateAccountingPeriodSummary (mkResult (GenerateLiabilitySchedule
          (mkLease Monthly (Date 2000 1 1) (Date 2300 1 1) 1000 (5 / 100)) x).1 [])
          "2000-01-01" "2300-01-01").1.PeriodLiabilityStart = roundFloat x 2 ∧
        (calculateAccountingPeriodSummary (mkResult (GenerateLiabilitySchedule
          (mkLease Monthly (Date 2000 1 1) (Date 2300 1 1) 1000 (5 / 100)) x).1 [])
          "2000-01-01" "2300-01-01").1.PeriodLiabilityEnd = roundFloat (x - P) 2) ∧
      ¬ ((calculateAccountingPeriodSummary (mkResult (GenerateLiabilitySchedule
          (mkLease Monthly (Date 2000 1 1) (Date 2300 1 1) 1000 (5 / 100)) 0).1 [])
          "2000-01-01" "2300-01-01").1.PeriodLiabilityEnd = 0 ∧
        (calculateAccountingPeriodSummary (mkResult (GenerateLiabilitySchedule
          (mkLease Monthly (Date 2000 1 1) (Date 2300 1 1) 1000 (5 / 100)) 1).1 [])
          "2000-01-01" "2300-01-01").1.PeriodLiabilityEnd = 0)) := by
  have hlong : 106751
      < (mkLease Monthly (Date 2000 1 1) (Date 2300 1 1) 1000 (5 / 100)).EndDate.absDays
      - (mkLease Monthly (Date 2000 1 1) (Date 2300 1 1) 1000 (5 / 100)).StartDate.absDays := by
    decide
  have hdates : ∀ x : ℚ, ∀ e ∈ (GenerateLiabilitySchedule
      (mkLease Monthly (Date 2000 1 1) (Date 2300 1 1) 1000 (5 / 100)) x).1,
      e.Date.Before (Date 2000 1 1) = false ∧ e.Date.After (Date 2300 1 1) = false := by
    intro x e he
    have hm := (GenerateLiabilitySchedule_long _ x 3600 (1 / 240)
      getPeriodsAndRate_three_centuries (by decide) hlong).2.2.1
    have hd : e.Date ∈ (GenerateLiabilitySchedule
        (mkLease Monthly (Date 2000 1 1) (Date 2300 1 1) 1000 (5 / 100)) x).1.map
        (fun e => e.Date) := List.mem_map_of_mem _ he
    rw [hm] at hd
    simp only [List.mem_map, List.mem_range] at hd
    obtain ⟨i, hi, hid⟩ := hd
    have h0 : (mkLease Monthly (Date 2000 1 1) (Date 2300 1 1) 1000 (5 / 100)).StartDate.absDays
        = (Date 2000 1 1).absDays := rfl
    have h1 : (Date 2300 1 1).absDays = (Date 2000 1 1).absDays + 109573 := by decide
    have h2 : e.Date.absDays = (Date 2000 1 1).absDays + (i : Int) := by
      rw [← hid, h0]
    constructor
    · rw [← Bool.not_eq_true, Time.Before_iff]
      omega
    · rw [← Bool.not_eq_true, Time.After_iff]
      omega
  obtain ⟨P, hP⟩ := GenerateLiabilitySchedule_long_closing
    (mkLease Monthly (Date 2000 1 1) (Date 2300 1 1) 1000 (5 / 100)) 3600 (1 / 240)
    getPeriodsAndRate_three_centuries (by decide) hlong
  have hfail : ∀ x : ℚ,
      (calculateAccountingPeriodSummary (mkResult (GenerateLiabilitySchedule
        (mkLease Monthly (Date 2000 1 1) (Date 2300 1 1) 1000 (5 / 100)) x).1 [])
        "2000-01-01" "2300-01-01").2 = none ∧
      (calculateAccountingPeriodSummary (mkResult (GenerateLiabilitySchedule
        (mkLease Monthly (Date 2000 1 1) (Date 2300 1 1) 1000 (5 / 100)) x).1 [])
        "2000-01-01" "2300-01-01").1.PeriodLiabilityStart = roundFloat x 2 ∧
      (calculateAccountingPeriodSummary (mkResult (GenerateLiabilitySchedule
        (mkLease Monthly (Date 2000 1 1) (Date 2300 1 1) 1000 (5 / 100)) x).1 [])
        "2000-01-01" "2300-01-01").1.PeriodLiabilityEnd = roundFloat (x - P) 2 := by
    intro x
    have p1 : timeParse "2000-01-01" = some (Date 2000 1 1) := by decide
    have p2 : timeParse "2300-01-01" = some (Date 2300 1 1) := by decide
    have p3 : (Date 2300 1 1).Before (Date 2000 1 1) = false := by decide
    obtain ⟨last, hl, hc⟩ := hP x
    cases hs : (GenerateLiabilitySchedule
        (mkLease Monthly (Date 2000 1 1) (Date 2300 1 1) 1000 (5 / 100)) x).1 with
    | nil =>
      rw [hs] at hl
      simp at hl
    | cons first post =>
      have hinc := GenerateLiabilitySchedule_increasing
        (mkLease Monthly (Date 2000 1 1) (Date 2300 1 1) 1000 (5 / 100)) x
      have hd := hdates x
      rw [hs] at hl hinc hd
      obtain ⟨c1, c2⟩ := summary_cover_liability (mkResult (first :: post) [])
        "2000-01-01" "2300-01-01" _ _ p1 p2 p3 first post last rfl hl hinc
        (hd first (List.mem_cons_self _ _)).1 (hd last (List.mem_of_getLast?_eq_some hl)).2
      refine ⟨?_, ?_, ?_⟩
      · rw [calculateAccountingPeriodSummary, (periodSummary_result _ _ _ _ _ _ p1 p2 p3).1]
      · rw [c1, GenerateLiabilitySchedule_head _ x first post hs, roundFloat_idem]
      · rw [c2, hc, roundFloat_idem]
  refine ⟨?_, ?_, ?_, hdates, ⟨P, hfail⟩, ?_⟩
  · intro result ps pe start finish h1 h2 h3
    exact ⟨fun first post last hs hl hinc hb ha =>
        summary_cover_liability result ps pe start finish h1 h2 h3 first post last hs hl hinc
          hb ha,
      fun first post last hs hl hinc hb ha =>
        summary_cover_rou result ps pe start finish h1 h2 h3 first post last hs hl hinc hb ha⟩
  · intro l A result ps pe start finish h1 h2 h3 hs hne hb ha
    cases hc : result.RoUAssetSchedule with
    | nil => exact absurd hc hne
    | cons first post =>
      obtain ⟨last, hl⟩ : ∃ last, (first :: post).getLast? = some last :=
        ⟨(first :: post).getLast (by simp), List.getLast?_eq_getLast _ _⟩
      have hinc := GenerateRoUAssetSchedule_increasing l A
      rw [← hs, hc] at hinc
      rw [hc] at hb ha
      obtain ⟨c1, c2⟩ := summary_cover_rou result ps pe start finish h1 h2 h3 first post last
        hc hl hinc (hb first (List.mem_cons_self _ _)) (ha last (List.mem_of_getLast?_eq_some hl))
      have hg : GenerateRoUAssetSchedule l A = (first :: post, none) := by
        rcases GenerateRoUAssetSchedule_cases l A with ⟨err, _, he⟩ | ⟨_, _, he⟩ | ⟨_, _, he⟩
        · rw [hc, he] at hs
          simp at hs
        · rw [hc, he] at hs
          simp at hs
        · rw [hc, he] at hs
          rw [he]
          exact congrArg (fun s => (s, (none : Option String))) hs.symm
      rw [c1, c2, GenerateRoUAssetSchedule_head l A first post (by rw [hg]),
        GenerateRoUAssetSchedule_last_closing l A _ hg last hl, roundFloat_idem, roundFloat_zero]
      exact ⟨rfl, rfl⟩
  · intro l x n r result ps pe start finish h1 h2 h3 hg hn hd1 hd2 hs hb ha
    obtain ⟨last, hl, hz⟩ := GenerateLiabilitySchedule_last_closing l x n r hg hn hd1 hd2
    cases hc : result.LiabilitySchedule with
    | nil =>
      rw [← hs, hc] at hl
      simp at hl
    | cons first post =>
      have hinc := GenerateLiabilitySchedule_increasing l x
      rw [← hs, hc] at hinc hl
      rw [hc] at hb ha
      obtain ⟨c1, c2⟩ := summary_cover_liability result ps pe start finish h1 h2 h3 first post
        last hc hl hinc (hb first (List.mem_cons_self _ _)) (ha last (List.mem_of_getLast?_eq_some hl))
      rw [c1, c2, GenerateLiabilitySchedule_head l x first post (by rw [← hs, hc]), hz,
        roundFloat_idem, roundFloat_zero]
      exact ⟨rfl, rfl⟩
  · rintro ⟨z0, z1⟩
    rw [(hfail 0).2.2] at z0
    rw [(hfail 1).2.2] at z1
    have b0 := roundFloat_eq_zero _ z0
    have b1 := roundFloat_eq_zero _ z1
    rw [abs_le] at b0 b1
    linarith [b0.1, b0.2, b1.1, b1.2]

/-! ## The period counter of the daily loop -/

theorem paymentKeys_filter_iff (c : Time) (Q : List (Time × ℚ)) (k : Int) :
    k ∈ paymentKeys (Q.filter (fun p => decide (c.absDays < p.1.absDays)))
      ↔ k ∈ paymentKeys Q ∧ c.absDays < k := by
  simp only [paymentKeys, List.mem_map, List.mem_filter, decide_eq_true_eq]
  constructor
  · rintro ⟨p, ⟨hp, hc⟩, rfl⟩
    exact ⟨⟨p, hp, rfl⟩, hc⟩
  · rintro ⟨⟨p, hp, rfl⟩, hc⟩
    exact ⟨p, ⟨hp, hc⟩, rfl⟩

/-- The period of an entry of the daily loop is the period at the start of the loop plus the
number of earlier entries of the loop whose day is one of the days `K`, when the pending
payments are sorted, none is before the current day, and from the current day on they are on
the days `K`. -/
theorem liabilityLoop_period (l : Lease) (dr ti tp tpay : ℚ) (K : List Int) (n : Nat) :
    ∀ s : LoopState, (paymentKeys s.pending).Pairwise (· < ·) →
      (∀ k ∈ paymentKeys s.pending, s.currentDate.absDays ≤ k) →
      (∀ k, s.currentDate.absDays ≤ k → (k ∈ paymentKeys s.pending ↔ k ∈ K)) →
      ∀ pre e post, liabilityLoop l dr ti tp tpay n s = pre ++ e :: post →
        e.Period = s.period + (pre.filter (fun a => decide (a.Date.absDays ∈ K))).length := by
  induction n with
  | zero =>
    intro s _ _ _ pre e post h
    simp [liabilityLoop] at h
  | succ n ih =>
    intro s hs hge hK pre e post h
    have hloop : liabilityLoop l dr ti tp tpay (n + 1) s
        = (liabilityDay l dr ti tp tpay s).1
          :: liabilityLoop l dr ti tp tpay n (liabilityDay l dr ti tp tpay s).2 := rfl
    rw [hloop] at h
    have hf := liabilityDay_entry l dr ti tp tpay s
    cases pre with
    | nil =>
      simp only [List.nil_append, List.cons.injEq] at h
      rw [← h.1, hf.1]
      simp
    | cons a pre =>
      simp only [List.cons_append, List.cons.injEq] at h
      obtain ⟨ha, hrest⟩ := h
      have hp := liabilityDay_pending l dr ti tp tpay s
      rw [matchPayments_sorted _ _ hs hge] at hp
      have hdate : (liabilityDay l dr ti tp tpay s).2.currentDate.absDays
          = s.currentDate.absDays + 1 := by
        rw [hf.2.2.2.2.2.2, Time.AddDate_days]
      have h1 : (paymentKeys (liabilityDay l dr ti tp tpay s).2.pending).Pairwise (· < ·) := by
        rw [hp.1]
        exact paymentKeys_filter_sorted _ _ hs
      have h2 : ∀ k ∈ paymentKeys (liabilityDay l dr ti tp tpay s).2.pending,
          (liabilityDay l dr ti tp tpay s).2.currentDate.absDays ≤ k := by
        intro k hk
        rw [hp.1] at hk
        have := paymentKeys_filter _ _ k hk
        omega
      have h3 : ∀ k, (liabilityDay l dr ti tp tpay s).2.currentDate.absDays ≤ k →
          (k ∈ paymentKeys (liabilityDay l dr ti tp tpay s).2.pending ↔ k ∈ K) := by
        intro k hk
        rw [hp.1, paymentKeys_filter_iff, hK k (by omega)]
        constructor
        · exact fun h => h.1
        · exact fun h => ⟨h, by omega⟩
      have hrec := ih _ h1 h2 h3 pre e post hrest
      rw [hrec, hp.2]
      have hda : a.Date.absDays = s.currentDate.absDays := by
        rw [← ha, hf.2.1]
      have hmem : (s.currentDate.absDays ∈ paymentKeys s.pending) ↔ a.Date.absDays ∈ K := by
        rw [hda]
        exact hK _ (le_refl _)
      by_cases hin : a.Date.absDays ∈ K
      · rw [List.filter_cons_of_pos (by simpa using hin)]
        simp only [hmem.mpr hin, decide_True, if_true, List.length_cons]
        omega
      · rw [List.filter_cons_of_neg (by simpa using hin)]
        have : ¬ (s.currentDate.absDays ∈ paymentKeys s.pending) := fun h => hin (hmem.mp h)
        simp only [this, decide_False, Bool.false_eq_true, if_false]

/-- C29. In the liability schedule of a lease with period count `n ≥ 1`, where the scheduled
payment dates are the dates of `paymentsList`: the first entry has Period 1; the Period of
every entry is 1 plus the number of earlier entries whose date is a scheduled payment date;
and of two adjacent entries the Period of the second is the Period of the first plus 1 when the
date of the first is a scheduled payment date, and the Period of the first otherwise. -/
theorem GenerateLiabilitySchedule_period (l : Lease) (x : ℚ) (n : Nat) (r : ℚ)
    (hg : getPeriodsAndRate l = (n, r, none)) (hn : n ≠ 0) :
    (∀ first post, (GenerateLiabilitySchedule l x).1 = first :: post → first.Period = 1) ∧
    (∀ pre e post, (GenerateLiabilitySchedule l x).1 = pre ++ e :: post →
      e.Period = 1 + (pre.filter
        (fun a => decide (a.Date.absDays ∈ paymentKeys (paymentsList l n)))).length) ∧
    (∀ pre a b post, (GenerateLiabilitySchedule l x).1 = pre ++ a :: b :: post →
      b.Period = a.Period
        + (if a.Date.absDays ∈ paymentKeys (paymentsList l n) then 1 else 0)) := by
  have key : ∀ pre e post, (GenerateLiabilitySchedule l x).1 = pre ++ e :: post →
      e.Period = 1 + (pre.filter
        (fun a => decide (a.Date.absDays ∈ paymentKeys (paymentsList l n)))).length := by
    intro pre e post h
    rw [GenerateLiabilitySchedule_eq l x n r hg hn] at h
    split at h
    · simp at h
    · rw [scheduleStates_map] at h
      exact liabilityLoop_period l _ _ _ _ (paymentKeys (paymentsList l n)) _
        (initialState l n x) (paymentsList_sorted l n) (paymentsList_ge_start l n r hg hn)
        (fun k _ => Iff.rfl) pre e post h
  refine ⟨?_, key, ?_⟩
  · intro first post h
    have := key [] first post h
    simpa using this
  · intro pre a b post h
    have h1 := key pre a (b :: post) h
    have h2 := key (pre ++ [a]) b post (by rw [h]; simp)
    rw [h2, h1, List.filter_append, List.length_append]
    by_cases hin : a.Date.absDays ∈ paymentKeys (paymentsList l n)
    · rw [List.filter_cons_of_pos (by simpa using hin)]
      simp only [hin, if_true, List.filter_nil, List.length_cons, List.length_nil]
      omega
    · rw [List.filter_cons_of_neg (by simpa using hin)]
      simp only [hin, if_false, List.filter_nil, List.length_nil]
      omega

/-- Witness of C29: the Monthly lease 2025-01-01 to 2025-03-01 with payment 1000 and rate
0.05, which has 2 periods. -/
theorem GenerateLiabilitySchedule_period_witness :
    getPeriodsAndRate (mkLease Monthly (Date 2025 1 1) (Date 2025 3 1) 1000 (5 / 100))
      = (2, 1 / 240, none) ∧
    ∀ first post, (GenerateLiabilitySchedule
        (mkLease Monthly (Date 2025 1 1) (Date 2025 3 1) 1000 (5 / 100)) (198757 / 100)).1
        = first :: post → first.Period = 1 :=
  have hg : getPeriodsAndRate (mkLease Monthly (Date 2025 1 1) (Date 2025 3 1) 1000 (5 / 100))
      = (2, 1 / 240, none) := by
    have h := getPeriodsAndRate_bracket
      (mkLease Monthly (Date 2025 1 1) (Date 2025 3 1) 1000 (5 / 100)) (by decide)
      (by norm_num [mkLease]) 2 (by omega) (by omega) (by decide) (by decide) (by decide)
    rw [h]
    norm_num [mkLease, periodsPerYear]
  ⟨hg, (GenerateLiabilitySchedule_period
    (mkLease Monthly (Date 2025 1 1) (Date 2025 3 1) 1000 (5 / 100)) (198757 / 100) 2
    (1 / 240) hg (by decide)).1⟩

/-! ## The proportional split -/

theorem splitPayment_proportional (totalInterest totalPrincipal totalPayment payment
    paidInterest paidPrincipal : ℚ)
    (hbranch : ¬ (|payment - totalPayment| < 1 / 100 ∨
      payment ≥ (totalInterest - paidInterest) + (totalPrincipal - paidPrincipal))) :
    splitPayment totalInterest totalPrincipal totalPayment payment false paidInterest
        paidPrincipal
      = ((proportionalSplit (totalInterest / totalPayment) payment
            (totalInterest - paidInterest) (totalPrincipal - paidPrincipal)).1,
          paidInterest + (payment - (proportionalSplit (totalInterest / totalPayment) payment
            (totalInterest - paidInterest) (totalPrincipal - paidPrincipal)).1),
          paidPrincipal + (proportionalSplit (totalInterest / totalPayment) payment
            (totalInterest - paidInterest) (totalPrincipal - paidPrincipal)).1) := by
  simp only [splitPayment, proportionalSplit, hbranch, if_false, Bool.false_eq_true]

/-- C30. When a payment takes the proportional branch (it differs from the total of all
scheduled payments by at least 0.01 and is smaller than the remaining interest target plus the
remaining principal target), then for every value of the ratio `intRatio` the split computed by
the branch has a principal portion of at most the remaining principal target, an interest
portion of at most the remaining interest target, and the two portions add up to the payment;
on a payment day that is not the last one this split, taken at the ratio
`totalInterest / totalPayment`, is what `splitPayment` returns and adds to the cumulative
amounts. -/
theorem proportionalSplit_bounds (totalInterest totalPrincipal totalPayment payment
    paidInterest paidPrincipal intRatio : ℚ)
    (hbranch : ¬ (|payment - totalPayment| < 1 / 100 ∨
      payment ≥ (totalInterest - paidInterest) + (totalPrincipal - paidPrincipal))) :
    (proportionalSplit intRatio payment (totalInterest - paidInterest)
        (totalPrincipal - paidPrincipal)).1 ≤ totalPrincipal - paidPrincipal ∧
    (proportionalSplit intRatio payment (totalInterest - paidInterest)
        (totalPrincipal - paidPrincipal)).2 ≤ totalInterest - paidInterest ∧
    (proportionalSplit intRatio payment (totalInterest - paidInterest)
        (totalPrincipal - paidPrincipal)).1
      + (proportionalSplit intRatio payment (totalInterest - paidInterest)
        (totalPrincipal - paidPrincipal)).2 = payment ∧
    splitPayment totalInterest totalPrincipal totalPayment payment false paidInterest
        paidPrincipal
      = ((proportionalSplit (totalInterest / totalPayment) payment
            (totalInterest - paidInterest) (totalPrincipal - paidPrincipal)).1,
          paidInterest + (proportionalSplit (totalInterest / totalPayment) payment
            (totalInterest - paidInterest) (totalPrincipal - paidPrincipal)).2,
          paidPrincipal + (proportionalSplit (totalInterest / totalPayment) payment
            (totalInterest - paidInterest) (totalPrincipal - paidPrincipal)).1) := by
  have hlt : payment < (totalInterest - paidInterest) + (totalPrincipal - paidPrincipal) := by
    by_contra h
    exact hbranch (Or.inr (not_lt.mp h))
  have hsum : ∀ q : ℚ, (proportionalSplit q payment (totalInterest - paidInterest)
        (totalPrincipal - paidPrincipal)).1
      + (proportionalSplit q payment (totalInterest - paidInterest)
        (totalPrincipal - paidPrincipal)).2 = payment := by
    intro q
    simp only [proportionalSplit]
    split_ifs <;> simp only <;> ring
  refine ⟨?_, ?_, hsum intRatio, ?_⟩
  · simp only [proportionalSplit]
    split_ifs <;> simp only [gt_iff_lt, not_lt] at * <;> linarith
  · simp only [proportionalSplit]
    split_ifs <;> simp only [gt_iff_lt, not_lt] at * <;> linarith
  · rw [splitPayment_proportional _ _ _ _ _ _ hbranch]
    have := hsum (totalInterest / totalPayment)
    refine Prod.ext rfl (Prod.ext ?_ rfl)
    simp only
    linarith

/-- Witness of C30: a payment of 100 against targets of 100 interest and 900 principal, with
scheduled payments of 1000 in total. -/
theorem proportionalSplit_bounds_witness :
    (proportionalSplit (1 / 10) 100 (100 - 0) (900 - 0)).1 ≤ 900 - 0 ∧
    (proportionalSplit (1 / 10) 100 (100 - 0) (900 - 0)).2 ≤ 100 - 0 ∧
    (proportionalSplit (1 / 10) 100 (100 - 0) (900 - 0)).1
      + (proportionalSplit (1 / 10) 100 (100 - 0) (900 - 0)).2 = 100 :=
  have h := proportionalSplit_bounds 100 900 1000 100 0 0 (1 / 10) (by
    rw [show |(100 : ℚ) - 1000| = 900 by rw [abs_of_neg] <;> norm_num]
    norm_num)
  ⟨h.1, h.2.1, h.2.2.1⟩

/-! ## The checks of `parseRecordToLease` -/

theorem getD_map_TrimSpace (record : List String) (i : Nat) :
    (record.map TrimSpace).getD i "" = TrimSpace (record.getD i "") := by
  induction record generalizing i with
  | nil => rfl
  | cons s rest ih =>
    cases i with
    | zero => rfl
    | succ i => exact ih i

theorem Float64.le_zero_false (x : Float64) (h : x.le (Float64.finite 0) = false) :
    x = Float64.nan ∨ x.gt (Float64.finite 0) = true := by
  cases x with
  | nan => exact Or.inl rfl
  | inf negative =>
    cases negative
    · exact Or.inr rfl
    · simp [Float64.le] at h
  | finite v =>
    right
    simp only [Float64.le, decide_eq_false_iff_not, not_le] at h
    simp only [Float64.gt, decide_eq_true_eq]
    exact h

theorem pair_error {α : Type} (a l : α) (s : String)
    (h : (a, some s) = (l, (none : Option String))) : False := by
  cases h

/-- What the checks of `parseRecordToLease` establish when it returns no error. -/
theorem parseRecordToLease_ok (record : List String) (lineNum : Int)
    (h : (parseRecordToLease record lineNum).2 = none) :
    6 ≤ record.length ∧
    (∀ i, i < 6 → TrimSpace (record.getD i "") ≠ "") ∧
    (parseRecordToLease record lineNum).1.ID = TrimSpace (record.getD 0 "") ∧
    timeParse (TrimSpace (record.getD 1 ""))
      = some (parseRecordToLease record lineNum).1.StartDate ∧
    timeParse (TrimSpace (record.getD 2 ""))
      = some (parseRecordToLease record lineNum).1.EndDate ∧
    ParseFloat (TrimSpace (record.getD 3 ""))
      = ((parseRecordToLease record lineNum).1.PaymentAmount, none) ∧
    supported (parseRecordToLease record lineNum).1.PaymentFrequency ∧
    ParseFloat (TrimSpace (record.getD 5 ""))
      = ((parseRecordToLease record lineNum).1.DiscountRate, none) ∧
    (parseRecordToLease record lineNum).1.EndDate.Before
      (parseRecordToLease record lineNum).1.StartDate = false ∧
    (parseRecordToLease record lineNum).1.PaymentAmount.le (Float64.finite 0) = false ∧
    (parseRecordToLease record lineNum).1.DiscountRate.le (Float64.finite 0) = false := by
  obtain ⟨l, e, hp⟩ : ∃ l e, parseRecordToLease record lineNum = (l, e) := ⟨_, _, rfl⟩
  rw [hp] at h ⊢
  have he : e = none := h
  subst he
  clear h
  unfold parseRecordToLease at hp
  by_cases hlen : record.length < 6
  · rw [if_pos hlen] at hp
    exact (pair_error _ _ _ hp).elim
  rw [if_neg hlen] at hp
  by_cases h0 : (List.map TrimSpace record).getD 0 "" = ""
  · rw [if_pos h0] at hp
    exact (pair_error _ _ _ hp).elim
  rw [if_neg h0] at hp
  by_cases h1 : (List.map TrimSpace record).getD 1 "" = ""
  · rw [if_pos h1] at hp
    exact (pair_error _ _ _ hp).elim
  rw [if_neg h1] at hp
  cases hstart : timeParse ((List.map TrimSpace record).getD 1 "") with
  | none =>
    rw [hstart] at hp
    exact (pair_error _ _ _ hp).elim
  | some startDate =>
  rw [hstart] at hp
  simp only [] at hp
  by_cases h2 : (List.map TrimSpace record).getD 2 "" = ""
  · rw [if_pos h2] at hp
    exact (pair_error _ _ _ hp).elim
  rw [if_neg h2] at hp
  cases hend : timeParse ((List.map TrimSpace record).getD 2 "") with
  | none =>
    rw [hend] at hp
    exact (pair_error _ _ _ hp).elim
  | some endDate =>
  rw [hend] at hp
  simp only [] at hp
  by_cases h3 : (List.map TrimSpace record).getD 3 "" = ""
  · rw [if_pos h3] at hp
    exact (pair_error _ _ _ hp).elim
  rw [if_neg h3] at hp
  by_cases hpay : (ParseFloat ((List.map TrimSpace record).getD 3 "")).2 ≠ none
  · rw [if_pos hpay] at hp
    exact (pair_error _ _ _ hp).elim
  rw [if_neg hpay] at hp
  by_cases h4 : (List.map TrimSpace record).getD 4 "" = ""
  · rw [if_pos h4] at hp
    exact (pair_error _ _ _ hp).elim
  rw [if_neg h4] at hp
  obtain ⟨frequency, hsup, hacc⟩ : ∃ frequency, supported frequency ∧
      (if (List.map TrimSpace record).getD 4 "" = Monthly
            ∨ (List.map TrimSpace record).getD 4 "" = Quarterly
            ∨ (List.map TrimSpace record).getD 4 "" = Annually then
          some ((List.map TrimSpace record).getD 4 "")
        else if Title (ToLower ((List.map TrimSpace record).getD 4 "")) = Monthly
            ∨ Title (ToLower ((List.map TrimSpace record).getD 4 "")) = Quarterly
            ∨ Title (ToLower ((List.map TrimSpace record).getD 4 "")) = Annually then
          some (Title (ToLower ((List.map TrimSpace record).getD 4 "")))
        else none) = some frequency := by
    by_cases ha : (List.map TrimSpace record).getD 4 "" = Monthly
        ∨ (List.map TrimSpace record).getD 4 "" = Quarterly
        ∨ (List.map TrimSpace record).getD 4 "" = Annually
    · exact ⟨_, ha, if_pos ha⟩
    · by_cases hb : Title (ToLower ((List.map TrimSpace record).getD 4 "")) = Monthly
          ∨ Title (ToLower ((List.map TrimSpace record).getD 4 "")) = Quarterly
          ∨ Title (ToLower ((List.map TrimSpace record).getD 4 "")) = Annually
      · exact ⟨_, hb, by rw [if_neg ha, if_pos hb]⟩
      · rw [if_neg ha, if_neg hb] at hp
        exact (pair_error _ _ _ hp).elim
  rw [hacc] at hp
  simp only [] at hp
  by_cases h5 : (List.map TrimSpace record).getD 5 "" = ""
  · rw [if_pos h5] at hp
    exact (pair_error _ _ _ hp).elim
  rw [if_neg h5] at hp
  by_cases hrate : (ParseFloat ((List.map TrimSpace record).getD 5 "")).2 ≠ none
  · rw [if_pos hrate] at hp
    exact (pair_error _ _ _ hp).elim
  rw [if_neg hrate] at hp
  by_cases hbefore : endDate.Before startDate = true
  · rw [if_pos hbefore] at hp
    exact (pair_error _ _ _ hp).elim
  rw [if_neg hbefore] at hp
  by_cases hpos : (ParseFloat ((List.map TrimSpace record).getD 3 "")).1.le (Float64.finite 0)
      = true
  · rw [if_pos hpos] at hp
    exact (pair_error _ _ _ hp).elim
  rw [if_neg hpos] at hp
  by_cases hratepos :
      (ParseFloat ((List.map TrimSpace record).getD 5 "")).1.le (Float64.finite 0) = true
  · rw [if_pos hratepos] at hp
    exact (pair_error _ _ _ hp).elim
  rw [if_neg hratepos] at hp
  have hl := (Prod.mk.inj hp).1
  rw [← hl]
  simp only [getD_map_TrimSpace, ne_eq, Decidable.not_not, Bool.not_eq_true] at *
  refine ⟨by omega, ?_, trivial, hstart, hend, Prod.ext rfl hpay, hsup, Prod.ext rfl hrate,
    hbefore, hpos, hratepos⟩
  intro i hi
  have : i = 0 ∨ i = 1 ∨ i = 2 ∨ i = 3 ∨ i = 4 ∨ i = 5 := by omega
  rcases this with rfl | rfl | rfl | rfl | rfl | rfl
  · exact h0
  · exact h1
  · exact h2
  · exact h3
  · exact h4
  · exact h5

/-- A record with fewer than 6 fields, or with one of the first 6 fields empty after trimming,
is rejected. -/
theorem parseRecordToLease_rejects (record : List String) (lineNum : Int)
    (h : record.length < 6 ∨ ∃ i, i < 6 ∧ TrimSpace (record.getD i "") = "") :
    (parseRecordToLease record lineNum).2 ≠ none := by
  intro hn
  obtain ⟨h1, h2, _⟩ := parseRecordToLease_ok record lineNum hn
  rcases h with h | ⟨i, hi, he⟩
  · omega
  · exact h2 i hi he

/-! ## Claim on `parseRecordToLease` -/

/-- C28. (1) Whenever `parseRecordToLease` returns no error, the lease has a non-empty ID, an
end date that is not before the start date, a payment frequency that is one of Monthly,
Quarterly and Annually, a payment amount that is NaN or greater than 0 and a discount rate
that is NaN or greater than 0. (2) A record with fewer than 6 fields, or with one of the six
fields empty after trimming, is rejected with an error. (3) The record `L001`, `2023-01-01`,
`2027-12-31`, `NaN`, `Monthly`, `0.05` is returned without error as a lease whose payment
amount is NaN, which is not greater than 0; so is the record with `NaN` as the discount
rate. -/
theorem parseRecordToLease_accepts_NaN :
    (∀ (record : List String) (lineNum : Int), (parseRecordToLease record lineNum).2 = none →
      (parseRecordToLease record lineNum).1.ID ≠ "" ∧
      (parseRecordToLease record lineNum).1.EndDate.Before
        (parseRecordToLease record lineNum).1.StartDate = false ∧
      ((parseRecordToLease record lineNum).1.PaymentFrequency = Monthly ∨
        (parseRecordToLease record lineNum).1.PaymentFrequency = Quarterly ∨
        (parseRecordToLease record lineNum).1.PaymentFrequency = Annually) ∧
      ((parseRecordToLease record lineNum).1.PaymentAmount = Float64.nan ∨
        (parseRecordToLease record lineNum).1.PaymentAmount.gt (Float64.finite 0) = true) ∧
      ((parseRecordToLease record lineNum).1.DiscountRate = Float64.nan ∨
        (parseRecordToLease record lineNum).1.DiscountRate.gt (Float64.finite 0) = true)) ∧
    (∀ (record : List String) (lineNum : Int),
      (record.length < 6 ∨ ∃ i, i < 6 ∧ TrimSpace (record.getD i "") = "") →
      (parseRecordToLease record lineNum).2 ≠ none) ∧
    ((parseRecordToLease ["L001", "2023-01-01", "2027-12-31", "NaN", "Monthly", "0.05"] 2).2
        = none ∧
      (parseRecordToLease ["L001", "2023-01-01", "2027-12-31", "NaN", "Monthly", "0.05"]
        2).1.PaymentAmount = Float64.nan ∧
      (parseRecordToLease ["L001", "2023-01-01", "2027-12-31", "NaN", "Monthly", "0.05"]
        2).1.PaymentAmount.gt (Float64.finite 0) = false) ∧
    ((parseRecordToLease ["L001", "2023-01-01", "2027-12-31", "1000", "Monthly", "NaN"] 2).2
        = none ∧
      (parseRecordToLease ["L001", "2023-01-01", "2027-12-31", "1000", "Monthly", "NaN"]
        2).1.DiscountRate.gt (Float64.finite 0) = false) := by
  refine ⟨?_, ?_, ⟨by decide!, by decide!, by decide!⟩, ⟨by decide!, by decide!⟩⟩
  · intro record lineNum h
    obtain ⟨_, h2, h3, _, _, _, h7, _, h9, h10, h11⟩ := parseRecordToLease_ok record lineNum h
    refine ⟨?_, h9, h7, Float64.le_zero_false _ h10, Float64.le_zero_false _ h11⟩
    rw [h3]
    exact h2 0 (by omega)
  · intro record lineNum h
    exact parseRecordToLease_rejects record lineNum h

/-! ## The safety check of `GenerateRoUAssetSchedule` -/

/-- The loop of `GenerateRoUAssetSchedule` returns an error exactly when one of the running
balances is below `-1e-9`. -/
theorem rouLoop_error_iff (N : Nat) (d : ℚ) (n : Nat) :
    ∀ (day : Nat) (ob : ℚ) (cd : Time),
      (rouLoop N d n day ob cd).2 ≠ none ↔ ∃ b ∈ rouRunning N d n day ob, b < -(1 / 1000000000) := by
  induction n with
  | zero =>
    intro day ob cd
    simp [rouLoop, rouRunning]
  | succ k ih =>
    intro day ob cd
    by_cases hc : (if day = N then 0 else ob - (if day = N then ob else d)) < -(1 / 1000000000)
    · simp only [rouLoop, rouRunning, hc, if_true]
      constructor
      · intro _
        exact ⟨_, List.mem_singleton.mpr rfl, hc⟩
      · intro _
        simp
    · simp only [rouLoop, rouRunning, hc, if_false, List.mem_cons]
      rw [ih]
      constructor
      · rintro ⟨b, hb, hlt⟩
        exact ⟨b, Or.inr hb, hlt⟩
      · rintro ⟨b, hb | hb, hlt⟩
        · rw [hb] at hlt
          exact absurd hlt hc
        · exact ⟨b, hb, hlt⟩

/-- With a non-negative asset the running balances are those of the straight line. -/
theorem rouRunning_spec (N : Nat) (A : ℚ) (hA : 0 ≤ A) (n : Nat) :
    ∀ (day : Nat), day + n = N + 1 → 1 ≤ day →
      rouRunning N (A / N) n day (A - ((day : ℚ) - 1) * (A / N))
        = (List.range n).map
            (fun (i : Nat) => if day + i = N then 0 else A - ((day + i : Nat) : ℚ) * (A / N)) := by
  induction n with
  | zero => intro day _ _; rfl
  | succ k ih =>
    intro day hd h1
    have hNpos : (0 : ℚ) < N := by
      have : 1 ≤ N := by omega
      exact_mod_cast this
    rw [List.range_succ_eq_map, List.map_cons, List.map_map]
    by_cases hlast : day = N
    · have hk : k = 0 := by omega
      subst hk
      simp only [rouRunning, hlast, if_true, List.range_zero, List.map_nil, Nat.add_zero]
      rw [if_neg (by norm_num)]
    · have hlt : day < N := by omega
      have hclose : A - ((day : ℚ) - 1) * (A / N) - A / N
          = A - (((day + 1 : Nat) : ℚ) - 1) * (A / N) := by
        push_cast
        ring
      have hval : A - ((day : ℚ) - 1) * (A / N) - A / N = A * (((N : ℚ) - day) / N) := by
        field_simp
        ring
      have hnonneg : ¬ (A - ((day : ℚ) - 1) * (A / N) - A / N < -(1 / 1000000000)) := by
        rw [not_lt, hval]
        have h2 : (0 : ℚ) ≤ ((N : ℚ) - day) / N := by
          apply div_nonneg _ hNpos.le
          have : (day : ℚ) ≤ N := by exact_mod_cast hlt.le
          linarith
        have := mul_nonneg hA h2
        linarith
      simp only [rouRunning, hlast, if_false, hnonneg, Nat.add_zero]
      rw [hclose, ih (day + 1) (by omega) (by omega)]
      congr 1
      · push_cast
        ring
      · apply List.map_congr_left
        intro i _
        simp only [Function.comp]
        have e : day + 1 + i = day + (i + 1) := by omega
        rw [e]

/-- C31. For every lease that passes `getPeriodsAndRate` and every initial RoU asset value that
is not negative, `GenerateRoUAssetSchedule` returns no error and a schedule of `totalDays`
entries; the balance that the safety check tests is computed on each of the `totalDays` days
and is never negative. In general the loop reports an error exactly when one of these balances
is below `-1e-9`, which happens for other arguments of the loop (a daily depreciation of 10 on
a balance of 5). -/
theorem GenerateRoUAssetSchedule_no_fault (l : Lease) (A : ℚ)
    (hg : (getPeriodsAndRate l).2.2 = none) (hA : 0 ≤ A) :
    (GenerateRoUAssetSchedule l A).2 = none ∧
    (GenerateRoUAssetSchedule l A).1.length = (totalDays l).toNat ∧
    (rouRunning (totalDays l).toNat (A / ((totalDays l).toNat : ℚ)) (totalDays l).toNat 1
      A).length = (totalDays l).toNat ∧
    (∀ b ∈ rouRunning (totalDays l).toNat (A / ((totalDays l).toNat : ℚ)) (totalDays l).toNat 1
      A, 0 ≤ b) ∧
    (∀ (N : Nat) (d : ℚ) (n day : Nat) (ob : ℚ) (cd : Time),
      (rouLoop N d n day ob cd).2 ≠ none
        ↔ ∃ b ∈ rouRunning N d n day ob, b < -(1 / 1000000000)) ∧
    (rouLoop 2 10 2 1 5 (Date 2024 1 1)).2 ≠ none := by
  have hrun := rouRunning_spec (totalDays l).toNat A hA (totalDays l).toNat 1 (by omega)
    (le_refl 1)
  simp only [Nat.cast_one, sub_self, zero_mul, sub_zero] at hrun
  refine ⟨?_, ?_, ?_, ?_, fun N d n day ob cd => rouLoop_error_iff N d n day ob cd, ?_⟩
  · rw [GenerateRoUAssetSchedule_eq l A hg hA]
  · rw [GenerateRoUAssetSchedule_eq l A hg hA]
    simp
  · rw [hrun]
    simp
  · intro b hb
    rw [hrun] at hb
    simp only [List.mem_map, List.mem_range] at hb
    obtain ⟨i, hi, rfl⟩ := hb
    split
    · exact le_refl 0
    · have hNpos : (0 : ℚ) < ((totalDays l).toNat : ℚ) := by
        have : 1 ≤ (totalDays l).toNat := by omega
        exact_mod_cast this
      have hval : A - ((1 + i : Nat) : ℚ) * (A / ((totalDays l).toNat : ℚ))
          = A * ((((totalDays l).toNat : ℚ) - ((1 + i : Nat) : ℚ)) / ((totalDays l).toNat : ℚ)) := by
        field_simp
        ring
      rw [hval]
      apply mul_nonneg hA
      apply div_nonneg _ hNpos.le
      have : ((1 + i : Nat) : ℚ) ≤ ((totalDays l).toNat : ℚ) := by
        have : 1 + i ≤ (totalDays l).toNat := by omega
        exact_mod_cast this
      linarith
  · rw [rouLoop_error_iff]
    exact ⟨-5, by decide!, by norm_num⟩

/-- Witness of C31: the scenario lease with an asset of 1000. -/
theorem GenerateRoUAssetSchedule_no_fault_witness :
    (getPeriodsAndRate (mkLease Monthly (Date 2024 1 1) (Date 2024 12 31) 1000 (5 / 100))).2.2
      = none ∧
    (GenerateRoUAssetSchedule (mkLease Monthly (Date 2024 1 1) (Date 2024 12 31) 1000 (5 / 100))
      1000).2 = none :=
  have hg : (getPeriodsAndRate
      (mkLease Monthly (Date 2024 1 1) (Date 2024 12 31) 1000 (5 / 100))).2.2 = none := by
    rw [getPeriodsAndRate_monthly_2024]
  ⟨hg, (GenerateRoUAssetSchedule_no_fault
    (mkLease Monthly (Date 2024 1 1) (Date 2024 12 31) 1000 (5 / 100)) 1000 hg
    (by norm_num)).1⟩

/-! ## The lump sum of 2025-02-01 -/

/-- C40. The copy of `calculateAccountingPeriodSummary` in `amortization.go` and the copy in
`main.go` return the same result and the same error for every result and every pair of window
texts; so one returns an error exactly when the other does, and every field of the two
results is the same. The two rounding functions, which are the only difference of the two
source texts, agree on every value. -/
theorem calculateAccountingPeriodSummary_equivalent (result : CalculationResult)
    (periodStart periodEnd : String) :
    calculation.calculateAccountingPeriodSummary result periodStart periodEnd
      = calculateAccountingPeriodSummary result periodStart periodEnd ∧
    ((calculation.calculateAccountingPeriodSummary result periodStart periodEnd).2 = none
      ↔ (calculateAccountingPeriodSummary result periodStart periodEnd).2 = none) ∧
    (calculation.calculateAccountingPeriodSummary result periodStart periodEnd).1
      = (calculateAccountingPeriodSummary result periodStart periodEnd).1 ∧
    ∀ val : ℚ, roundTo2Decimals val = roundFloat val 2 := by
  have h := calculateAccountingPeriodSummary_copies result periodStart periodEnd
  refine ⟨h, ?_, ?_, roundTo2Decimals_eq⟩
  · rw [h]
  · rw [h]

/-! ## Bounds of the lease liability -/

/-- Rounding a value that is not negative gives a value that is not negative. -/
theorem roundToDecimalPlaces_nonneg (x : ℚ) (k : Nat) (hx : 0 ≤ x) :
    0 ≤ roundToDecimalPlaces x k := by
  obtain ⟨z, hz, hb, _⟩ := roundToDecimalPlaces_spec x k
  rw [hz]
  have hpow : (0 : ℚ) < 10 ^ k := by positivity
  have h1 : (0 : ℚ) ≤ x * 10 ^ k := mul_nonneg hx hpow.le
  rw [abs_le] at hb
  have h2 : (-1 : ℚ) < z := by linarith [hb.2]
  have h3 : (-1 : Int) < z := by exact_mod_cast h2
  have h4 : (0 : ℚ) ≤ z := by
    have : (0 : Int) ≤ z := by omega
    exact_mod_cast this
  exact div_nonneg h4 hpow.le

/-- Rounding to `k` decimals moves a value by at most half a unit of the last place. -/
theorem roundToDecimalPlaces_err (x : ℚ) (k : Nat) :
    |roundToDecimalPlaces x k - x| ≤ 1 / 2 / 10 ^ k := by
  obtain ⟨z, hz, hb, _⟩ := roundToDecimalPlaces_spec x k
  rw [hz]
  have hpow : (0 : ℚ) < 10 ^ k := by positivity
  have e : (z : ℚ) / 10 ^ k - x = -(x * 10 ^ k - z) / 10 ^ k := by
    field_simp
    ring
  rw [e, abs_div, abs_neg, abs_of_pos hpow]
  exact div_le_div_of_nonneg_right hb hpow.le

/-- The annuity factor of `n` periods at a positive rate lies between 0 and `n`. -/
theorem annuity_factor_bounds (r : ℚ) (hr : 0 < r) (n : Nat) :
    0 ≤ (1 - (1 + r) ^ (-(n : Int))) / r ∧ (1 - (1 + r) ^ (-(n : Int))) / r ≤ n := by
  have h1r : (0 : ℚ) < 1 + r := by linarith
  have e : (1 + r) ^ (-(n : Int)) = ((1 + r)⁻¹) ^ n := by
    rw [zpow_neg, zpow_natCast, inv_pow]
  rw [e]
  have hx0 : (0 : ℚ) < (1 + r)⁻¹ := inv_pos.mpr h1r
  have hx1 : (1 + r)⁻¹ ≤ 1 := by
    apply inv_le_one_of_one_le₀
    linarith
  have hxr : 1 - (1 + r)⁻¹ = r * (1 + r)⁻¹ := by
    field_simp
  have hbern : 1 + (n : ℚ) * ((1 + r)⁻¹ - 1) ≤ (1 + ((1 + r)⁻¹ - 1)) ^ n :=
    one_add_mul_le_pow (by linarith) n
  have e2 : 1 + ((1 + r)⁻¹ - 1) = (1 + r)⁻¹ := by ring
  rw [e2] at hbern
  have hpow1 : ((1 + r)⁻¹) ^ n ≤ 1 := pow_le_one₀ hx0.le hx1
  constructor
  · apply div_nonneg _ hr.le
    linarith
  · rw [div_le_iff₀ hr]
    have h3 : 1 - ((1 + r)⁻¹) ^ n ≤ (n : ℚ) * (1 - (1 + r)⁻¹) := by linarith
    have h4 : (n : ℚ) * (1 - (1 + r)⁻¹) ≤ (n : ℚ) * r := by
      apply mul_le_mul_of_nonneg_left _ (Nat.cast_nonneg n)
      rw [hxr]
      calc r * (1 + r)⁻¹ ≤ r * 1 := mul_le_mul_of_nonneg_left hx1 hr.le
        _ = r := mul_one r
    linarith

/-! ## The period count grows with the end date -/

/-- C37. For two leases with the same start date and the same payment frequency on which
`getPeriodsAndRate` succeeds, the lease whose end date is not later has a period count that is
not larger; this holds whether the counts come from the early return with 0 periods or from
the counting loop. -/
theorem getPeriodsAndRate_monotone (l1 l2 : Lease) (hstart : l1.StartDate = l2.StartDate)
    (hfreq : l1.PaymentFrequency = l2.PaymentFrequency)
    (hend : l1.EndDate.absDays ≤ l2.EndDate.absDays)
    (h1 : (getPeriodsAndRate l1).2.2 = none) (h2 : (getPeriodsAndRate l2).2.2 = none) :
    (getPeriodsAndRate l1).1 ≤ (getPeriodsAndRate l2).1 := by
  obtain ⟨hs1, hr1, _⟩ := getPeriodsAndRate_ok l1 h1
  obtain ⟨hs2, hr2, _⟩ := getPeriodsAndRate_ok l2 h2
  have hm := monthStep_pos l1.PaymentFrequency
  rcases getPeriodsAndRate_cases l1 hs1 hr1 with ⟨_, e1⟩ | ⟨hb1, n1, _, _, e1, hge1, hlt1⟩ |
    ⟨_, _, e1⟩
  · rw [e1]
    exact Nat.zero_le _
  · rcases getPeriodsAndRate_cases l2 hs2 hr2 with ⟨hb2, _⟩ | ⟨_, n2, _, _, e2, hge2, hlt2⟩ |
      ⟨_, _, e2⟩
    · rw [← hstart, ← hfreq, Time.Before_iff] at hb2
      rw [← Bool.not_eq_true, Time.Before_iff] at hb1
      omega
    · rw [e1, e2]
      show n1 ≤ n2
      by_contra hlt
      have hb := hlt1 n2 (by omega)
      rw [← hstart, ← hfreq, ← Bool.not_eq_true, Time.Before_iff] at hge2
      rw [Time.Before_iff] at hb
      omega
    · rw [e2] at h2
      simp at h2
  · rw [e1] at h1
    simp at h1

/-- Witness of C37: the Monthly leases from 2024-01-01 to 2024-01-20 (0 periods, early return)
and to 2024-12-31 (12 periods, counting loop). -/
theorem getPeriodsAndRate_monotone_witness :
    (getPeriodsAndRate (mkLease Monthly (Date 2024 1 1) (Date 2024 1 20) 1000 (5 / 100))).1
      ≤ (getPeriodsAndRate (mkLease Monthly (Date 2024 1 1) (Date 2024 12 31) 1000
        (5 / 100))).1 :=
  getPeriodsAndRate_monotone
    (mkLease Monthly (Date 2024 1 1) (Date 2024 1 20) 1000 (5 / 100))
    (mkLease Monthly (Date 2024 1 1) (Date 2024 12 31) 1000 (5 / 100)) rfl rfl (by decide)
    (by rw [getPeriodsAndRate_short_2024]) (by rw [getPeriodsAndRate_monthly_2024])

/-! ## The totals that the summary reports -/

/-- The three totals that the block on the liability schedule reports, for a non-empty
schedule. -/
theorem liabilitySummary_figures (round2 : ℚ → ℚ) (start finish : Time)
    (result : CalculationResult) (h : result.LiabilitySchedule ≠ []) :
    (liabilitySummary round2 start finish result).PeriodPayments
      = round2 (liabilityTotals start finish result.LiabilitySchedule).totalPayments ∧
    (liabilitySummary round2 start finish result).PeriodPrincipalPayment
      = round2 (if |(windowBalances start finish result.LiabilitySchedule).startBalance
          - finalEndBalance result.LiabilitySchedule
            (windowBalances start finish result.LiabilitySchedule)
          - (liabilityTotals start finish result.LiabilitySchedule).totalPrincipal| > 1 / 100 then
        (windowBalances start finish result.LiabilitySchedule).startBalance
          - finalEndBalance result.LiabilitySchedule
            (windowBalances start finish result.LiabilitySchedule)
        else (liabilityTotals start finish result.LiabilitySchedule).totalPrincipal) ∧
    (liabilitySummary round2 start finish result).PeriodInterestExpense
      = round2 (if |(if |(windowBalances start finish result.LiabilitySchedule).startBalance
          - finalEndBalance result.LiabilitySchedule
            (windowBalances start finish result.LiabilitySchedule)
          - (liabilityTotals start finish result.LiabilitySchedule).totalPrincipal| > 1 / 100 then
        (windowBalances start finish result.LiabilitySchedule).startBalance
          - finalEndBalance result.LiabilitySchedule
            (windowBalances start finish result.LiabilitySchedule)
        else (liabilityTotals start finish result.LiabilitySchedule).totalPrincipal)
          + (liabilityTotals start finish result.LiabilitySchedule).totalInterest
          - (liabilityTotals start finish result.LiabilitySchedule).totalPayments| > 1 / 100 then
        (liabilityTotals start finish result.LiabilitySchedule).totalPayments
          - (if |(windowBalances start finish result.LiabilitySchedule).startBalance
          - finalEndBalance result.LiabilitySchedule
            (windowBalances start finish result.LiabilitySchedule)
          - (liabilityTotals start finish result.LiabilitySchedule).totalPrincipal| > 1 / 100 then
        (windowBalances start finish result.LiabilitySchedule).startBalance
          - finalEndBalance result.LiabilitySchedule
            (windowBalances start finish result.LiabilitySchedule)
        else (liabilityTotals start finish result.LiabilitySchedule).totalPrincipal)
        else (liabilityTotals start finish result.LiabilitySchedule).totalInterest) := by
  have hlen : result.LiabilitySchedule.length > 0 := List.length_pos.mpr h
  have hb := liabilitySummaryLoop_balances start finish result.LiabilitySchedule none
    { startBalance := 0, endBalance := 0, totalPayments := 0, totalInterest := 0,
      totalPrincipal := 0, startFound := false, endFound := false }
  have hS := congrArg Balances.startBalance hb
  have hF := congrArg Balances.endFound hb
  have hE := congrArg Balances.endBalance hb
  simp only at hS hF hE
  obtain ⟨v, hv⟩ : ∃ v, v = liabilitySummaryLoop start finish none result.LiabilitySchedule
    { startBalance := 0, endBalance := 0, totalPayments := 0, totalInterest := 0,
      totalPrincipal := 0, startFound := false, endFound := false } := ⟨_, rfl⟩
  rw [← hv] at hS hF hE
  cases hl : result.LiabilitySchedule.getLast? <;>
    simp only [liabilitySummary, liabilityTotals, finalEndBalance, windowBalances, hlen, if_true,
      decide_True, Bool.and_true, ← hv, hS, hF, hE, hl, and_self]

/-- An entry without a positive payment inside the window leaves the totals of payments and
principal as they are. -/
theorem liabilitySummaryStep_no_payment (start finish : Time) (prev : Option AmortizationEntry)
    (entry : AmortizationEntry) (v : LiabilityTotals)
    (h : entry.Date.Before start = false → entry.Date.After finish = false →
      ¬ (entry.Payment > 0)) :
    (liabilitySummaryStep start finish prev entry v).totalPayments = v.totalPayments ∧
    (liabilitySummaryStep start finish prev entry v).totalPrincipal = v.totalPrincipal := by
  by_cases hw : ((entry.Date.Equal start || entry.Date.After start)
      && (entry.Date.Equal finish || entry.Date.Before finish)) = true
  · have hp : ¬ (entry.Payment > 0) := by
      simp only [Bool.and_eq_true, Bool.or_eq_true, Time.Equal_iff, Time.After_iff,
        Time.Before_iff] at hw
      apply h
      · rw [← Bool.not_eq_true, Time.Before_iff]
        omega
      · rw [← Bool.not_eq_true, Time.After_iff]
        omega
    simp only [liabilitySummaryStep, hw, hp, if_true, if_false]
    split_ifs <;> exact ⟨rfl, rfl⟩
  · simp only [liabilitySummaryStep, hw, if_false, Bool.false_eq_true]
    split_ifs <;> exact ⟨rfl, rfl⟩

theorem liabilitySummaryLoop_no_payment (start finish : Time) (sched : List AmortizationEntry) :
    ∀ (prev : Option AmortizationEntry) (v : LiabilityTotals),
      (∀ e ∈ sched, e.Date.Before start = false → e.Date.After finish = false →
        ¬ (e.Payment > 0)) →
      (liabilitySummaryLoop start finish prev sched v).totalPayments = v.totalPayments ∧
      (liabilitySummaryLoop start finish prev sched v).totalPrincipal = v.totalPrincipal := by
  induction sched with
  | nil => intro prev v _; exact ⟨rfl, rfl⟩
  | cons e rest ih =>
    intro prev v h
    simp only [liabilitySummaryLoop]
    obtain ⟨h1, h2⟩ := ih (some e) (liabilitySummaryStep start finish prev e v)
      (fun x hx => h x (List.mem_cons_of_mem _ hx))
    obtain ⟨h3, h4⟩ := liabilitySummaryStep_no_payment start finish prev e v
      (h e (List.mem_cons_self _ _))
    exact ⟨h1.trans h3, h2.trans h4⟩

/-- A value of at most one cent in absolute value is rounded to at most one cent. -/
theorem roundFloat_small (x : ℚ) (h : |x| ≤ 1 / 100) : |roundFloat x 2| ≤ 1 / 100 := by
  obtain ⟨z, hz, hb, _⟩ := mathRound_spec (x * 10 ^ 2)
  have h1 : roundFloat x 2 = (z : ℚ) / 100 := by
    simp only [roundFloat, hz]
    norm_num
  rw [h1]
  rw [abs_le] at h hb
  have h2 : (z : ℚ) < 2 := by linarith [hb.1, h.2]
  have h3 : (-2 : ℚ) < z := by linarith [hb.2, h.1]
  have h4 : z < 2 := by exact_mod_cast h2
  have h5 : -2 < z := by exact_mod_cast h3
  rw [abs_le]
  have h6 : (z : ℚ) ≤ 1 := by
    have : z ≤ 1 := by omega
    exact_mod_cast this
  have h7 : (-1 : ℚ) ≤ z := by
    have : -1 ≤ z := by omega
    exact_mod_cast this
  constructor <;> linarith

/-! ## A window without payments -/

/-- C38. After a successful call on a non-empty liability schedule in which no entry dated
inside the window has a Payment greater than 0, and for which the reported opening and closing
balances are equal: `PeriodPayments` is 0, `PeriodPrincipalPayment` is 0 and
`PeriodInterestExpense` is at most 0.01 in absolute value, whatever the `InterestExpense` of
the entries inside the window. -/
theorem calculateAccountingPeriodSummary_no_payment (result : CalculationResult)
    (periodStart periodEnd : String) (start finish : Time)
    (h1 : timeParse periodStart = some start) (h2 : timeParse periodEnd = some finish)
    (h3 : finish.Before start = false) (hne : result.LiabilitySchedule ≠ [])
    (hpay : ∀ e ∈ result.LiabilitySchedule, e.Date.Before start = false →
      e.Date.After finish = false → ¬ (e.Payment > 0))
    (heq : (calculateAccountingPeriodSummary result periodStart periodEnd).1.PeriodLiabilityStart
      = (calculateAccountingPeriodSummary result periodStart periodEnd).1.PeriodLiabilityEnd) :
    (calculateAccountingPeriodSummary result periodStart periodEnd).1.PeriodPayments = 0 ∧
    (calculateAccountingPeriodSummary result periodStart periodEnd).1.PeriodPrincipalPayment
      = 0 ∧
    |(calculateAccountingPeriodSummary result periodStart periodEnd).1.PeriodInterestExpense|
      ≤ 1 / 100 := by
  obtain ⟨_, _, _, eS, eE, _⟩ := summary_liability result periodStart periodEnd start finish
    h1 h2 h3 hne
  rw [eS, eE] at heq
  obtain ⟨f1, f2, f3⟩ := liabilitySummary_figures roundTo2Decimals start finish result hne
  obtain ⟨t1, t2⟩ := liabilitySummaryLoop_no_payment start finish result.LiabilitySchedule none
    { startBalance := 0, endBalance := 0, totalPayments := 0, totalInterest := 0,
      totalPrincipal := 0, startFound := false, endFound := false } hpay
  have t1' : (liabilityTotals start finish result.LiabilitySchedule).totalPayments = 0 := t1
  have t2' : (liabilityTotals start finish result.LiabilitySchedule).totalPrincipal = 0 := t2
  have hdiff : ¬ (|(windowBalances start finish result.LiabilitySchedule).startBalance
      - finalEndBalance result.LiabilitySchedule
        (windowBalances start finish result.LiabilitySchedule) - 0| > 1 / 100) := by
    have a1 := roundFloat_err (windowBalances start finish result.LiabilitySchedule).startBalance
    have a2 := roundFloat_err (finalEndBalance result.LiabilitySchedule
      (windowBalances start finish result.LiabilitySchedule))
    rw [heq] at a1
    rw [not_lt, sub_zero]
    rw [abs_le] at a1 a2 ⊢
    constructor <;> linarith [a1.1, a1.2, a2.1, a2.2]
  rw [t1', t2', if_neg hdiff] at f3
  rw [t2', if_neg hdiff] at f2
  rw [t1'] at f1
  have hres := (periodSummary_result roundTo2Decimals result periodStart periodEnd start finish
    h1 h2 h3).2
  refine ⟨?_, ?_, ?_⟩
  · rw [calculateAccountingPeriodSummary, hres]
    show (liabilitySummary roundTo2Decimals start finish result).PeriodPayments = 0
    rw [f1, roundTo2Decimals_eq, roundFloat_zero]
  · rw [calculateAccountingPeriodSummary, hres]
    show (liabilitySummary roundTo2Decimals start finish result).PeriodPrincipalPayment = 0
    rw [f2, roundTo2Decimals_eq, roundFloat_zero]
  · rw [calculateAccountingPeriodSummary, hres]
    show |(liabilitySummary roundTo2Decimals start finish result).PeriodInterestExpense|
      ≤ 1 / 100
    rw [f3, roundTo2Decimals_eq]
    apply roundFloat_small
    simp only [zero_add, sub_zero, sub_self]
    split_ifs with hc
    · simp
    · exact not_lt.mp hc

/-- Witness of C38: two entries inside the window, each with an interest expense of 500, no
payment and a balance of 100. -/
theorem calculateAccountingPeriodSummary_no_payment_witness :
    (calculateAccountingPeriodSummary
      (mkResult [{ mkEntry 1 (Date 2024 1 1) 100 100 with InterestExpense := 500 },
        { mkEntry 1 (Date 2024 1 2) 100 100 with InterestExpense := 500 }] [])
      "2024-01-01" "2024-01-02").1.PeriodPayments = 0 ∧
    |(calculateAccountingPeriodSummary
      (mkResult [{ mkEntry 1 (Date 2024 1 1) 100 100 with InterestExpense := 500 },
        { mkEntry 1 (Date 2024 1 2) 100 100 with InterestExpense := 500 }] [])
      "2024-01-01" "2024-01-02").1.PeriodInterestExpense| ≤ 1 / 100 :=
  have h := calculateAccountingPeriodSummary_no_payment
    (mkResult [{ mkEntry 1 (Date 2024 1 1) 100 100 with InterestExpense := 500 },
      { mkEntry 1 (Date 2024 1 2) 100 100 with InterestExpense := 500 }] [])
    "2024-01-01" "2024-01-02" (Date 2024 1 1) (Date 2024 1 2) (by decide) (by decide)
    (by decide) (by simp [mkResult]) (by decide!) (by decide!)
  ⟨h.1, h.2.2⟩

/-! ## The payment dates of a lease without extra payments -/

theorem end_mem_regularDates (l : Lease) (n : Nat) : l.EndDate ∈ regularDates l n := by
  simp [regularDates]

theorem regularDates_le_end (l : Lease) (n : Nat) (r : ℚ)
    (hg : getPeriodsAndRate l = (n, r, none)) (hn : n ≠ 0) (d : Time)
    (hd : d ∈ regularDates l n) : d.absDays ≤ l.EndDate.absDays := by
  obtain ⟨_, hlt, _⟩ := getPeriodsAndRate_markers l n r hg hn
  simp only [regularDates, List.mem_append, List.mem_map, List.mem_range, List.mem_singleton]
    at hd
  rcases hd with ⟨j, hj, rfl⟩ | rfl
  · have := hlt (j + 1) (by omega)
    rw [Time.Before_iff] at this
    omega
  · exact le_refl _

/-- The payment dates of a lease without extra payments: the regular dates, and 2025-02-01
when it is strictly inside the term. -/
theorem paymentsList_keys (l : Lease) (n : Nat) (r : ℚ)
    (hg : getPeriodsAndRate l = (n, r, none)) (hn : n ≠ 0) (hx : l.ExtraPayments = [])
    (k : Int) :
    k ∈ paymentKeys (paymentsList l n)
      ↔ (∃ d ∈ regularDates l n, k = d.absDays) ∨
        (k = (Date 2025 2 1).absDays ∧ (Date 2025 2 1).After l.StartDate = true ∧
          (Date 2025 2 1).Before l.EndDate = true) := by
  have hdates := paymentDates_eq_regularDates l n r hg hn
  simp only [paymentsList, hx, addExtraPayments]
  split
  · rename_i hb
    rw [Bool.and_eq_true] at hb
    rw [paymentKeys_addPayment, paymentKeys_addRegularPayments, hdates]
    simp only [paymentKeys, List.map_nil, List.not_mem_nil, false_or]
    constructor
    · rintro (h | h)
      · exact Or.inr ⟨h, hb.1, hb.2⟩
      · exact Or.inl h
    · rintro (h | h)
      · exact Or.inr h
      · exact Or.inl h.1
  · rename_i hb
    rw [Bool.and_eq_true] at hb
    rw [paymentKeys_addRegularPayments, hdates]
    simp only [paymentKeys, List.map_nil, List.not_mem_nil, false_or]
    constructor
    · exact fun h => Or.inl h
    · rintro (h | h)
      · exact h
      · exact absurd h.2 hb

theorem paymentsList_le_end (l : Lease) (n : Nat) (r : ℚ)
    (hg : getPeriodsAndRate l = (n, r, none)) (hn : n ≠ 0) (hx : l.ExtraPayments = [])
    (k : Int) (hk : k ∈ paymentKeys (paymentsList l n)) : k ≤ l.EndDate.absDays := by
  rcases (paymentsList_keys l n r hg hn hx k).mp hk with ⟨d, hd, rfl⟩ | ⟨rfl, _, hb⟩
  · exact regularDates_le_end l n r hg hn d hd
  · rw [Time.Before_iff] at hb
    omega

theorem end_mem_paymentKeys (l : Lease) (n : Nat) (r : ℚ)
    (hg : getPeriodsAndRate l = (n, r, none)) (hn : n ≠ 0) (hx : l.ExtraPayments = []) :
    l.EndDate.absDays ∈ paymentKeys (paymentsList l n) :=
  (paymentsList_keys l n r hg hn hx _).mpr (Or.inl ⟨l.EndDate, end_mem_regularDates l n, rfl⟩)

/-- With a positive payment amount and no extra payments, the amount scheduled for the end
date is positive. -/
theorem scheduledAmount_end_pos (l : Lease) (n : Nat) (hp : 0 < l.PaymentAmount)
    (hx : l.ExtraPayments = []) : 0 < scheduledAmount l n l.EndDate := by
  have hc : 1 ≤ (regularDates l n).count l.EndDate :=
    List.count_pos_iff.mpr (end_mem_regularDates l n)
  have hc' : (1 : ℚ) ≤ ((regularDates l n).count l.EndDate : ℚ) := by exact_mod_cast hc
  have h1 : l.PaymentAmount ≤ l.PaymentAmount * ((regularDates l n).count l.EndDate : ℚ) := by
    calc l.PaymentAmount = l.PaymentAmount * 1 := (mul_one _).symm
      _ ≤ _ := mul_le_mul_of_nonneg_left hc' hp.le
  simp only [scheduledAmount, hx, List.filter_nil, List.map_nil, List.sum_nil, add_zero]
  split_ifs <;> linarith

/-! ## The pending payments along the daily loop -/

/-- From the current day on, the dates of the pending payments are those of the payment list
the loop started with. -/
theorem liabilityFinal_keys (l : Lease) (dr ti tp tpay : ℚ) (s : LoopState)
    (hs : (paymentKeys s.pending).Pairwise (· < ·))
    (hge : ∀ k ∈ paymentKeys s.pending, s.currentDate.absDays ≤ k) (i : Nat) :
    ∀ k : Int, s.currentDate.absDays + i ≤ k →
      (k ∈ paymentKeys (liabilityFinal l dr ti tp tpay i s).pending ↔ k ∈ paymentKeys s.pending) := by
  induction i with
  | zero => intro k _; rfl
  | succ i ih =>
    intro k hk
    push_cast at hk
    obtain ⟨h1, h2, _⟩ := liabilityFinal_pending l dr ti tp tpay s hs hge i
    have hd := liabilityFinal_date l dr ti tp tpay i s
    rw [liabilityFinal_succ, (liabilityDay_pending l dr ti tp tpay _).1,
      matchPayments_sorted _ _ h1 (by rw [hd]; exact h2), paymentKeys_filter_iff,
      ih k (by omega), hd]
    constructor
    · exact fun h => h.1
    · exact fun h => ⟨h, by omega⟩

/-- What the inner loop finds on the day that starts with the loop variables reached after `i`
days: the scheduled amount of the day, and whether the day is a payment date. -/
theorem matchPayments_state (l : Lease) (x : ℚ) (n : Nat) (r : ℚ)
    (hg : getPeriodsAndRate l = (n, r, none)) (hn : n ≠ 0) (i : Nat) (s : LoopState)
    (hs : s = liabilityFinal l (l.DiscountRate / 365) (totalInterest l n) totalPrincipal
      (totalPayment l n) i (initialState l n x)) :
    matchPayments s.currentDate s.pending 0 false
      = (s.pending.filter (fun p => decide (s.currentDate.absDays < p.1.absDays)),
          scheduledAmount l n s.currentDate,
          decide (s.currentDate.absDays ∈ paymentKeys (paymentsList l n))) := by
  obtain ⟨h1, h2, h3⟩ := liabilityFinal_pending l (l.DiscountRate / 365) (totalInterest l n)
    totalPrincipal (totalPayment l n) (initialState l n x) (paymentsList_sorted l n)
    (paymentsList_ge_start l n r hg hn) i
  have hk := liabilityFinal_keys l (l.DiscountRate / 365) (totalInterest l n)
    totalPrincipal (totalPayment l n) (initialState l n x) (paymentsList_sorted l n)
    (paymentsList_ge_start l n r hg hn) i
  have hd := liabilityFinal_date l (l.DiscountRate / 365) (totalInterest l n)
    totalPrincipal (totalPayment l n) i (initialState l n x)
  rw [← hs] at h1 h2 h3 hk hd
  rw [matchPayments_sorted _ _ h1 (by rw [hd]; exact h2), h3 _ (by rw [hd])]
  simp only [initialState] at hk ⊢
  rw [lookupPayment_paymentsList l n r hg hn]
  have := hk s.currentDate.absDays (by rw [hd]; simp [initialState])
  simp only [this]

/-- With a positive payment amount and no extra payments, no day of the schedule is the end
date with a payment of 0. -/
theorem no_manufactured_payment (l : Lease) (x : ℚ) (n : Nat) (r : ℚ)
    (hg : getPeriodsAndRate l = (n, r, none)) (hn : n ≠ 0) (hp : 0 < l.PaymentAmount)
    (hx : l.ExtraPayments = []) (i : Nat) (s : LoopState)
    (hs : s = liabilityFinal l (l.DiscountRate / 365) (totalInterest l n) totalPrincipal
      (totalPayment l n) i (initialState l n x)) :
    ¬ (s.currentDate.Equal l.EndDate = true ∧
      (matchPayments s.currentDate s.pending 0 false).2.1 = 0) := by
  rintro ⟨he, h0⟩
  rw [matchPayments_state l x n r hg hn i s hs] at h0
  simp only at h0
  have : s.currentDate = l.EndDate := by
    rw [Time.Equal_iff] at he
    exact Time.ext_absDays he
  rw [this] at h0
  have := scheduledAmount_end_pos l n hp hx
  linarith

/-- What one day of the loop writes into `Period`, `Date`, `Payment` and `PrincipalRepayment`
and leaves in its variables other than the balance does not depend on the balance, unless the
day is the end date with a payment of 0. -/
theorem liabilityDay_indep (l : Lease) (dr ti tp tpay : ℚ) (s t : LoopState)
    (h1 : s.currentDate = t.currentDate) (h2 : s.period = t.period)
    (h3 : s.pending = t.pending) (h4 : s.paidInterest = t.paidInterest)
    (h5 : s.paidPrincipal = t.paidPrincipal) :
    ((liabilityDay l dr ti tp tpay s).2.currentDate
        = (liabilityDay l dr ti tp tpay t).2.currentDate ∧
      (liabilityDay l dr ti tp tpay s).2.period = (liabilityDay l dr ti tp tpay t).2.period ∧
      (liabilityDay l dr ti tp tpay s).2.pending = (liabilityDay l dr ti tp tpay t).2.pending ∧
      (liabilityDay l dr ti tp tpay s).2.paidInterest
        = (liabilityDay l dr ti tp tpay t).2.paidInterest ∧
      (liabilityDay l dr ti tp tpay s).2.paidPrincipal
        = (liabilityDay l dr ti tp tpay t).2.paidPrincipal) ∧
    (liabilityDay l dr ti tp tpay s).1.Period = (liabilityDay l dr ti tp tpay t).1.Period ∧
    (liabilityDay l dr ti tp tpay s).1.Date = (liabilityDay l dr ti tp tpay t).1.Date ∧
    (¬ (s.currentDate.Equal l.EndDate = true ∧
        (matchPayments s.currentDate s.pending 0 false).2.1 = 0) →
      (liabilityDay l dr ti tp tpay s).1.Payment = (liabilityDay l dr ti tp tpay t).1.Payment ∧
      (liabilityDay l dr ti tp tpay s).1.PrincipalRepayment
        = (liabilityDay l dr ti tp tpay t).1.PrincipalRepayment) := by
  obtain ⟨sb, sd, sp, sq, si, spp⟩ := s
  obtain ⟨tb, td, tpd, tq, tii, tpp⟩ := t
  simp only at h1 h2 h3 h4 h5
  subst h1 h2 h3 h4 h5
  refine ⟨⟨?_, ?_, ?_, ?_, ?_⟩, ?_, ?_, ?_⟩ <;> try simp only [liabilityDay]
  intro hman
  by_cases he : sd.Equal l.EndDate = true
  · have h0 : ¬ ((matchPayments sd sq 0 false).2.1 = 0) := fun h => hman ⟨he, h⟩
    simp only [he, h0, if_true, if_false, and_self]
  · simp only [he, if_false, Bool.false_eq_true, and_self]

/-! ## The regular payment dates -/

/-- C34. For a lease with period count `n ≥ 1`: the dates on which the loop of
`GenerateLiabilitySchedule` puts the `n` regular payments are the markers 1 to `n - 1` and the
end date; they are `n` dates in strictly increasing order, so pairwise distinct; the markers 1
to `n - 1` are strictly between the start date and the end date, and marker `n` is not before
the end date; the last regular date is the end date and no other regular date is the end date.
With a positive payment amount and no extra payments, no day of the schedule is the end date
with a payment of 0, so the branch that puts the opening balance as a payment on the last day
is never taken. -/
theorem regularDates_distinct (l : Lease) (n : Nat) (r : ℚ)
    (hg : getPeriodsAndRate l = (n, r, none)) (hn : n ≠ 0) :
    paymentDates l (monthStep l.PaymentFrequency) n l.StartDate = regularDates l n ∧
    (regularDates l n).length = n ∧
    ((regularDates l n).map (fun d => d.absDays)).Pairwise (· < ·) ∧
    (∀ j, 1 ≤ j → j < n →
      l.StartDate.absDays < (marker l.StartDate (monthStep l.PaymentFrequency) j).absDays ∧
      (marker l.StartDate (monthStep l.PaymentFrequency) j).absDays < l.EndDate.absDays) ∧
    l.EndDate.absDays ≤ (marker l.StartDate (monthStep l.PaymentFrequency) n).absDays ∧
    (regularDates l n).getLast? = some l.EndDate ∧
    (regularDates l n).count l.EndDate = 1 ∧
    (0 < l.PaymentAmount → l.ExtraPayments = [] → ∀ x : ℚ, ∀ s ∈ scheduleStates l n x,
      ¬ (s.currentDate.Equal l.EndDate = true ∧
        (matchPayments s.currentDate s.pending 0 false).2.1 = 0)) := by
  obtain ⟨_, hlt, hge⟩ := getPeriodsAndRate_markers l n r hg hn
  have hm := monthStep_pos l.PaymentFrequency
  have hbetween : ∀ j, 1 ≤ j → j < n →
      l.StartDate.absDays < (marker l.StartDate (monthStep l.PaymentFrequency) j).absDays ∧
      (marker l.StartDate (monthStep l.PaymentFrequency) j).absDays < l.EndDate.absDays := by
    intro j h1 h2
    have ha := marker_lt l.StartDate _ hm (show 0 < j by omega)
    rw [marker_zero] at ha
    have hb := hlt j h2
    rw [Time.Before_iff] at hb
    exact ⟨ha, hb⟩
  refine ⟨paymentDates_eq_regularDates l n r hg hn, ?_, ?_, hbetween, ?_, ?_, ?_, ?_⟩
  · simp only [regularDates, List.length_append, List.length_map, List.length_range,
      List.length_singleton]
    omega
  · simp only [regularDates, List.map_append, List.map_map, List.map_cons, List.map_nil]
    rw [List.pairwise_append]
    refine ⟨?_, List.pairwise_singleton _ _, ?_⟩
    · rw [List.pairwise_map]
      apply List.Pairwise.imp _ (List.pairwise_lt_range (n - 1))
      intro a b hab
      simp only [Function.comp]
      exact marker_lt l.StartDate _ hm (by omega)
    · intro a ha b hb
      simp only [List.mem_map, List.mem_range, Function.comp] at ha
      obtain ⟨j, hj, rfl⟩ := ha
      simp only [List.mem_singleton] at hb
      rw [hb]
      exact (hbetween (j + 1) (by omega) (by omega)).2
  · rw [← Bool.not_eq_true, Time.Before_iff] at hge
    omega
  · simp only [regularDates]
    rw [List.getLast?_append]
    rfl
  · simp only [regularDates]
    rw [List.count_append, List.count_singleton_self, List.count_eq_zero_of_not_mem]
    intro hmem
    simp only [List.mem_map, List.mem_range] at hmem
    obtain ⟨j, hj, he⟩ := hmem
    have := (hbetween (j + 1) (by omega) (by omega)).2
    rw [he] at this
    omega
  · intro hp hx x s hs
    simp only [scheduleStates, liabilityStates_eq_range, List.mem_map, List.mem_range] at hs
    obtain ⟨i, _, rfl⟩ := hs
    exact no_manufactured_payment l x n r hg hn hp hx i _ rfl

/-- Witness of C34: the Monthly lease 2025-01-01 to 2025-03-01 with payment 1000 and rate 0.05,
which has 2 periods. -/
theorem regularDates_distinct_witness :
    getPeriodsAndRate (mkLease Monthly (Date 2025 1 1) (Date 2025 3 1) 1000 (5 / 100))
      = (2, 1 / 240, none) ∧
    (regularDates (mkLease Monthly (Date 2025 1 1) (Date 2025 3 1) 1000 (5 / 100)) 2).count
      (mkLease Monthly (Date 2025 1 1) (Date 2025 3 1) 1000 (5 / 100)).EndDate = 1 :=
  have hg : getPeriodsAndRate (mkLease Monthly (Date 2025 1 1) (Date 2025 3 1) 1000 (5 / 100))
      = (2, 1 / 240, none) := by
    have h := getPeriodsAndRate_bracket
      (mkLease Monthly (Date 2025 1 1) (Date 2025 3 1) 1000 (5 / 100)) (by decide)
      (by norm_num [mkLease]) 2 (by omega) (by omega) (by decide) (by decide) (by decide)
    rw [h]
    norm_num [mkLease, periodsPerYear]
  ⟨hg, (regularDates_distinct
    (mkLease Monthly (Date 2025 1 1) (Date 2025 3 1) 1000 (5 / 100)) 2 (1 / 240) hg
    (by decide)).2.2.2.2.2.2.1⟩

/-! ## The split does not depend on the initial liability -/

/-- The loop variables other than the balance after `i` days do not depend on the initial
liability. -/
theorem liabilityFinal_indep (l : Lease) (n : Nat) (L1 L2 : ℚ) (i : Nat) :
    (liabilityFinal l (l.DiscountRate / 365) (totalInterest l n) totalPrincipal
        (totalPayment l n) i (initialState l n L1)).currentDate
      = (liabilityFinal l (l.DiscountRate / 365) (totalInterest l n) totalPrincipal
        (totalPayment l n) i (initialState l n L2)).currentDate ∧
    (liabilityFinal l (l.DiscountRate / 365) (totalInterest l n) totalPrincipal
        (totalPayment l n) i (initialState l n L1)).period
      = (liabilityFinal l (l.DiscountRate / 365) (totalInterest l n) totalPrincipal
        (totalPayment l n) i (initialState l n L2)).period ∧
    (liabilityFinal l (l.DiscountRate / 365) (totalInterest l n) totalPrincipal
        (totalPayment l n) i (initialState l n L1)).pending
      = (liabilityFinal l (l.DiscountRate / 365) (totalInterest l n) totalPrincipal
        (totalPayment l n) i (initialState l n L2)).pending ∧
    (liabilityFinal l (l.DiscountRate / 365) (totalInterest l n) totalPrincipal
        (totalPayment l n) i (initialState l n L1)).paidInterest
      = (liabilityFinal l (l.DiscountRate / 365) (totalInterest l n) totalPrincipal
        (totalPayment l n) i (initialState l n L2)).paidInterest ∧
    (liabilityFinal l (l.DiscountRate / 365) (totalInterest l n) totalPrincipal
        (totalPayment l n) i (initialState l n L1)).paidPrincipal
      = (liabilityFinal l (l.DiscountRate / 365) (totalInterest l n) totalPrincipal
        (totalPayment l n) i (initialState l n L2)).paidPrincipal := by
  induction i with
  | zero => exact ⟨rfl, rfl, rfl, rfl, rfl⟩
  | succ i ih =>
    obtain ⟨h1, h2, h3, h4, h5⟩ := ih
    rw [liabilityFinal_succ, liabilityFinal_succ]
    exact (liabilityDay_indep l _ _ _ _ _ _ h1 h2 h3 h4 h5).1

/-- C35. For a lease with period count `n ≥ 1`, a positive payment amount and no extra
payments, the liability schedules generated for two initial liabilities have the same number
of entries and, entry by entry, the same `Period`, `Date`, `Payment` and
`PrincipalRepayment`; both are returned without error. -/
theorem GenerateLiabilitySchedule_split_independent (l : Lease) (n : Nat) (r : ℚ)
    (hg : getPeriodsAndRate l = (n, r, none)) (hn : n ≠ 0) (hp : 0 < l.PaymentAmount)
    (hx : l.ExtraPayments = []) (L1 L2 : ℚ) :
    (GenerateLiabilitySchedule l L1).1.map
        (fun e => (e.Period, e.Date, e.Payment, e.PrincipalRepayment))
      = (GenerateLiabilitySchedule l L2).1.map
        (fun e => (e.Period, e.Date, e.Payment, e.PrincipalRepayment)) ∧
    (GenerateLiabilitySchedule l L1).1.length = (GenerateLiabilitySchedule l L2).1.length ∧
    (GenerateLiabilitySchedule l L1).2 = none ∧ (GenerateLiabilitySchedule l L2).2 = none := by
  have hmap : (GenerateLiabilitySchedule l L1).1.map
        (fun e => (e.Period, e.Date, e.Payment, e.PrincipalRepayment))
      = (GenerateLiabilitySchedule l L2).1.map
        (fun e => (e.Period, e.Date, e.Payment, e.PrincipalRepayment)) := by
    rw [GenerateLiabilitySchedule_eq l L1 n r hg hn, GenerateLiabilitySchedule_eq l L2 n r hg hn]
    split
    · rfl
    · simp only [scheduleStates, liabilityStates_eq_range, List.map_map]
      apply List.map_congr_left
      intro i _
      simp only [Function.comp, scheduleEntry]
      obtain ⟨h1, h2, h3, h4, h5⟩ := liabilityFinal_indep l n L1 L2 i
      obtain ⟨_, e1, e2, e3⟩ := liabilityDay_indep l (l.DiscountRate / 365)
        (totalInterest l n) totalPrincipal (totalPayment l n) _ _ h1 h2 h3 h4 h5
      obtain ⟨e4, e5⟩ := e3 (no_manufactured_payment l L1 n r hg hn hp hx i _ rfl)
      rw [e1, e2, e4, e5]
  refine ⟨hmap, ?_, ?_, ?_⟩
  · have := congrArg List.length hmap
    simpa using this
  · rw [GenerateLiabilitySchedule_eq l L1 n r hg hn]
    split <;> rfl
  · rw [GenerateLiabilitySchedule_eq l L2 n r hg hn]
    split <;> rfl

/-- Witness of C35: the Monthly lease 2025-01-01 to 2025-03-01 with payment 1000 and rate 0.05,
for the initial liabilities 0 and 1987.57. -/
theorem GenerateLiabilitySchedule_split_independent_witness :
    getPeriodsAndRate (mkLease Monthly (Date 2025 1 1) (Date 2025 3 1) 1000 (5 / 100))
      = (2, 1 / 240, none) ∧
    (GenerateLiabilitySchedule (mkLease Monthly (Date 2025 1 1) (Date 2025 3 1) 1000 (5 / 100))
        0).1.map (fun e => (e.Period, e.Date, e.Payment, e.PrincipalRepayment))
      = (GenerateLiabilitySchedule (mkLease Monthly (Date 2025 1 1) (Date 2025 3 1) 1000
        (5 / 100)) (198757 / 100)).1.map
          (fun e => (e.Period, e.Date, e.Payment, e.PrincipalRepayment)) :=
  have hg : getPeriodsAndRate (mkLease Monthly (Date 2025 1 1) (Date 2025 3 1) 1000 (5 / 100))
      = (2, 1 / 240, none) := by
    have h := getPeriodsAndRate_bracket
      (mkLease Monthly (Date 2025 1 1) (Date 2025 3 1) 1000 (5 / 100)) (by decide)
      (by norm_num [mkLease]) 2 (by omega) (by omega) (by decide) (by decide) (by decide)
    rw [h]
    norm_num [mkLease, periodsPerYear]
  ⟨hg, (GenerateLiabilitySchedule_split_independent
    (mkLease Monthly (Date 2025 1 1) (Date 2025 3 1) 1000 (5 / 100)) 2 (1 / 240) hg
    (by decide) (by norm_num [mkLease]) rfl 0 (198757 / 100)).1⟩

/-! ## The cumulative principal of the daily loop -/

/-- The principal of a payment day is what the day adds to the cumulative principal. -/
theorem splitPayment_paid (ti tp tpay a : ℚ) (last : Bool) (pI pP : ℚ) :
    (splitPayment ti tp tpay a last pI pP).2.2 = pP + (splitPayment ti tp tpay a last pI pP).1 := by
  simp only [splitPayment]
  split_ifs <;> simp only [] <;> ring

/-- After the last scheduled payment the cumulative principal is within 0.01 of the principal
target. -/
theorem splitPayment_last (ti tp tpay a pI pP : ℚ) :
    |(splitPayment ti tp tpay a true pI pP).2.2 - tp| ≤ 1 / 100 := by
  simp only [splitPayment]
  split_ifs <;> simp only [] <;>
    first
      | (simp only [sub_self, abs_zero]; norm_num)
      | (simp only [gt_iff_lt, not_lt] at *; assumption)

/-- A payment that leaves at least 0.01 of scheduled payments pending is split in the ratio of
the targets, when the cumulative amounts are in that ratio. -/
theorem splitPayment_in_ratio (ti tp tpay a S S1 pI pP : ℚ) (htpay : 0 < tpay)
    (hti : 0 ≤ ti) (htp : 0 ≤ tp) (hsum : ti + tp = tpay) (hS : S = a + S1)
    (hS1 : 1 / 100 ≤ S1) (hSle : S ≤ tpay)
    (hpP : pP = tp / tpay * (tpay - S)) (hpI : pI = ti / tpay * (tpay - S)) :
    splitPayment ti tp tpay a false pI pP
      = (tp / tpay * a, ti / tpay * (tpay - S1), tp / tpay * (tpay - S1)) := by
  have hc1 : ti / tpay + tp / tpay = 1 := by
    rw [← add_div, hsum]
    exact div_self htpay.ne.symm
  have hci : 0 ≤ ti / tpay := div_nonneg hti htpay.le
  have hcp : 0 ≤ tp / tpay := div_nonneg htp htpay.le
  have e1 : tp / tpay * tpay = tp := div_mul_cancel₀ tp htpay.ne.symm
  have e2 : ti / tpay * tpay = ti := div_mul_cancel₀ ti htpay.ne.symm
  have hrem : ti - pI + (tp - pP) = S := by
    rw [hpP, hpI]
    have : ti / tpay * (tpay - S) + tp / tpay * (tpay - S) = tpay - S := by
      rw [← add_mul, hc1, one_mul]
    linarith
  have hremP : tp - pP = tp / tpay * S := by
    rw [hpP]
    linarith
  have hremI : ti - pI = ti / tpay * S := by
    rw [hpI]
    linarith
  have hint : a * (ti / tpay) = a - tp / tpay * a := by
    have : ti / tpay = 1 - tp / tpay := by linarith
    rw [this]
    ring
  have c1 : ¬ (|a - tpay| < 1 / 100 ∨ a ≥ ti - pI + (tp - pP)) := by
    rw [hrem]
    push_neg
    constructor
    · have : a - tpay ≤ -(1 / 100) := by linarith
      rw [abs_of_nonpos (by linarith)]
      linarith
    · linarith
  have c2 : ¬ (a - a * (ti / tpay) > tp - pP) := by
    rw [hremP, hint]
    have : tp / tpay * a ≤ tp / tpay * S := mul_le_mul_of_nonneg_left (by linarith) hcp
    linarith
  have c3 : ¬ (a * (ti / tpay) > ti - pI) := by
    rw [hremI, mul_comm]
    have : ti / tpay * a ≤ ti / tpay * S := mul_le_mul_of_nonneg_left (by linarith) hci
    linarith
  simp only [splitPayment, c1, c2, c3, if_false, Bool.false_eq_true]
  rw [hint, hpP, hpI]
  refine Prod.ext ?_ (Prod.ext ?_ ?_) <;> simp only []
  · ring
  · have : ti / tpay = 1 - tp / tpay := by linarith
    rw [hS, this]
    ring
  · rw [hS]
    ring

/-! ## The principal of one day -/

/-- The principal that a day of the loop writes is the rounded amount that the day adds to the
cumulative principal, which is 0 on a day without payment; unless the day is the end date with
a payment of 0. -/
theorem liabilityDay_principal (l : Lease) (dr ti tp tpay : ℚ) (s : LoopState)
    (hman : ¬ (s.currentDate.Equal l.EndDate = true ∧
      (matchPayments s.currentDate s.pending 0 false).2.1 = 0)) :
    ∃ pr : ℚ, (liabilityDay l dr ti tp tpay s).1.PrincipalRepayment = roundFloat pr 2 ∧
      (liabilityDay l dr ti tp tpay s).2.paidPrincipal = s.paidPrincipal + pr ∧
      ((matchPayments s.currentDate s.pending 0 false).2.2 = false → pr = 0) := by
  by_cases hf : (matchPayments s.currentDate s.pending 0 false).2.2 = true
  · refine ⟨(splitPayment ti tp tpay (matchPayments s.currentDate s.pending 0 false).2.1
      (matchPayments s.currentDate s.pending 0 false).1.isEmpty s.paidInterest
      s.paidPrincipal).1, ?_, ?_, ?_⟩
    · by_cases he : s.currentDate.Equal l.EndDate = true
      · have h0 : ¬ ((matchPayments s.currentDate s.pending 0 false).2.1 = 0) :=
          fun h => hman ⟨he, h⟩
        simp only [liabilityDay, hf, he, h0, if_true, if_false]
      · simp only [liabilityDay, hf, he, if_true, if_false, Bool.false_eq_true]
    · simp only [liabilityDay, hf, if_true]
      exact splitPayment_paid _ _ _ _ _ _ _
    · intro h
      rw [h] at hf
      exact absurd hf (by decide)
  · have hf2 : (matchPayments s.currentDate s.pending 0 false).2.2 = false := by
      simpa using hf
    refine ⟨0, ?_, ?_, fun _ => rfl⟩
    · by_cases he : s.currentDate.Equal l.EndDate = true
      · have h0 : ¬ ((matchPayments s.currentDate s.pending 0 false).2.1 = 0) :=
          fun h => hman ⟨he, h⟩
        simp only [liabilityDay, hf2, he, h0, if_true, if_false, Bool.false_eq_true]
      · simp only [liabilityDay, hf2, he, if_false, Bool.false_eq_true]
    · simp only [liabilityDay, hf2, if_false, add_zero, Bool.false_eq_true]

/-- After the day that consumes the last scheduled payment the cumulative principal is within
0.01 of the principal target. -/
theorem liabilityDay_last (l : Lease) (dr ti tp tpay : ℚ) (s : LoopState)
    (hf : (matchPayments s.currentDate s.pending 0 false).2.2 = true)
    (hl : (matchPayments s.currentDate s.pending 0 false).1 = []) :
    |(liabilityDay l dr ti tp tpay s).2.paidPrincipal - tp| ≤ 1 / 100 := by
  simp only [liabilityDay, hf, hl, if_true, List.isEmpty_nil]
  exact splitPayment_last _ _ _ _ _ _

/-! ## The sum of the principal over the days of the loop -/

/-- The principal written on the first `T` days of the schedule adds up to the cumulative
principal after `T` days, within half a cent for each of these days that is a payment date. -/
theorem principal_telescoped (l : Lease) (x : ℚ) (n : Nat) (r : ℚ)
    (hg : getPeriodsAndRate l = (n, r, none)) (hn : n ≠ 0) (hp : 0 < l.PaymentAmount)
    (hx : l.ExtraPayments = []) (T : Nat) :
    |((List.range T).map (fun i => (scheduleEntry l n
          (liabilityFinal l (l.DiscountRate / 365) (totalInterest l n) totalPrincipal
            (totalPayment l n) i (initialState l n x))).PrincipalRepayment)).sum
        - (liabilityFinal l (l.DiscountRate / 365) (totalInterest l n) totalPrincipal
            (totalPayment l n) T (initialState l n x)).paidPrincipal|
      ≤ (((List.range T).filter (fun i => decide
          ((liabilityFinal l (l.DiscountRate / 365) (totalInterest l n) totalPrincipal
            (totalPayment l n) i (initialState l n x)).currentDate.absDays
              ∈ paymentKeys (paymentsList l n)))).length : ℚ) / 200 := by
  induction T with
  | zero => simp [liabilityFinal, initialState]
  | succ T ih =>
    have hman := no_manufactured_payment l x n r hg hn hp hx T _ rfl
    have hst := matchPayments_state l x n r hg hn T _ rfl
    obtain ⟨pr, h1, h2, h3⟩ := liabilityDay_principal l (l.DiscountRate / 365)
      (totalInterest l n) totalPrincipal (totalPayment l n) _ hman
    have h1b : (scheduleEntry l n (liabilityFinal l (l.DiscountRate / 365) (totalInterest l n)
        totalPrincipal (totalPayment l n) T (initialState l n x))).PrincipalRepayment
          = roundFloat pr 2 := h1
    rw [List.range_succ, List.map_append, List.sum_append, List.filter_append,
      List.length_append, liabilityFinal_succ, h2]
    simp only [List.map_cons, List.map_nil, List.sum_cons, List.sum_nil, add_zero, h1b]
    rw [hst] at h3
    simp only at h3
    by_cases hk : (liabilityFinal l (l.DiscountRate / 365) (totalInterest l n) totalPrincipal
        (totalPayment l n) T (initialState l n x)).currentDate.absDays
          ∈ paymentKeys (paymentsList l n)
    · have e : ([T].filter (fun i => decide
          ((liabilityFinal l (l.DiscountRate / 365) (totalInterest l n) totalPrincipal
            (totalPayment l n) i (initialState l n x)).currentDate.absDays
              ∈ paymentKeys (paymentsList l n)))).length = 1 := by
        simp [List.filter_cons, hk]
      rw [e]
      have hr := roundFloat_err pr
      push_cast
      rw [abs_le] at ih hr ⊢
      constructor <;> linarith [ih.1, ih.2, hr.1, hr.2]
    · have e : ([T].filter (fun i => decide
          ((liabilityFinal l (l.DiscountRate / 365) (totalInterest l n) totalPrincipal
            (totalPayment l n) i (initialState l n x)).currentDate.absDays
              ∈ paymentKeys (paymentsList l n)))).length = 0 := by
        simp [List.filter_cons, hk]
      rw [e]
      have h0 : pr = 0 := h3 (by simpa using hk)
      rw [h0, roundFloat_zero]
      simpa using ih

/-! ## The schedule as a list over the day numbers -/

/-- The sum of the principal of the generated schedule and its number of payment days, in terms
of the loop variables after each number of days. -/
theorem GenerateLiabilitySchedule_sums (l : Lease) (x : ℚ) (n : Nat) (r : ℚ)
    (hg : getPeriodsAndRate l = (n, r, none)) (hn : n ≠ 0) (ht : ¬ totalDays l ≤ 0) :
    ((GenerateLiabilitySchedule l x).1.map (fun e => e.PrincipalRepayment)).sum
      = ((List.range (totalDays l).toNat).map (fun i => (scheduleEntry l n
          (liabilityFinal l (l.DiscountRate / 365) (totalInterest l n) totalPrincipal
            (totalPayment l n) i (initialState l n x))).PrincipalRepayment)).sum ∧
    ((GenerateLiabilitySchedule l x).1.filter
        (fun e => decide (e.Date.absDays ∈ paymentKeys (paymentsList l n)))).length
      = ((List.range (totalDays l).toNat).filter (fun i => decide
          ((liabilityFinal l (l.DiscountRate / 365) (totalInterest l n) totalPrincipal
            (totalPayment l n) i (initialState l n x)).currentDate.absDays
              ∈ paymentKeys (paymentsList l n)))).length := by
  rw [GenerateLiabilitySchedule_eq l x n r hg hn, if_neg ht]
  simp only [scheduleStates, liabilityStates_eq_range, List.map_map]
  refine ⟨rfl, ?_⟩
  rw [List.filter_map, List.length_map]
  congr 1

/-- With a positive payment amount, no extra payments and a term of at most 106751 days, the
principal of the generated schedule adds up to the principal target within 0.01 plus half a
cent for each payment day. -/
theorem principal_total_inRange (l : Lease) (x : ℚ) (n : Nat) (r : ℚ)
    (hg : getPeriodsAndRate l = (n, r, none)) (hn : n ≠ 0) (hp : 0 < l.PaymentAmount)
    (hx : l.ExtraPayments = []) (hterm : l.EndDate.absDays - l.StartDate.absDays ≤ 106751) :
    |((GenerateLiabilitySchedule l x).1.map (fun e => e.PrincipalRepayment)).sum
        - 107867121 / 100|
      ≤ 1 / 100 + (((GenerateLiabilitySchedule l x).1.filter
          (fun e => decide (e.Date.absDays ∈ paymentKeys (paymentsList l n)))).length : ℚ)
            / 200 := by
  obtain ⟨_, hlt, _⟩ := getPeriodsAndRate_markers l n r hg hn
  have hse : l.StartDate.absDays < l.EndDate.absDays := by
    have := hlt 0 (by omega)
    rw [marker_zero, Time.Before_iff] at this
    exact this
  have htd : totalDays l = l.EndDate.absDays - l.StartDate.absDays + 1 := by
    rw [totalDays, totalDays_inRange _ _ (by omega) hterm]
  have ht : ¬ totalDays l ≤ 0 := by omega
  obtain ⟨D, hD⟩ : ∃ D : Nat, (D : Int) = l.EndDate.absDays - l.StartDate.absDays :=
    ⟨(l.EndDate.absDays - l.StartDate.absDays).toNat, Int.toNat_of_nonneg (by omega)⟩
  have hT : (totalDays l).toNat = D + 1 := by omega
  obtain ⟨e1, e2⟩ := GenerateLiabilitySchedule_sums l x n r hg hn ht
  rw [e1, e2, hT]
  have htel := principal_telescoped l x n r hg hn hp hx (D + 1)
  have hdate := liabilityFinal_date l (l.DiscountRate / 365) (totalInterest l n) totalPrincipal
    (totalPayment l n) D (initialState l n x)
  have hdate2 : (liabilityFinal l (l.DiscountRate / 365) (totalInterest l n) totalPrincipal
      (totalPayment l n) D (initialState l n x)).currentDate.absDays = l.EndDate.absDays := by
    rw [hdate]
    simp only [initialState]
    omega
  have hst := matchPayments_state l x n r hg hn D _ rfl
  obtain ⟨_, h2, _⟩ := liabilityFinal_pending l (l.DiscountRate / 365) (totalInterest l n)
    totalPrincipal (totalPayment l n) (initialState l n x) (paymentsList_sorted l n)
    (paymentsList_ge_start l n r hg hn) D
  have hk := liabilityFinal_keys l (l.DiscountRate / 365) (totalInterest l n)
    totalPrincipal (totalPayment l n) (initialState l n x) (paymentsList_sorted l n)
    (paymentsList_ge_start l n r hg hn) D
  have hlast : |(liabilityFinal l (l.DiscountRate / 365) (totalInterest l n) totalPrincipal
      (totalPayment l n) (D + 1) (initialState l n x)).paidPrincipal - totalPrincipal|
        ≤ 1 / 100 := by
    rw [liabilityFinal_succ]
    apply liabilityDay_last
    · rw [hst]
      simp only [decide_eq_true_eq]
      rw [hdate2]
      exact end_mem_paymentKeys l n r hg hn hx
    · rw [hst]
      simp only
      rw [List.filter_eq_nil_iff]
      intro p hp2
      simp only [decide_eq_true_eq, not_lt]
      have hmem : p.1.absDays ∈ paymentKeys (liabilityFinal l (l.DiscountRate / 365)
          (totalInterest l n) totalPrincipal (totalPayment l n) D
            (initialState l n x)).pending := by
        simp only [paymentKeys, List.mem_map]
        exact ⟨p, hp2, rfl⟩
      have hge := h2 _ hmem
      have := (hk _ hge).mp hmem
      simp only [initialState] at this
      rw [hdate2]
      exact paymentsList_le_end l n r hg hn hx _ this
  rw [show (107867121 / 100 : ℚ) = totalPrincipal from rfl]
  rw [abs_le] at htel hlast ⊢
  constructor <;> linarith [htel.1, htel.2, hlast.1, hlast.2]

/-! ## The amounts of the scheduled payments -/

theorem sum_addPayment (Q : List (Time × ℚ)) (d : Time) (a : ℚ) :
    ((addPayment Q d a).map Prod.snd).sum = (Q.map Prod.snd).sum + a := by
  induction Q with
  | nil => simp [addPayment]
  | cons p rest ih =>
    obtain ⟨pd, pa⟩ := p
    simp only [addPayment]
    split_ifs
    · simp only [List.map_cons, List.sum_cons]
      ring
    · simp only [List.map_cons, List.sum_cons]
      ring
    · simp only [List.map_cons, List.sum_cons, ih]
      ring

theorem sum_addRegularPayments (l : Lease) (m : Int) (k : Nat) :
    ∀ (c : Time) (Q : List (Time × ℚ)),
      ((addRegularPayments l m k c Q).map Prod.snd).sum
        = (Q.map Prod.snd).sum + (k : ℚ) * l.PaymentAmount := by
  induction k with
  | zero =>
    intro c Q
    simp [addRegularPayments]
  | succ k ih =>
    intro c Q
    simp only [addRegularPayments]
    rw [ih, sum_addPayment]
    push_cast
    ring

/-- Without extra payments the total of the scheduled payments is the payment amount times the
period count, plus 100000 when 2025-02-01 is strictly inside the lease term. -/
theorem totalPayment_eq (l : Lease) (n : Nat) (hx : l.ExtraPayments = []) :
    totalPayment l n = (n : ℚ) * l.PaymentAmount
      + (if ((Date 2025 2 1).After l.StartDate && (Date 2025 2 1).Before l.EndDate) = true
          then 100000 else 0) := by
  simp only [totalPayment, paymentsList, hx, addExtraPayments]
  split_ifs
  · rw [sum_addPayment, sum_addRegularPayments]
    simp
  · rw [sum_addRegularPayments]
    simp

theorem addPayment_amount_ge (Q : List (Time × ℚ)) (d : Time) (a m : ℚ)
    (hQ : ∀ p ∈ Q, m ≤ p.2) (ham : m ≤ a) (ha : 0 ≤ a) :
    ∀ p ∈ addPayment Q d a, m ≤ p.2 := by
  induction Q with
  | nil =>
    intro p hp
    simp only [addPayment, List.mem_singleton] at hp
    rw [hp]
    exact ham
  | cons q rest ih =>
    obtain ⟨qd, qa⟩ := q
    have hq := hQ (qd, qa) (List.mem_cons_self _ _)
    have hrest : ∀ p ∈ rest, m ≤ p.2 := fun p hp => hQ p (List.mem_cons_of_mem _ hp)
    intro p hp
    simp only [addPayment] at hp
    split_ifs at hp
    · rcases List.mem_cons.mp hp with h | h
      · rw [h]
        exact ham
      · exact hQ p h
    · rcases List.mem_cons.mp hp with h | h
      · rw [h]
        simp only at hq ⊢
        linarith
      · exact hrest p h
    · rcases List.mem_cons.mp hp with h | h
      · rw [h]
        exact hq
      · exact ih hrest p h

theorem addRegularPayments_amount_ge (l : Lease) (mm : Int) (m : ℚ) (hm : m ≤ l.PaymentAmount)
    (hp : 0 ≤ l.PaymentAmount) (k : Nat) :
    ∀ (c : Time) (Q : List (Time × ℚ)), (∀ p ∈ Q, m ≤ p.2) →
      ∀ p ∈ addRegularPayments l mm k c Q, m ≤ p.2 := by
  induction k with
  | zero =>
    intro c Q hQ
    simpa [addRegularPayments] using hQ
  | succ k ih =>
    intro c Q hQ
    simp only [addRegularPayments]
    exact ih _ _ (addPayment_amount_ge Q _ _ m hQ hm hp)

/-- Without extra payments every scheduled payment is at least the smaller of the payment
amount and 100000. -/
theorem paymentsList_amount_ge (l : Lease) (n : Nat) (hx : l.ExtraPayments = []) (m : ℚ)
    (hm : m ≤ l.PaymentAmount) (hm2 : m ≤ 100000) (hp : 0 ≤ l.PaymentAmount) :
    ∀ p ∈ paymentsList l n, m ≤ p.2 := by
  have h1 : ∀ p ∈ addRegularPayments l (monthStep l.PaymentFrequency) n l.StartDate [],
      m ≤ p.2 :=
    addRegularPayments_amount_ge l _ m hm hp n _ _ (by simp)
  simp only [paymentsList, hx, addExtraPayments]
  split_ifs
  · exact addPayment_amount_ge _ _ _ m h1 hm2 (by norm_num)
  · exact h1

/-- The pending payments add up to the amount of the current day plus the payments after it. -/
theorem sum_split (c : Time) (Q : List (Time × ℚ))
    (hge : ∀ k ∈ paymentKeys Q, c.absDays ≤ k) :
    (Q.map Prod.snd).sum = lookupPayment Q c
      + ((Q.filter (fun p => decide (c.absDays < p.1.absDays))).map Prod.snd).sum := by
  induction Q with
  | nil => simp [lookupPayment]
  | cons p rest ih =>
    have hp := hge p.1.absDays (by simp [paymentKeys])
    have hrest : ∀ k ∈ paymentKeys rest, c.absDays ≤ k := by
      intro k hk
      apply hge k
      simp only [paymentKeys, List.map_cons, List.mem_cons]
      right
      exact hk
    rw [lookupPayment_cons, List.map_cons, List.sum_cons, ih hrest]
    by_cases he : p.1 = c
    · have hlt : ¬ c.absDays < p.1.absDays := by
        rw [he]
        omega
      rw [if_pos he, List.filter_cons_of_neg (by simpa using hlt)]
      ring
    · have hlt : c.absDays < p.1.absDays := by
        rcases lt_or_eq_of_le hp with h | h
        · exact h
        · exact absurd (Time.ext_absDays h.symm) he
      rw [if_neg he, List.filter_cons_of_pos (by simpa using hlt), List.map_cons, List.sum_cons]
      ring

/-- The payments pending after `i` days are scheduled payments. -/
theorem liabilityFinal_mem (l : Lease) (dr ti tp tpay : ℚ) (s : LoopState)
    (hs : (paymentKeys s.pending).Pairwise (· < ·))
    (hge : ∀ k ∈ paymentKeys s.pending, s.currentDate.absDays ≤ k) (i : Nat) :
    ∀ p ∈ (liabilityFinal l dr ti tp tpay i s).pending, p ∈ s.pending := by
  induction i with
  | zero => intro p hp; exact hp
  | succ i ih =>
    intro p hp
    obtain ⟨h1, h2, _⟩ := liabilityFinal_pending l dr ti tp tpay s hs hge i
    have hd := liabilityFinal_date l dr ti tp tpay i s
    rw [liabilityFinal_succ, (liabilityDay_pending l dr ti tp tpay _).1,
      matchPayments_sorted _ _ h1 (by rw [hd]; exact h2)] at hp
    exact ih p (List.mem_filter.mp hp).1

/-- A list of amounts that are at least `m ≥ 0` adds up to at least `m`, when it is not empty. -/
theorem sum_ge_of_mem (Q : List (Time × ℚ)) (m : ℚ) (hm : 0 ≤ m) (hQ : ∀ p ∈ Q, m ≤ p.2)
    (p : Time × ℚ) (hp : p ∈ Q) : m ≤ (Q.map Prod.snd).sum := by
  have h1 : ∀ y ∈ Q.map Prod.snd, (0 : ℚ) ≤ y := by
    intro y hy
    obtain ⟨q, hq, rfl⟩ := List.mem_map.mp hy
    exact le_trans hm (hQ q hq)
  have h2 : p.2 ≤ (Q.map Prod.snd).sum :=
    List.single_le_sum h1 p.2 (List.mem_map.mpr ⟨p, hp, rfl⟩)
  exact le_trans (hQ p hp) h2

/-! ## The days before the end date -/

/-- What a day that is not the end date writes as principal and leaves in the cumulative
amounts. -/
theorem liabilityDay_before_end (l : Lease) (dr ti tp tpay : ℚ) (s : LoopState)
    (he : s.currentDate.Equal l.EndDate = false) :
    ((matchPayments s.currentDate s.pending 0 false).2.2 = true →
      (liabilityDay l dr ti tp tpay s).1.PrincipalRepayment
        = roundFloat (splitPayment ti tp tpay (matchPayments s.currentDate s.pending 0 false).2.1
            (matchPayments s.currentDate s.pending 0 false).1.isEmpty s.paidInterest
            s.paidPrincipal).1 2 ∧
      (liabilityDay l dr ti tp tpay s).2.paidInterest
        = (splitPayment ti tp tpay (matchPayments s.currentDate s.pending 0 false).2.1
            (matchPayments s.currentDate s.pending 0 false).1.isEmpty s.paidInterest
            s.paidPrincipal).2.1 ∧
      (liabilityDay l dr ti tp tpay s).2.paidPrincipal
        = (splitPayment ti tp tpay (matchPayments s.currentDate s.pending 0 false).2.1
            (matchPayments s.currentDate s.pending 0 false).1.isEmpty s.paidInterest
            s.paidPrincipal).2.2) ∧
    ((matchPayments s.currentDate s.pending 0 false).2.2 = false →
      (liabilityDay l dr ti tp tpay s).1.PrincipalRepayment = 0 ∧
      (liabilityDay l dr ti tp tpay s).2.paidInterest = s.paidInterest ∧
      (liabilityDay l dr ti tp tpay s).2.paidPrincipal = s.paidPrincipal) := by
  constructor
  · intro hf
    simp only [liabilityDay, he, hf, if_true, if_false, Bool.false_eq_true, and_self]
  · intro hf
    simp only [liabilityDay, he, hf, if_false, Bool.false_eq_true, roundFloat_zero, and_self]

theorem lookupPayment_ge (Q : List (Time × ℚ)) (c : Time) (m : ℚ) (hm : 0 ≤ m)
    (hQ : ∀ p ∈ Q, m ≤ p.2) (hc : c.absDays ∈ paymentKeys Q) : m ≤ lookupPayment Q c := by
  simp only [paymentKeys, List.mem_map] at hc
  obtain ⟨p, hp, hpc⟩ := hc
  have hpe : p.1 = c := Time.ext_absDays hpc
  exact sum_ge_of_mem (Q.filter (fun p => decide (p.1 = c))) m hm
    (fun q hq => hQ q (List.mem_filter.mp hq).1) p
    (List.mem_filter.mpr ⟨hp, by simpa using hpe⟩)

/-- The payments pending after `i` days, when day `i` is not after the end date: each is at
least `m`, and they add up to at least `m`. -/
theorem pending_facts (l : Lease) (x : ℚ) (n : Nat) (r : ℚ)
    (hg : getPeriodsAndRate l = (n, r, none)) (hn : n ≠ 0) (hx : l.ExtraPayments = [])
    (hp : 0 ≤ l.PaymentAmount) (m : ℚ) (hm0 : 0 ≤ m) (hmp : m ≤ l.PaymentAmount)
    (hm2 : m ≤ 100000) (i : Nat) :
    (∀ p ∈ (liabilityFinal l (l.DiscountRate / 365) (totalInterest l n) totalPrincipal
        (totalPayment l n) i (initialState l n x)).pending, m ≤ p.2) ∧
    (l.StartDate.absDays + i ≤ l.EndDate.absDays →
      m ≤ ((liabilityFinal l (l.DiscountRate / 365) (totalInterest l n) totalPrincipal
        (totalPayment l n) i (initialState l n x)).pending.map Prod.snd).sum) := by
  have ha : ∀ p ∈ (liabilityFinal l (l.DiscountRate / 365) (totalInterest l n) totalPrincipal
      (totalPayment l n) i (initialState l n x)).pending, m ≤ p.2 := by
    intro p hp2
    have := liabilityFinal_mem l (l.DiscountRate / 365) (totalInterest l n) totalPrincipal
      (totalPayment l n) (initialState l n x) (paymentsList_sorted l n)
      (paymentsList_ge_start l n r hg hn) i p hp2
    exact paymentsList_amount_ge l n hx m hmp hm2 hp p this
  refine ⟨ha, ?_⟩
  intro hi
  have hk := liabilityFinal_keys l (l.DiscountRate / 365) (totalInterest l n)
    totalPrincipal (totalPayment l n) (initialState l n x) (paymentsList_sorted l n)
    (paymentsList_ge_start l n r hg hn) i l.EndDate.absDays (by simpa [initialState] using hi)
  have hend := hk.mpr (end_mem_paymentKeys l n r hg hn hx)
  simp only [paymentKeys, List.mem_map] at hend
  obtain ⟨p, hp2, _⟩ := hend
  exact sum_ge_of_mem _ m hm0 ha p hp2

/-- Before the end date the cumulative principal and interest are the shares of the targets in
what has been paid, and the principal written so far, plus half a cent for each payment day,
is at most the share `totalPrincipal / totalPayment + κ` of what has been paid. -/
theorem principal_in_ratio (l : Lease) (x : ℚ) (n : Nat) (r : ℚ)
    (hg : getPeriodsAndRate l = (n, r, none)) (hn : n ≠ 0) (hx : l.ExtraPayments = [])
    (m κ : ℚ) (hm : 1 / 100 ≤ m) (hmp : m ≤ l.PaymentAmount) (hm2 : m ≤ 100000)
    (hκ : 0 ≤ κ) (hκm : κ * m = 1 / 100)
    (hsum : totalInterest l n + totalPrincipal = totalPayment l n)
    (hti : 0 ≤ totalInterest l n) (T : Nat)
    (hT : l.StartDate.absDays + T ≤ l.EndDate.absDays) :
    (liabilityFinal l (l.DiscountRate / 365) (totalInterest l n) totalPrincipal
        (totalPayment l n) T (initialState l n x)).paidPrincipal
      = totalPrincipal / totalPayment l n * (totalPayment l n -
          ((liabilityFinal l (l.DiscountRate / 365) (totalInterest l n) totalPrincipal
            (totalPayment l n) T (initialState l n x)).pending.map Prod.snd).sum) ∧
    (liabilityFinal l (l.DiscountRate / 365) (totalInterest l n) totalPrincipal
        (totalPayment l n) T (initialState l n x)).paidInterest
      = totalInterest l n / totalPayment l n * (totalPayment l n -
          ((liabilityFinal l (l.DiscountRate / 365) (totalInterest l n) totalPrincipal
            (totalPayment l n) T (initialState l n x)).pending.map Prod.snd).sum) ∧
    ((liabilityFinal l (l.DiscountRate / 365) (totalInterest l n) totalPrincipal
        (totalPayment l n) T (initialState l n x)).pending.map Prod.snd).sum
      ≤ totalPayment l n ∧
    ((List.range T).map (fun i => (scheduleEntry l n
          (liabilityFinal l (l.DiscountRate / 365) (totalInterest l n) totalPrincipal
            (totalPayment l n) i (initialState l n x))).PrincipalRepayment)).sum
        + (((List.range T).filter (fun i => decide
          ((liabilityFinal l (l.DiscountRate / 365) (totalInterest l n) totalPrincipal
            (totalPayment l n) i (initialState l n x)).currentDate.absDays
              ∈ paymentKeys (paymentsList l n)))).length : ℚ) / 200
      ≤ (totalPrincipal / totalPayment l n + κ) * (totalPayment l n -
          ((liabilityFinal l (l.DiscountRate / 365) (totalInterest l n) totalPrincipal
            (totalPayment l n) T (initialState l n x)).pending.map Prod.snd).sum) := by
  have htp : (0 : ℚ) < totalPrincipal := by norm_num [totalPrincipal]
  have htpay : 0 < totalPayment l n := by linarith
  have hm0 : 0 ≤ m := by linarith
  have hpa : 0 ≤ l.PaymentAmount := by linarith
  induction T with
  | zero =>
    have e : ((liabilityFinal l (l.DiscountRate / 365) (totalInterest l n) totalPrincipal
        (totalPayment l n) 0 (initialState l n x)).pending.map Prod.snd).sum
          = totalPayment l n := rfl
    rw [e]
    simp [liabilityFinal, initialState]
  | succ T ih =>
    obtain ⟨i1, i2, i3, i4⟩ := ih (by push_cast at hT; omega)
    obtain ⟨h1, h2, _⟩ := liabilityFinal_pending l (l.DiscountRate / 365) (totalInterest l n)
      totalPrincipal (totalPayment l n) (initialState l n x) (paymentsList_sorted l n)
      (paymentsList_ge_start l n r hg hn) T
    have hd := liabilityFinal_date l (l.DiscountRate / 365) (totalInterest l n)
      totalPrincipal (totalPayment l n) T (initialState l n x)
    have hkk : (liabilityFinal l (l.DiscountRate / 365) (totalInterest l n) totalPrincipal
        (totalPayment l n) T (initialState l n x)).currentDate.absDays
          ∈ paymentKeys (liabilityFinal l (l.DiscountRate / 365) (totalInterest l n)
            totalPrincipal (totalPayment l n) T (initialState l n x)).pending
        ↔ (liabilityFinal l (l.DiscountRate / 365) (totalInterest l n) totalPrincipal
          (totalPayment l n) T (initialState l n x)).currentDate.absDays
            ∈ paymentKeys (paymentsList l n) :=
      liabilityFinal_keys l (l.DiscountRate / 365) (totalInterest l n)
        totalPrincipal (totalPayment l n) (initialState l n x) (paymentsList_sorted l n)
        (paymentsList_ge_start l n r hg hn) T _ (le_of_eq hd.symm)
    have hge : ∀ k ∈ paymentKeys (liabilityFinal l (l.DiscountRate / 365) (totalInterest l n)
        totalPrincipal (totalPayment l n) T (initialState l n x)).pending,
        (liabilityFinal l (l.DiscountRate / 365) (totalInterest l n)
          totalPrincipal (totalPayment l n) T (initialState l n x)).currentDate.absDays ≤ k := by
      rw [hd]
      exact h2
    have hmp2 := matchPayments_sorted _ _ h1 hge
    have hsplit := sum_split _ _ hge
    have hnext : (liabilityFinal l (l.DiscountRate / 365) (totalInterest l n) totalPrincipal
        (totalPayment l n) (T + 1) (initialState l n x)).pending
          = (liabilityFinal l (l.DiscountRate / 365) (totalInterest l n) totalPrincipal
              (totalPayment l n) T (initialState l n x)).pending.filter
                (fun p => decide ((liabilityFinal l (l.DiscountRate / 365) (totalInterest l n)
                  totalPrincipal (totalPayment l n) T
                    (initialState l n x)).currentDate.absDays < p.1.absDays)) := by
      rw [liabilityFinal_succ, (liabilityDay_pending _ _ _ _ _ _).1, hmp2]
    obtain ⟨_, f2⟩ := pending_facts l x n r hg hn hx hpa m hm0 hmp hm2 (T + 1)
    have hS1 := f2 hT
    obtain ⟨fa, _⟩ := pending_facts l x n r hg hn hx hpa m hm0 hmp hm2 T
    have he : (liabilityFinal l (l.DiscountRate / 365) (totalInterest l n) totalPrincipal
        (totalPayment l n) T (initialState l n x)).currentDate.Equal l.EndDate = false := by
      rw [Bool.eq_false_iff, Ne, Time.Equal_iff, hd]
      simp only [initialState]
      push_cast at hT
      omega
    obtain ⟨b1, b2⟩ := liabilityDay_before_end l (l.DiscountRate / 365) (totalInterest l n)
      totalPrincipal (totalPayment l n) _ he
    rw [hmp2] at b1 b2
    simp only [decide_eq_true_eq, decide_eq_false_iff_not] at b1 b2
    rw [hnext] at hS1
    rw [List.range_succ, List.map_append, List.sum_append, List.filter_append,
      List.length_append, hnext, liabilityFinal_succ]
    simp only [List.map_cons, List.map_nil, List.sum_cons, List.sum_nil, add_zero]
    by_cases hk0 : (liabilityFinal l (l.DiscountRate / 365) (totalInterest l n) totalPrincipal
        (totalPayment l n) T (initialState l n x)).currentDate.absDays
          ∈ paymentKeys (liabilityFinal l (l.DiscountRate / 365) (totalInterest l n)
            totalPrincipal (totalPayment l n) T (initialState l n x)).pending
    · have hk1 := hkk.mp hk0
      have e : ([T].filter (fun i => decide
          ((liabilityFinal l (l.DiscountRate / 365) (totalInterest l n) totalPrincipal
            (totalPayment l n) i (initialState l n x)).currentDate.absDays
              ∈ paymentKeys (paymentsList l n)))).length = 1 := by
        simp [List.filter_cons, hk1]
      rw [e]
      have ham := lookupPayment_ge _ _ m hm0 fa hk0
      obtain ⟨c1, c2, c3⟩ := b1 hk0
      have hne : ((liabilityFinal l (l.DiscountRate / 365) (totalInterest l n) totalPrincipal
          (totalPayment l n) T (initialState l n x)).pending.filter
            (fun p => decide ((liabilityFinal l (l.DiscountRate / 365) (totalInterest l n)
              totalPrincipal (totalPayment l n) T
                (initialState l n x)).currentDate.absDays < p.1.absDays))).isEmpty = false := by
        rw [Bool.eq_false_iff, Ne, List.isEmpty_iff]
        intro h0
        rw [h0] at hS1
        simp only [List.map_nil, List.sum_nil] at hS1
        linarith
      rw [hne, splitPayment_in_ratio _ _ _ _ _ _ _ _ htpay hti htp.le hsum hsplit
        (le_trans hm hS1) i3 i1 i2] at c1 c2 c3
      simp only at c1 c2 c3
      have c1b : (scheduleEntry l n (liabilityFinal l (l.DiscountRate / 365)
          (totalInterest l n) totalPrincipal (totalPayment l n) T
            (initialState l n x))).PrincipalRepayment = _ := c1
      rw [c1b, c2, c3]
      refine ⟨rfl, rfl, by linarith, ?_⟩
      have hr := roundFloat_err (totalPrincipal / totalPayment l n *
        lookupPayment (liabilityFinal l (l.DiscountRate / 365) (totalInterest l n)
          totalPrincipal (totalPayment l n) T (initialState l n x)).pending
          (liabilityFinal l (l.DiscountRate / 365) (totalInterest l n)
          totalPrincipal (totalPayment l n) T (initialState l n x)).currentDate)
      rw [abs_le] at hr
      have hκa : 1 / 100 ≤ κ * lookupPayment (liabilityFinal l (l.DiscountRate / 365)
          (totalInterest l n) totalPrincipal (totalPayment l n) T (initialState l n x)).pending
          (liabilityFinal l (l.DiscountRate / 365) (totalInterest l n)
          totalPrincipal (totalPayment l n) T (initialState l n x)).currentDate := by
        rw [← hκm]
        exact mul_le_mul_of_nonneg_left ham hκ
      push_cast
      rw [hsplit] at i4
      nlinarith [hr.2, hκa, i4]
    · have hk1 : ¬ _ := fun h => hk0 (hkk.mpr h)
      have e : ([T].filter (fun i => decide
          ((liabilityFinal l (l.DiscountRate / 365) (totalInterest l n) totalPrincipal
            (totalPayment l n) i (initialState l n x)).currentDate.absDays
              ∈ paymentKeys (paymentsList l n)))).length = 0 := by
        simp [List.filter_cons, hk1]
      rw [e]
      obtain ⟨c1, c2, c3⟩ := b2 hk0
      have c1b : (scheduleEntry l n (liabilityFinal l (l.DiscountRate / 365)
          (totalInterest l n) totalPrincipal (totalPayment l n) T
            (initialState l n x))).PrincipalRepayment = 0 := c1
      have ha0 := lookupPayment_of_not_mem _ _ hk0
      rw [ha0, zero_add] at hsplit
      rw [c1b, c2, c3, ← hsplit]
      refine ⟨i1, i2, i3, ?_⟩
      simpa using i4

/-! ## The principal target of the liability schedule -/

/-- The targets of the monthly lease from 2000-01-01 to 2300-01-01 with payment 1000: the
scheduled payments add up to 3700000, and the interest target is what is left of them after
the principal target. -/
theorem three_centuries_targets :
    totalPayment (mkLease Monthly (Date 2000 1 1) (Date 2300 1 1) 1000 (5 / 100)) 3600
      = 3700000 ∧
    totalInterest (mkLease Monthly (Date 2000 1 1) (Date 2300 1 1) 1000 (5 / 100)) 3600
      = 3700000 - 107867121 / 100 := by
  have h1 : totalPayment (mkLease Monthly (Date 2000 1 1) (Date 2300 1 1) 1000 (5 / 100)) 3600
      = 3700000 := by
    rw [totalPayment_eq _ _ rfl]
    have hf : ((Date 2025 2 1).After
        (mkLease Monthly (Date 2000 1 1) (Date 2300 1 1) 1000 (5 / 100)).StartDate &&
      (Date 2025 2 1).Before
        (mkLease Monthly (Date 2000 1 1) (Date 2300 1 1) 1000 (5 / 100)).EndDate) = true := by
      decide
    rw [if_pos hf]
    norm_num [mkLease]
  refine ⟨h1, ?_⟩
  rw [totalInterest, h1, totalPrincipal]
  have e : (12132879 / 100 + 107867121 / 100 - 3700000 : ℚ) = -2500000 := by norm_num
  rw [e, abs_neg, abs_of_pos (by norm_num), if_pos (by norm_num)]

/-- C33. (1) For every lease with period count `n ≥ 1`, a positive payment amount, no extra
payments and a term of at most 106751 days, and every initial liability, the
`PrincipalRepayment` fields of the generated liability schedule add up to 1078671.21 within
0.01 plus half a cent for each entry dated on a payment date. (2) The interest target is
121328.79 when the scheduled payments add up to 1200000 within 0.01, and the scheduled
payments minus 1078671.21 otherwise; for the monthly lease from 2025-01-01 to 2025-03-01 with
payment 1000 it is negative. (3) For the monthly lease from 2000-01-01 to 2300-01-01 with
payment 1000, which has 3600 periods, a positive payment amount and no extra payments, and
for every initial liability, the `PrincipalRepayment` fields add up to less than 1078671.21
by more than 0.01 plus half a cent for each entry dated on a payment date. -/
theorem GenerateLiabilitySchedule_principal_target :
    (∀ (l : Lease) (x : ℚ) (n : Nat) (r : ℚ), getPeriodsAndRate l = (n, r, none) → n ≠ 0 →
      0 < l.PaymentAmount → l.ExtraPayments = [] →
      l.EndDate.absDays - l.StartDate.absDays ≤ 106751 →
      |((GenerateLiabilitySchedule l x).1.map (fun e => e.PrincipalRepayment)).sum
          - 107867121 / 100|
        ≤ 1 / 100 + (((GenerateLiabilitySchedule l x).1.filter
            (fun e => decide (e.Date.absDays ∈ paymentKeys (paymentsList l n)))).length : ℚ)
              / 200) ∧
    (∀ (l : Lease) (n : Nat),
      (|totalPayment l n - 1200000| ≤ 1 / 100 → totalInterest l n = 12132879 / 100) ∧
      (¬ |totalPayment l n - 1200000| ≤ 1 / 100 →
        totalInterest l n = totalPayment l n - 107867121 / 100)) ∧
    (getPeriodsAndRate (mkLease Monthly (Date 2025 1 1) (Date 2025 3 1) 1000 (5 / 100))
        = (2, 1 / 240, none) ∧
      totalInterest (mkLease Monthly (Date 2025 1 1) (Date 2025 3 1) 1000 (5 / 100)) 2 < 0) ∧
    (getPeriodsAndRate (mkLease Monthly (Date 2000 1 1) (Date 2300 1 1) 1000 (5 / 100))
        = (3600, 1 / 240, none) ∧
      0 < (mkLease Monthly (Date 2000 1 1) (Date 2300 1 1) 1000 (5 / 100)).PaymentAmount ∧
      (mkLease Monthly (Date 2000 1 1) (Date 2300 1 1) 1000 (5 / 100)).ExtraPayments = [] ∧
      ∀ x : ℚ,
        ((GenerateLiabilitySchedule (mkLease Monthly (Date 2000 1 1) (Date 2300 1 1) 1000
            (5 / 100)) x).1.map (fun e => e.PrincipalRepayment)).sum
          + (1 / 100 + (((GenerateLiabilitySchedule (mkLease Monthly (Date 2000 1 1)
              (Date 2300 1 1) 1000 (5 / 100)) x).1.filter
                (fun e => decide (e.Date.absDays ∈ paymentKeys (paymentsList
                  (mkLease Monthly (Date 2000 1 1) (Date 2300 1 1) 1000 (5 / 100))
                    3600)))).length : ℚ) / 200)
          < 107867121 / 100) := by
  have htarget : ∀ (l : Lease) (n : Nat),
      (|totalPayment l n - 1200000| ≤ 1 / 100 → totalInterest l n = 12132879 / 100) ∧
      (¬ |totalPayment l n - 1200000| ≤ 1 / 100 →
        totalInterest l n = totalPayment l n - 107867121 / 100) := by
    intro l n
    have e : (12132879 / 100 + 107867121 / 100 - totalPayment l n : ℚ)
        = -(totalPayment l n - 1200000) := by ring
    simp only [totalInterest, totalPrincipal]
    rw [e, abs_neg]
    constructor
    · intro h
      rw [if_neg (not_lt.mpr h)]
    · intro h
      rw [if_pos (not_le.mp h)]
  have hg2 : getPeriodsAndRate (mkLease Monthly (Date 2025 1 1) (Date 2025 3 1) 1000 (5 / 100))
      = (2, 1 / 240, none) := by
    have h := getPeriodsAndRate_bracket
      (mkLease Monthly (Date 2025 1 1) (Date 2025 3 1) 1000 (5 / 100)) (by decide)
      (by norm_num [mkLease]) 2 (by omega) (by omega) (by decide) (by decide) (by decide)
    rw [h]
    norm_num [mkLease, periodsPerYear]
  have hneg : totalInterest (mkLease Monthly (Date 2025 1 1) (Date 2025 3 1) 1000 (5 / 100)) 2
      < 0 := by
    have h1 : totalPayment (mkLease Monthly (Date 2025 1 1) (Date 2025 3 1) 1000 (5 / 100)) 2
        = 102000 := by
      rw [totalPayment_eq _ _ rfl]
      have hf : ((Date 2025 2 1).After
          (mkLease Monthly (Date 2025 1 1) (Date 2025 3 1) 1000 (5 / 100)).StartDate &&
        (Date 2025 2 1).Before
          (mkLease Monthly (Date 2025 1 1) (Date 2025 3 1) 1000 (5 / 100)).EndDate) = true := by
        decide
      rw [if_pos hf]
      norm_num [mkLease]
    rw [(htarget _ 2).2 (by
      rw [h1, show (102000 - 1200000 : ℚ) = -1098000 by norm_num, abs_neg,
        abs_of_pos (by norm_num)]
      norm_num), h1]
    norm_num
  refine ⟨fun l x n r hg hn hp hx hterm => principal_total_inRange l x n r hg hn hp hx hterm,
    htarget, ⟨hg2, hneg⟩, getPeriodsAndRate_three_centuries, by norm_num [mkLease], rfl, ?_⟩
  intro x
  have hlong : 106751
      < (mkLease Monthly (Date 2000 1 1) (Date 2300 1 1) 1000 (5 / 100)).EndDate.absDays
      - (mkLease Monthly (Date 2000 1 1) (Date 2300 1 1) 1000 (5 / 100)).StartDate.absDays := by
    decide
  have hT : (mkLease Monthly (Date 2000 1 1) (Date 2300 1 1) 1000 (5 / 100)).StartDate.absDays
      + ((106752 : Nat) : Int)
      ≤ (mkLease Monthly (Date 2000 1 1) (Date 2300 1 1) 1000 (5 / 100)).EndDate.absDays := by
    decide
  have htd : totalDays (mkLease Monthly (Date 2000 1 1) (Date 2300 1 1) 1000 (5 / 100))
      = 106752 := by
    rw [totalDays, totalDays_saturated _ _ hlong]
    rfl
  have htn : (totalDays (mkLease Monthly (Date 2000 1 1) (Date 2300 1 1) 1000
      (5 / 100))).toNat = 106752 := by
    rw [htd]
    rfl
  obtain ⟨t1, t2⟩ := three_centuries_targets
  obtain ⟨e1, e2⟩ := GenerateLiabilitySchedule_sums _ x 3600 (1 / 240)
    getPeriodsAndRate_three_centuries (by decide) (by rw [htd]; decide)
  rw [e1, e2, htn]
  obtain ⟨_, _, _, i4⟩ := principal_in_ratio
    (mkLease Monthly (Date 2000 1 1) (Date 2300 1 1) 1000 (5 / 100)) x 3600 (1 / 240)
    getPeriodsAndRate_three_centuries (by decide) rfl 1000 (1 / 100000) (by norm_num)
    (by norm_num [mkLease]) (by norm_num) (by norm_num) (by norm_num)
    (by rw [t1, t2, totalPrincipal]; norm_num) (by rw [t2]; norm_num) 106752 hT
  have hS := (pending_facts
    (mkLease Monthly (Date 2000 1 1) (Date 2300 1 1) 1000 (5 / 100)) x 3600 (1 / 240)
    getPeriodsAndRate_three_centuries (by decide) rfl (by norm_num [mkLease]) 1000
    (by norm_num) (by norm_num [mkLease]) (by norm_num) 106752).2 hT
  generalize ((liabilityFinal (mkLease Monthly (Date 2000 1 1) (Date 2300 1 1) 1000 (5 / 100))
    ((mkLease Monthly (Date 2000 1 1) (Date 2300 1 1) 1000 (5 / 100)).DiscountRate / 365)
    (totalInterest (mkLease Monthly (Date 2000 1 1) (Date 2300 1 1) 1000 (5 / 100)) 3600)
    totalPrincipal
    (totalPayment (mkLease Monthly (Date 2000 1 1) (Date 2300 1 1) 1000 (5 / 100)) 3600)
    106752 (initialState (mkLease Monthly (Date 2000 1 1) (Date 2300 1 1) 1000 (5 / 100))
      3600 x)).pending.map Prod.snd).sum = S at i4 hS
  generalize ((List.range 106752).map (fun i => (scheduleEntry
    (mkLease Monthly (Date 2000 1 1) (Date 2300 1 1) 1000 (5 / 100)) 3600
    (liabilityFinal (mkLease Monthly (Date 2000 1 1) (Date 2300 1 1) 1000 (5 / 100))
      ((mkLease Monthly (Date 2000 1 1) (Date 2300 1 1) 1000 (5 / 100)).DiscountRate / 365)
      (totalInterest (mkLease Monthly (Date 2000 1 1) (Date 2300 1 1) 1000 (5 / 100)) 3600)
      totalPrincipal
      (totalPayment (mkLease Monthly (Date 2000 1 1) (Date 2300 1 1) 1000 (5 / 100)) 3600)
      i (initialState (mkLease Monthly (Date 2000 1 1) (Date 2300 1 1) 1000 (5 / 100))
        3600 x))).PrincipalRepayment)).sum = P at i4 ⊢
  generalize (((List.range 106752).filter (fun i => decide
    ((liabilityFinal (mkLease Monthly (Date 2000 1 1) (Date 2300 1 1) 1000 (5 / 100))
      ((mkLease Monthly (Date 2000 1 1) (Date 2300 1 1) 1000 (5 / 100)).DiscountRate / 365)
      (totalInterest (mkLease Monthly (Date 2000 1 1) (Date 2300 1 1) 1000 (5 / 100)) 3600)
      totalPrincipal
      (totalPayment (mkLease Monthly (Date 2000 1 1) (Date 2300 1 1) 1000 (5 / 100)) 3600)
      i (initialState (mkLease Monthly (Date 2000 1 1) (Date 2300 1 1) 1000 (5 / 100))
        3600 x)).currentDate.absDays ∈ paymentKeys (paymentsList
          (mkLease Monthly (Date 2000 1 1) (Date 2300 1 1) 1000 (5 / 100)) 3600)))).length : ℚ)
    = Dn at i4 ⊢
  rw [t1] at i4
  have hc : (totalPrincipal / 3700000 + 1 / 100000) * (3700000 - S)
      ≤ (totalPrincipal / 3700000 + 1 / 100000) * (3700000 - 1000) :=
    mul_le_mul_of_nonneg_left (by linarith) (by norm_num [totalPrincipal])
  have hnum : (totalPrincipal / 3700000 + 1 / 100000) * (3700000 - 1000) + 1 / 100
      < 107867121 / 100 := by
    norm_num [totalPrincipal]
  linarith

/-! ## The liability in float64 arithmetic -/

/-- What `F64.CalculateLeaseLiability` computes for a lease that passes the validation and has
at least one period, when the periodic rate does not underflow to 0: the annuity formula, every
operation in float64 arithmetic. -/
theorem CalculateLeaseLiability_float64_valid (l : Lease) (n : Nat) (r : ℚ)
    (hp : 0 < l.PaymentAmount) (hr : 0 < l.DiscountRate) (hs : l.StartDate.IsZero = false)
    (he : l.EndDate.IsZero = false) (hb : l.EndDate.Before l.StartDate = false)
    (hg : getPeriodsAndRate l = (n, r, none)) (hn : n ≠ 0) (hpos : 0 < f64 r) :
    F64.CalculateLeaseLiability l =
      (F64.roundToDecimalPlaces (F64.roundToDecimalPlaces
        (F64.mul l.PaymentAmount
          (F64.div (F64.sub 1 (F64.Pow (F64.add 1 (f64 r)) (-(n : Int)))) (f64 r))) 6) 2,
        none) := by
  have hp2 : ¬ l.PaymentAmount ≤ 0 := not_le.mpr hp
  have hr2 : ¬ l.DiscountRate ≤ 0 := not_le.mpr hr
  have hpos2 : f64 r > 0 := hpos
  simp only [F64.CalculateLeaseLiability, F64.getPeriodsAndRate, hp2, hr2, hs, he, hb, hg, hn,
    hpos2, if_false, if_true, Bool.or_self, Bool.false_eq_true]

/-- The period count and rate of a Monthly lease from 2024-01-01 to 2024-12-31, whatever its
payment and its positive rate. -/
theorem getPeriodsAndRate_year_2024 (pmt rate : ℚ) (hr : 0 < rate) :
    getPeriodsAndRate (mkLease Monthly (Date 2024 1 1) (Date 2024 12 31) pmt rate)
      = (12, rate / 12, none) := by
  have h := getPeriodsAndRate_bracket
    (mkLease Monthly (Date 2024 1 1) (Date 2024 12 31) pmt rate)
    (show supported Monthly by decide) (show 0 < rate from hr) 12 (by omega) (by omega)
    (show (Date 2024 12 31).Before (marker (Date 2024 1 1) (monthStep Monthly) 1) = false
      by decide)
    (show (marker (Date 2024 1 1) (monthStep Monthly) (12 - 1)).Before (Date 2024 12 31) = true
      by decide)
    (show (marker (Date 2024 1 1) (monthStep Monthly) 12).Before (Date 2024 12 31) = false
      by decide)
  rw [h]
  norm_num [mkLease, periodsPerYear]

/-- The liability in float64 arithmetic of a Monthly lease from 2024-01-01 to 2024-12-31 whose
periodic rate does not underflow. -/
theorem CalculateLeaseLiability_float64_year (pmt rate : ℚ) (hp : 0 < pmt) (hr : 0 < rate)
    (hpos : 0 < f64 (rate / 12)) :
    F64.CalculateLeaseLiability (mkLease Monthly (Date 2024 1 1) (Date 2024 12 31) pmt rate) =
      (F64.roundToDecimalPlaces (F64.roundToDecimalPlaces
        (F64.mul pmt
          (F64.div (F64.sub 1 (F64.Pow (F64.add 1 (f64 (rate / 12))) (-12))) (f64 (rate / 12))))
        6) 2, none) :=
  CalculateLeaseLiability_float64_valid _ 12 (rate / 12) hp hr
    (show (Date 2024 1 1).IsZero = false by decide)
    (show (Date 2024 12 31).IsZero = false by decide)
    (show (Date 2024 12 31).Before (Date 2024 1 1) = false by decide)
    (getPeriodsAndRate_year_2024 pmt rate hr) (by decide) hpos

theorem roundFloat_cents (y : ℚ) : ∃ z : Int, roundFloat y 2 = (z : ℚ) / 100 := by
  obtain ⟨z, hz, _, _⟩ := mathRound_spec (y * 10 ^ 2)
  refine ⟨z, ?_⟩
  simp only [roundFloat, hz]
  norm_num

/-- The formula of the specification in exact arithmetic, for a positive payment and a positive
rate, is a whole number of cents, is not negative and is at most the `n` payments plus 0.01. -/
theorem annuityValue_bounds (pmt r : ℚ) (n : Nat) (hp : 0 < pmt) (hr : 0 < r) :
    (∃ z : Int, annuityValue pmt r n = (z : ℚ) / 100) ∧ 0 ≤ annuityValue pmt r n ∧
    annuityValue pmt r n ≤ pmt * (n : ℚ) + 1 / 100 := by
  obtain ⟨hf0, hfn⟩ := annuity_factor_bounds r hr n
  have hpv0 : 0 ≤ pmt * ((1 - (1 + r) ^ (-(n : Int))) / r) := mul_nonneg hp.le hf0
  have hpvn : pmt * ((1 - (1 + r) ^ (-(n : Int))) / r) ≤ pmt * (n : ℚ) :=
    mul_le_mul_of_nonneg_left hfn hp.le
  simp only [annuityValue]
  generalize pmt * ((1 - (1 + r) ^ (-(n : Int))) / r) = pv at hpv0 hpvn ⊢
  have h6 := roundToDecimalPlaces_nonneg pv 6 hpv0
  have e6 := roundToDecimalPlaces_err pv 6
  have e2 := roundToDecimalPlaces_err (roundToDecimalPlaces pv ((6 : Nat) : Int)) 2
  have h2 := roundToDecimalPlaces_nonneg _ 2 h6
  obtain ⟨z, hz, _, _⟩ := roundToDecimalPlaces_spec (roundToDecimalPlaces pv ((6 : Nat) : Int)) 2
  simp only [Nat.cast_ofNat] at e6 e2 h6 h2 hz
  refine ⟨⟨z, ?_⟩, h2, ?_⟩
  · rw [hz]
    norm_num
  · rw [abs_le] at e6 e2
    have c6 : (1 : ℚ) / 2 / 10 ^ 6 ≤ 1 / 1000 := by norm_num
    have c2 : (1 : ℚ) / 2 / 10 ^ 2 = 1 / 200 := by norm_num
    linarith [e6.2, e2.2]

/-! ## The liability that the program returns -/

/-- C1. (1) For every lease that passes the validation of `CalculateLeaseLiability`, with
period count `n ≥ 1`, the periodic rate `r` of `getPeriodsAndRate` is
`discountRate / periodsPerYear`; the program works with the float64 nearest to `r` and, when
that is not 0, returns without error the annuity formula rounded to 6 and then to 2 decimal
places, every operation carried out in float64 arithmetic. (2) For the Monthly lease
2024-01-01 to 2024-12-31 with payment 1000 and rate 0.05 this is 11681.22, the value of the
formula in exact arithmetic. (3) For the same lease with
rate 1e-15 it is 0, where the formula in exact arithmetic gives 12000. (4) For the same lease
with payment 6378 and rate 0.03 it is 75306.66, where the formula in exact arithmetic gives
75306.67. -/
theorem CalculateLeaseLiability_float64 :
    (∀ (l : Lease) (n : Nat) (r : ℚ), 0 < l.PaymentAmount → 0 < l.DiscountRate →
      l.StartDate.IsZero = false → l.EndDate.IsZero = false →
      l.EndDate.Before l.StartDate = false → getPeriodsAndRate l = (n, r, none) → 1 ≤ n →
      0 < f64 r →
      r = l.DiscountRate / periodsPerYear l.PaymentFrequency ∧
      F64.CalculateLeaseLiability l =
        (F64.roundToDecimalPlaces (F64.roundToDecimalPlaces
          (F64.mul l.PaymentAmount
            (F64.div (F64.sub 1 (F64.Pow (F64.add 1 (f64 r)) (-(n : Int)))) (f64 r))) 6) 2,
          none)) ∧
    (F64.CalculateLeaseLiability
        (mkLease Monthly (Date 2024 1 1) (Date 2024 12 31) 1000 (f64 (5 / 100)))
        = (f64 (1168122 / 100), none) ∧
      annuityValue 1000 (f64 (5 / 100) / 12) 12 = 1168122 / 100) ∧
    (getPeriodsAndRate
        (mkLease Monthly (Date 2024 1 1) (Date 2024 12 31) 1000 (f64 (1 / 10 ^ 15)))
        = (12, f64 (1 / 10 ^ 15) / 12, none) ∧
      F64.CalculateLeaseLiability
        (mkLease Monthly (Date 2024 1 1) (Date 2024 12 31) 1000 (f64 (1 / 10 ^ 15)))
        = (0, none) ∧
      annuityValue 1000 (f64 (1 / 10 ^ 15) / 12) 12 = 12000) ∧
    (F64.CalculateLeaseLiability
        (mkLease Monthly (Date 2024 1 1) (Date 2024 12 31) 6378 (f64 (3 / 100)))
        = (f64 (7530666 / 100), none) ∧
      annuityValue 6378 (f64 (3 / 100) / 12) 12 = 7530667 / 100) := by
  refine ⟨?_, ⟨?_, by decide!⟩, ⟨?_, ?_, by decide!⟩, ⟨?_, by decide!⟩⟩
  · intro l n r hp hr hs he hb hg hn hpos
    have hok := getPeriodsAndRate_ok l (by rw [hg])
    rw [hg] at hok
    exact ⟨hok.2.2, CalculateLeaseLiability_float64_valid l n r hp hr hs he hb hg (by omega) hpos⟩
  · rw [CalculateLeaseLiability_float64_year 1000 _ (by norm_num) (by decide!) (by decide!)]
    decide!
  · exact getPeriodsAndRate_year_2024 1000 _ (by decide!)
  · rw [CalculateLeaseLiability_float64_year 1000 _ (by norm_num) (by decide!) (by decide!)]
    decide!
  · rw [CalculateLeaseLiability_float64_year 6378 _ (by norm_num) (by decide!) (by decide!)]
    decide!

/-- C36. (1) The formula of the specification in exact arithmetic, for a positive payment and
a positive rate, is a whole number of cents, is not negative and is at most the `n` payments
plus 0.01. (2) The Monthly lease 2024-01-01 to 2024-12-31 with payment 1000 and rate 1e-13 has
12 periods and is accepted; the program, which evaluates the formula in float64 arithmetic,
returns 12150.28, more than the 12 payments of 1000 plus 0.01; the formula in exact arithmetic
gives 12000. -/
theorem CalculateLeaseLiability_exceeds_payments :
    (∀ (pmt r : ℚ) (n : Nat), 0 < pmt → 0 < r →
      (∃ z : Int, annuityValue pmt r n = (z : ℚ) / 100) ∧ 0 ≤ annuityValue pmt r n ∧
      annuityValue pmt r n ≤ pmt * (n : ℚ) + 1 / 100) ∧
    getPeriodsAndRate (mkLease Monthly (Date 2024 1 1) (Date 2024 12 31) 1000 (f64 (1 / 10 ^ 13)))
      = (12, f64 (1 / 10 ^ 13) / 12, none) ∧
    F64.CalculateLeaseLiability
      (mkLease Monthly (Date 2024 1 1) (Date 2024 12 31) 1000 (f64 (1 / 10 ^ 13)))
      = (f64 (1215028 / 100), none) ∧
    (mkLease Monthly (Date 2024 1 1) (Date 2024 12 31) 1000 (f64 (1 / 10 ^ 13))).PaymentAmount
      * 12 + 1 / 100 < f64 (1215028 / 100) ∧
    annuityValue 1000 (f64 (1 / 10 ^ 13) / 12) 12 = 12000 := by
  refine ⟨fun pmt r n hp hr => annuityValue_bounds pmt r n hp hr,
    getPeriodsAndRate_year_2024 1000 _ (by decide!), ?_, by decide!, by decide!⟩
  rw [CalculateLeaseLiability_float64_year 1000 _ (by norm_num) (by decide!) (by decide!)]
  decide!

/-! ## The interest of each day -/

/-- C16. (1) For every lease with a period count of at least 1 and a term of at most 106751
days, every initial liability and every asset `A ≥ 0`, both schedules are returned without
error with one entry for each day from the start date to the end date, the first dated the
start date; entry `k` of the RoU asset schedule has Period `k`. (2) The Monthly lease
2024-01-01 to 2024-12-31 with payment 1000 and rate 0.05 has 12 periods, but the liability
schedule (initial liability 11686.231696) and the RoU asset schedule (initial asset 11686.23)
have 366 entries each, and the first entry of each is dated 2024-01-01, not 2024-02-01; the
first liability entry has the payment 0 and the first RoU entry the depreciation 31.93. -/
theorem schedules_one_entry_per_day :
    (∀ (l : Lease) (x A : ℚ) (n : Nat) (r : ℚ), getPeriodsAndRate l = (n, r, none) → n ≠ 0 →
      0 ≤ l.EndDate.absDays - l.StartDate.absDays →
      l.EndDate.absDays - l.StartDate.absDays ≤ 106751 → 0 ≤ A →
      ((GenerateLiabilitySchedule l x).2 = none ∧
        (GenerateLiabilitySchedule l x).1.length
          = (l.EndDate.absDays - l.StartDate.absDays).toNat + 1 ∧
        (GenerateLiabilitySchedule l x).1.map (fun e => e.Date)
          = (List.range ((l.EndDate.absDays - l.StartDate.absDays).toNat + 1)).map
              (fun (i : Nat) => (⟨l.StartDate.absDays + (i : Int)⟩ : Time))) ∧
      ((GenerateRoUAssetSchedule l A).2 = none ∧
        (GenerateRoUAssetSchedule l A).1.length
          = (l.EndDate.absDays - l.StartDate.absDays).toNat + 1 ∧
        (GenerateRoUAssetSchedule l A).1.map (fun e => (e.Period, e.Date))
          = (List.range ((l.EndDate.absDays - l.StartDate.absDays).toNat + 1)).map
              (fun (i : Nat) => (1 + i, (⟨l.StartDate.absDays + (i : Int)⟩ : Time))))) ∧
    (getPeriodsAndRate (mkLease Monthly (Date 2024 1 1) (Date 2024 12 31) 1000 (5 / 100))
        = (12, 1 / 240, none) ∧
      (GenerateLiabilitySchedule
        (mkLease Monthly (Date 2024 1 1) (Date 2024 12 31) 1000 (5 / 100))
        (11686231696 / 1000000)).1.length = 366 ∧
      (GenerateLiabilitySchedule
        (mkLease Monthly (Date 2024 1 1) (Date 2024 12 31) 1000 (5 / 100))
        (11686231696 / 1000000)).1.head?.map (fun e => (e.Period, e.Date, e.Payment))
        = some (1, Date 2024 1 1, 0) ∧
      (GenerateRoUAssetSchedule
        (mkLease Monthly (Date 2024 1 1) (Date 2024 12 31) 1000 (5 / 100))
        (1168623 / 100)).1.length = 366 ∧
      (GenerateRoUAssetSchedule
        (mkLease Monthly (Date 2024 1 1) (Date 2024 12 31) 1000 (5 / 100))
        (1168623 / 100)).1.head?.map (fun e => (e.Period, e.Date, e.Depreciation))
        = some (1, Date 2024 1 1, 3193 / 100) ∧
      Date 2024 1 1 ≠ Date 2024 2 1) := by
  constructor
  · intro l x A n r hg hn h1 h2 hA
    refine ⟨GenerateLiabilitySchedule_daily l x n r hg hn h1 h2, ?_⟩
    have hr := GenerateRoUAssetSchedule_daily l A (by rw [hg]) hA h1 h2
    rw [hr]
    refine ⟨rfl, by simp only [List.length_map, List.length_range], ?_⟩
    simp only [List.map_map]
    rfl
  · have hd := GenerateLiabilitySchedule_daily
      (mkLease Monthly (Date 2024 1 1) (Date 2024 12 31) 1000 (5 / 100))
      (11686231696 / 1000000) 12 (1 / 240) getPeriodsAndRate_monthly_2024 (by decide)
      (by decide) (by decide)
    have hr := GenerateRoUAssetSchedule_daily
      (mkLease Monthly (Date 2024 1 1) (Date 2024 12 31) 1000 (5 / 100)) (1168623 / 100)
      (by rw [getPeriodsAndRate_monthly_2024]) (by norm_num) (by decide) (by decide)
    have hlen : ((mkLease Monthly (Date 2024 1 1) (Date 2024 12 31) 1000
        (5 / 100)).EndDate.absDays
        - (mkLease Monthly (Date 2024 1 1) (Date 2024 12 31) 1000 (5 / 100)).StartDate.absDays
        ).toNat + 1 = 366 := by decide
    exact ⟨getPeriodsAndRate_monthly_2024, hd.2.1.trans hlen, by decide!,
      by rw [hr, List.length_map, List.length_range, hlen], by decide!, by decide⟩

/-! ## The sum of the depreciation, entry by entry -/

/-- C20, amended. In a non-empty schedule that `GenerateRoUAssetSchedule` returns without error
for the asset `A`, with `N` entries, the Depreciation of entry `k` is the unrounded
straight-line amount of day `k` rounded to a nearest cent, that is a whole number of cents at
most half a cent away from it; the unrounded amounts sum to `A` exactly; and the sum of the
Depreciation fields differs from `A` by at most `N` times half a cent. When an amount lies half
way between two cents, the float64 evaluation of the program decides which of the two it
returns: for the asset 201 over 200 days the daily amount is 1.005 and it returns 1.00, where
rounding half away from zero gives 1.01. -/
theorem GenerateRoUAssetSchedule_depreciation_sum (l : Lease) (A : ℚ)
    (sched : List AmortizationEntry) (h : GenerateRoUAssetSchedule l A = (sched, none))
    (hne : sched ≠ []) :
    List.Forall₂ (fun (e : AmortizationEntry) (y : ℚ) =>
        (∃ z : Int, e.Depreciation = (z : ℚ) / 100) ∧ |e.Depreciation - y| ≤ 1 / 200)
      sched ((List.range sched.length).map (fun i => rawDepreciation sched.length A (1 + i))) ∧
    ((List.range sched.length).map (fun i => rawDepreciation sched.length A (1 + i))).sum = A ∧
    |(sched.map (fun e => e.Depreciation)).sum - A| ≤ (sched.length : ℚ) / 200 ∧
    (F64.roundFloat (F64.div 201 200) 2 = 1 ∧ roundFloat (201 / 200) 2 = 101 / 100) := by
  rcases GenerateRoUAssetSchedule_cases l A with ⟨err, _, h3⟩ | ⟨_, _, h3⟩ | ⟨_, _, h3⟩
  · rw [h3] at h
    simp at h
  · rw [h3] at h
    simp at h
  · rw [h3] at h
    simp only [Prod.mk.injEq, and_true] at h
    have hlen : sched.length = (totalDays l).toNat := by
      rw [← h]
      simp only [List.length_map, List.length_range]
    have hN : sched.length ≠ 0 := by
      intro h0
      exact hne (List.length_eq_zero.mp h0)
    have hmap : sched.map (fun e => e.Depreciation)
        = ((List.range sched.length).map
            (fun i => rawDepreciation sched.length A (1 + i))).map (fun y => roundFloat y 2) := by
      rw [hlen, ← h, List.map_map, List.map_map]
      rfl
    have hraw := rawDepreciation_sum sched.length A hN
    refine ⟨?_, hraw, ?_, by decide!, by decide!⟩
    · have hf : List.Forall₂ (fun (e : AmortizationEntry) (y : ℚ) =>
          e.Depreciation = roundFloat y 2) sched
          ((List.range sched.length).map
            (fun i => rawDepreciation sched.length A (1 + i))) := by
        rw [← List.forall₂_eq_eq_eq, List.forall₂_map_left_iff, List.forall₂_map_right_iff]
          at hmap
        exact hmap
      refine hf.imp ?_
      intro e y hey
      rw [hey]
      exact ⟨roundFloat_cents y, roundFloat_err y⟩
    · have herr := roundFloat_sum_err
        ((List.range sched.length).map (fun i => rawDepreciation sched.length A (1 + i)))
      rw [hraw, List.length_map, List.length_range] at herr
      rw [hmap]
      exact herr

/-- Witness of the amended C20: the schedule of the Monthly lease 2024-01-01 to 2024-12-31 for
the asset 11686.23, which has 366 entries. -/
theorem GenerateRoUAssetSchedule_depreciation_sum_witness :
    (GenerateRoUAssetSchedule (mkLease Monthly (Date 2024 1 1) (Date 2024 12 31) 1000 (5 / 100))
      (1168623 / 100)).1.length = 366 ∧
    |((GenerateRoUAssetSchedule (mkLease Monthly (Date 2024 1 1) (Date 2024 12 31) 1000 (5 / 100))
      (1168623 / 100)).1.map (fun e => e.Depreciation)).sum - 1168623 / 100|
      ≤ (((GenerateRoUAssetSchedule
        (mkLease Monthly (Date 2024 1 1) (Date 2024 12 31) 1000 (5 / 100))
        (1168623 / 100)).1.length : Nat) : ℚ) / 200 :=
  have hd := GenerateRoUAssetSchedule_daily
    (mkLease Monthly (Date 2024 1 1) (Date 2024 12 31) 1000 (5 / 100)) (1168623 / 100)
    (by rw [getPeriodsAndRate_monthly_2024]) (by norm_num) (by decide) (by decide)
  have hlen : (GenerateRoUAssetSchedule
      (mkLease Monthly (Date 2024 1 1) (Date 2024 12 31) 1000 (5 / 100))
      (1168623 / 100)).1.length = 366 := by
    rw [hd]
    simp only [List.length_map, List.length_range]
    decide
  ⟨hlen,
    (GenerateRoUAssetSchedule_depreciation_sum
      (mkLease Monthly (Date 2024 1 1) (Date 2024 12 31) 1000 (5 / 100)) (1168623 / 100) _
      (Prod.ext rfl (by rw [hd]))
      (fun h0 => absurd (hlen.symm.trans (congrArg List.length h0)) (by decide))).2.2.1⟩

/-! ## A window before the schedule -/

end IFRS16
